import Mathlib

/-!
# MSW table export (ResInsight, `RicMswTableFormatterTools.cpp`)

A shallow embedding of the multi-segment-well table generators and proofs about them.

Conventions of the embedding.

* `double` values are rationals (exact arithmetic); `int` values are integers and `size_t`
  values are naturals, both taken in the range where the C++ conversions are exact. The two
  functions whose result turns on the rounding of an operation or on the range of `int` are
  given a second time as compiled, in IEEE 754 binary64 arithmetic with a 32-bit `int`:
  `createSubSegmentMDPairs.binary64` (the count of intervals) and `findTieInSegment.binary64`
  (the comparison of distances).
* The objects of the export tree are owned exclusively by their parent (a tree, no sharing),
  so the mutable fields of the C++ objects (`segmentNumber`, `outputMD`, `outputTVD`) are
  threaded as values: every writer returns the updated object next to the updated counter.
  Where the C++ code reads through a pointer that aliases an object it is writing, the alias
  is made explicit (see `writeWelsegsSegment.loop`).
* The text formatter is a sink: a call sequence `add ... add, rowCompleted` is recorded as
  one `FormatterEvent.rowCompleted` carrying the cells in order.
* Calls with no defined result (`front()` of an empty vector, a read through a null pointer)
  make the embedded function return `none`.
* The `CVF_ASSERT` and `CAF_ASSERT` checks (debug checks on well paths, labels and counts) are
  not part of the embedding: a well path is always present and no check stops a walk.
-/

namespace RicMsw

/-! ## Data model -/

/-- Modelled from the spec: the enumeration `RigCompletionData::CompletionType` is declared in a
header outside the sources at hand; the constructors are the values named in
`RicMswTableFormatterTools.cpp`. -/
inductive CompletionType where
  | PERFORATION
  | PERFORATION_ICD
  | PERFORATION_ICV
  | PERFORATION_AICD
  | FISHBONES_ICD
  | FISHBONES
  | FRACTURE
  | CT_UNDEFINED
  deriving DecidableEq, Repr

/-- Modelled from the spec: the class hierarchy below `RicMswCompletion` is declared outside the
sources at hand. The table tools only ask two questions with `dynamic_cast`: is the completion a
`RicMswPerforation`, and is it a `RicMswValve`. -/
inductive CompletionClass where
  | perforation
  | valve
  | other
  deriving DecidableEq, Repr

/-- Modelled from the spec: `RimWellPath` as seen by the table tools, the export name of the
well and the trajectory. `interpolatedPointZ md` is the z coordinate of
`wellPathGeometry()->interpolatedPointAlongWellPath( md )`. -/
structure RimWellPath where
  wellNameForExport : String
  interpolatedPointZ : ℚ → ℚ

/-- Modelled from the spec: a cell intersection of a sub-segment, with the grid name (empty for
the main grid) and the grid-local cell index triple. -/
structure RicMswSegmentCellIntersection where
  gridName : String
  gridLocalCellIJK : Nat × Nat × Nat
  deriving DecidableEq, Repr

/-- The value `cvf::UNDEFINED_SIZE_T`, the largest `size_t`. -/
def UNDEFINED_SIZE_T : Nat := 2 ^ 64 - 1

/-- Modelled from the spec: the fields of a `RicMswSegment` that the table tools read or write,
without the completions attached to it. The sub-segments owned by a completion are embedded
with this type, because the tools never visit completions of a sub-segment. -/
structure RicMswSegmentData where
  label : String
  startMD : ℚ
  endMD : ℚ
  subIndex : Nat
  segmentNumber : Int
  outputMD : ℚ
  outputTVD : ℚ
  effectiveDiameter : ℚ
  openHoleRoughnessFactor : ℚ
  intersections : List RicMswSegmentCellIntersection

/-- Modelled from the spec: the indices into `RicMswPerforationAICD::values()` that
`generateWsegAicdTable` reads; the enumeration is declared outside the sources at hand. -/
inductive AICDParameters where
  | AICD_STRENGTH
  | AICD_DENSITY_CALIB_FLUID
  | AICD_VISCOSITY_CALIB_FLUID
  | AICD_CRITICAL_WATER_IN_LIQUID_FRAC
  | AICD_EMULSION_VISC_TRANS_REGION
  | AICD_MAX_RATIO_EMULSION_VISC
  | AICD_MAX_FLOW_RATE
  | AICD_VOL_FLOW_EXP
  | AICD_VISOSITY_FUNC_EXP
  | AICD_EXP_OIL_FRAC_DENSITY
  | AICD_EXP_WATER_FRAC_DENSITY
  | AICD_EXP_GAS_FRAC_DENSITY
  | AICD_EXP_OIL_FRAC_VISCOSITY
  | AICD_EXP_WATER_FRAC_VISCOSITY
  | AICD_EXP_GAS_FRAC_VISCOSITY
  deriving DecidableEq, Repr

/-- Modelled from the spec: a `RicMswCompletion` (declared outside the sources at hand) with the
members the table tools call. `isValid` is read for valves only; `flowCoefficient` and `area`
are the members of a `RicMswWsegValve`; `isOpen`, `flowScalingFactor` and `values` are the
members of a `RicMswPerforationAICD`. -/
structure RicMswCompletion where
  label : String
  completionType : CompletionType
  dynamicType : CompletionClass
  isValid : Bool
  branchNumber : Int
  wellPath : RimWellPath
  segments : List RicMswSegmentData
  flowCoefficient : ℚ := 0
  area : ℚ := 0
  isOpen : Bool := true
  flowScalingFactor : ℚ := 0
  values : AICDParameters → ℚ := fun _ => 0

/-- Modelled from the spec: a `RicMswSegment` owned by a branch, the segment fields together
with the completions attached to the segment. -/
structure RicMswSegment extends RicMswSegmentData where
  completions : List RicMswCompletion

/-- Modelled from the spec: the members of a `RicMswTieInICV` that a plain branch does not
have. -/
structure RicMswTieInICVData where
  isValid : Bool
  flowCoefficient : ℚ := 0
  area : ℚ := 0

/-- Modelled from the spec: the non-recursive members of a `RicMswBranch`. `tieInICV` is
`some _` exactly when the dynamic type of the branch is `RicMswTieInICV`. -/
structure RicMswBranchData where
  label : String
  branchNumber : Int
  startMD : ℚ
  startTVD : ℚ
  wellPath : RimWellPath
  tieInICV : Option RicMswTieInICVData

/-- Modelled from the spec: a `RicMswBranch`, its own members, its ordered segments and its
child branches. -/
inductive RicMswBranch where
  | mk (data : RicMswBranchData) (segments : List RicMswSegment) (branches : List RicMswBranch)

/-- The members of a branch. -/
def RicMswBranch.data : RicMswBranch → RicMswBranchData
  | .mk d _ _ => d

/-- The segments of a branch, `branch->segments()`. -/
def RicMswBranch.segments : RicMswBranch → List RicMswSegment
  | .mk _ s _ => s

/-- The child branches of a branch, `branch->branches()`. -/
def RicMswBranch.branches : RicMswBranch → List RicMswBranch
  | .mk _ _ b => b

/-- Modelled from the spec: `RicMswExportInfo` (declared outside the sources at hand) with the
members the table tools call. `defaultDoubleValue` stands for the static
`RicMswExportInfo::defaultDoubleValue()`. -/
structure RicMswExportInfo where
  mainBoreBranch : RicMswBranch
  topWellBoreVolume : ℚ
  defaultDoubleValue : ℚ
  lengthAndDepthText : String
  pressureDropText : String
  linerDiameter : ℚ
  roughnessFactor : ℚ
  hasSubGridIntersections : Bool

/-! ## The formatter as a sink -/

/-- Modelled from the spec: one value handed to `RifTextDataTableFormatter::add`.
`formatted q 8 4` stands for the text `QString( "%1" ).arg( q, 8, 'g', 4 )`, a number printed
with four significant digits in a field of width eight. -/
inductive Cell where
  | text (s : String)
  | int (i : Int)
  | num (q : ℚ)
  | defaultMarker
  | formatted (q : ℚ) (fieldWidth : Nat) (precision : Nat)
  deriving DecidableEq, Repr

/-- Modelled from the spec: one call on the `RifTextDataTableFormatter` that produces output.
A header is recorded by its column titles. -/
inductive FormatterEvent where
  | keyword (s : String)
  | comment (s : String)
  | optionalComment (s : String)
  | header (titles : List String)
  | rowCompleted (cells : List Cell)
  | tableCompleted
  deriving DecidableEq, Repr

/-- Modelled from the spec: `addValueOrDefaultMarker( value, defaultValue )` writes the default
marker when the value is the default value. -/
def valueOrDefaultMarker (value defaultValue : ℚ) : Cell :=
  if value = defaultValue then Cell.defaultMarker else Cell.num value

/-- The rows of an event sequence, in order. -/
def rowsOf : List FormatterEvent → List (List Cell)
  | [] => []
  | FormatterEvent.rowCompleted cells :: rest => cells :: rowsOf rest
  | _ :: rest => rowsOf rest

end RicMsw

namespace RicMswTableFormatterTools

open RicMsw

/-! ## Segment splitting and depth lookup -/

/-- The value of `std::trunc` on a rational, rounding towards zero. -/
def trunc (q : ℚ) : Int :=
  if 0 ≤ q then ⌊q⌋ else ⌈q⌉

/-- The local `subSegmentCount` of `createSubSegmentMDPairs` in exact arithmetic:
`(int)( std::trunc( ( endMD - startMD ) / maxSegmentLength ) + 1 )` with an exact quotient and
an unbounded `int`. The count as compiled, with the rounded quotient and the 32-bit `int`, is
`subSegmentCount.binary64`. -/
def subSegmentCount (startMD endMD maxSegmentLength : ℚ) : Int :=
  trunc ((endMD - startMD) / maxSegmentLength) + 1

/-- The local `subSegmentLength` of `createSubSegmentMDPairs`:
`( endMD - startMD ) / subSegmentCount`. -/
def subSegmentLength (startMD endMD maxSegmentLength : ℚ) : ℚ :=
  (endMD - startMD) / (subSegmentCount startMD endMD maxSegmentLength : ℚ)

/-- The `for` loop of `createSubSegmentMDPairs`: `count` iterations, each pushing the pair
`(subStartMD, subEndMD)` and then advancing `subStartMD` by the sub-segment length and
`subEndMD` by `std::min( subSegmentLength, endMD )`. -/
def createSubSegmentMDPairs.loop (subSegmentLength endMD : ℚ) : Nat → ℚ → ℚ → List (ℚ × ℚ)
  | 0, _, _ => []
  | count + 1, subStartMD, subEndMD =>
    (subStartMD, subEndMD) ::
      createSubSegmentMDPairs.loop subSegmentLength endMD count
        (subStartMD + subSegmentLength) (subEndMD + min subSegmentLength endMD)

/-- Embedding of `RicMswTableFormatterTools::createSubSegmentMDPairs` in exact arithmetic (the
function as compiled is `createSubSegmentMDPairs.binary64`). The conversion `(int)` is
exact (the count is taken to fit an `int`); a count that is not positive runs the loop zero
times. The embedding is meant for `maxSegmentLength ≠ 0`: with a zero maximum the C++ quotient
is infinite or NaN and its conversion to `int` has no defined result. -/
def createSubSegmentMDPairs (startMD endMD maxSegmentLength : ℚ) : List (ℚ × ℚ) :=
  createSubSegmentMDPairs.loop (subSegmentLength startMD endMD maxSegmentLength) endMD
    (subSegmentCount startMD endMD maxSegmentLength).toNat
    startMD (startMD + subSegmentLength startMD endMD maxSegmentLength)

/-- Embedding of `RicMswTableFormatterTools::tvdFromMeasuredDepth`: the negated z coordinate of
the interpolated point. -/
def tvdFromMeasuredDepth (wellPath : RimWellPath) (measuredDepth : ℚ) : ℚ :=
  -(wellPath.interpolatedPointZ measuredDepth)

/-! ## WELSEGS -/

/-- The loop of `writeWelsegsSegment` over the split intervals. The flag `outletIsSegment` is
the aliasing of the local pointer `outletSegment`: it is `previousSegment` in the first
iteration and `segment` itself afterwards, so that `outletSegment->segmentNumber()` then reads
the number that `setSegmentNumber` has just stored. -/
def writeWelsegsSegment.loop (exportInfo : RicMswExportInfo) (branch : RicMswBranchData)
    (previousSegment : Option RicMswSegmentData) (prevOutMD prevOutTVD : ℚ) :
    List (ℚ × ℚ) → Bool → RicMswSegment → Int → RicMswSegment × Int × List FormatterEvent
  | [], _, segment, segmentNumber => (segment, segmentNumber, [])
  | (subStartMD, subEndMD) :: rest, outletIsSegment, segment, segmentNumber =>
    let midPointMD : ℚ := (1 / 2) * (subStartMD + subEndMD)
    let midPointTVD : ℚ := tvdFromMeasuredDepth branch.wellPath midPointMD
    let depth : ℚ :=
      if exportInfo.lengthAndDepthText = "INC" then midPointTVD - prevOutTVD else midPointTVD
    let length : ℚ :=
      if exportInfo.lengthAndDepthText = "INC" then midPointMD - prevOutMD else midPointMD
    let segment1 : RicMswSegment :=
      { segment with
        outputMD := midPointMD, outputTVD := midPointTVD, segmentNumber := segmentNumber }
    let outletNumber : Int :=
      if outletIsSegment then segment1.segmentNumber
      else
        match previousSegment with
        | some outlet => outlet.segmentNumber
        | none => 1
    let row : FormatterEvent :=
      FormatterEvent.rowCompleted
        [Cell.int segmentNumber, Cell.int segmentNumber, Cell.int branch.branchNumber,
          Cell.int outletNumber, Cell.num length, Cell.num depth,
          Cell.num exportInfo.linerDiameter, Cell.num exportInfo.roughnessFactor]
    let r := writeWelsegsSegment.loop exportInfo branch previousSegment prevOutMD prevOutTVD
      rest true segment1 (segmentNumber + 1)
    (r.1, r.2.1, row :: r.2.2)

/-- Embedding of `RicMswTableFormatterTools::writeWelsegsSegment`: returns the updated segment,
the updated counter and the rows written. -/
def writeWelsegsSegment (exportInfo : RicMswExportInfo) (maxSegmentLength : ℚ)
    (branch : RicMswBranchData) (segment : RicMswSegment)
    (previousSegment : Option RicMswSegmentData) (segmentNumber : Int) :
    RicMswSegment × Int × List FormatterEvent :=
  let segments := createSubSegmentMDPairs segment.startMD segment.endMD maxSegmentLength
  let prevOutMD : ℚ :=
    match previousSegment with
    | some p => p.outputMD
    | none => branch.startMD
  let prevOutTVD : ℚ :=
    match previousSegment with
    | some p => p.outputTVD
    | none => branch.startTVD
  writeWelsegsSegment.loop exportInfo branch previousSegment prevOutMD prevOutTVD
    segments false segment segmentNumber

/-- The loop of `writeValveWelsegsSegment` over the split intervals. Reading
`outletSegment->segmentNumber()` through a null pointer has no result. -/
def writeValveWelsegsSegment.loop (exportInfo : RicMswExportInfo) (valve : RicMswCompletion)
    (outletSegment : Option RicMswSegmentData) :
    List (ℚ × ℚ) → Int → Option (Int × List FormatterEvent)
  | [], segmentNumber => some (segmentNumber, [])
  | (subStartMD, subEndMD) :: rest, segmentNumber =>
    match outletSegment with
    | none => none
    | some outlet =>
      let subSegmentNumber : Int := segmentNumber
      let subStartTVD : ℚ := tvdFromMeasuredDepth valve.wellPath subStartMD
      let subEndTVD : ℚ := tvdFromMeasuredDepth valve.wellPath subEndMD
      let depth : ℚ :=
        if exportInfo.lengthAndDepthText = "INC" then subEndTVD - subStartTVD else subEndTVD
      let length : ℚ :=
        if exportInfo.lengthAndDepthText = "INC" then subEndMD - subStartMD else subEndMD
      let row : FormatterEvent :=
        FormatterEvent.rowCompleted
          [Cell.int subSegmentNumber, Cell.int subSegmentNumber, Cell.int valve.branchNumber,
            Cell.int outlet.segmentNumber, Cell.num length, Cell.num depth,
            Cell.num exportInfo.linerDiameter, Cell.num exportInfo.roughnessFactor]
      match writeValveWelsegsSegment.loop exportInfo valve outletSegment rest
          (segmentNumber + 1) with
      | none => none
      | some r => some (r.1, row :: r.2)

/-- Embedding of `RicMswTableFormatterTools::writeValveWelsegsSegment`: returns the valve with
its first sub-segment updated, the updated counter and the events written. An invalid valve
returns at once; `segments.front()` of a valve without sub-segments has no result. -/
def writeValveWelsegsSegment (exportInfo : RicMswExportInfo) (maxSegmentLength : ℚ)
    (outletSegment : Option RicMswSegmentData) (valve : RicMswCompletion) (segmentNumber : Int) :
    Option (RicMswCompletion × Int × List FormatterEvent) :=
  if valve.isValid = false then some (valve, segmentNumber, [])
  else
    match valve.segments with
    | [] => none
    | subSegment :: others =>
      let startMD : ℚ := subSegment.startMD
      let endMD : ℚ := subSegment.endMD
      let midPointMD : ℚ := (1 / 2) * (startMD + endMD)
      let midPointTVD : ℚ := tvdFromMeasuredDepth valve.wellPath midPointMD
      let subSegment1 : RicMswSegmentData :=
        { subSegment with
          segmentNumber := segmentNumber, outputMD := midPointMD, outputTVD := midPointTVD }
      let splitSegments := createSubSegmentMDPairs startMD endMD maxSegmentLength
      match writeValveWelsegsSegment.loop exportInfo valve outletSegment splitSegments
          segmentNumber with
      | none => none
      | some r =>
        some ({ valve with segments := subSegment1 :: others }, r.1,
          FormatterEvent.optionalComment valve.label :: r.2)

/-- The test `completionType == PERFORATION_ICD || PERFORATION_AICD || PERFORATION_ICV`, written
out in `generateCompsegTable`; `RigCompletionData::isPerforationValve` is taken to be the same
test. -/
def isPerforationValve (completionType : CompletionType) : Bool :=
  completionType = CompletionType.PERFORATION_ICD ||
    completionType = CompletionType.PERFORATION_AICD ||
    completionType = CompletionType.PERFORATION_ICV

/-- Embedding of `RicMswTableFormatterTools::writeWelsegsCompletionCommentHeader`. -/
def writeWelsegsCompletionCommentHeader (completionType : CompletionType) :
    List FormatterEvent :=
  if completionType = CompletionType.CT_UNDEFINED then
    [FormatterEvent.optionalComment "Main stem"]
  else if completionType = CompletionType.FISHBONES_ICD then
    [FormatterEvent.optionalComment "Fishbone Laterals",
      FormatterEvent.optionalComment "Diam: MSW - Tubing Radius",
      FormatterEvent.optionalComment "Rough: MSW - Open Hole Roughness Factor"]
  else if isPerforationValve completionType then
    [FormatterEvent.optionalComment "Perforation Valve Segments",
      FormatterEvent.optionalComment "Diam: MSW - Tubing Radius",
      FormatterEvent.optionalComment "Rough: MSW - Open Hole Roughness Factor"]
  else if completionType = CompletionType.FRACTURE then
    [FormatterEvent.optionalComment "Fracture Segments",
      FormatterEvent.optionalComment "Diam: MSW - Default Dummy",
      FormatterEvent.optionalComment "Rough: MSW - Default Dummy"]
  else []

/-- The inner loop of `writeCompletionWelsegsSegments` over the split intervals of one
sub-segment; the state is the counter and the local `outletSegmentNumber`. -/
def writeCompletionWelsegsSegments.splitLoop (exportInfo : RicMswExportInfo)
    (outletSegment : RicMswSegmentData) (completion : RicMswCompletion) :
    List (ℚ × ℚ) → Int → Int → Int × Int × List FormatterEvent
  | [], segmentNumber, outletSegmentNumber => (segmentNumber, outletSegmentNumber, [])
  | (subStartMD, subEndMD) :: rest, segmentNumber, outletSegmentNumber =>
    let subSegmentNumber : Int := segmentNumber
    let subStartTVD : ℚ := tvdFromMeasuredDepth completion.wellPath subStartMD
    let subEndTVD : ℚ := tvdFromMeasuredDepth completion.wellPath subEndMD
    let depth : ℚ :=
      if exportInfo.lengthAndDepthText = "INC" then subEndTVD - subStartTVD else subEndTVD
    let length : ℚ :=
      if exportInfo.lengthAndDepthText = "INC" then subEndMD - subStartMD else subEndMD
    let row : FormatterEvent :=
      FormatterEvent.rowCompleted
        [Cell.int subSegmentNumber, Cell.int subSegmentNumber, Cell.int completion.branchNumber,
          Cell.int outletSegmentNumber, Cell.num length, Cell.num depth,
          Cell.num outletSegment.effectiveDiameter,
          Cell.num outletSegment.openHoleRoughnessFactor]
    let r := writeCompletionWelsegsSegments.splitLoop exportInfo outletSegment completion rest
      (segmentNumber + 1) subSegmentNumber
    (r.1, r.2.1, row :: r.2.2)

/-- The outer loop of `writeCompletionWelsegsSegments` over the sub-segments of the
completion. -/
def writeCompletionWelsegsSegments.segmentLoop (exportInfo : RicMswExportInfo)
    (maxSegmentLength : ℚ) (outletSegment : RicMswSegmentData) (completion : RicMswCompletion) :
    List RicMswSegmentData → Int → Int → Int × Int × List FormatterEvent
  | [], segmentNumber, outletSegmentNumber => (segmentNumber, outletSegmentNumber, [])
  | segment :: rest, segmentNumber, outletSegmentNumber =>
    let splitSegments := createSubSegmentMDPairs segment.startMD segment.endMD maxSegmentLength
    let r1 := writeCompletionWelsegsSegments.splitLoop exportInfo outletSegment completion
      splitSegments segmentNumber outletSegmentNumber
    let r2 := writeCompletionWelsegsSegments.segmentLoop exportInfo maxSegmentLength
      outletSegment completion rest r1.1 r1.2.1
    (r2.1, r2.2.1, r1.2.2 ++ r2.2.2)

/-- Embedding of `RicMswTableFormatterTools::writeCompletionWelsegsSegments`: returns the
updated counter and the events written. -/
def writeCompletionWelsegsSegments (exportInfo : RicMswExportInfo) (maxSegmentLength : ℚ)
    (outletSegment : RicMswSegmentData) (completion : RicMswCompletion) (segmentNumber : Int) :
    Int × List FormatterEvent :=
  let header := writeWelsegsCompletionCommentHeader completion.completionType
  let typeComment : List FormatterEvent :=
    if completion.completionType = CompletionType.FISHBONES then
      [FormatterEvent.optionalComment
        ("Sub index " ++ toString outletSegment.subIndex ++ " - " ++ completion.label)]
    else if completion.completionType = CompletionType.FRACTURE then
      [FormatterEvent.optionalComment
        (completion.label ++ " connected to segment " ++ toString outletSegment.segmentNumber)]
    else []
  let r := writeCompletionWelsegsSegments.segmentLoop exportInfo maxSegmentLength outletSegment
    completion completion.segments segmentNumber outletSegment.segmentNumber
  (r.1, header ++ typeComment ++ r.2.2)

/-- The locals of `writeWelsegsSegmentsRecursively` that live across its segment loop: the
counter behind `segmentNumber`, the pointers `outletSegment` and `outletValve` (with the
current state of the object pointed to). -/
structure WelsegsWalkState where
  segmentNumber : Int
  outletSegment : Option RicMswSegmentData
  outletValve : Option RicMswCompletion

/-- The loop of `writeWelsegsSegmentsRecursively` over the completions of `segment` (lines
135-156): perforations are skipped, a valve is written with `segment` as outlet and becomes
`outletValve`, any other completion is written with the first sub-segment of `outletValve` as
outlet when there is one and with `segment` otherwise. Returns the updated completions, the
counter, `outletValve` and the events. -/
def writeWelsegsSegmentsRecursively.completionLoop (exportInfo : RicMswExportInfo)
    (maxSegmentLength : ℚ) (segment : RicMswSegmentData) :
    List RicMswCompletion → Int → Option RicMswCompletion →
      Option (List RicMswCompletion × Int × Option RicMswCompletion × List FormatterEvent)
  | [], segmentNumber, outletValve => some ([], segmentNumber, outletValve, [])
  | completion :: rest, segmentNumber, outletValve =>
    match completion.dynamicType with
    | CompletionClass.perforation =>
      match writeWelsegsSegmentsRecursively.completionLoop exportInfo maxSegmentLength segment
          rest segmentNumber outletValve with
      | none => none
      | some r => some (completion :: r.1, r.2.1, r.2.2.1, r.2.2.2)
    | CompletionClass.valve =>
      match writeValveWelsegsSegment exportInfo maxSegmentLength (some segment) completion
          segmentNumber with
      | none => none
      | some w =>
        match writeWelsegsSegmentsRecursively.completionLoop exportInfo maxSegmentLength segment
            rest w.2.1 (some w.1) with
        | none => none
        | some r => some (w.1 :: r.1, r.2.1, r.2.2.1, w.2.2 ++ r.2.2.2)
    | CompletionClass.other =>
      let outletSegment : RicMswSegmentData :=
        match outletValve with
        | some valve =>
          match valve.segments with
          | front :: _ => front
          | [] => segment
        | none => segment
      let w := writeCompletionWelsegsSegments exportInfo maxSegmentLength outletSegment
        completion segmentNumber
      match writeWelsegsSegmentsRecursively.completionLoop exportInfo maxSegmentLength segment
          rest w.1 outletValve with
      | none => none
      | some r => some (completion :: r.1, r.2.1, r.2.2.1, w.2 ++ r.2.2.2)

/-- The segment loop of `writeWelsegsSegmentsRecursively` (lines 121-157) over the segments from
the iterator `it` on. Returns the updated segments, the locals after the loop and the events. -/
def writeWelsegsSegmentsRecursively.segmentLoop (exportInfo : RicMswExportInfo)
    (maxSegmentLength : ℚ) (branch : RicMswBranchData) :
    List RicMswSegment → WelsegsWalkState →
      Option (List RicMswSegment × WelsegsWalkState × List FormatterEvent)
  | [], state => some ([], state, [])
  | segment :: rest, state =>
    let segment0 : RicMswSegment := { segment with segmentNumber := state.segmentNumber }
    let subIndexComment : List FormatterEvent :=
      if segment0.subIndex ≠ UNDEFINED_SIZE_T then
        [FormatterEvent.optionalComment
          (segment0.label ++ ", sub " ++ toString segment0.subIndex)]
      else []
    let w := writeWelsegsSegment exportInfo maxSegmentLength branch segment0
      state.outletSegment state.segmentNumber
    let segment1 : RicMswSegment := w.1
    match writeWelsegsSegmentsRecursively.completionLoop exportInfo maxSegmentLength
        segment1.toRicMswSegmentData segment1.completions w.2.1 state.outletValve with
    | none => none
    | some c =>
      let segment2 : RicMswSegment := { segment1 with completions := c.1 }
      match writeWelsegsSegmentsRecursively.segmentLoop exportInfo maxSegmentLength branch rest
          { segmentNumber := c.2.1,
            outletSegment := some segment2.toRicMswSegmentData,
            outletValve := c.2.2.1 } with
      | none => none
      | some r => some (segment2 :: r.1, r.2.1, subIndexComment ++ w.2.2 ++ c.2.2.2 ++ r.2.2)

/-- A tie-in ICV branch seen as the valve it is (`dynamic_cast<RicMswTieInICV*>( branch )`): the
same object, so the valve has the label, branch number, well path and segments of the branch.
`RicMswTieInICV::completionType()` is `PERFORATION_ICV` (asserted in
`generateWsegvalvTableRecursively`). -/
def tieInValve (branch : RicMswBranchData) (icv : RicMswTieInICVData)
    (segments : List RicMswSegment) : RicMswCompletion :=
  { label := branch.label
    completionType := CompletionType.PERFORATION_ICV
    dynamicType := CompletionClass.valve
    isValid := icv.isValid
    branchNumber := branch.branchNumber
    wellPath := branch.wellPath
    segments := segments.map RicMswSegment.toRicMswSegmentData
    flowCoefficient := icv.flowCoefficient
    area := icv.area }

/-- The head of `writeWelsegsSegmentsRecursively` (lines 102-117). For a plain branch the
segment loop starts at the first segment with the counter unchanged. For a tie-in ICV branch
the valve is written first, `outletSegment` becomes the first segment of the valve, the counter
is set to that segment's number plus one and the first segment is skipped. Returns the skipped
segments (updated), the segments left for the loop and the locals. -/
def writeWelsegsSegmentsRecursively.enter (exportInfo : RicMswExportInfo)
    (maxSegmentLength : ℚ) (branch : RicMswBranchData) (segments : List RicMswSegment)
    (segmentNumber : Int) (connectedToSegment : Option RicMswSegmentData) :
    Option (List RicMswSegment × List RicMswSegment × WelsegsWalkState × List FormatterEvent) :=
  match branch.tieInICV with
  | none =>
    some ([], segments,
      { segmentNumber := segmentNumber, outletSegment := connectedToSegment,
        outletValve := none }, [])
  | some icv =>
    match writeValveWelsegsSegment exportInfo maxSegmentLength connectedToSegment
        (tieInValve branch icv segments) segmentNumber with
    | none => none
    | some w =>
      match segments, w.1.segments with
      | first :: rest, front :: _ =>
        some ([{ first with toRicMswSegmentData := front }], rest,
          { segmentNumber := front.segmentNumber + 1, outletSegment := some front,
            outletValve := some w.1 }, w.2.2)
      | _, _ => none

/-- The search of lines 161-179 for the segment of the parent branch whose midpoint is closest
to the start MD of the child branch, in exact arithmetic (the search as compiled, on rounded
distances, is `findTieInSegment.binary64`). `closest` is the local
`closestSegmentMidPointDistance`, with `none` for the initial value infinity. -/
def findTieInSegment (branchStartMD : ℚ) :
    List RicMswSegment → Option RicMswSegment → Option ℚ → Option RicMswSegment
  | [], tieInSegmentOnParentBranch, _ => tieInSegmentOnParentBranch
  | seg :: rest, tieInSegmentOnParentBranch, closest =>
    let midpointMD : ℚ := (1 / 2) * (seg.startMD + seg.endMD)
    let candidateDistance : ℚ := |midpointMD - branchStartMD|
    let closer : Bool :=
      match closest with
      | none => true
      | some d => decide (candidateDistance < d)
    if closer then findTieInSegment branchStartMD rest (some seg) (some candidateDistance)
    else findTieInSegment branchStartMD rest tieInSegmentOnParentBranch closest

/-- The local `outletSegmentForChildBranch` of lines 181-182: the tie-in segment found on the
parent branch when there is one, the current `outletSegment` otherwise. -/
def outletSegmentForChildBranch (parentSegments : List RicMswSegment)
    (outletSegment : Option RicMswSegmentData) (childBranch : RicMswBranch) :
    Option RicMswSegmentData :=
  match findTieInSegment childBranch.data.startMD parentSegments none none with
  | some tieInSegmentOnParentBranch => some tieInSegmentOnParentBranch.toRicMswSegmentData
  | none => outletSegment

mutual

/-- Embedding of `RicMswTableFormatterTools::writeWelsegsSegmentsRecursively`: returns the
updated branch, the updated counter and the events written. -/
def writeWelsegsSegmentsRecursively (exportInfo : RicMswExportInfo) (maxSegmentLength : ℚ) :
    RicMswBranch → Int → Option RicMswSegmentData →
      Option (RicMswBranch × Int × List FormatterEvent)
  | RicMswBranch.mk branch segments branches, segmentNumber, connectedToSegment =>
    match writeWelsegsSegmentsRecursively.enter exportInfo maxSegmentLength branch segments
        segmentNumber connectedToSegment with
    | none => none
    | some e =>
      match writeWelsegsSegmentsRecursively.segmentLoop exportInfo maxSegmentLength branch
          e.2.1 e.2.2.1 with
      | none => none
      | some l =>
        match writeWelsegsChildBranches exportInfo maxSegmentLength (e.1 ++ l.1)
            l.2.1.outletSegment branches l.2.1.segmentNumber with
        | none => none
        | some c =>
          some (RicMswBranch.mk branch (e.1 ++ l.1) c.1, c.2.1,
            e.2.2.2 ++
              FormatterEvent.optionalComment ("Segments on branch " ++ branch.label) ::
                (l.2.2 ++ c.2.2))

/-- The loop of `writeWelsegsSegmentsRecursively` over the child branches (lines 159-190). -/
def writeWelsegsChildBranches (exportInfo : RicMswExportInfo) (maxSegmentLength : ℚ)
    (parentSegments : List RicMswSegment) (outletSegment : Option RicMswSegmentData) :
    List RicMswBranch → Int → Option (List RicMswBranch × Int × List FormatterEvent)
  | [], segmentNumber => some ([], segmentNumber, [])
  | childBranch :: rest, segmentNumber =>
    match writeWelsegsSegmentsRecursively exportInfo maxSegmentLength childBranch segmentNumber
        (outletSegmentForChildBranch parentSegments outletSegment childBranch) with
    | none => none
    | some c =>
      match writeWelsegsChildBranches exportInfo maxSegmentLength parentSegments outletSegment
          rest c.2.1 with
      | none => none
      | some r => some (c.1 :: r.1, r.2.1, c.2.2 ++ r.2.2)

end

/-- Embedding of `RicMswTableFormatterTools::generateWelsegsTable`: returns the export info with
the updated tree and the events written. -/
def generateWelsegsTable (exportInfo : RicMswExportInfo) (maxSegmentLength : ℚ) :
    Option (RicMswExportInfo × List FormatterEvent) :=
  let mainBore := exportInfo.mainBoreBranch.data
  let head : List FormatterEvent :=
    [FormatterEvent.keyword "WELSEGS",
      FormatterEvent.header ["Name", "Dep 1", "Tlen 1", "Vol 1", "Len&Dep", "PresDrop"],
      FormatterEvent.rowCompleted
        [Cell.text mainBore.wellPath.wellNameForExport, Cell.num mainBore.startTVD,
          Cell.num mainBore.startMD,
          valueOrDefaultMarker exportInfo.topWellBoreVolume exportInfo.defaultDoubleValue,
          Cell.text exportInfo.lengthAndDepthText,
          Cell.text ("'" ++ exportInfo.pressureDropText ++ "'")],
      FormatterEvent.header
        ["First Seg", "Last Seg", "Branch Num", "Outlet Seg", "Length", "Depth Change", "Diam",
          "Rough"]]
  match writeWelsegsSegmentsRecursively exportInfo maxSegmentLength exportInfo.mainBoreBranch 2
      none with
  | none => none
  | some w =>
    some ({ exportInfo with mainBoreBranch := w.1 },
      head ++ w.2.2 ++ [FormatterEvent.tableCompleted])

/-- The data rows of a WELSEGS table: the rows after the well record that follows the first
header. -/
def welsegsDataRows (events : List FormatterEvent) : List (List Cell) :=
  (rowsOf events).drop 1

/-- The integer in the first column of a row, if there is one. -/
def firstColumn : List Cell → Option Int
  | Cell.int i :: _ => some i
  | _ => none

/-! ## COMPSEGS -/

/-- Embedding of `RicMswTableFormatterTools::generateCompsegHeader`. -/
def generateCompsegHeader (exportInfo : RicMswExportInfo) (completionType : CompletionType)
    (exportSubGridIntersections : Bool) : List FormatterEvent :=
  [FormatterEvent.keyword (if exportSubGridIntersections then "COMPSEGL" else "COMPSEGS")] ++
    (if completionType = CompletionType.FISHBONES_ICD then [FormatterEvent.comment "Fishbones"]
      else if completionType = CompletionType.FRACTURE then [FormatterEvent.comment "Fractures"]
      else []) ++
    [FormatterEvent.header ["Name"],
      FormatterEvent.rowCompleted
        [Cell.text exportInfo.mainBoreBranch.data.wellPath.wellNameForExport],
      FormatterEvent.header
        ((if exportSubGridIntersections then ["Grid"] else []) ++
          ["I", "J", "K", "Branch no", "Start Length", "End Length", "Dir Pen", "End Range",
            "Connection Depth"])]

/-- The row written by `generateCompsegTable` for one intersection (lines 346-369): the grid
name in a sub-grid pass, the one-based cell index, the branch number of the completion and the
start and end length, which for a perforation valve are those of the parent segment. -/
def compsegRow (exportSubGridIntersections : Bool) (segment : RicMswSegment)
    (completion : RicMswCompletion) (subSegment : RicMswSegmentData)
    (intersection : RicMswSegmentCellIntersection) : List Cell :=
  let startLength : ℚ :=
    if isPerforationValve completion.completionType then segment.startMD
    else subSegment.startMD
  let endLength : ℚ :=
    if isPerforationValve completion.completionType then segment.endMD else subSegment.endMD
  let ijk := intersection.gridLocalCellIJK
  (if exportSubGridIntersections then [Cell.text intersection.gridName] else []) ++
    [Cell.int (ijk.1 + 1 : Nat), Cell.int (ijk.2.1 + 1 : Nat), Cell.int (ijk.2.2 + 1 : Nat),
      Cell.int completion.branchNumber, Cell.num startLength, Cell.num endLength]

/-- The loop of `generateCompsegTable` over the intersections of one sub-segment (lines
341-372). The set `intersectedCells` is a list of the cells inserted so far. -/
def generateCompsegTable.intersectionLoop (exportSubGridIntersections : Bool)
    (segment : RicMswSegment) (completion : RicMswCompletion) (subSegment : RicMswSegmentData) :
    List RicMswSegmentCellIntersection → List (Nat × Nat × Nat) →
      List (Nat × Nat × Nat) × List FormatterEvent
  | [], intersectedCells => (intersectedCells, [])
  | intersection :: rest, intersectedCells =>
    let isSubGridIntersection : Bool := !decide (intersection.gridName = "")
    if isSubGridIntersection ≠ exportSubGridIntersections then
      generateCompsegTable.intersectionLoop exportSubGridIntersections segment completion
        subSegment rest intersectedCells
    else if intersection.gridLocalCellIJK ∈ intersectedCells then
      generateCompsegTable.intersectionLoop exportSubGridIntersections segment completion
        subSegment rest intersectedCells
    else
      let r := generateCompsegTable.intersectionLoop exportSubGridIntersections segment
        completion subSegment rest (intersection.gridLocalCellIJK :: intersectedCells)
      (r.1,
        FormatterEvent.rowCompleted
          (compsegRow exportSubGridIntersections segment completion subSegment intersection) ::
          r.2)

/-- The loop of `generateCompsegTable` over the sub-segments of one completion (line 339). -/
def generateCompsegTable.subSegmentLoop (exportSubGridIntersections : Bool)
    (segment : RicMswSegment) (completion : RicMswCompletion) :
    List RicMswSegmentData → List (Nat × Nat × Nat) →
      List (Nat × Nat × Nat) × List FormatterEvent
  | [], intersectedCells => (intersectedCells, [])
  | subSegment :: rest, intersectedCells =>
    let r1 := generateCompsegTable.intersectionLoop exportSubGridIntersections segment
      completion subSegment subSegment.intersections intersectedCells
    let r2 := generateCompsegTable.subSegmentLoop exportSubGridIntersections segment completion
      rest r1.1
    (r2.1, r1.2 ++ r2.2)

/-- The locals behind the pointers `headerGenerated` and `intersectedCells`, shared by all
passes of one `generateCompsegTables` call. -/
structure CompsegState where
  headerGenerated : Bool
  intersectedCells : List (Nat × Nat × Nat)

/-- The loop of `generateCompsegTable` over the completions of one segment (lines 324-374). -/
def generateCompsegTable.completionLoop (exportInfo : RicMswExportInfo)
    (exportSubGridIntersections : Bool) (exportCompletionTypes : List CompletionType)
    (segment : RicMswSegment) :
    List RicMswCompletion → CompsegState → CompsegState × List FormatterEvent
  | [], state => (state, [])
  | completion :: rest, state =>
    if completion.segments.isEmpty = true ∨
        completion.completionType ∉ exportCompletionTypes then
      generateCompsegTable.completionLoop exportInfo exportSubGridIntersections
        exportCompletionTypes segment rest state
    else
      let header : List FormatterEvent :=
        if state.headerGenerated = false then
          generateCompsegHeader exportInfo completion.completionType exportSubGridIntersections
        else []
      let r1 := generateCompsegTable.subSegmentLoop exportSubGridIntersections segment
        completion completion.segments state.intersectedCells
      let r2 := generateCompsegTable.completionLoop exportInfo exportSubGridIntersections
        exportCompletionTypes segment rest { headerGenerated := true, intersectedCells := r1.1 }
      (r2.1, header ++ r1.2 ++ r2.2)

/-- The loop of `generateCompsegTable` over the segments of the branch (line 322). -/
def generateCompsegTable.segmentLoop (exportInfo : RicMswExportInfo)
    (exportSubGridIntersections : Bool) (exportCompletionTypes : List CompletionType) :
    List RicMswSegment → CompsegState → CompsegState × List FormatterEvent
  | [], state => (state, [])
  | segment :: rest, state =>
    let r1 := generateCompsegTable.completionLoop exportInfo exportSubGridIntersections
      exportCompletionTypes segment segment.completions state
    let r2 := generateCompsegTable.segmentLoop exportInfo exportSubGridIntersections
      exportCompletionTypes rest r1.1
    (r2.1, r1.2 ++ r2.2)

mutual

/-- Embedding of `RicMswTableFormatterTools::generateCompsegTable`: one pass over the branch
tree for one set of completion types and one grid locality. -/
def generateCompsegTable (exportInfo : RicMswExportInfo) (exportSubGridIntersections : Bool)
    (exportCompletionTypes : List CompletionType) :
    RicMswBranch → CompsegState → CompsegState × List FormatterEvent
  | RicMswBranch.mk _ segments branches, state =>
    let r1 := generateCompsegTable.segmentLoop exportInfo exportSubGridIntersections
      exportCompletionTypes segments state
    let r2 := generateCompsegChildBranches exportInfo exportSubGridIntersections
      exportCompletionTypes branches r1.1
    (r2.1, r1.2 ++ r2.2)

/-- The loop of `generateCompsegTable` over the child branches (lines 377-386). -/
def generateCompsegChildBranches (exportInfo : RicMswExportInfo)
    (exportSubGridIntersections : Bool) (exportCompletionTypes : List CompletionType) :
    List RicMswBranch → CompsegState → CompsegState × List FormatterEvent
  | [], state => (state, [])
  | childBranch :: rest, state =>
    let r1 := generateCompsegTable exportInfo exportSubGridIntersections exportCompletionTypes
      childBranch state
    let r2 := generateCompsegChildBranches exportInfo exportSubGridIntersections
      exportCompletionTypes rest r1.1
    (r2.1, r1.2 ++ r2.2)

end

/-- The completion types of the first pair of passes of `generateCompsegTables`. -/
def perforationTypes : List CompletionType :=
  [CompletionType.PERFORATION, CompletionType.PERFORATION_ICD, CompletionType.PERFORATION_ICV,
    CompletionType.PERFORATION_AICD]

/-- The completion types of the second pair of passes of `generateCompsegTables`. -/
def fishbonesTypes : List CompletionType :=
  [CompletionType.FISHBONES_ICD, CompletionType.FISHBONES]

/-- The completion types of the third pair of passes of `generateCompsegTables`. -/
def fractureTypes : List CompletionType :=
  [CompletionType.FRACTURE]

/-- One block of `generateCompsegTables`: the main-grid pass for a set of types, followed by
the sub-grid pass when the export info has sub-grid intersections. -/
def generateCompsegTables.block (exportInfo : RicMswExportInfo)
    (exportCompletionTypes : List CompletionType) (state : CompsegState) :
    CompsegState × List FormatterEvent :=
  let r1 := generateCompsegTable exportInfo false exportCompletionTypes
    exportInfo.mainBoreBranch state
  if exportInfo.hasSubGridIntersections then
    let r2 := generateCompsegTable exportInfo true exportCompletionTypes
      exportInfo.mainBoreBranch r1.1
    (r2.1, r1.2 ++ r2.2)
  else r1

/-- Embedding of `RicMswTableFormatterTools::generateCompsegTables`: the events written. -/
def generateCompsegTables (exportInfo : RicMswExportInfo) : List FormatterEvent :=
  let r1 := generateCompsegTables.block exportInfo perforationTypes
    { headerGenerated := false, intersectedCells := [] }
  let r2 := generateCompsegTables.block exportInfo fishbonesTypes r1.1
  let r3 := generateCompsegTables.block exportInfo fractureTypes r2.1
  r1.2 ++ r2.2 ++ r3.2 ++
    (if r3.1.headerGenerated then [FormatterEvent.tableCompleted] else [])

/-- The one-based cell index carried by a COMPSEGS data row: the three integers after the
optional grid name. -/
def rowCellIndex : List Cell → Option (Int × Int × Int)
  | Cell.text _ :: Cell.int i :: Cell.int j :: Cell.int k :: _ => some (i, j, k)
  | Cell.int i :: Cell.int j :: Cell.int k :: _ => some (i, j, k)
  | _ => none

/-- The data rows of a COMPSEGS table: the rows that carry a cell index (the well record of the
header carries the well name only). -/
def compsegDataRows (events : List FormatterEvent) : List (List Cell) :=
  (rowsOf events).filter (fun row => (rowCellIndex row).isSome)

/-- The one-based form of a zero-based cell index, as written by `addOneBasedCellIndex`. -/
def oneBased (ijk : Nat × Nat × Nat) : Int × Int × Int :=
  ((ijk.1 + 1 : Nat), (ijk.2.1 + 1 : Nat), (ijk.2.2 + 1 : Nat))

/-! ### The visiting order of COMPSEGS, stated on the tree -/

mutual

/-- Every completion of the tree below a branch together with the segment it is attached to, in
visiting order: the segments of the branch in order, each with its completions in order, then
the child branches in order, each with its own subtree. -/
def allCompletions : RicMswBranch → List (RicMswSegment × RicMswCompletion)
  | RicMswBranch.mk _ segments branches =>
    segments.flatMap (fun segment => segment.completions.map (fun c => (segment, c))) ++
      allCompletionsOfBranches branches

/-- The completions of a list of branches, branch after branch. -/
def allCompletionsOfBranches : List RicMswBranch → List (RicMswSegment × RicMswCompletion)
  | [] => []
  | branch :: rest => allCompletions branch ++ allCompletionsOfBranches rest

end

/-- A completion takes part in a pass for the given types: it has a sub-segment and its type is
one of the types. -/
def exportedBy (exportCompletionTypes : List CompletionType) (completion : RicMswCompletion) :
    Bool :=
  !completion.segments.isEmpty && decide (completion.completionType ∈ exportCompletionTypes)

/-- The intersections of a completion that a pass with the given grid locality looks at, in
order, each with its cell and the row that is written if the cell is new. -/
def compsegCandidatesOfCompletion (exportSubGridIntersections : Bool) (segment : RicMswSegment)
    (completion : RicMswCompletion) : List ((Nat × Nat × Nat) × List Cell) :=
  completion.segments.flatMap (fun subSegment =>
    (subSegment.intersections.filter
        (fun x => (!decide (x.gridName = "")) == exportSubGridIntersections)).map
      (fun x =>
        (x.gridLocalCellIJK, compsegRow exportSubGridIntersections segment completion subSegment x)))

/-- The candidates of one pass over a list of attached completions. -/
def compsegCandidatesOf (exportSubGridIntersections : Bool)
    (exportCompletionTypes : List CompletionType)
    (completions : List (RicMswSegment × RicMswCompletion)) :
    List ((Nat × Nat × Nat) × List Cell) :=
  (completions.filter (fun p => exportedBy exportCompletionTypes p.2)).flatMap
    (fun p => compsegCandidatesOfCompletion exportSubGridIntersections p.1 p.2)

/-- The candidates of one block: the main-grid pass, then the sub-grid pass when the export
info has sub-grid intersections. -/
def compsegCandidatesOfBlock (exportInfo : RicMswExportInfo)
    (exportCompletionTypes : List CompletionType) : List ((Nat × Nat × Nat) × List Cell) :=
  compsegCandidatesOf false exportCompletionTypes (allCompletions exportInfo.mainBoreBranch) ++
    (if exportInfo.hasSubGridIntersections then
      compsegCandidatesOf true exportCompletionTypes (allCompletions exportInfo.mainBoreBranch)
    else [])

/-- The candidates of a whole `generateCompsegTables` call in generation order: perforation
types, then fishbone types, then fracture types. -/
def compsegCandidates (exportInfo : RicMswExportInfo) : List ((Nat × Nat × Nat) × List Cell) :=
  compsegCandidatesOfBlock exportInfo perforationTypes ++
    compsegCandidatesOfBlock exportInfo fishbonesTypes ++
    compsegCandidatesOfBlock exportInfo fractureTypes

/-- First visit wins: going through the candidates in order with the cells seen so far, a
candidate is kept exactly when its cell has not been seen, and its cell is then seen. Returns
the cells seen at the end and the candidates kept. -/
def keepFirstVisits : List (Nat × Nat × Nat) → List ((Nat × Nat × Nat) × List Cell) →
    List (Nat × Nat × Nat) × List ((Nat × Nat × Nat) × List Cell)
  | seen, [] => (seen, [])
  | seen, candidate :: rest =>
    if candidate.1 ∈ seen then keepFirstVisits seen rest
    else
      let r := keepFirstVisits (candidate.1 :: seen) rest
      (r.1, candidate :: r.2)

/-- The length and depth columns (fifth and sixth) of a WELSEGS data row. -/
def lengthAndDepthColumns : List Cell → Option (ℚ × ℚ)
  | _ :: _ :: _ :: _ :: Cell.num length :: Cell.num depth :: _ => some (length, depth)
  | _ => none

/-- The midpoint `0.5 * ( startMD + endMD )` of an interval. -/
def midPoint (interval : ℚ × ℚ) : ℚ :=
  (1 / 2) * (interval.1 + interval.2)

/-- The distance from the midpoint of a parent segment to the start MD of a child branch, the
quantity `candidateDistance` compared by the tie-in search. -/
def midPointDistance (branchStartMD : ℚ) (seg : RicMswSegment) : ℚ :=
  |(1 / 2) * (seg.startMD + seg.endMD) - branchStartMD|


/-- The relation between a stretch of `generateCompsegTables` (from the state `before` to the
result `after`, a state and the events written) and a list of candidates: the cells seen and
the data rows written are those of `keepFirstVisits`, the header flag is set when a completion
took part (`matched`), and nothing at all is written when none did. -/
def CompsegRefines (candidates : List ((Nat × Nat × Nat) × List Cell)) (matched : Bool)
    (before : CompsegState) (after : CompsegState × List FormatterEvent) : Prop :=
  after.1.intersectedCells = (keepFirstVisits before.intersectedCells candidates).1 ∧
    compsegDataRows after.2 =
      (keepFirstVisits before.intersectedCells candidates).2.map Prod.snd ∧
    after.1.headerGenerated = (before.headerGenerated || matched) ∧
    (matched = false → after.2 = [])

/-- Every candidate of the list carries the one-based form of its cell in its row. -/
def CompsegKeyed (candidates : List ((Nat × Nat × Nat) × List Cell)) : Prop :=
  ∀ p ∈ candidates, rowCellIndex p.2 = some (oneBased p.1)

/-! ## WSEGVALV -/

/-- Modelled from the spec: `RigCompletionData::isWsegValveTypes` is defined outside the
sources at hand; the WSEGVALV devices are the ICD and ICV valves, that is the types
`PERFORATION_ICD`, `PERFORATION_ICV` and `FISHBONES_ICD`. -/
def isWsegValveTypes (completionType : CompletionType) : Bool :=
  completionType = CompletionType.PERFORATION_ICD ||
    completionType = CompletionType.PERFORATION_ICV ||
    completionType = CompletionType.FISHBONES_ICD

/-- Embedding of `RicMswTableFormatterTools::writeWsegvalHeader`. -/
def writeWsegvalHeader : List FormatterEvent :=
  [FormatterEvent.keyword "WSEGVALV",
    FormatterEvent.header ["Well Name", "Seg No", "Cv", "Ac"]]

/-- The row written by `generateWsegvalvTableRecursively` for a valve: well name, segment number
of the first sub-segment, flow coefficient and area with four significant digits. -/
def wsegvalvRow (wellNameForExport : String) (firstSubSegment : RicMswSegmentData)
    (flowCoefficient area : ℚ) : List Cell :=
  [Cell.text wellNameForExport, Cell.int firstSubSegment.segmentNumber,
    Cell.num flowCoefficient, Cell.formatted area 8 4]

/-- The head of `generateWsegvalvTableRecursively` (lines 469-491): a tie-in ICV branch with at
least one segment writes the header if needed, its label and its row. -/
def generateWsegvalvTableRecursively.tieIn (wellNameForExport : String)
    (branch : RicMswBranchData) (segments : List RicMswSegment) (isHeaderWritten : Bool) :
    Bool × List FormatterEvent :=
  match branch.tieInICV, segments with
  | some tieInValve, firstSubSegment :: _ =>
    (true,
      (if isHeaderWritten = false then writeWsegvalHeader else []) ++
        [FormatterEvent.optionalComment branch.label,
          FormatterEvent.rowCompleted
            (wsegvalvRow wellNameForExport firstSubSegment.toRicMswSegmentData
              tieInValve.flowCoefficient tieInValve.area)])
  | _, _ => (isHeaderWritten, [])

/-- The events written for one completion of a WSEGVALV type with a sub-segment (lines
511-526): the label for the perforation ICD and ICV, then the row. -/
def generateWsegvalvTableRecursively.valveEvents (wellNameForExport : String)
    (wsegValve : RicMswCompletion) : List FormatterEvent :=
  match wsegValve.segments with
  | [] => []
  | firstSubSegment :: _ =>
    (if wsegValve.completionType = CompletionType.PERFORATION_ICD ∨
        wsegValve.completionType = CompletionType.PERFORATION_ICV then
      [FormatterEvent.optionalComment wsegValve.label]
    else []) ++
      [FormatterEvent.rowCompleted
        (wsegvalvRow wellNameForExport firstSubSegment wsegValve.flowCoefficient
          wsegValve.area)]

/-- The loop of `generateWsegvalvTableRecursively` over the completions of one segment (lines
495-530). The validity of the valve is not looked at. -/
def generateWsegvalvTableRecursively.completionLoop (wellNameForExport : String) :
    List RicMswCompletion → Bool → Bool × List FormatterEvent
  | [], isHeaderWritten => (isHeaderWritten, [])
  | completion :: rest, isHeaderWritten =>
    if isWsegValveTypes completion.completionType then
      let r := generateWsegvalvTableRecursively.completionLoop wellNameForExport rest true
      (r.1,
        (if isHeaderWritten = false then writeWsegvalHeader else []) ++
          generateWsegvalvTableRecursively.valveEvents wellNameForExport completion ++ r.2)
    else
      generateWsegvalvTableRecursively.completionLoop wellNameForExport rest isHeaderWritten

/-- The loop of `generateWsegvalvTableRecursively` over the segments of the branch (line
493). -/
def generateWsegvalvTableRecursively.segmentLoop (wellNameForExport : String) :
    List RicMswSegment → Bool → Bool × List FormatterEvent
  | [], isHeaderWritten => (isHeaderWritten, [])
  | segment :: rest, isHeaderWritten =>
    let r1 := generateWsegvalvTableRecursively.completionLoop wellNameForExport
      segment.completions isHeaderWritten
    let r2 := generateWsegvalvTableRecursively.segmentLoop wellNameForExport rest r1.1
    (r2.1, r1.2 ++ r2.2)

mutual

/-- Embedding of `RicMswTableFormatterTools::generateWsegvalvTableRecursively`: returns the
header flag and the events written. -/
def generateWsegvalvTableRecursively (wellNameForExport : String) :
    RicMswBranch → Bool → Bool × List FormatterEvent
  | RicMswBranch.mk branch segments branches, isHeaderWritten =>
    let r1 := generateWsegvalvTableRecursively.tieIn wellNameForExport branch segments
      isHeaderWritten
    let r2 := generateWsegvalvTableRecursively.segmentLoop wellNameForExport segments r1.1
    let r3 := generateWsegvalvChildBranches wellNameForExport branches r2.1
    (r3.1, r1.2 ++ r2.2 ++ r3.2)

/-- The loop of `generateWsegvalvTableRecursively` over the child branches (lines 533-536). -/
def generateWsegvalvChildBranches (wellNameForExport : String) :
    List RicMswBranch → Bool → Bool × List FormatterEvent
  | [], isHeaderWritten => (isHeaderWritten, [])
  | childBranch :: rest, isHeaderWritten =>
    let r1 := generateWsegvalvTableRecursively wellNameForExport childBranch isHeaderWritten
    let r2 := generateWsegvalvChildBranches wellNameForExport rest r1.1
    (r2.1, r1.2 ++ r2.2)

end

/-- Embedding of `RicMswTableFormatterTools::generateWsegvalvTable`: the events written. -/
def generateWsegvalvTable (exportInfo : RicMswExportInfo) : List FormatterEvent :=
  let r := generateWsegvalvTableRecursively
    exportInfo.mainBoreBranch.data.wellPath.wellNameForExport exportInfo.mainBoreBranch false
  r.2 ++ (if r.1 then [FormatterEvent.tableCompleted] else [])

/-! ## WSEGAICD -/

/-- The text `QString( "%1" ).arg( n, 2, 10, QChar( '0' ) )`: a number padded to two digits. -/
def twoDigits (n : Nat) : String :=
  if n < 10 then "0" ++ toString n else toString n

/-- The column descriptions of the WSEGAICD comment block (lines 561-582). -/
def wsegAicdColumnDescriptions : List String :=
  ["Well Name", "Segment Number", "Segment Number", "Strength of AICD",
    "Flow Scaling Factor for AICD", "Density of Calibration Fluid",
    "Viscosity of Calibration Fluid",
    "Critical water in liquid fraction for emulsions viscosity model",
    "Emulsion viscosity transition region",
    "Max ratio of emulsion viscosity to continuous phase viscosity",
    "Flow scaling factor method", "Maximum flow rate for AICD device",
    "Volume flow rate exponent, x", "Viscosity function exponent, y", "Device OPEN/SHUT",
    "Exponent of the oil flowing fraction in the density mixture calculation",
    "Exponent of the water flowing fraction in the density mixture calculation",
    "Exponent of the gas flowing fraction in the density mixture calculation",
    "Exponent of the oil flowing fraction in the density viscosity calculation",
    "Exponent of the water flowing fraction in the density viscosity calculation",
    "Exponent of the gas flowing fraction in the density viscosity calculation"]

/-- The keyword, the comment block and the header written before the first WSEGAICD row (lines
584-602). -/
def wsegAicdHeader : List FormatterEvent :=
  [FormatterEvent.keyword "WSEGAICD", FormatterEvent.comment "Column Overview:"] ++
    (List.range wsegAicdColumnDescriptions.length).map
      (fun i =>
        FormatterEvent.comment
          (twoDigits (i + 1) ++ ": " ++ wsegAicdColumnDescriptions.getD i "")) ++
    [FormatterEvent.header ((List.range 21).map (fun i => twoDigits (i + 1)))]

/-- The row written by `generateWsegAicdTable` for one device (lines 610-650). -/
def wsegAicdRow (exportInfo : RicMswExportInfo) (aicd : RicMswCompletion)
    (firstSubSegment : RicMswSegmentData) : List Cell :=
  [Cell.text exportInfo.mainBoreBranch.data.wellPath.wellNameForExport,
    Cell.int firstSubSegment.segmentNumber,
    Cell.int firstSubSegment.segmentNumber,
    Cell.num (aicd.values AICDParameters.AICD_STRENGTH),
    Cell.num aicd.flowScalingFactor,
    Cell.num (aicd.values AICDParameters.AICD_DENSITY_CALIB_FLUID),
    Cell.num (aicd.values AICDParameters.AICD_VISCOSITY_CALIB_FLUID),
    valueOrDefaultMarker (aicd.values AICDParameters.AICD_CRITICAL_WATER_IN_LIQUID_FRAC)
      exportInfo.defaultDoubleValue,
    valueOrDefaultMarker (aicd.values AICDParameters.AICD_EMULSION_VISC_TRANS_REGION)
      exportInfo.defaultDoubleValue,
    valueOrDefaultMarker (aicd.values AICDParameters.AICD_MAX_RATIO_EMULSION_VISC)
      exportInfo.defaultDoubleValue,
    Cell.int 1,
    valueOrDefaultMarker (aicd.values AICDParameters.AICD_MAX_FLOW_RATE)
      exportInfo.defaultDoubleValue,
    Cell.num (aicd.values AICDParameters.AICD_VOL_FLOW_EXP),
    Cell.num (aicd.values AICDParameters.AICD_VISOSITY_FUNC_EXP),
    Cell.text (if aicd.isOpen then "OPEN" else "SHUT"),
    valueOrDefaultMarker (aicd.values AICDParameters.AICD_EXP_OIL_FRAC_DENSITY)
      exportInfo.defaultDoubleValue,
    valueOrDefaultMarker (aicd.values AICDParameters.AICD_EXP_WATER_FRAC_DENSITY)
      exportInfo.defaultDoubleValue,
    valueOrDefaultMarker (aicd.values AICDParameters.AICD_EXP_GAS_FRAC_DENSITY)
      exportInfo.defaultDoubleValue,
    valueOrDefaultMarker (aicd.values AICDParameters.AICD_EXP_OIL_FRAC_VISCOSITY)
      exportInfo.defaultDoubleValue,
    valueOrDefaultMarker (aicd.values AICDParameters.AICD_EXP_WATER_FRAC_VISCOSITY)
      exportInfo.defaultDoubleValue,
    valueOrDefaultMarker (aicd.values AICDParameters.AICD_EXP_GAS_FRAC_VISCOSITY)
      exportInfo.defaultDoubleValue]

/-- The events written for one valid AICD after the header (lines 606-651): its label and its
row when it has a sub-segment, nothing otherwise. -/
def generateWsegAicdTable.deviceEvents (exportInfo : RicMswExportInfo)
    (aicd : RicMswCompletion) : List FormatterEvent :=
  match aicd.segments with
  | [] => []
  | firstSubSegment :: _ =>
    [FormatterEvent.comment aicd.label,
      FormatterEvent.rowCompleted (wsegAicdRow exportInfo aicd firstSubSegment)]

/-- The loop of `generateWsegAicdTable` over the completions of one segment (lines 552-660).
An invalid AICD is reported to the application log (`RiaLogging::error`, not a formatter call)
and the loop goes on. -/
def generateWsegAicdTable.completionLoop (exportInfo : RicMswExportInfo) :
    List RicMswCompletion → Bool → Bool × List FormatterEvent
  | [], foundValve => (foundValve, [])
  | completion :: rest, foundValve =>
    if completion.completionType = CompletionType.PERFORATION_AICD then
      if completion.isValid then
        let r := generateWsegAicdTable.completionLoop exportInfo rest true
        (r.1,
          (if foundValve = false then wsegAicdHeader else []) ++
            generateWsegAicdTable.deviceEvents exportInfo completion ++ r.2)
      else generateWsegAicdTable.completionLoop exportInfo rest foundValve
    else generateWsegAicdTable.completionLoop exportInfo rest foundValve

/-- The loop of `generateWsegAicdTable` over the segments of the main bore (line 550). -/
def generateWsegAicdTable.segmentLoop (exportInfo : RicMswExportInfo) :
    List RicMswSegment → Bool → Bool × List FormatterEvent
  | [], foundValve => (foundValve, [])
  | segment :: rest, foundValve =>
    let r1 := generateWsegAicdTable.completionLoop exportInfo segment.completions foundValve
    let r2 := generateWsegAicdTable.segmentLoop exportInfo rest r1.1
    (r2.1, r1.2 ++ r2.2)

/-- Embedding of `RicMswTableFormatterTools::generateWsegAicdTable`: the events written. Only
the segments of the main bore are visited. -/
def generateWsegAicdTable (exportInfo : RicMswExportInfo) : List FormatterEvent :=
  let r := generateWsegAicdTable.segmentLoop exportInfo exportInfo.mainBoreBranch.segments
    false
  r.2 ++ (if r.1 then [FormatterEvent.tableCompleted] else [])

/-- The completions attached to the segments of the main bore, in visiting order. -/
def mainBoreCompletions (exportInfo : RicMswExportInfo) : List RicMswCompletion :=
  exportInfo.mainBoreBranch.segments.flatMap (fun segment => segment.completions)

/-- The WSEGAICD rows of a list of completions, stated without the loop: one row for each
completion that is an AICD, is valid and has a sub-segment, and none for any other. -/
def wsegAicdRowsOf (exportInfo : RicMswExportInfo) (completions : List RicMswCompletion) :
    List (List Cell) :=
  completions.flatMap (fun c =>
    if c.completionType = CompletionType.PERFORATION_AICD ∧ c.isValid = true then
      match c.segments with
      | [] => []
      | firstSubSegment :: _ => [wsegAicdRow exportInfo c firstSubSegment]
    else [])

/-- Every row of `rows` is the row of an intersection of a sub-segment of a completion of the
tree whose type is one of `exportCompletionTypes`, the intersection lying in the main grid when
`exportSubGridIntersections` is false and in a sub-grid when it is true. -/
def CompsegRowsFrom (exportInfo : RicMswExportInfo) (exportSubGridIntersections : Bool)
    (exportCompletionTypes : List CompletionType) (rows : List (List Cell)) : Prop :=
  ∀ row ∈ rows,
    ∃ p ∈ allCompletions exportInfo.mainBoreBranch, ∃ subSegment ∈ p.2.segments,
      ∃ x ∈ subSegment.intersections,
        p.2.completionType ∈ exportCompletionTypes ∧
        (x.gridName = "" ↔ exportSubGridIntersections = false) ∧
        row = compsegRow exportSubGridIntersections p.1 p.2 subSegment x

/-- The segment number (first column) and the outlet segment number (fourth column) of a
WELSEGS data row. -/
def numberAndOutletColumns : List Cell → Option (Int × Int)
  | Cell.int number :: _ :: _ :: Cell.int outlet :: _ => some (number, outlet)
  | _ => none

/-- A chain of `count` rows: the numbers `segmentNumber`, `segmentNumber + 1`, ..., the first
with the given outlet and every later one with the number before it as outlet. -/
def chainedRows (segmentNumber outlet : Int) : Nat → List (Option (Int × Int))
  | 0 => []
  | count + 1 => some (segmentNumber, outlet) :: chainedRows (segmentNumber + 1) segmentNumber count

/-- An event that opens or titles a table: a keyword or a header. -/
def isTableHead : FormatterEvent → Bool
  | FormatterEvent.keyword _ => true
  | FormatterEvent.header _ => true
  | _ => false

/-- The keywords and headers of an event sequence, in order. -/
def tableHeadsOf (events : List FormatterEvent) : List FormatterEvent :=
  events.filter isTableHead

/-- The keyword and the two headers that `generateCompsegHeader` writes in a pass with the
given grid locality. -/
def compsegTableHead (exportSubGridIntersections : Bool) : List FormatterEvent :=
  [FormatterEvent.keyword (if exportSubGridIntersections then "COMPSEGL" else "COMPSEGS"),
    FormatterEvent.header ["Name"],
    FormatterEvent.header
      ((if exportSubGridIntersections then ["Grid"] else []) ++
        ["I", "J", "K", "Branch no", "Start Length", "End Length", "Dir Pen", "End Range",
          "Connection Depth"])]

/-- The relation between a stretch of `generateCompsegTables` and the header flag: with the
flag set before, the stretch writes no keyword and no header and leaves the flag set; with the
flag clear before, it writes the keyword and headers of one `generateCompsegHeader` call when
it sets the flag and none when it does not. -/
def CompsegHeadOnce (exportSubGridIntersections : Bool) (before : CompsegState)
    (after : CompsegState × List FormatterEvent) : Prop :=
  (before.headerGenerated = true →
      after.1.headerGenerated = true ∧ tableHeadsOf after.2 = []) ∧
    (before.headerGenerated = false →
      tableHeadsOf after.2 =
        if after.1.headerGenerated then compsegTableHead exportSubGridIntersections else [])

/-- The WSEGVALV row of a branch that is a tie-in ICV with at least one segment: the well name,
the number of the first segment, the flow coefficient and the area. -/
def wsegvalvTieInRows (wellNameForExport : String) (branch : RicMswBranchData)
    (segments : List RicMswSegment) : List (List Cell) :=
  match branch.tieInICV, segments with
  | some tieInValve, firstSubSegment :: _ =>
    [[Cell.text wellNameForExport, Cell.int firstSubSegment.segmentNumber,
      Cell.num tieInValve.flowCoefficient, Cell.formatted tieInValve.area 8 4]]
  | _, _ => []

/-- The WSEGVALV row of a completion attached to a segment: one row for a completion of a
WSEGVALV type with a sub-segment, carrying the well name, the number of the first sub-segment,
the flow coefficient and the area. -/
def wsegvalvCompletionRows (wellNameForExport : String) (completion : RicMswCompletion) :
    List (List Cell) :=
  if isWsegValveTypes completion.completionType then
    match completion.segments with
    | firstSubSegment :: _ =>
      [[Cell.text wellNameForExport, Cell.int firstSubSegment.segmentNumber,
        Cell.num completion.flowCoefficient, Cell.formatted completion.area 8 4]]
    | [] => []
  else []

mutual

/-- The WSEGVALV rows of a branch in the order stated for the table: the row of the tie-in ICV
of the branch, then the rows of the valves attached to its segments (segment by segment,
completion by completion), then the rows of its child branches, one after the other. -/
def wsegvalvRowsOfBranch (wellNameForExport : String) : RicMswBranch → List (List Cell)
  | RicMswBranch.mk branch segments branches =>
    wsegvalvTieInRows wellNameForExport branch segments ++
      segments.flatMap (fun segment =>
        segment.completions.flatMap (wsegvalvCompletionRows wellNameForExport)) ++
      wsegvalvRowsOfBranches wellNameForExport branches

/-- The WSEGVALV rows of a list of child branches, branch after branch. -/
def wsegvalvRowsOfBranches (wellNameForExport : String) : List RicMswBranch → List (List Cell)
  | [] => []
  | branch :: rest =>
    wsegvalvRowsOfBranch wellNameForExport branch ++ wsegvalvRowsOfBranches wellNameForExport rest

end

/-- Two export infos agree on what the WELSEGS walk below `generateWelsegsTable` reads of them:
the length-and-depth mode, the liner diameter and the roughness factor. -/
def SameWelsegsSettings (a b : RicMswExportInfo) : Prop :=
  a.lengthAndDepthText = b.lengthAndDepthText ∧ a.linerDiameter = b.linerDiameter ∧
    a.roughnessFactor = b.roughnessFactor

/-- A segment without the `RicMswPerforation` objects among its completions. -/
def withoutPerforationsOfSegment (segment : RicMswSegment) : RicMswSegment :=
  { segment with
    completions :=
      segment.completions.filter (fun c => decide (c.dynamicType ≠ CompletionClass.perforation)) }

mutual

/-- The same tree with every `RicMswPerforation` completion removed. -/
def withoutPerforations : RicMswBranch → RicMswBranch
  | RicMswBranch.mk branch segments branches =>
    RicMswBranch.mk branch (segments.map withoutPerforationsOfSegment)
      (withoutPerforationsOfBranches branches)

/-- The same child branches with every `RicMswPerforation` completion removed. -/
def withoutPerforationsOfBranches : List RicMswBranch → List RicMswBranch
  | [] => []
  | branch :: rest => withoutPerforations branch :: withoutPerforationsOfBranches rest

end

/-- The cached output of a segment: its output MD and its output TVD. -/
def cachedOutput (segment : RicMswSegmentData) : ℚ × ℚ :=
  (segment.outputMD, segment.outputTVD)

/-- The values that the passes of the loop of `writeWelsegsSegment` hand to `setOutputMD` and
`setOutputTVD` (lines 704-705 and 717-718), in order: for every split interval of the segment
its midpoint MD and the TVD there. -/
def writeWelsegsSegment.outputAssignments (maxSegmentLength : ℚ) (branch : RicMswBranchData)
    (segment : RicMswSegmentData) : List (ℚ × ℚ) :=
  (createSubSegmentMDPairs segment.startMD segment.endMD maxSegmentLength).map
    (fun p => (midPoint p, tvdFromMeasuredDepth branch.wellPath (midPoint p)))

mutual

/-- The segments that the WELSEGS walk writes with `writeWelsegsSegment`, each with its branch,
in the order of the walk: all segments of a plain branch, all but the first segment of a tie-in
ICV branch (line 116), then those of the child branches. -/
def plainSegments : RicMswBranch → List (RicMswBranchData × RicMswSegment)
  | RicMswBranch.mk branch segments branches =>
    ((match branch.tieInICV with
        | none => segments
        | some _ => segments.drop 1).map (fun segment => (branch, segment))) ++
      plainSegmentsOfBranches branches

/-- The segments written with `writeWelsegsSegment` in a list of child branches. -/
def plainSegmentsOfBranches : List RicMswBranch → List (RicMswBranchData × RicMswSegment)
  | [] => []
  | branch :: rest => plainSegments branch ++ plainSegmentsOfBranches rest

end

mutual

/-- Some branch of the tree is a tie-in ICV branch. -/
def hasTieInICV : RicMswBranch → Bool
  | RicMswBranch.mk branch _ branches => branch.tieInICV.isSome || hasTieInICVInBranches branches

/-- Some branch below one of the listed branches, or one of them, is a tie-in ICV branch. -/
def hasTieInICVInBranches : List RicMswBranch → Bool
  | [] => false
  | branch :: rest => hasTieInICV branch || hasTieInICVInBranches rest

end

/-- The rows of an event sequence are numbered consecutively from `first` in their first column,
and `next` is the number after the last of them. -/
def NumberedFrom (first : Int) (events : List FormatterEvent) (next : Int) : Prop :=
  next = first + ((rowsOf events).length : Int) ∧
    (rowsOf events).map firstColumn =
      (List.range (rowsOf events).length).map (fun (i : Nat) => some (first + (i : Int)))

/-- The number of WELSEGS rows of a completion attached to a segment: none for a perforation,
the split intervals of the first sub-segment for a valid valve, the split intervals of all
sub-segments for any other completion. -/
def welsegsCompletionRowCount (maxSegmentLength : ℚ) (completion : RicMswCompletion) : Nat :=
  match completion.dynamicType with
  | CompletionClass.perforation => 0
  | CompletionClass.valve =>
    if completion.isValid then
      match completion.segments with
      | [] => 0
      | subSegment :: _ =>
        (createSubSegmentMDPairs subSegment.startMD subSegment.endMD maxSegmentLength).length
    else 0
  | CompletionClass.other =>
    (completion.segments.flatMap
      (fun s => createSubSegmentMDPairs s.startMD s.endMD maxSegmentLength)).length

/-- The numbering stated for the segments of a branch, from the counter value `next`: a segment
takes `floor((endMD - startMD) / maxSegmentLength) + 1` numbers and holds the last of them, and
the rows of its completions take the numbers after these. Returns the numbers held by the
segments, in order, and the counter value after the last segment. -/
def expectedStoredNumbersOfSegments (maxSegmentLength : ℚ) :
    List RicMswSegment → Int → List Int × Int
  | [], next => ([], next)
  | segment :: rest, next =>
    let count : Int := ⌊(segment.endMD - segment.startMD) / maxSegmentLength⌋ + 1
    let r := expectedStoredNumbersOfSegments maxSegmentLength rest
      (next + count +
        (((segment.completions.map (welsegsCompletionRowCount maxSegmentLength)).sum : Nat) :
          Int))
    ((next + count - 1) :: r.1, r.2)

mutual

/-- The numbering stated for a tree without tie-in ICV branches, from the counter value `next`:
the segments of the branch first, then the child branches in order. Returns the numbers held by
the segments in the order of the walk and the counter value at the end. -/
def expectedStoredNumbers (maxSegmentLength : ℚ) : RicMswBranch → Int → List Int × Int
  | RicMswBranch.mk _ segments branches, next =>
    let r1 := expectedStoredNumbersOfSegments maxSegmentLength segments next
    let r2 := expectedStoredNumbersOfBranches maxSegmentLength branches r1.2
    (r1.1 ++ r2.1, r2.2)

/-- The numbering stated for a list of child branches. -/
def expectedStoredNumbersOfBranches (maxSegmentLength : ℚ) :
    List RicMswBranch → Int → List Int × Int
  | [], next => ([], next)
  | branch :: rest, next =>
    let r1 := expectedStoredNumbers maxSegmentLength branch next
    let r2 := expectedStoredNumbersOfBranches maxSegmentLength rest r1.2
    (r1.1 ++ r2.1, r2.2)

end

/-- What the completion loop of `writeWelsegsSegmentsRecursively` reads of `outletValve`: the
first sub-segment of the valve, when there is a valve and it has a sub-segment (line 153). -/
def outletValveFront (outletValve : Option RicMswCompletion) : Option RicMswSegmentData :=
  match outletValve with
  | some valve => valve.segments.head?
  | none => none

/-- The valve that the walk of a branch has met last after going through the given completions
in order, starting from `outletValve`: the last of them that is a `RicMswValve`, or
`outletValve` when none is. -/
def lastValve (outletValve : Option RicMswCompletion) (completions : List RicMswCompletion) :
    Option RicMswCompletion :=
  completions.foldl
    (fun valve c => if c.dynamicType = CompletionClass.valve then some c else valve)
    outletValve

mutual

/-- The branches of the tree below a branch in the order of the walks: the branch itself, then
its child branches in order, each with its own subtree. -/
def branchesOf : RicMswBranch → List RicMswBranch
  | RicMswBranch.mk branch segments branches =>
    RicMswBranch.mk branch segments branches :: branchesOfBranches branches

/-- The branches of the subtrees of a list of child branches. -/
def branchesOfBranches : List RicMswBranch → List RicMswBranch
  | [] => []
  | branch :: rest => branchesOf branch ++ branchesOfBranches rest

end

/-- The events of a WELSEGS table hold the block that `writeValveWelsegsSegment` writes for
`valve` when the counter is the number now held by `front`, the first sub-segment of the valve:
the comment with the label of the valve, then `block`, the events of the loop over the split
intervals of `front` with `outlet` as outlet segment. -/
def WelsegsValveBlock (exportInfo : RicMswExportInfo) (maxSegmentLength : ℚ)
    (events : List FormatterEvent) (valve : RicMswCompletion)
    (outlet : Option RicMswSegmentData) (front : RicMswSegmentData)
    (block : List FormatterEvent) : Prop :=
  (writeValveWelsegsSegment.loop exportInfo valve outlet
      (createSubSegmentMDPairs front.startMD front.endMD maxSegmentLength)
      front.segmentNumber).map Prod.snd = some block ∧
    ∃ before after,
      events = before ++ FormatterEvent.optionalComment valve.label :: block ++ after

/-! ## The arithmetic of `double` and `int` as compiled

The definitions above compute in exact arithmetic. The count of `createSubSegmentMDPairs` and
the comparison of `findTieInSegment` depend on the rounding of the operations and on the range
of `int`, so these two functions are given a second time below with every operation rounded
as IEEE 754 binary64 prescribes (round to nearest, ties to even). A value of type `double` is
an `Option ℚ`: `some q` for the finite number `q` and `none` for a value that is not finite (an
infinity or a NaN). The arguments of the functions are taken to be finite numbers of the
format. -/

namespace Binary64

/-- The power `2 ^ e` for an integer exponent. -/
def twoPow (e : Int) : ℚ :=
  if 0 ≤ e then ((2 ^ e.toNat : Nat) : ℚ) else 1 / ((2 ^ (-e).toNat : Nat) : ℚ)

/-- A search by bisection for the exponent of `q` between `low` and `high`: with
`2 ^ low ≤ q < 2 ^ high` at entry (or `q < 2 ^ low` throughout), the result is the `e` with
`2 ^ e ≤ q < 2 ^ (e + 1)` (or `low`). -/
def exponentBetween (q : ℚ) : Nat → Int → Int → Int
  | 0, low, _ => low
  | fuel + 1, low, high =>
    if high - low ≤ 1 then low
    else if twoPow ((low + high) / 2) ≤ q then exponentBetween q fuel ((low + high) / 2) high
    else exponentBetween q fuel low ((low + high) / 2)

/-- The exponent of the binary64 numbers around `q`, for `|q| < 2 ^ 1024`: the `e` with
`2 ^ e ≤ |q| < 2 ^ (e + 1)`, and `-1022`, the exponent of the subnormal numbers, when `|q|` is
below `2 ^ (-1022)`. Twelve bisections cover the 2046 exponents. -/
def exponent (q : ℚ) : Int :=
  exponentBetween |q| 12 (-1022) 1024

/-- The integer nearest to `m`, the even one of the two when `m` lies halfway. -/
def roundHalfEven (m : ℚ) : Int :=
  if m - (⌊m⌋ : ℚ) < 1 / 2 then ⌊m⌋
  else if 1 / 2 < m - (⌊m⌋ : ℚ) then ⌊m⌋ + 1
  else if ⌊m⌋ % 2 = 0 then ⌊m⌋ else ⌊m⌋ + 1

/-- The binary64 number nearest to `q` (53 significant bits, the numbers around `q` being the
multiples of `2 ^ (exponent q - 52)`, ties to even), and `none` when the rounded value
overflows, that is when it reaches `2 ^ 1024`. -/
def nearest (q : ℚ) : Option ℚ :=
  if twoPow 1024 ≤ |q| then none
  else
    let ulp : ℚ := twoPow (exponent q - 52)
    let y : ℚ := (roundHalfEven (|q| / ulp) : ℚ) * ulp
    if y < twoPow 1024 then some (if q < 0 then -y else y) else none

/-- The sum of two `double` values; a sum with a value that is not finite is not finite. -/
def add (a b : Option ℚ) : Option ℚ :=
  match a, b with
  | some x, some y => nearest (x + y)
  | _, _ => none

/-- The difference of two finite `double` values. -/
def sub (a b : ℚ) : Option ℚ :=
  nearest (a - b)

/-- The quotient of a `double` value by a finite one; the quotient by zero is an infinity or a
NaN, and so is the quotient of a value that is not finite. -/
def div (a : Option ℚ) (b : ℚ) : Option ℚ :=
  match a with
  | some x => if b = 0 then none else nearest (x / b)
  | none => none

/-- The conversion `(int)` of a `double` value: the value rounded towards zero when that is an
`int` (32 bits), and no defined result otherwise (also for a value that is not finite). -/
def toInt (a : Option ℚ) : Option Int :=
  match a with
  | some x =>
    if -2147483648 ≤ trunc x ∧ trunc x ≤ 2147483647 then some (trunc x) else none
  | none => none

end Binary64

/-- The local `subSegmentCount` of `createSubSegmentMDPairs` as compiled (line 882):
the difference and the quotient are rounded, `std::trunc` is exact, the `1` is added in `double`
and the sum is converted to `int`. -/
def subSegmentCount.binary64 (startMD endMD maxSegmentLength : ℚ) : Option Int :=
  Binary64.toInt
    (Binary64.add
      ((Binary64.div (Binary64.sub endMD startMD) maxSegmentLength).map
        (fun quotient => ((trunc quotient : Int) : ℚ)))
      (some 1))

/-- The `for` loop of `createSubSegmentMDPairs` as compiled (lines 890-895). The value
`std::min( subSegmentLength, endMD )` is only taken when the loop runs, where
`subSegmentLength` is finite. -/
def createSubSegmentMDPairs.binary64.loop (subSegmentLength : Option ℚ) (endMD : ℚ) :
    Nat → Option ℚ → Option ℚ → List (Option ℚ × Option ℚ)
  | 0, _, _ => []
  | count + 1, subStartMD, subEndMD =>
    (subStartMD, subEndMD) ::
      createSubSegmentMDPairs.binary64.loop subSegmentLength endMD count
        (Binary64.add subStartMD subSegmentLength)
        (Binary64.add subEndMD (subSegmentLength.map (fun length => min length endMD)))

/-- Embedding of `RicMswTableFormatterTools::createSubSegmentMDPairs` as compiled, in binary64
arithmetic. There is no result when the conversion to `int` has none. A count that is not
positive runs the loop zero times; the count zero makes `subSegmentLength` a quotient by zero,
which nothing reads. -/
def createSubSegmentMDPairs.binary64 (startMD endMD maxSegmentLength : ℚ) :
    Option (List (Option ℚ × Option ℚ)) :=
  (subSegmentCount.binary64 startMD endMD maxSegmentLength).map (fun (count : Int) =>
    createSubSegmentMDPairs.binary64.loop
      (Binary64.div (Binary64.sub endMD startMD) (count : ℚ)) endMD count.toNat
      (some startMD)
      (Binary64.add (some startMD) (Binary64.div (Binary64.sub endMD startMD) (count : ℚ))))

/-- The local `candidateDistance` of the tie-in search as compiled (lines 168-170): the sum, the
product by `0.5` and the difference are rounded, `std::abs` is exact. -/
def findTieInSegment.binary64.candidateDistance (branchStartMD : ℚ) (seg : RicMswSegment) :
    Option ℚ :=
  (((Binary64.nearest (seg.startMD + seg.endMD)).bind
    (fun sum => Binary64.nearest ((1 / 2) * sum))).bind
    (fun midpointMD => Binary64.sub midpointMD branchStartMD)).map (fun d => |d|)

/-- The comparison `candidateDistance < closestSegmentMidPointDistance` of line 171 as compiled.
The right-hand side `closest` is the initial value infinity (`none`) or a finite distance. The
comparison is false for a candidate distance that is not finite: an infinity is not below an
infinity, and no comparison with a NaN holds. -/
def findTieInSegment.binary64.closer (candidateDistance closest : Option ℚ) : Bool :=
  match candidateDistance, closest with
  | none, _ => false
  | some _, none => true
  | some d, some c => decide (d < c)

/-- The search of lines 161-179 as compiled. `closest` is the local
`closestSegmentMidPointDistance`, with `none` for the initial value infinity; it is only ever
replaced by a finite distance. -/
def findTieInSegment.binary64 (branchStartMD : ℚ) :
    List RicMswSegment → Option RicMswSegment → Option ℚ → Option RicMswSegment
  | [], tieInSegmentOnParentBranch, _ => tieInSegmentOnParentBranch
  | seg :: rest, tieInSegmentOnParentBranch, closest =>
    if findTieInSegment.binary64.closer
        (findTieInSegment.binary64.candidateDistance branchStartMD seg) closest then
      findTieInSegment.binary64 branchStartMD rest (some seg)
        (findTieInSegment.binary64.candidateDistance branchStartMD seg)
    else findTieInSegment.binary64 branchStartMD rest tieInSegmentOnParentBranch closest

/-- The local `outletSegmentForChildBranch` of lines 181-182 with the search as compiled. -/
def outletSegmentForChildBranch.binary64 (parentSegments : List RicMswSegment)
    (outletSegment : Option RicMswSegmentData) (childBranch : RicMswBranch) :
    Option RicMswSegmentData :=
  match findTieInSegment.binary64 childBranch.data.startMD parentSegments none none with
  | some tieInSegmentOnParentBranch => some tieInSegmentOnParentBranch.toRicMswSegmentData
  | none => outletSegment

mutual

/-- Every valid valve of the tree below a branch has a sub-segment: the valid valves attached
to the segments, and the branches that are a valid tie-in ICV, whose sub-segments are the
segments of the branch. -/
def validValvesHaveSegments : RicMswBranch → Bool
  | RicMswBranch.mk branch segments branches =>
    (match branch.tieInICV with
      | some icv => decide (icv.isValid = true → segments.isEmpty = false)
      | none => true) &&
      segments.all (fun segment =>
        segment.completions.all (fun c =>
          decide (c.dynamicType = CompletionClass.valve → c.isValid = true →
            c.segments.isEmpty = false))) &&
      validValvesHaveSegmentsInBranches branches

/-- Every valid valve below one of the listed branches has a sub-segment. -/
def validValvesHaveSegmentsInBranches : List RicMswBranch → Bool
  | [] => true
  | branch :: rest => validValvesHaveSegments branch && validValvesHaveSegmentsInBranches rest

end

mutual

/-- Every tie-in ICV branch of the tree below a branch, valid or not, has a segment. -/
def tieInBranchesHaveSegments : RicMswBranch → Bool
  | RicMswBranch.mk branch segments branches =>
    (branch.tieInICV.isNone || !segments.isEmpty) &&
      tieInBranchesHaveSegmentsInBranches branches

/-- Every tie-in ICV branch below one of the listed branches has a segment. -/
def tieInBranchesHaveSegmentsInBranches : List RicMswBranch → Bool
  | [] => true
  | branch :: rest =>
    tieInBranchesHaveSegments branch && tieInBranchesHaveSegmentsInBranches rest

end

end RicMswTableFormatterTools

/-! ## Restart files of a summary case (`RifReaderEclipseSummary.cpp`) -/

namespace RifReaderEclipseSummary

/-- Modelled from the spec: `RifRestartFileInfo` (declared outside the sources at hand), a file
name with the first and last date of the file. -/
structure RifRestartFileInfo where
  fileName : String
  startDate : Int
  endDate : Int
  deriving DecidableEq, Repr

/-- What `getRestartFiles` reads from the files on disk. `getRestartFile` is the member function
of that name, which opens the summary case and returns the restart case it refers to, with an
empty file name when there is none. `formattedHeaderWithoutDataFile name` is the test of lines
271-282: the name ends in `.SMSPEC`, a `.FSMSPEC` file exists that is older, and no `.FUNSMRY`
file exists. -/
structure RestartFileSystem where
  getRestartFile : String → RifRestartFileInfo
  formattedHeaderWithoutDataFile : String → Bool

/-- The variables of `getRestartFiles`: the locals `currFile`, `restartFiles` and
`restartFilesOpened`, the member `m_warnings` and the flag behind `hasWarnings`. -/
structure GetRestartFilesState where
  currFile : RifRestartFileInfo
  restartFiles : List RifRestartFileInfo
  restartFilesOpened : List String
  warnings : List String
  hasWarnings : Bool
  deriving DecidableEq, Repr

/-- One run of the body of the `while` loop of `getRestartFiles` (lines 262-312). The second
component is false when the body leaves the loop with `break`. -/
def getRestartFiles.body (fileSystem : RestartFileSystem) (state : GetRestartFilesState) :
    GetRestartFilesState × Bool :=
  if fileSystem.formattedHeaderWithoutDataFile state.currFile.fileName then
    ({ state with
        warnings := state.warnings ++
          ["RifReaderEclipseSummary: Formatted summary header file without an\n" ++
            "associated data file detected.\n" ++
            "This may cause a failure reading summary origin data.\n" ++
            "To avoid this problem, please delete or rename the.FSMSPEC file."],
        hasWarnings := true }, false)
  else
    let prevFile := state.currFile.fileName
    let currFile := fileSystem.getRestartFile state.currFile.fileName
    if currFile.fileName = prevFile then
      ({ state with
          currFile := currFile,
          warnings := state.warnings ++
            ["RifReaderEclipseSummary: Restart file reference loop detected"],
          hasWarnings := true }, false)
    else
      let warned : GetRestartFilesState :=
        if currFile.fileName ∈ state.restartFilesOpened then
          { state with
            currFile := currFile,
            warnings := state.warnings ++
              ["RifReaderEclipseSummary: Same restart file being opened multiple times"],
            hasWarnings := true }
        else { state with currFile := currFile }
      ({ warned with
          restartFilesOpened := currFile.fileName :: warned.restartFilesOpened,
          restartFiles :=
            if currFile.fileName ≠ "" then warned.restartFiles ++ [currFile]
            else warned.restartFiles }, true)

/-- The `while` loop of `getRestartFiles`, run for at most `fuel` iterations: `some state` when
the loop is left within that many iterations (the file name became empty or the body broke
out), `none` when it is still running after them. -/
def getRestartFiles.loop (fileSystem : RestartFileSystem) :
    Nat → GetRestartFilesState → Option GetRestartFilesState
  | 0, state => if state.currFile.fileName = "" then some state else none
  | fuel + 1, state =>
    if state.currFile.fileName = "" then some state
    else
      let r := getRestartFiles.body fileSystem state
      if r.2 then getRestartFiles.loop fileSystem fuel r.1 else some r.1

/-- Embedding of `RifReaderEclipseSummary::getRestartFiles`, run for at most `fuel` iterations
of its loop: the restart files returned, the value stored in `hasWarnings` and the warnings. -/
def getRestartFiles (fileSystem : RestartFileSystem) (fuel : Nat) (headerFileName : String) :
    Option (List RifRestartFileInfo × Bool × List String) :=
  match getRestartFiles.loop fileSystem fuel
      { currFile := { fileName := headerFileName, startDate := 0, endDate := 0 },
        restartFiles := [], restartFilesOpened := [], warnings := [],
        hasWarnings := false } with
  | none => none
  | some state => some (state.restartFiles, state.hasWarnings, state.warnings)

end RifReaderEclipseSummary

/-! ## Concrete export trees -/

namespace Sample

open RicMsw RicMswTableFormatterTools

/-- A vertical well path: the point at measured depth `md` has z coordinate `-md`, so the true
vertical depth equals the measured depth. -/
def verticalWell : RimWellPath :=
  { wellNameForExport := "WELL", interpolatedPointZ := fun md => -md }

/-- A fresh sub-segment from `startMD` to `endMD` with the given intersections; nothing has been
assigned yet (segment number -1, output depths 0). -/
def subSegment (startMD endMD : ℚ) (intersections : List RicMswSegmentCellIntersection) :
    RicMswSegmentData :=
  { label := "segment", startMD := startMD, endMD := endMD, subIndex := UNDEFINED_SIZE_T,
    segmentNumber := -1, outputMD := 0, outputTVD := 0, effectiveDiameter := 1 / 5,
    openHoleRoughnessFactor := 1 / 1000, intersections := intersections }

/-- A fresh branch segment from `startMD` to `endMD` with the given completions. -/
def segment (startMD endMD : ℚ) (completions : List RicMswCompletion) : RicMswSegment :=
  { subSegment startMD endMD [] with completions := completions }

/-- A fracture completion on branch 1 with the given sub-segments. -/
def fracture (segments : List RicMswSegmentData) : RicMswCompletion :=
  { label := "fracture", completionType := CompletionType.FRACTURE,
    dynamicType := CompletionClass.other, isValid := true, branchNumber := 1,
    wellPath := verticalWell, segments := segments }

/-- A plain perforation completion on branch 1 with the given sub-segments. -/
def perforation (segments : List RicMswSegmentData) : RicMswCompletion :=
  { label := "perforation", completionType := CompletionType.PERFORATION,
    dynamicType := CompletionClass.perforation, isValid := true, branchNumber := 1,
    wellPath := verticalWell, segments := segments }

/-- The members of branch number `branchNumber` starting at `startMD` on the vertical well. -/
def branchData (branchNumber : Int) (startMD : ℚ) (tieInICV : Option RicMswTieInICVData) :
    RicMswBranchData :=
  { label := "branch", branchNumber := branchNumber, startMD := startMD, startTVD := startMD,
    wellPath := verticalWell, tieInICV := tieInICV }

/-- An export of the tree with main bore `mainBoreBranch`, in the mode given by
`lengthAndDepthText`. -/
def exportOf (mainBoreBranch : RicMswBranch) (lengthAndDepthText : String)
    (hasSubGridIntersections : Bool) : RicMswExportInfo :=
  { mainBoreBranch := mainBoreBranch, topWellBoreVolume := 0, defaultDoubleValue := 0,
    lengthAndDepthText := lengthAndDepthText, pressureDropText := "H--",
    linerDiameter := 3 / 20, roughnessFactor := 1 / 100000,
    hasSubGridIntersections := hasSubGridIntersections }

/-- A tie-in ICV branch with a valid valve; its first segment (the valve segment) runs from 5
to 30 and the second one from 30 to 35. -/
def longValveLateral : RicMswBranch :=
  RicMswBranch.mk (branchData 2 5 (some { isValid := true }))
    [segment 5 30 [], segment 30 35 []] []

/-- A main bore with the single segment 0-5 and the lateral `longValveLateral`. -/
def tieInLongValve : RicMswBranch :=
  RicMswBranch.mk (branchData 1 0 none) [segment 0 5 []] [longValveLateral]

/-- The same shape with a short valve segment 5-6 and an invalid valve. -/
def tieInInvalidValve : RicMswBranch :=
  RicMswBranch.mk (branchData 1 0 none) [segment 0 5 []]
    [RicMswBranch.mk (branchData 2 5 (some { isValid := false }))
      [segment 5 6 [], segment 6 12 []] []]

/-- A main bore with the single segment 0-10 carrying a fracture whose only sub-segment runs
from 10 to 20. -/
def fractureOnMainBore : RicMswBranch :=
  RicMswBranch.mk (branchData 1 0 none) [segment 0 10 [fracture [subSegment 10 20 []]]] []

/-- The main bore of the scenario of the specification: the two segments 1000-1020 and
1020-1040, no completions and no laterals. -/
def twoSegments : RicMswBranch :=
  RicMswBranch.mk (branchData 1 1000 none) [segment 1000 1020 [], segment 1020 1040 []] []

/-- The sub-segment 3-4 of the fracture of `sharedCells`: it meets the main-grid cell (1,2,3)
and the cell (1,2,3) of the sub-grid `LGR1`. -/
def sharedCellsFractureSegment : RicMswSegmentData :=
  subSegment 3 4 [⟨"", (1, 2, 3)⟩, ⟨"LGR1", (1, 2, 3)⟩]

/-- The fracture of `sharedCells`. -/
def sharedCellsFracture : RicMswCompletion :=
  fracture [sharedCellsFractureSegment]

/-- The segment 0-10 of `sharedCells`, carrying first the fracture and then a perforation that
meets the main-grid cells (1,2,3) and (1,2,4) and the cell (7,7,7) of `LGR1`. -/
def sharedCellsSegment : RicMswSegment :=
  segment 0 10
    [sharedCellsFracture,
      perforation [subSegment 0 10 [⟨"", (1, 2, 3)⟩, ⟨"", (1, 2, 4)⟩, ⟨"LGR1", (7, 7, 7)⟩]]]

/-- A main bore with the single segment `sharedCellsSegment`. -/
def sharedCells : RicMswBranch :=
  RicMswBranch.mk (branchData 1 0 none) [sharedCellsSegment] []

/-- A valve completion of the given type on branch 1 with flow coefficient 7/10 and area
1/2000. -/
def valve (completionType : CompletionType) (isValid : Bool)
    (segments : List RicMswSegmentData) : RicMswCompletion :=
  { label := "valve", completionType := completionType, dynamicType := CompletionClass.valve,
    isValid := isValid, branchNumber := 1, wellPath := verticalWell, segments := segments,
    flowCoefficient := 7 / 10, area := 1 / 2000 }

/-- A main bore with the single segment 0-10 carrying an invalid perforation ICD (sub-segment
4-5) followed by a valid perforation ICV (sub-segment 6-7). -/
def invalidThenValidValve : RicMswBranch :=
  RicMswBranch.mk (branchData 1 0 none)
    [segment 0 10
      [valve CompletionType.PERFORATION_ICD false [subSegment 4 5 []],
        valve CompletionType.PERFORATION_ICV true [subSegment 6 7 []]]]
    []

/-- A main bore with the single segment 0-10 without completions and a plain lateral whose
segment 5-15 carries a valid AICD with the sub-segment 9-10. -/
def aicdOnLateral : RicMswBranch :=
  RicMswBranch.mk (branchData 1 0 none) [segment 0 10 []]
    [RicMswBranch.mk (branchData 2 5 none)
      [segment 5 15 [valve CompletionType.PERFORATION_AICD true [subSegment 9 10 []]]] []]

/-- A main bore with the single segment 0-10 carrying an invalid AICD (sub-segment 4-5)
followed by a valid AICD (sub-segment 6-7). -/
def invalidThenValidAicd : RicMswBranch :=
  RicMswBranch.mk (branchData 1 0 none)
    [segment 0 10
      [valve CompletionType.PERFORATION_AICD false [subSegment 4 5 []],
        valve CompletionType.PERFORATION_AICD true [subSegment 6 7 []]]]
    []

/-- A main bore with the single segment 0-10 carrying a valid perforation ICV that has no
sub-segment. -/
def valveWithoutSegments : RicMswBranch :=
  RicMswBranch.mk (branchData 1 0 none)
    [segment 0 10 [valve CompletionType.PERFORATION_ICV true []]] []

/-- A main bore with the single segment 100-200 carrying a valid perforation ICD whose
sub-segment 150-151 meets the main-grid cell (4,5,6). -/
def icdWithCell : RicMswBranch :=
  RicMswBranch.mk (branchData 1 100 none)
    [segment 100 200
      [valve CompletionType.PERFORATION_ICD true [subSegment 150 151 [⟨"", (4, 5, 6)⟩]]]]
    []

/-- A main bore with the single segment 0-5 and a lateral that is a tie-in ICV branch with a
valid valve and no segment at all. -/
def tieInWithoutSegments : RicMswBranch :=
  RicMswBranch.mk (branchData 1 0 none) [segment 0 5 []]
    [RicMswBranch.mk (branchData 2 5 (some { isValid := true })) [] []]

/-- A restart file with the given name. -/
def restartFile (fileName : String) : RifReaderEclipseSummary.RifRestartFileInfo :=
  { fileName := fileName, startDate := 0, endDate := 0 }

/-- Files on disk where the case `A` refers to itself as its restart case. -/
def selfReference : RifReaderEclipseSummary.RestartFileSystem :=
  { getRestartFile := fun name => if name = "A" then restartFile "A" else restartFile ""
    formattedHeaderWithoutDataFile := fun _ => false }

/-- Files on disk where the case `A` refers to `B` and `B` refers back to `A`. -/
def twoCycle : RifReaderEclipseSummary.RestartFileSystem :=
  { getRestartFile := fun name =>
      if name = "A" then restartFile "B"
      else if name = "B" then restartFile "A"
      else restartFile ""
    formattedHeaderWithoutDataFile := fun _ => false }

/-- Files on disk where the case `C` refers to `B`, `B` refers to `A` and `A` has no restart
case. -/
def plainChain : RifReaderEclipseSummary.RestartFileSystem :=
  { getRestartFile := fun name =>
      if name = "C" then restartFile "B"
      else if name = "B" then restartFile "A"
      else restartFile ""
    formattedHeaderWithoutDataFile := fun _ => false }

/-- A main bore with the single segment 0-25, no completions and no laterals. -/
def longSegment : RicMswBranch :=
  RicMswBranch.mk (branchData 1 0 none) [segment 0 25 []] []

/-- A tree with valves on every level: the main bore segment 0-10 carries a perforation ICD
(sub-segment 4-5) and a fracture (sub-segment 7-8); the lateral is a tie-in ICV branch (valve
segment 5-6) whose second segment 6-12 carries a perforation ICV (sub-segment 8-9); that
lateral has a plain lateral of its own whose segment 8-14 carries a fishbones ICD (sub-segment
10-11). -/
def valvesOnTree : RicMswBranch :=
  RicMswBranch.mk (branchData 1 0 none)
    [segment 0 10
      [valve CompletionType.PERFORATION_ICD true [subSegment 4 5 []],
        fracture [subSegment 7 8 []]]]
    [RicMswBranch.mk
      (branchData 2 5 (some { isValid := true, flowCoefficient := 3 / 10, area := 1 / 1000 }))
      [segment 5 6 [], segment 6 12 [valve CompletionType.PERFORATION_ICV true [subSegment 8 9 []]]]
      [RicMswBranch.mk (branchData 3 8 none)
        [segment 8 14 [valve CompletionType.FISHBONES_ICD true [subSegment 10 11 []]]] []]]

/-- A tree without tie-in ICV branches: the main bore segment 0-25 carries a valid perforation
ICD (sub-segment 4-5), a perforation and a fracture (sub-segment 7-8), and the plain lateral
has the segment 5-15. -/
def plainTree : RicMswBranch :=
  RicMswBranch.mk (branchData 1 0 none)
    [segment 0 25
      [valve CompletionType.PERFORATION_ICD true [subSegment 4 5 []],
        perforation [subSegment 0 25 []],
        fracture [subSegment 7 8 []]]]
    [RicMswBranch.mk (branchData 2 5 none) [segment 5 15 []] []]

/-- A main bore with two segments: the segment 0-10 carries a valid perforation ICD (sub-segment
4-5) and the segment 10-20 carries a fracture (sub-segment 12-13). -/
def valveOnEarlierSegment : RicMswBranch :=
  RicMswBranch.mk (branchData 1 0 none)
    [segment 0 10 [valve CompletionType.PERFORATION_ICD true [subSegment 4 5 []]],
      segment 10 20 [fracture [subSegment 12 13 []]]]
    []

/-- The fracture of `tieInThenFracture`, with the sub-segment 8-9. -/
def lateralFracture : RicMswCompletion :=
  fracture [subSegment 8 9 []]

/-- The segment 6-12 of `tieInThenFracture`, carrying the fracture. -/
def lateralFractureSegment : RicMswSegment :=
  segment 6 12 [lateralFracture]

/-- A main bore with the segment 0-5 and a tie-in ICV lateral (valve segment 5-6) whose second
segment 6-12 carries a fracture (sub-segment 8-9). -/
def tieInThenFracture : RicMswBranch :=
  RicMswBranch.mk (branchData 1 0 none) [segment 0 5 []]
    [RicMswBranch.mk (branchData 2 5 (some { isValid := true }))
      [segment 5 6 [], lateralFractureSegment] []]

/-- A main bore with the segment 0-5 and a tie-in ICV lateral whose first segment 5-6, the one
of the valve, carries a valid perforation ICD (sub-segment 5-6) and is followed by the segment
6-12. -/
def valveOnTieInSegment : RicMswBranch :=
  RicMswBranch.mk (branchData 1 0 none) [segment 0 5 []]
    [RicMswBranch.mk (branchData 2 5 (some { isValid := true }))
      [segment 5 6 [valve CompletionType.PERFORATION_ICD true [subSegment 5 6 []]],
        segment 6 12 []] []]

/-- Two parent segments, 74.38-75.8 and 75.8-92.82, with the depths as the binary64 numbers
nearest to these decimals. -/
def roundedTieParent : List RicMswSegment :=
  [segment (654253398991831 / 8796093022208) (5333950808666931 / 70368744177664) [],
    segment (5333950808666931 / 70368744177664) (1632906708642693 / 17592186044416) []]

/-- A child branch starting at 79.7, the binary64 number nearest to that decimal. -/
def roundedTieChild : RicMswBranch :=
  RicMswBranch.mk (branchData 2 (5608388910959821 / 70368744177664) none) [] []

/-- The binary64 number nearest to 0.1. -/
def tenth : ℚ :=
  3602879701896397 / 36028797018963968

/-- A main bore with the single segment 0-0.5 and no completions. -/
def halfSegment : RicMswBranch :=
  RicMswBranch.mk (branchData 1 0 none) [segment 0 (1 / 2) []] []

/-- A main bore with the segment 0-5 and a lateral that is an invalid tie-in ICV branch
without segments. -/
def invalidTieInWithoutSegments : RicMswBranch :=
  RicMswBranch.mk (branchData 1 0 none) [segment 0 5 []]
    [RicMswBranch.mk (branchData 2 5 (some { isValid := false })) [] []]

/-- A main bore without segments and a lateral that is a valid tie-in ICV branch with the
valve segment 5-6. -/
def tieInUnderEmptyMainBore : RicMswBranch :=
  RicMswBranch.mk (branchData 1 0 none) []
    [RicMswBranch.mk (branchData 2 5 (some { isValid := true })) [segment 5 6 []] []]

end Sample

/-! # Properties -/

namespace RicMswTableFormatterTools

open RicMsw

/-! ## Segment splitting -/

theorem createSubSegmentMDPairs_loop_eq_map (L e : ℚ) (n : Nat) (s t : ℚ) :
    createSubSegmentMDPairs.loop L e n s t =
      (List.range n).map (fun (i : Nat) => (s + (i : ℚ) * L, t + (i : ℚ) * min L e)) := by
  induction n generalizing s t with
  | zero => simp [createSubSegmentMDPairs.loop]
  | succ n ih =>
    rw [createSubSegmentMDPairs.loop, ih, List.range_succ_eq_map, List.map_cons, List.map_map]
    simp only [Nat.cast_zero, zero_mul, add_zero, List.cons.injEq, true_and]
    apply List.map_congr_left
    intro i _
    simp only [Function.comp, Nat.cast_succ, Prod.mk.injEq]
    constructor <;> ring

theorem trunc_of_nonneg {q : ℚ} (h : 0 ≤ q) : trunc q = ⌊q⌋ := by
  simp [trunc, h]

theorem subSegmentCount_eq {startMD endMD maxSegmentLength : ℚ} (hle : startMD ≤ endMD)
    (hpos : 0 < maxSegmentLength) :
    subSegmentCount startMD endMD maxSegmentLength =
      ⌊(endMD - startMD) / maxSegmentLength⌋ + 1 := by
  have h : 0 ≤ (endMD - startMD) / maxSegmentLength :=
    div_nonneg (sub_nonneg.mpr hle) hpos.le
  simp [subSegmentCount, trunc_of_nonneg h]

theorem subSegmentCount_pos {startMD endMD maxSegmentLength : ℚ} (hle : startMD ≤ endMD)
    (hpos : 0 < maxSegmentLength) :
    1 ≤ subSegmentCount startMD endMD maxSegmentLength := by
  have h : 0 ≤ (endMD - startMD) / maxSegmentLength :=
    div_nonneg (sub_nonneg.mpr hle) hpos.le
  rw [subSegmentCount_eq hle hpos]
  have := Int.floor_nonneg.mpr h
  omega

theorem subSegmentLength_nonneg {startMD endMD maxSegmentLength : ℚ} (hle : startMD ≤ endMD)
    (hpos : 0 < maxSegmentLength) :
    0 ≤ subSegmentLength startMD endMD maxSegmentLength := by
  have hc := subSegmentCount_pos hle hpos
  have hc' : (0 : ℚ) ≤ (subSegmentCount startMD endMD maxSegmentLength : ℚ) := by
    exact_mod_cast (by omega : 0 ≤ subSegmentCount startMD endMD maxSegmentLength)
  exact div_nonneg (sub_nonneg.mpr hle) hc'

theorem subSegmentLength_lt {startMD endMD maxSegmentLength : ℚ} (hle : startMD ≤ endMD)
    (hpos : 0 < maxSegmentLength) :
    subSegmentLength startMD endMD maxSegmentLength < maxSegmentLength := by
  have hc := subSegmentCount_pos hle hpos
  have hc' : (0 : ℚ) < (subSegmentCount startMD endMD maxSegmentLength : ℚ) := by
    exact_mod_cast (by omega : 0 < subSegmentCount startMD endMD maxSegmentLength)
  rw [subSegmentLength, div_lt_iff₀ hc']
  have h1 := Int.lt_floor_add_one ((endMD - startMD) / maxSegmentLength)
  rw [subSegmentCount_eq hle hpos]
  push_cast
  rw [div_lt_iff₀ hpos] at h1
  linarith

theorem subSegmentLength_mul_count {startMD endMD maxSegmentLength : ℚ} (hle : startMD ≤ endMD)
    (hpos : 0 < maxSegmentLength) :
    (subSegmentCount startMD endMD maxSegmentLength : ℚ) *
      subSegmentLength startMD endMD maxSegmentLength = endMD - startMD := by
  have hc := subSegmentCount_pos hle hpos
  have hc' : (subSegmentCount startMD endMD maxSegmentLength : ℚ) ≠ 0 := by
    have : (0 : ℚ) < (subSegmentCount startMD endMD maxSegmentLength : ℚ) := by
      exact_mod_cast (by omega : 0 < subSegmentCount startMD endMD maxSegmentLength)
    exact ne_of_gt this
  rw [subSegmentLength]
  field_simp

theorem createSubSegmentMDPairs_length (startMD endMD maxSegmentLength : ℚ) :
    (createSubSegmentMDPairs startMD endMD maxSegmentLength).length =
      (subSegmentCount startMD endMD maxSegmentLength).toNat := by
  simp [createSubSegmentMDPairs, createSubSegmentMDPairs_loop_eq_map]

theorem createSubSegmentMDPairs_eq_map (startMD endMD maxSegmentLength : ℚ) :
    createSubSegmentMDPairs startMD endMD maxSegmentLength =
      (List.range (subSegmentCount startMD endMD maxSegmentLength).toNat).map
        (fun (i : Nat) =>
          (startMD + (i : ℚ) * subSegmentLength startMD endMD maxSegmentLength,
            startMD + subSegmentLength startMD endMD maxSegmentLength +
              (i : ℚ) * min (subSegmentLength startMD endMD maxSegmentLength) endMD)) := by
  rw [createSubSegmentMDPairs, createSubSegmentMDPairs_loop_eq_map]

/-- A segment shorter than the maximum length is not split: the only interval is the segment
itself. -/
theorem createSubSegmentMDPairs_of_short {startMD endMD maxSegmentLength : ℚ}
    (hle : startMD ≤ endMD) (hlt : endMD - startMD < maxSegmentLength) :
    createSubSegmentMDPairs startMD endMD maxSegmentLength = [(startMD, endMD)] := by
  have hpos : 0 < maxSegmentLength := lt_of_le_of_lt (sub_nonneg.mpr hle) hlt
  have hfloor : ⌊(endMD - startMD) / maxSegmentLength⌋ = 0 := by
    rw [Int.floor_eq_iff]
    constructor
    · simpa using div_nonneg (sub_nonneg.mpr hle) hpos.le
    · simpa using (div_lt_one hpos).mpr hlt
  have hcount : subSegmentCount startMD endMD maxSegmentLength = 1 := by
    rw [subSegmentCount_eq hle hpos, hfloor]; rfl
  have hlen : subSegmentLength startMD endMD maxSegmentLength = endMD - startMD := by
    simp [subSegmentLength, hcount]
  rw [createSubSegmentMDPairs, hcount, hlen]
  simp [createSubSegmentMDPairs.loop]

/-- When the start is not negative the running end is advanced by the sub-segment length, so
the intervals are the equal division of the segment. -/
theorem createSubSegmentMDPairs_of_nonneg {startMD endMD maxSegmentLength : ℚ}
    (h0 : 0 ≤ startMD) (hle : startMD ≤ endMD) (hpos : 0 < maxSegmentLength) :
    createSubSegmentMDPairs startMD endMD maxSegmentLength =
      (List.range (subSegmentCount startMD endMD maxSegmentLength).toNat).map
        (fun (i : Nat) =>
          (startMD + (i : ℚ) * subSegmentLength startMD endMD maxSegmentLength,
            startMD + ((i : ℚ) + 1) * subSegmentLength startMD endMD maxSegmentLength)) := by
  have hc := subSegmentCount_pos hle hpos
  have hc1 : (1 : ℚ) ≤ (subSegmentCount startMD endMD maxSegmentLength : ℚ) := by
    exact_mod_cast hc
  have hL := subSegmentLength_nonneg hle hpos
  have hmul := subSegmentLength_mul_count hle hpos
  have hmin : min (subSegmentLength startMD endMD maxSegmentLength) endMD =
      subSegmentLength startMD endMD maxSegmentLength := by
    apply min_eq_left
    nlinarith
  rw [createSubSegmentMDPairs_eq_map, hmin]
  apply List.map_congr_left
  intro i _
  simp only [Prod.mk.injEq, true_and]
  ring

/-- In exact arithmetic: for `startMD ≤ endMD` and `0 < maxSegmentLength` the number of
intervals returned by `createSubSegmentMDPairs` is `floor((endMD - startMD) / maxSegmentLength) + 1`; this count, by
which the length is divided, is at least one; and an empty interval (`endMD = startMD`) gives
the single pair `(startMD, startMD)`. -/
theorem createSubSegmentMDPairs_count (startMD endMD maxSegmentLength : ℚ)
    (hle : startMD ≤ endMD) (hpos : 0 < maxSegmentLength) :
    ((createSubSegmentMDPairs startMD endMD maxSegmentLength).length : Int) =
        ⌊(endMD - startMD) / maxSegmentLength⌋ + 1 ∧
      subSegmentCount startMD endMD maxSegmentLength =
        ⌊(endMD - startMD) / maxSegmentLength⌋ + 1 ∧
      1 ≤ subSegmentCount startMD endMD maxSegmentLength ∧
      (endMD = startMD →
        createSubSegmentMDPairs startMD endMD maxSegmentLength = [(startMD, startMD)]) := by
  have hc := subSegmentCount_pos hle hpos
  refine ⟨?_, subSegmentCount_eq hle hpos, hc, ?_⟩
  · rw [createSubSegmentMDPairs_length, ← subSegmentCount_eq hle hpos]
    omega
  · intro h
    subst h
    exact createSubSegmentMDPairs_of_short le_rfl (by simpa using hpos)

/-- The count in exact arithmetic at start 1000, end 1050 and maximum length 20. -/
theorem createSubSegmentMDPairs_count_witness :
    (1000 : ℚ) ≤ 1050 ∧ (0 : ℚ) < 20 ∧
      (((createSubSegmentMDPairs 1000 1050 20).length : Int) = ⌊((1050 : ℚ) - 1000) / 20⌋ + 1 ∧
        subSegmentCount 1000 1050 20 = ⌊((1050 : ℚ) - 1000) / 20⌋ + 1 ∧
        1 ≤ subSegmentCount 1000 1050 20 ∧
        ((1050 : ℚ) = 1000 → createSubSegmentMDPairs 1000 1050 20 = [(1000, 1000)])) :=
  ⟨by norm_num, by norm_num, createSubSegmentMDPairs_count 1000 1050 20 (by norm_num)
    (by norm_num)⟩

/-- C4: for `startMD ≤ endMD` and `0 < maxSegmentLength` every interval returned by
`createSubSegmentMDPairs` has length (its end minus its start) at most `maxSegmentLength`. -/
theorem createSubSegmentMDPairs_length_le (startMD endMD maxSegmentLength : ℚ)
    (hle : startMD ≤ endMD) (hpos : 0 < maxSegmentLength) :
    ∀ p ∈ createSubSegmentMDPairs startMD endMD maxSegmentLength,
      p.2 - p.1 ≤ maxSegmentLength := by
  intro p hp
  rw [createSubSegmentMDPairs_eq_map, List.mem_map] at hp
  obtain ⟨i, _, rfl⟩ := hp
  have hlt := subSegmentLength_lt hle hpos
  have hmin : min (subSegmentLength startMD endMD maxSegmentLength) endMD ≤
      subSegmentLength startMD endMD maxSegmentLength := min_le_left _ _
  have hi : (0 : ℚ) ≤ (i : ℚ) := Nat.cast_nonneg i
  simp only
  nlinarith [mul_nonneg hi (sub_nonneg.mpr hmin)]

/-- Witness of C4 at start 1000, end 1050 and maximum length 20. -/
theorem createSubSegmentMDPairs_length_le_witness :
    (1000 : ℚ) ≤ 1050 ∧ (0 : ℚ) < 20 ∧
      ∀ p ∈ createSubSegmentMDPairs 1000 1050 20, p.2 - p.1 ≤ 20 :=
  ⟨by norm_num, by norm_num, createSubSegmentMDPairs_length_le 1000 1050 20 (by norm_num)
    (by norm_num)⟩

/-- C2 (the code at a failing input): for start -100, end -50 and maximum length 20 the running
end is advanced by `std::min( subSegmentLength, endMD ) = -50` instead of the sub-segment
length, so the second interval ends at -400/3 while the third starts at -200/3, and the last
interval ends at -550/3 and not at -50. -/
theorem createSubSegmentMDPairs_negative_start :
    createSubSegmentMDPairs (-100) (-50) 20 =
      [(-100, -250 / 3), (-250 / 3, -400 / 3), (-200 / 3, -550 / 3)] := by
  decide!

/-! ## WELSEGS -/

/-- C1 (the code at two failing inputs, maximum segment length 10). In `Sample.tieInLongValve`
the valve segment of the tie-in ICV lateral is split into three rows numbered 3, 4, 5, after
which the counter is set back to the number of the valve segment plus one, so the next segment
is numbered 4 again. In `Sample.tieInInvalidValve` the invalid valve writes nothing and the
counter is set to the untouched number -1 of its segment plus one, so the next segment is
numbered 0. The claim says the numbers are 2, 3, 4, 5, 6 and 2, 3. -/
theorem generateWelsegsTable_tieIn_numbers :
    (generateWelsegsTable (Sample.exportOf Sample.tieInLongValve "INC" false) 10).map
        (fun r => (welsegsDataRows r.2).map firstColumn) =
        some [some 2, some 3, some 4, some 5, some 4] ∧
      (generateWelsegsTable (Sample.exportOf Sample.tieInInvalidValve "INC" false) 10).map
        (fun r => (welsegsDataRows r.2).map firstColumn) =
        some [some 2, some 0] := by
  constructor <;> decide!

theorem rowsOf_append (a b : List FormatterEvent) : rowsOf (a ++ b) = rowsOf a ++ rowsOf b := by
  induction a with
  | nil => rfl
  | cons e rest ih => cases e <;> simp [rowsOf, ih]

/-! ### The tie-in segment of a child branch -/

theorem findTieInSegment_cons_some (branchStartMD : ℚ) (seg : RicMswSegment)
    (rest : List RicMswSegment) (s0 : RicMswSegment) :
    findTieInSegment branchStartMD (seg :: rest) (some s0)
        (some (midPointDistance branchStartMD s0)) =
      if midPointDistance branchStartMD seg < midPointDistance branchStartMD s0 then
        findTieInSegment branchStartMD rest (some seg) (some (midPointDistance branchStartMD seg))
      else
        findTieInSegment branchStartMD rest (some s0)
          (some (midPointDistance branchStartMD s0)) := by
  rw [findTieInSegment]
  simp only [midPointDistance, decide_eq_true_eq]

theorem findTieInSegment_cons_none (branchStartMD : ℚ) (seg : RicMswSegment)
    (rest : List RicMswSegment) :
    findTieInSegment branchStartMD (seg :: rest) none none =
      findTieInSegment branchStartMD rest (some seg)
        (some (midPointDistance branchStartMD seg)) := by
  rw [findTieInSegment]
  simp only [midPointDistance, if_true]

theorem findTieInSegment_spec (branchStartMD : ℚ) (segs : List RicMswSegment)
    (s0 : RicMswSegment) :
    ∃ s, findTieInSegment branchStartMD segs (some s0)
        (some (midPointDistance branchStartMD s0)) = some s ∧
      ((s = s0 ∧ ∀ t ∈ segs,
          midPointDistance branchStartMD s0 ≤ midPointDistance branchStartMD t) ∨
        ∃ pre post, segs = pre ++ s :: post ∧
          midPointDistance branchStartMD s < midPointDistance branchStartMD s0 ∧
          (∀ t ∈ pre, midPointDistance branchStartMD s < midPointDistance branchStartMD t) ∧
          ∀ t ∈ post, midPointDistance branchStartMD s ≤ midPointDistance branchStartMD t) := by
  induction segs generalizing s0 with
  | nil => exact ⟨s0, rfl, Or.inl ⟨rfl, by simp⟩⟩
  | cons seg rest ih =>
    by_cases hlt : midPointDistance branchStartMD seg < midPointDistance branchStartMD s0
    · obtain ⟨s, hs, hcase⟩ := ih seg
      refine ⟨s, ?_, Or.inr ?_⟩
      · rw [findTieInSegment_cons_some, if_pos hlt]
        exact hs
      · rcases hcase with ⟨rfl, hall⟩ | ⟨pre, post, rfl, hlt', hpre, hpost⟩
        · exact ⟨[], rest, rfl, hlt, by simp, hall⟩
        · refine ⟨seg :: pre, post, rfl, lt_trans hlt' hlt, ?_, hpost⟩
          intro t ht
          rcases List.mem_cons.mp ht with rfl | ht
          · exact hlt'
          · exact hpre t ht
    · obtain ⟨s, hs, hcase⟩ := ih s0
      refine ⟨s, ?_, ?_⟩
      · rw [findTieInSegment_cons_some, if_neg hlt]
        exact hs
      · rcases hcase with ⟨rfl, hall⟩ | ⟨pre, post, rfl, hlt', hpre, hpost⟩
        · left
          refine ⟨rfl, ?_⟩
          intro t ht
          rcases List.mem_cons.mp ht with rfl | ht
          · exact not_lt.mp hlt
          · exact hall t ht
        · right
          refine ⟨seg :: pre, post, rfl, hlt', ?_, hpost⟩
          intro t ht
          rcases List.mem_cons.mp ht with rfl | ht
          · exact lt_of_lt_of_le hlt' (not_lt.mp hlt)
          · exact hpre t ht

/-- In exact arithmetic: when the parent branch has at least one segment, the outlet segment
handed to the recursion into a child branch (the last argument of the recursive call made by the loop over
the child branches) is a parent segment `s` whose midpoint is at least as close to the start MD
of the child as the midpoint of every other parent segment, and every parent segment before
`s` is strictly farther away. -/
theorem outletSegmentForChildBranch_closest_first (parentSegments : List RicMswSegment)
    (outletSegment : Option RicMswSegmentData) (childBranch : RicMswBranch)
    (hne : parentSegments ≠ []) :
    ∃ pre s post, parentSegments = pre ++ s :: post ∧
      outletSegmentForChildBranch parentSegments outletSegment childBranch =
        some s.toRicMswSegmentData ∧
      (∀ (exportInfo : RicMswExportInfo) (maxSegmentLength : ℚ) (rest : List RicMswBranch)
        (segmentNumber : Int),
        writeWelsegsChildBranches exportInfo maxSegmentLength parentSegments outletSegment
            (childBranch :: rest) segmentNumber =
          match writeWelsegsSegmentsRecursively exportInfo maxSegmentLength childBranch
              segmentNumber (some s.toRicMswSegmentData) with
          | none => none
          | some c =>
            match writeWelsegsChildBranches exportInfo maxSegmentLength parentSegments
                outletSegment rest c.2.1 with
            | none => none
            | some r => some (c.1 :: r.1, r.2.1, c.2.2 ++ r.2.2)) ∧
      (∀ t ∈ parentSegments,
        midPointDistance childBranch.data.startMD s ≤
          midPointDistance childBranch.data.startMD t) ∧
      ∀ t ∈ pre,
        midPointDistance childBranch.data.startMD s <
          midPointDistance childBranch.data.startMD t := by
  cases parentSegments with
  | nil => exact absurd rfl hne
  | cons seg rest =>
    obtain ⟨s, hs, hcase⟩ := findTieInSegment_spec childBranch.data.startMD rest seg
    have hfind : findTieInSegment childBranch.data.startMD (seg :: rest) none none = some s := by
      rw [findTieInSegment_cons_none]
      exact hs
    have hout : outletSegmentForChildBranch (seg :: rest) outletSegment childBranch =
        some s.toRicMswSegmentData := by
      simp [outletSegmentForChildBranch, hfind]
    have hcall : ∀ (exportInfo : RicMswExportInfo) (maxSegmentLength : ℚ)
        (others : List RicMswBranch) (segmentNumber : Int),
        writeWelsegsChildBranches exportInfo maxSegmentLength (seg :: rest) outletSegment
            (childBranch :: others) segmentNumber =
          match writeWelsegsSegmentsRecursively exportInfo maxSegmentLength childBranch
              segmentNumber (some s.toRicMswSegmentData) with
          | none => none
          | some c =>
            match writeWelsegsChildBranches exportInfo maxSegmentLength (seg :: rest)
                outletSegment others c.2.1 with
            | none => none
            | some r => some (c.1 :: r.1, r.2.1, c.2.2 ++ r.2.2) := by
      intro exportInfo maxSegmentLength others segmentNumber
      rw [writeWelsegsChildBranches, hout]
    rcases hcase with ⟨rfl, hall⟩ | ⟨pre, post, rfl, hlt, hpre, hpost⟩
    · refine ⟨[], s, rest, rfl, hout, hcall, ?_, by simp⟩
      intro t ht
      rcases List.mem_cons.mp ht with rfl | ht
      · exact le_rfl
      · exact hall t ht
    · refine ⟨seg :: pre, s, post, rfl, hout, hcall, ?_, ?_⟩
      · intro t ht
        rcases List.mem_cons.mp ht with rfl | ht
        · exact hlt.le
        · rcases List.mem_append.mp ht with ht | ht
          · exact (hpre t ht).le
          · rcases List.mem_cons.mp ht with rfl | ht
            · exact le_rfl
            · exact hpost t ht
      · intro t ht
        rcases List.mem_cons.mp ht with rfl | ht
        · exact hlt
        · exact hpre t ht

/-- The search in exact arithmetic on the parent segments 0-10, 10-20, 20-30 with a child
starting at 10. -/
theorem outletSegmentForChildBranch_sample_first :
    outletSegmentForChildBranch
        [Sample.segment 0 10 [], Sample.segment 10 20 [], Sample.segment 20 30 []] none
        (RicMswBranch.mk (Sample.branchData 2 10 none) [] []) =
      some (Sample.segment 0 10 []).toRicMswSegmentData := by
  have h1 : ¬ midPointDistance (RicMswBranch.mk (Sample.branchData 2 10 none) [] []).data.startMD
      (Sample.segment 10 20 []) <
      midPointDistance (RicMswBranch.mk (Sample.branchData 2 10 none) [] []).data.startMD
        (Sample.segment 0 10 []) := by decide!
  have h2 : ¬ midPointDistance (RicMswBranch.mk (Sample.branchData 2 10 none) [] []).data.startMD
      (Sample.segment 20 30 []) <
      midPointDistance (RicMswBranch.mk (Sample.branchData 2 10 none) [] []).data.startMD
        (Sample.segment 0 10 []) := by decide!
  rw [outletSegmentForChildBranch, findTieInSegment_cons_none, findTieInSegment_cons_some,
    if_neg h1, findTieInSegment_cons_some, if_neg h2, findTieInSegment]

/-- The search in exact arithmetic on a parent with the segments 0-10, 10-20, 20-30 and a child
starting at 10, at equal distance 5 from the midpoints of the first two segments. -/
theorem outletSegmentForChildBranch_closest_first_witness :
    [Sample.segment 0 10 [], Sample.segment 10 20 [], Sample.segment 20 30 []] ≠ [] ∧
      ∃ pre s post,
        [Sample.segment 0 10 [], Sample.segment 10 20 [], Sample.segment 20 30 []] =
          pre ++ s :: post ∧
        outletSegmentForChildBranch
            [Sample.segment 0 10 [], Sample.segment 10 20 [], Sample.segment 20 30 []] none
            (RicMswBranch.mk (Sample.branchData 2 10 none) [] []) =
          some s.toRicMswSegmentData ∧
        (∀ t ∈ [Sample.segment 0 10 [], Sample.segment 10 20 [], Sample.segment 20 30 []],
          midPointDistance (RicMswBranch.mk (Sample.branchData 2 10 none) [] []).data.startMD s ≤
            midPointDistance (RicMswBranch.mk (Sample.branchData 2 10 none) [] []).data.startMD
              t) ∧
        ∀ t ∈ pre,
          midPointDistance (RicMswBranch.mk (Sample.branchData 2 10 none) [] []).data.startMD s <
            midPointDistance (RicMswBranch.mk (Sample.branchData 2 10 none) [] []).data.startMD
              t :=
  ⟨by simp,
    (outletSegmentForChildBranch_closest_first _ none _ (by simp)).imp fun _ h =>
      h.imp fun _ h => h.imp fun _ h => ⟨h.1, h.2.1, h.2.2.2.1, h.2.2.2.2⟩⟩

/-! ### Length and depth columns in absolute mode -/

theorem writeWelsegsSegment_loop_columns_absolute (exportInfo : RicMswExportInfo)
    (branch : RicMswBranchData) (previousSegment : Option RicMswSegmentData)
    (prevOutMD prevOutTVD : ℚ) (habs : exportInfo.lengthAndDepthText ≠ "INC")
    (pairs : List (ℚ × ℚ)) (outletIsSegment : Bool) (segment : RicMswSegment)
    (segmentNumber : Int) :
    (rowsOf (writeWelsegsSegment.loop exportInfo branch previousSegment prevOutMD prevOutTVD
        pairs outletIsSegment segment segmentNumber).2.2).map lengthAndDepthColumns =
      pairs.map (fun p =>
        some (midPoint p, tvdFromMeasuredDepth branch.wellPath (midPoint p))) := by
  induction pairs generalizing outletIsSegment segment segmentNumber with
  | nil => simp [writeWelsegsSegment.loop, rowsOf]
  | cons p rest ih =>
    obtain ⟨a, b⟩ := p
    simp only [writeWelsegsSegment.loop, rowsOf, List.map_cons, ih, lengthAndDepthColumns,
      if_neg habs, midPoint]

theorem writeValveWelsegsSegment_loop_columns_absolute (exportInfo : RicMswExportInfo)
    (valve : RicMswCompletion) (outlet : RicMswSegmentData)
    (habs : exportInfo.lengthAndDepthText ≠ "INC") (pairs : List (ℚ × ℚ))
    (segmentNumber : Int) :
    ∃ r, writeValveWelsegsSegment.loop exportInfo valve (some outlet) pairs segmentNumber =
        some r ∧
      (rowsOf r.2).map lengthAndDepthColumns =
        pairs.map (fun p => some (p.2, tvdFromMeasuredDepth valve.wellPath p.2)) := by
  induction pairs generalizing segmentNumber with
  | nil => exact ⟨_, rfl, by simp [rowsOf]⟩
  | cons p rest ih =>
    obtain ⟨a, b⟩ := p
    obtain ⟨r, hr, hcols⟩ := ih (segmentNumber + 1)
    have hstep : writeValveWelsegsSegment.loop exportInfo valve (some outlet) ((a, b) :: rest)
        segmentNumber =
        some (r.1,
          FormatterEvent.rowCompleted
            [Cell.int segmentNumber, Cell.int segmentNumber, Cell.int valve.branchNumber,
              Cell.int outlet.segmentNumber, Cell.num b,
              Cell.num (tvdFromMeasuredDepth valve.wellPath b),
              Cell.num exportInfo.linerDiameter, Cell.num exportInfo.roughnessFactor] ::
            r.2) := by
      simp only [writeValveWelsegsSegment.loop, hr, if_neg habs]
    refine ⟨_, hstep, ?_⟩
    simp only [rowsOf, List.map_cons, hcols, lengthAndDepthColumns]

theorem writeCompletionWelsegsSegments_splitLoop_columns_absolute
    (exportInfo : RicMswExportInfo) (outletSegment : RicMswSegmentData)
    (completion : RicMswCompletion) (habs : exportInfo.lengthAndDepthText ≠ "INC")
    (pairs : List (ℚ × ℚ)) (segmentNumber outletSegmentNumber : Int) :
    (rowsOf (writeCompletionWelsegsSegments.splitLoop exportInfo outletSegment completion pairs
        segmentNumber outletSegmentNumber).2.2).map lengthAndDepthColumns =
      pairs.map (fun p => some (p.2, tvdFromMeasuredDepth completion.wellPath p.2)) := by
  induction pairs generalizing segmentNumber outletSegmentNumber with
  | nil => simp [writeCompletionWelsegsSegments.splitLoop, rowsOf]
  | cons p rest ih =>
    obtain ⟨a, b⟩ := p
    simp only [writeCompletionWelsegsSegments.splitLoop, rowsOf, List.map_cons, ih,
      lengthAndDepthColumns, if_neg habs]

theorem writeCompletionWelsegsSegments_segmentLoop_columns_absolute
    (exportInfo : RicMswExportInfo) (maxSegmentLength : ℚ) (outletSegment : RicMswSegmentData)
    (completion : RicMswCompletion) (habs : exportInfo.lengthAndDepthText ≠ "INC")
    (segments : List RicMswSegmentData) (segmentNumber outletSegmentNumber : Int) :
    (rowsOf (writeCompletionWelsegsSegments.segmentLoop exportInfo maxSegmentLength
        outletSegment completion segments segmentNumber outletSegmentNumber).2.2).map
        lengthAndDepthColumns =
      segments.flatMap (fun s =>
        (createSubSegmentMDPairs s.startMD s.endMD maxSegmentLength).map
          (fun p => some (p.2, tvdFromMeasuredDepth completion.wellPath p.2))) := by
  induction segments generalizing segmentNumber outletSegmentNumber with
  | nil => simp [writeCompletionWelsegsSegments.segmentLoop, rowsOf]
  | cons seg rest ih =>
    simp only [writeCompletionWelsegsSegments.segmentLoop, rowsOf_append, List.map_append, ih,
      writeCompletionWelsegsSegments_splitLoop_columns_absolute _ _ _ habs,
      List.flatMap_cons]

theorem rowsOf_writeWelsegsCompletionCommentHeader (completionType : CompletionType) :
    rowsOf (writeWelsegsCompletionCommentHeader completionType) = [] := by
  unfold writeWelsegsCompletionCommentHeader
  split_ifs <;> rfl

/-- C9 (as amended): in absolute mode (the length-and-depth text is not `INC`) every row written
for a plain segment reports the midpoint measured depth of its sub-interval and the true
vertical depth at that midpoint, while every row written for a valve or for another completion
reports the END measured depth of its sub-interval and the true vertical depth at that end. -/
theorem welsegs_columns_absolute (exportInfo : RicMswExportInfo) (maxSegmentLength : ℚ)
    (habs : exportInfo.lengthAndDepthText ≠ "INC") :
    (∀ (branch : RicMswBranchData) (segment : RicMswSegment)
        (previousSegment : Option RicMswSegmentData) (segmentNumber : Int),
        (rowsOf (writeWelsegsSegment exportInfo maxSegmentLength branch segment previousSegment
            segmentNumber).2.2).map lengthAndDepthColumns =
          (createSubSegmentMDPairs segment.startMD segment.endMD maxSegmentLength).map
            (fun p => some (midPoint p, tvdFromMeasuredDepth branch.wellPath (midPoint p)))) ∧
      (∀ (valve : RicMswCompletion) (outlet front : RicMswSegmentData)
        (others : List RicMswSegmentData) (segmentNumber : Int),
        valve.isValid = true → valve.segments = front :: others →
        ∃ r, writeValveWelsegsSegment exportInfo maxSegmentLength (some outlet) valve
            segmentNumber = some r ∧
          (rowsOf r.2.2).map lengthAndDepthColumns =
            (createSubSegmentMDPairs front.startMD front.endMD maxSegmentLength).map
              (fun p => some (p.2, tvdFromMeasuredDepth valve.wellPath p.2))) ∧
      ∀ (completion : RicMswCompletion) (outletSegment : RicMswSegmentData)
        (segmentNumber : Int),
        (rowsOf (writeCompletionWelsegsSegments exportInfo maxSegmentLength outletSegment
            completion segmentNumber).2).map lengthAndDepthColumns =
          completion.segments.flatMap (fun s =>
            (createSubSegmentMDPairs s.startMD s.endMD maxSegmentLength).map
              (fun p => some (p.2, tvdFromMeasuredDepth completion.wellPath p.2))) := by
  refine ⟨?_, ?_, ?_⟩
  · intro branch segment previousSegment segmentNumber
    exact writeWelsegsSegment_loop_columns_absolute exportInfo branch previousSegment _ _ habs
      _ _ _ _
  · intro valve outlet front others segmentNumber hvalid hsegs
    obtain ⟨r, hr, hcols⟩ := writeValveWelsegsSegment_loop_columns_absolute exportInfo valve
      outlet habs (createSubSegmentMDPairs front.startMD front.endMD maxSegmentLength)
      segmentNumber
    refine ⟨_, by simp only [writeValveWelsegsSegment, hvalid, hsegs, hr]; rfl, ?_⟩
    simpa [rowsOf] using hcols
  · intro completion outletSegment segmentNumber
    have h := writeCompletionWelsegsSegments_segmentLoop_columns_absolute exportInfo
      maxSegmentLength outletSegment completion habs completion.segments segmentNumber
      outletSegment.segmentNumber
    simp only [writeCompletionWelsegsSegments, rowsOf_append,
      rowsOf_writeWelsegsCompletionCommentHeader, List.nil_append, List.map_append]
    rw [h]
    split_ifs <;> simp [rowsOf]

/-- C9 (counterexample): in absolute mode, with maximum segment length 100, the fracture of
`Sample.fractureOnMainBore` has the single sub-interval 10-20 and its row reports length 20 and
depth 20, the end of the sub-interval, and not the midpoint 15; the row of the plain segment
0-10 reports its midpoint 5. -/
theorem welsegs_absolute_completion_row_reports_end :
    (generateWelsegsTable (Sample.exportOf Sample.fractureOnMainBore "ABS" false) 100).map
        (fun r => (welsegsDataRows r.2).map lengthAndDepthColumns) =
        some [some (5, 5), some (20, 20)] ∧
      createSubSegmentMDPairs 10 20 100 = [(10, 20)] ∧ midPoint (10, 20) ≠ 20 := by
  decide!

/-- Witness of C9 (as amended): the rows of the fracture of `Sample.fractureOnMainBore` in
absolute mode. -/
theorem welsegs_columns_absolute_witness :
    (Sample.exportOf Sample.fractureOnMainBore "ABS" false).lengthAndDepthText ≠ "INC" ∧
      (rowsOf (writeCompletionWelsegsSegments
          (Sample.exportOf Sample.fractureOnMainBore "ABS" false) 100
          (Sample.subSegment 0 10 []) (Sample.fracture [Sample.subSegment 10 20 []]) 3).2).map
          lengthAndDepthColumns =
        (Sample.fracture [Sample.subSegment 10 20 []]).segments.flatMap (fun s =>
          (createSubSegmentMDPairs s.startMD s.endMD 100).map
            (fun p => some (p.2,
              tvdFromMeasuredDepth (Sample.fracture [Sample.subSegment 10 20 []]).wellPath
                p.2))) :=
  ⟨by decide,
    (welsegs_columns_absolute (Sample.exportOf Sample.fractureOnMainBore "ABS" false) 100
      (by decide)).2.2 _ _ _⟩

/-! ### Consecutive segments in incremental mode -/

theorem writeWelsegsSegmentsRecursively_segmentLoop_append (exportInfo : RicMswExportInfo)
    (maxSegmentLength : ℚ) (branch : RicMswBranchData) (xs ys : List RicMswSegment)
    (state : WelsegsWalkState) :
    writeWelsegsSegmentsRecursively.segmentLoop exportInfo maxSegmentLength branch (xs ++ ys)
        state =
      match writeWelsegsSegmentsRecursively.segmentLoop exportInfo maxSegmentLength branch xs
          state with
      | none => none
      | some a =>
        match writeWelsegsSegmentsRecursively.segmentLoop exportInfo maxSegmentLength branch ys
            a.2.1 with
        | none => none
        | some b => some (a.1 ++ b.1, b.2.1, a.2.2 ++ b.2.2) := by
  induction xs generalizing state with
  | nil =>
    simp only [List.nil_append, writeWelsegsSegmentsRecursively.segmentLoop]
    cases writeWelsegsSegmentsRecursively.segmentLoop exportInfo maxSegmentLength branch ys
      state <;> simp
  | cons x rest ih =>
    rw [List.cons_append]
    simp only [writeWelsegsSegmentsRecursively.segmentLoop]
    generalize writeWelsegsSegmentsRecursively.completionLoop exportInfo maxSegmentLength _ _ _
      _ = c
    cases c with
    | none => rfl
    | some c =>
      simp only [ih]
      generalize writeWelsegsSegmentsRecursively.segmentLoop exportInfo maxSegmentLength branch
        rest _ = a
      cases a with
      | none => rfl
      | some a =>
        simp only
        generalize writeWelsegsSegmentsRecursively.segmentLoop exportInfo maxSegmentLength
          branch ys _ = b
        cases b with
        | none => rfl
        | some b => simp [List.append_assoc]

theorem writeWelsegsSegmentsRecursively_plain (exportInfo : RicMswExportInfo)
    (maxSegmentLength : ℚ) (branch : RicMswBranchData) (segments : List RicMswSegment)
    (branches : List RicMswBranch) (segmentNumber : Int)
    (connectedToSegment : Option RicMswSegmentData) (hplain : branch.tieInICV = none) :
    writeWelsegsSegmentsRecursively exportInfo maxSegmentLength
        (RicMswBranch.mk branch segments branches) segmentNumber connectedToSegment =
      match writeWelsegsSegmentsRecursively.segmentLoop exportInfo maxSegmentLength branch
          segments
          { segmentNumber := segmentNumber, outletSegment := connectedToSegment,
            outletValve := none } with
      | none => none
      | some l =>
        match writeWelsegsChildBranches exportInfo maxSegmentLength l.1 l.2.1.outletSegment
            branches l.2.1.segmentNumber with
        | none => none
        | some c =>
          some (RicMswBranch.mk branch l.1 c.1, c.2.1,
            FormatterEvent.optionalComment ("Segments on branch " ++ branch.label) ::
              (l.2.2 ++ c.2.2)) := by
  rw [writeWelsegsSegmentsRecursively]
  simp only [writeWelsegsSegmentsRecursively.enter, hplain, List.nil_append]

/-- The scenario of the specification evaluated: the row of the segment 1020-1040 reports
length 1030 - 1010 = 20 and, on the vertical well, depth change 20. -/
theorem welsegs_incremental_two_segments :
    (generateWelsegsTable (Sample.exportOf Sample.twoSegments "INC" false) 100).map
        (fun r => (welsegsDataRows r.2).map lengthAndDepthColumns) =
      some [some (10, 10), some (20, 20)] := by
  decide!

/-! ## COMPSEGS -/

theorem keepFirstVisits_append (seen : List (Nat × Nat × Nat))
    (a b : List ((Nat × Nat × Nat) × List Cell)) :
    keepFirstVisits seen (a ++ b) =
      ((keepFirstVisits (keepFirstVisits seen a).1 b).1,
        (keepFirstVisits seen a).2 ++ (keepFirstVisits (keepFirstVisits seen a).1 b).2) := by
  induction a generalizing seen with
  | nil => simp [keepFirstVisits]
  | cons c rest ih =>
    rw [List.cons_append]
    simp only [keepFirstVisits]
    split_ifs
    · exact ih seen
    · simp [ih]

theorem keepFirstVisits_subset (seen : List (Nat × Nat × Nat))
    (cs : List ((Nat × Nat × Nat) × List Cell)) :
    ∀ p ∈ (keepFirstVisits seen cs).2, p ∈ cs := by
  induction cs generalizing seen with
  | nil => simp [keepFirstVisits]
  | cons c rest ih =>
    intro p hp
    simp only [keepFirstVisits] at hp
    split_ifs at hp
    · exact List.mem_cons_of_mem _ (ih seen p hp)
    · rcases List.mem_cons.mp hp with rfl | hp
      · exact List.mem_cons_self _ _
      · exact List.mem_cons_of_mem _ (ih _ p hp)

theorem keepFirstVisits_seen (seen : List (Nat × Nat × Nat))
    (cs : List ((Nat × Nat × Nat) × List Cell)) (k : Nat × Nat × Nat) :
    k ∈ (keepFirstVisits seen cs).1 ↔ k ∈ seen ∨ k ∈ (keepFirstVisits seen cs).2.map Prod.fst := by
  induction cs generalizing seen with
  | nil => simp [keepFirstVisits]
  | cons c rest ih =>
    simp only [keepFirstVisits]
    split_ifs
    · exact ih seen
    · simp only [ih, List.mem_cons, List.map_cons]
      tauto

theorem keepFirstVisits_covers (seen : List (Nat × Nat × Nat))
    (cs : List ((Nat × Nat × Nat) × List Cell)) :
    ∀ p ∈ cs, p.1 ∈ (keepFirstVisits seen cs).1 := by
  induction cs generalizing seen with
  | nil => simp
  | cons c rest ih =>
    intro p hp
    have hmono : ∀ (s : List (Nat × Nat × Nat)) (k : Nat × Nat × Nat), k ∈ s →
        k ∈ (keepFirstVisits s rest).1 := by
      intro s k hk
      exact (keepFirstVisits_seen s rest k).mpr (Or.inl hk)
    simp only [keepFirstVisits]
    split_ifs with hseen
    · rcases List.mem_cons.mp hp with rfl | hp
      · exact hmono seen _ hseen
      · exact ih seen p hp
    · rcases List.mem_cons.mp hp with rfl | hp
      · exact hmono _ _ (List.mem_cons_self _ _)
      · exact ih _ p hp

theorem keepFirstVisits_nodup (seen : List (Nat × Nat × Nat))
    (cs : List ((Nat × Nat × Nat) × List Cell)) :
    ((keepFirstVisits seen cs).2.map Prod.fst).Nodup ∧
      ∀ k ∈ (keepFirstVisits seen cs).2.map Prod.fst, k ∉ seen := by
  induction cs generalizing seen with
  | nil => simp [keepFirstVisits]
  | cons c rest ih =>
    simp only [keepFirstVisits]
    split_ifs with hseen
    · exact ih seen
    · obtain ⟨hnd, hfresh⟩ := ih (c.1 :: seen)
      refine ⟨?_, ?_⟩
      · rw [List.map_cons, List.nodup_cons]
        refine ⟨?_, hnd⟩
        intro hmem
        exact hfresh c.1 hmem (List.mem_cons_self _ _)
      · intro k hk
        rw [List.map_cons] at hk
        rcases List.mem_cons.mp hk with rfl | hk
        · exact hseen
        · intro hks
          exact hfresh k hk (List.mem_cons_of_mem _ hks)

theorem compsegDataRows_append (a b : List FormatterEvent) :
    compsegDataRows (a ++ b) = compsegDataRows a ++ compsegDataRows b := by
  simp [compsegDataRows, rowsOf_append]

theorem compsegDataRows_header (exportInfo : RicMswExportInfo)
    (completionType : CompletionType) (exportSubGridIntersections : Bool) :
    compsegDataRows (generateCompsegHeader exportInfo completionType
      exportSubGridIntersections) = [] := by
  unfold generateCompsegHeader
  split_ifs <;> simp [compsegDataRows, rowsOf, rowCellIndex]

theorem rowCellIndex_compsegRow (exportSubGridIntersections : Bool) (segment : RicMswSegment)
    (completion : RicMswCompletion) (subSegment : RicMswSegmentData)
    (x : RicMswSegmentCellIntersection) :
    rowCellIndex (compsegRow exportSubGridIntersections segment completion subSegment x) =
      some (oneBased x.gridLocalCellIJK) := by
  cases exportSubGridIntersections <;> simp [compsegRow, rowCellIndex, oneBased]

theorem compsegDataRows_rows (l : List ((Nat × Nat × Nat) × List Cell)) (h : CompsegKeyed l) :
    compsegDataRows (l.map (fun p => FormatterEvent.rowCompleted p.2)) = l.map Prod.snd := by
  induction l with
  | nil => rfl
  | cons c rest ih =>
    have hc : rowCellIndex c.2 = some (oneBased c.1) := h c (List.mem_cons_self _ _)
    have hrest : CompsegKeyed rest := fun p hp => h p (List.mem_cons_of_mem _ hp)
    have ih' := ih hrest
    simp only [compsegDataRows] at ih' ⊢
    simp [rowsOf, List.filter_cons, hc, ih']

theorem compsegKeyed_append {a b : List ((Nat × Nat × Nat) × List Cell)} (ha : CompsegKeyed a)
    (hb : CompsegKeyed b) : CompsegKeyed (a ++ b) := by
  intro p hp
  rcases List.mem_append.mp hp with hp | hp
  · exact ha p hp
  · exact hb p hp

theorem compsegKeyed_ofCompletion (exportSubGridIntersections : Bool) (segment : RicMswSegment)
    (completion : RicMswCompletion) :
    CompsegKeyed (compsegCandidatesOfCompletion exportSubGridIntersections segment
      completion) := by
  intro p hp
  simp only [compsegCandidatesOfCompletion, List.mem_flatMap, List.mem_map] at hp
  obtain ⟨ss, _, x, _, rfl⟩ := hp
  exact rowCellIndex_compsegRow _ _ _ _ _

theorem compsegKeyed_of (exportSubGridIntersections : Bool)
    (exportCompletionTypes : List CompletionType)
    (completions : List (RicMswSegment × RicMswCompletion)) :
    CompsegKeyed (compsegCandidatesOf exportSubGridIntersections exportCompletionTypes
      completions) := by
  intro p hp
  simp only [compsegCandidatesOf, List.mem_flatMap] at hp
  obtain ⟨q, _, hq⟩ := hp
  exact compsegKeyed_ofCompletion _ _ _ p hq

theorem generateCompsegTable_intersectionLoop_eq (exportSubGridIntersections : Bool)
    (segment : RicMswSegment) (completion : RicMswCompletion) (subSegment : RicMswSegmentData)
    (xs : List RicMswSegmentCellIntersection) (cells : List (Nat × Nat × Nat)) :
    generateCompsegTable.intersectionLoop exportSubGridIntersections segment completion
        subSegment xs cells =
      ((keepFirstVisits cells
          ((xs.filter (fun x => (!decide (x.gridName = "")) == exportSubGridIntersections)).map
            (fun x => (x.gridLocalCellIJK,
              compsegRow exportSubGridIntersections segment completion subSegment x)))).1,
        (keepFirstVisits cells
          ((xs.filter (fun x => (!decide (x.gridName = "")) == exportSubGridIntersections)).map
            (fun x => (x.gridLocalCellIJK,
              compsegRow exportSubGridIntersections segment completion subSegment x)))).2.map
          (fun p => FormatterEvent.rowCompleted p.2)) := by
  induction xs generalizing cells with
  | nil => simp [generateCompsegTable.intersectionLoop, keepFirstVisits]
  | cons x rest ih =>
    simp only [generateCompsegTable.intersectionLoop]
    by_cases hgrid : (!decide (x.gridName = "")) = exportSubGridIntersections
    · have hf : List.filter
          (fun x => (!decide (x.gridName = "")) == exportSubGridIntersections) (x :: rest) =
          x :: List.filter
            (fun x => (!decide (x.gridName = "")) == exportSubGridIntersections) rest := by
        simp [List.filter_cons, hgrid]
      rw [if_neg (not_not.mpr hgrid), hf, List.map_cons]
      simp only [keepFirstVisits]
      split_ifs
      · exact ih cells
      · simp [ih]
    · have hf : List.filter
          (fun x => (!decide (x.gridName = "")) == exportSubGridIntersections) (x :: rest) =
          List.filter
            (fun x => (!decide (x.gridName = "")) == exportSubGridIntersections) rest := by
        simp [List.filter_cons, hgrid]
      rw [if_pos hgrid, hf]
      exact ih cells

theorem generateCompsegTable_subSegmentLoop_eq (exportSubGridIntersections : Bool)
    (segment : RicMswSegment) (completion : RicMswCompletion)
    (subSegments : List RicMswSegmentData) (cells : List (Nat × Nat × Nat)) :
    generateCompsegTable.subSegmentLoop exportSubGridIntersections segment completion
        subSegments cells =
      ((keepFirstVisits cells
          (subSegments.flatMap (fun subSegment =>
            (subSegment.intersections.filter
                (fun x => (!decide (x.gridName = "")) == exportSubGridIntersections)).map
              (fun x => (x.gridLocalCellIJK,
                compsegRow exportSubGridIntersections segment completion subSegment x))))).1,
        (keepFirstVisits cells
          (subSegments.flatMap (fun subSegment =>
            (subSegment.intersections.filter
                (fun x => (!decide (x.gridName = "")) == exportSubGridIntersections)).map
              (fun x => (x.gridLocalCellIJK,
                compsegRow exportSubGridIntersections segment completion subSegment
                  x))))).2.map
          (fun p => FormatterEvent.rowCompleted p.2)) := by
  induction subSegments generalizing cells with
  | nil => simp [generateCompsegTable.subSegmentLoop, keepFirstVisits]
  | cons ss rest ih =>
    simp only [generateCompsegTable.subSegmentLoop, List.flatMap_cons, keepFirstVisits_append,
      generateCompsegTable_intersectionLoop_eq, ih, List.map_append]

theorem compsegRefines_nil (state : CompsegState) : CompsegRefines [] false state (state, []) := by
  simp [CompsegRefines, keepFirstVisits, compsegDataRows, rowsOf]

theorem compsegRefines_append {c1 c2 : List ((Nat × Nat × Nat) × List Cell)} {m1 m2 : Bool}
    {state : CompsegState} {r1 r2 : CompsegState × List FormatterEvent}
    (h1 : CompsegRefines c1 m1 state r1) (h2 : CompsegRefines c2 m2 r1.1 r2) :
    CompsegRefines (c1 ++ c2) (m1 || m2) state (r2.1, r1.2 ++ r2.2) := by
  obtain ⟨hc1, hd1, hh1, he1⟩ := h1
  obtain ⟨hc2, hd2, hh2, he2⟩ := h2
  refine ⟨?_, ?_, ?_, ?_⟩
  · simp only [keepFirstVisits_append, hc2, hc1]
  · simp only [keepFirstVisits_append, compsegDataRows_append, hd1, hd2, hc1, List.map_append]
  · simp only [hh2, hh1, Bool.or_assoc]
  · intro hm
    have hm1 : m1 = false := by cases m1 <;> simp_all
    have hm2 : m2 = false := by cases m2 <;> simp_all
    simp only [he1 hm1, he2 hm2, List.append_nil]

theorem compsegCandidatesOf_append (exportSubGridIntersections : Bool)
    (exportCompletionTypes : List CompletionType)
    (a b : List (RicMswSegment × RicMswCompletion)) :
    compsegCandidatesOf exportSubGridIntersections exportCompletionTypes (a ++ b) =
      compsegCandidatesOf exportSubGridIntersections exportCompletionTypes a ++
        compsegCandidatesOf exportSubGridIntersections exportCompletionTypes b := by
  simp [compsegCandidatesOf, List.filter_append, List.flatMap_append]

theorem compsegRefines_completion (exportInfo : RicMswExportInfo)
    (exportSubGridIntersections : Bool) (segment : RicMswSegment)
    (completion : RicMswCompletion) (state : CompsegState) :
    CompsegRefines
      (compsegCandidatesOfCompletion exportSubGridIntersections segment completion) true state
      ({ headerGenerated := true,
          intersectedCells := (generateCompsegTable.subSegmentLoop exportSubGridIntersections
            segment completion completion.segments state.intersectedCells).1 },
        (if state.headerGenerated = false then
            generateCompsegHeader exportInfo completion.completionType
              exportSubGridIntersections
          else []) ++
          (generateCompsegTable.subSegmentLoop exportSubGridIntersections segment completion
            completion.segments state.intersectedCells).2) := by
  have hkeyed : CompsegKeyed (keepFirstVisits state.intersectedCells
      (compsegCandidatesOfCompletion exportSubGridIntersections segment completion)).2 :=
    fun p hp => compsegKeyed_ofCompletion _ _ _ p (keepFirstVisits_subset _ _ p hp)
  refine ⟨?_, ?_, by simp, by simp⟩
  · rw [generateCompsegTable_subSegmentLoop_eq]
    rfl
  · rw [compsegDataRows_append, generateCompsegTable_subSegmentLoop_eq]
    have hheader : compsegDataRows
        (if state.headerGenerated = false then
          generateCompsegHeader exportInfo completion.completionType
            exportSubGridIntersections
        else []) = [] := by
      split_ifs
      · exact compsegDataRows_header _ _ _
      · rfl
    rw [hheader, List.nil_append]
    exact compsegDataRows_rows _ hkeyed

theorem generateCompsegTable_completionLoop_refines (exportInfo : RicMswExportInfo)
    (exportSubGridIntersections : Bool) (exportCompletionTypes : List CompletionType)
    (segment : RicMswSegment) (completions : List RicMswCompletion) (state : CompsegState) :
    CompsegRefines
      (compsegCandidatesOf exportSubGridIntersections exportCompletionTypes
        (completions.map (fun c => (segment, c))))
      ((completions.map (fun c => (segment, c))).any
        (fun p => exportedBy exportCompletionTypes p.2))
      state
      (generateCompsegTable.completionLoop exportInfo exportSubGridIntersections
        exportCompletionTypes segment completions state) := by
  induction completions generalizing state with
  | nil =>
    simpa [generateCompsegTable.completionLoop, compsegCandidatesOf] using
      compsegRefines_nil state
  | cons c rest ih =>
    by_cases hexp : exportedBy exportCompletionTypes c = true
    · have hskip : ¬ (c.segments.isEmpty = true ∨ c.completionType ∉ exportCompletionTypes) := by
        simp only [exportedBy, Bool.and_eq_true, Bool.not_eq_true', decide_eq_true_eq] at hexp
        simp [hexp.1, hexp.2]
      have hcands : compsegCandidatesOf exportSubGridIntersections exportCompletionTypes
          ((c :: rest).map (fun c => (segment, c))) =
          compsegCandidatesOfCompletion exportSubGridIntersections segment c ++
            compsegCandidatesOf exportSubGridIntersections exportCompletionTypes
              (rest.map (fun c => (segment, c))) := by
        simp [compsegCandidatesOf, List.filter_cons, hexp]
      have hany : ((c :: rest).map (fun c => (segment, c))).any
          (fun p => exportedBy exportCompletionTypes p.2) =
          (true || (rest.map (fun c => (segment, c))).any
            (fun p => exportedBy exportCompletionTypes p.2)) := by
        simp [hexp]
      rw [hcands, hany, generateCompsegTable.completionLoop, if_neg hskip]
      exact compsegRefines_append
        (compsegRefines_completion exportInfo exportSubGridIntersections segment c state)
        (ih _)
    · have hexp' : exportedBy exportCompletionTypes c = false := by simpa using hexp
      have hskip : c.segments.isEmpty = true ∨ c.completionType ∉ exportCompletionTypes := by
        simp only [exportedBy, Bool.and_eq_false_iff, Bool.not_eq_false',
          decide_eq_false_iff_not] at hexp'
        exact hexp'
      have hcands : compsegCandidatesOf exportSubGridIntersections exportCompletionTypes
          ((c :: rest).map (fun c => (segment, c))) =
          compsegCandidatesOf exportSubGridIntersections exportCompletionTypes
            (rest.map (fun c => (segment, c))) := by
        simp [compsegCandidatesOf, List.filter_cons, hexp']
      have hany : ((c :: rest).map (fun c => (segment, c))).any
          (fun p => exportedBy exportCompletionTypes p.2) =
          (rest.map (fun c => (segment, c))).any
            (fun p => exportedBy exportCompletionTypes p.2) := by
        simp [hexp']
      rw [hcands, hany, generateCompsegTable.completionLoop, if_pos hskip]
      exact ih state

theorem generateCompsegTable_segmentLoop_refines (exportInfo : RicMswExportInfo)
    (exportSubGridIntersections : Bool) (exportCompletionTypes : List CompletionType)
    (segments : List RicMswSegment) (state : CompsegState) :
    CompsegRefines
      (compsegCandidatesOf exportSubGridIntersections exportCompletionTypes
        (segments.flatMap (fun segment => segment.completions.map (fun c => (segment, c)))))
      ((segments.flatMap (fun segment => segment.completions.map (fun c => (segment, c)))).any
        (fun p => exportedBy exportCompletionTypes p.2))
      state
      (generateCompsegTable.segmentLoop exportInfo exportSubGridIntersections
        exportCompletionTypes segments state) := by
  induction segments generalizing state with
  | nil =>
    simpa [generateCompsegTable.segmentLoop, compsegCandidatesOf] using
      compsegRefines_nil state
  | cons seg rest ih =>
    rw [List.flatMap_cons, compsegCandidatesOf_append, List.any_append,
      generateCompsegTable.segmentLoop]
    exact compsegRefines_append
      (generateCompsegTable_completionLoop_refines exportInfo exportSubGridIntersections
        exportCompletionTypes seg seg.completions state)
      (ih _)

mutual

theorem generateCompsegTable_refines (exportInfo : RicMswExportInfo)
    (exportSubGridIntersections : Bool) (exportCompletionTypes : List CompletionType) :
    ∀ (branch : RicMswBranch) (state : CompsegState),
      CompsegRefines
        (compsegCandidatesOf exportSubGridIntersections exportCompletionTypes
          (allCompletions branch))
        ((allCompletions branch).any (fun p => exportedBy exportCompletionTypes p.2))
        state
        (generateCompsegTable exportInfo exportSubGridIntersections exportCompletionTypes
          branch state)
  | RicMswBranch.mk _ segments branches, state => by
    rw [allCompletions, compsegCandidatesOf_append, List.any_append, generateCompsegTable]
    exact compsegRefines_append
      (generateCompsegTable_segmentLoop_refines exportInfo exportSubGridIntersections
        exportCompletionTypes segments state)
      (generateCompsegChildBranches_refines exportInfo exportSubGridIntersections
        exportCompletionTypes branches _)

theorem generateCompsegChildBranches_refines (exportInfo : RicMswExportInfo)
    (exportSubGridIntersections : Bool) (exportCompletionTypes : List CompletionType) :
    ∀ (branches : List RicMswBranch) (state : CompsegState),
      CompsegRefines
        (compsegCandidatesOf exportSubGridIntersections exportCompletionTypes
          (allCompletionsOfBranches branches))
        ((allCompletionsOfBranches branches).any
          (fun p => exportedBy exportCompletionTypes p.2))
        state
        (generateCompsegChildBranches exportInfo exportSubGridIntersections
          exportCompletionTypes branches state)
  | [], state => by
    simpa [generateCompsegChildBranches, allCompletionsOfBranches, compsegCandidatesOf] using
      compsegRefines_nil state
  | branch :: rest, state => by
    rw [allCompletionsOfBranches, compsegCandidatesOf_append, List.any_append,
      generateCompsegChildBranches]
    exact compsegRefines_append
      (generateCompsegTable_refines exportInfo exportSubGridIntersections
        exportCompletionTypes branch state)
      (generateCompsegChildBranches_refines exportInfo exportSubGridIntersections
        exportCompletionTypes rest _)

end

theorem generateCompsegTables_block_refines (exportInfo : RicMswExportInfo)
    (exportCompletionTypes : List CompletionType) (state : CompsegState) :
    CompsegRefines (compsegCandidatesOfBlock exportInfo exportCompletionTypes)
      ((allCompletions exportInfo.mainBoreBranch).any
        (fun p => exportedBy exportCompletionTypes p.2))
      state (generateCompsegTables.block exportInfo exportCompletionTypes state) := by
  have h1 := generateCompsegTable_refines exportInfo false exportCompletionTypes
    exportInfo.mainBoreBranch state
  unfold generateCompsegTables.block compsegCandidatesOfBlock
  by_cases hsub : exportInfo.hasSubGridIntersections = true
  · have h2 := generateCompsegTable_refines exportInfo true exportCompletionTypes
      exportInfo.mainBoreBranch
      (generateCompsegTable exportInfo false exportCompletionTypes exportInfo.mainBoreBranch
        state).1
    have h := compsegRefines_append h1 h2
    rw [Bool.or_self] at h
    simpa [hsub] using h
  · simpa [hsub] using h1

theorem exportedBy_append (a b : List CompletionType) (completion : RicMswCompletion) :
    exportedBy (a ++ b) completion = (exportedBy a completion || exportedBy b completion) := by
  simp only [exportedBy, List.mem_append, Bool.decide_or]
  cases (!completion.segments.isEmpty) <;> simp

theorem any_exportedBy_append (a b : List CompletionType)
    (l : List (RicMswSegment × RicMswCompletion)) :
    l.any (fun p => exportedBy (a ++ b) p.2) =
      (l.any (fun p => exportedBy a p.2) || l.any (fun p => exportedBy b p.2)) := by
  induction l with
  | nil => rfl
  | cons p rest ih =>
    rw [List.any_cons, List.any_cons, List.any_cons, ih, exportedBy_append]
    generalize exportedBy a p.2 = b1
    generalize exportedBy b p.2 = b2
    generalize List.any rest (fun p => exportedBy a p.2) = b3
    generalize List.any rest (fun p => exportedBy b p.2) = b4
    cases b1 <;> cases b2 <;> cases b3 <;> cases b4 <;> rfl

/-- The whole call refines the candidates of the whole call, from the empty state. -/
theorem generateCompsegTables_refines (exportInfo : RicMswExportInfo) :
    ∃ after : CompsegState × List FormatterEvent,
      CompsegRefines (compsegCandidates exportInfo)
        ((allCompletions exportInfo.mainBoreBranch).any
          (fun p => exportedBy (perforationTypes ++ fishbonesTypes ++ fractureTypes) p.2))
        { headerGenerated := false, intersectedCells := [] } after ∧
      generateCompsegTables exportInfo =
        after.2 ++ (if after.1.headerGenerated then [FormatterEvent.tableCompleted] else []) := by
  have h1 := generateCompsegTables_block_refines exportInfo perforationTypes
    { headerGenerated := false, intersectedCells := [] }
  have h2 := generateCompsegTables_block_refines exportInfo fishbonesTypes
    (generateCompsegTables.block exportInfo perforationTypes
      { headerGenerated := false, intersectedCells := [] }).1
  have h3 := generateCompsegTables_block_refines exportInfo fractureTypes
    (generateCompsegTables.block exportInfo fishbonesTypes
      (generateCompsegTables.block exportInfo perforationTypes
        { headerGenerated := false, intersectedCells := [] }).1).1
  have h := compsegRefines_append (compsegRefines_append h1 h2) h3
  have hany : (allCompletions exportInfo.mainBoreBranch).any
      (fun p => exportedBy (perforationTypes ++ fishbonesTypes ++ fractureTypes) p.2) =
      (((allCompletions exportInfo.mainBoreBranch).any
          (fun p => exportedBy perforationTypes p.2) ||
        (allCompletions exportInfo.mainBoreBranch).any
          (fun p => exportedBy fishbonesTypes p.2)) ||
        (allCompletions exportInfo.mainBoreBranch).any
          (fun p => exportedBy fractureTypes p.2)) := by
    rw [any_exportedBy_append, any_exportedBy_append]
  rw [← hany] at h
  exact ⟨_, h, rfl⟩

theorem compsegKeyed_candidates (exportInfo : RicMswExportInfo) :
    CompsegKeyed (compsegCandidates exportInfo) := by
  have hblock : ∀ types, CompsegKeyed (compsegCandidatesOfBlock exportInfo types) := by
    intro types
    unfold compsegCandidatesOfBlock
    apply compsegKeyed_append (compsegKeyed_of _ _ _)
    split_ifs
    · exact compsegKeyed_of _ _ _
    · intro p hp
      simp at hp
  exact compsegKeyed_append (compsegKeyed_append (hblock _) (hblock _)) (hblock _)

theorem compsegDataRows_generateCompsegTables (exportInfo : RicMswExportInfo) :
    compsegDataRows (generateCompsegTables exportInfo) =
      (keepFirstVisits [] (compsegCandidates exportInfo)).2.map Prod.snd := by
  obtain ⟨after, ⟨_, hrows, _, _⟩, heq⟩ := generateCompsegTables_refines exportInfo
  rw [heq, compsegDataRows_append, hrows]
  split_ifs <;> simp [compsegDataRows, rowsOf]

theorem oneBased_injective : Function.Injective oneBased := by
  intro a b h
  obtain ⟨a1, a2, a3⟩ := a
  obtain ⟨b1, b2, b3⟩ := b
  simp only [oneBased, Prod.mk.injEq, Nat.cast_inj, Nat.add_right_cancel_iff] at h
  simp [h]

/-- C5: within one call of `generateCompsegTables` the data rows are exactly the first visits:
going through the intersections that the passes look at in generation order
(`compsegCandidates`), an intersection writes its row if and only if no earlier one had the
same (I,J,K); in particular no two data rows carry the same cell index. -/
theorem generateCompsegTables_first_visit_only (exportInfo : RicMswExportInfo) :
    compsegDataRows (generateCompsegTables exportInfo) =
        (keepFirstVisits [] (compsegCandidates exportInfo)).2.map Prod.snd ∧
      ((compsegDataRows (generateCompsegTables exportInfo)).map rowCellIndex).Nodup := by
  refine ⟨compsegDataRows_generateCompsegTables exportInfo, ?_⟩
  rw [compsegDataRows_generateCompsegTables]
  have hkeyed : CompsegKeyed (keepFirstVisits [] (compsegCandidates exportInfo)).2 :=
    fun p hp => compsegKeyed_candidates exportInfo p (keepFirstVisits_subset _ _ p hp)
  have hmap : ((keepFirstVisits [] (compsegCandidates exportInfo)).2.map Prod.snd).map
      rowCellIndex =
      ((keepFirstVisits [] (compsegCandidates exportInfo)).2.map Prod.fst).map
        (fun k => some (oneBased k)) := by
    rw [List.map_map, List.map_map]
    apply List.map_congr_left
    intro p hp
    exact hkeyed p hp
  rw [hmap]
  apply List.Nodup.map _ (keepFirstVisits_nodup [] _).1
  intro a b h
  exact oneBased_injective (Option.some.inj h)

/-- The generation order at work on `Sample.sharedCells` with sub-grid intersections: the
perforation passes come first and write (1,2,3), (1,2,4) and the sub-grid cell (7,7,7); the
fracture, visited later, writes nothing for its two intersections with index (1,2,3). -/
theorem generateCompsegTables_sharedCells :
    (compsegDataRows (generateCompsegTables
        (Sample.exportOf Sample.sharedCells "INC" true))).map rowCellIndex =
      [some (2, 3, 4), some (2, 3, 5), some (8, 8, 8)] := by
  decide!

theorem mem_compsegCandidates (exportInfo : RicMswExportInfo)
    (p : RicMswSegment × RicMswCompletion) (subSegment : RicMswSegmentData)
    (x : RicMswSegmentCellIntersection)
    (hp : p ∈ allCompletions exportInfo.mainBoreBranch)
    (htype : p.2.completionType ∈ perforationTypes ++ fishbonesTypes ++ fractureTypes)
    (hsub : subSegment ∈ p.2.segments) (hx : x ∈ subSegment.intersections)
    (hgrid : x.gridName = "" ∨ exportInfo.hasSubGridIntersections = true) :
    ∃ q ∈ compsegCandidates exportInfo, q.1 = x.gridLocalCellIJK := by
  have hne : p.2.segments.isEmpty = false := by
    cases hs : p.2.segments with
    | nil => rw [hs] at hsub; simp at hsub
    | cons a l => rfl
  have hpass : ∀ types, p.2.completionType ∈ types →
      ∃ q ∈ compsegCandidatesOfBlock exportInfo types, q.1 = x.gridLocalCellIJK := by
    intro types ht
    have hexp : exportedBy types p.2 = true := by
      simp [exportedBy, hne, ht]
    have hin : ∀ sub : Bool, (!decide (x.gridName = "")) = sub →
        (x.gridLocalCellIJK, compsegRow sub p.1 p.2 subSegment x) ∈
          compsegCandidatesOf sub types (allCompletions exportInfo.mainBoreBranch) := by
      intro sub hsubgrid
      simp only [compsegCandidatesOf, List.mem_flatMap, List.mem_filter]
      refine ⟨p, ⟨hp, hexp⟩, ?_⟩
      simp only [compsegCandidatesOfCompletion, List.mem_flatMap, List.mem_map,
        List.mem_filter]
      exact ⟨subSegment, hsub, x, ⟨hx, by simp [hsubgrid]⟩, rfl⟩
    unfold compsegCandidatesOfBlock
    by_cases hmain : x.gridName = ""
    · exact ⟨_, List.mem_append_left _ (hin false (by simp [hmain])), rfl⟩
    · have hhas : exportInfo.hasSubGridIntersections = true := by
        rcases hgrid with h | h
        · exact absurd h hmain
        · exact h
      refine ⟨(x.gridLocalCellIJK, compsegRow true p.1 p.2 subSegment x),
        List.mem_append_right _ ?_, rfl⟩
      rw [if_pos hhas]
      exact hin true (by simp [hmain])
  unfold compsegCandidates
  rcases List.mem_append.mp htype with h | h
  · rcases List.mem_append.mp h with h | h
    · obtain ⟨q, hq, hk⟩ := hpass _ h
      exact ⟨q, List.mem_append_left _ (List.mem_append_left _ hq), hk⟩
    · obtain ⟨q, hq, hk⟩ := hpass _ h
      exact ⟨q, List.mem_append_left _ (List.mem_append_right _ hq), hk⟩
  · obtain ⟨q, hq, hk⟩ := hpass _ h
    exact ⟨q, List.mem_append_right _ hq, hk⟩

/-- C6: for every completion of the tree (attached to a segment of any branch) whose type is a
perforation, fishbone or fracture type, and for every intersection of one of its sub-segments
that lies in the main grid, or in any grid when the export info has sub-grid intersections,
some data row written by `generateCompsegTables` carries the one-based (I,J,K) of that
intersection. -/
theorem generateCompsegTables_covers (exportInfo : RicMswExportInfo)
    (p : RicMswSegment × RicMswCompletion) (subSegment : RicMswSegmentData)
    (x : RicMswSegmentCellIntersection)
    (hp : p ∈ allCompletions exportInfo.mainBoreBranch)
    (htype : p.2.completionType ∈ perforationTypes ++ fishbonesTypes ++ fractureTypes)
    (hsub : subSegment ∈ p.2.segments) (hx : x ∈ subSegment.intersections)
    (hgrid : x.gridName = "" ∨ exportInfo.hasSubGridIntersections = true) :
    ∃ row ∈ compsegDataRows (generateCompsegTables exportInfo),
      rowCellIndex row = some (oneBased x.gridLocalCellIJK) := by
  obtain ⟨q, hq, hk⟩ := mem_compsegCandidates exportInfo p subSegment x hp htype hsub hx hgrid
  have hseen := keepFirstVisits_covers [] (compsegCandidates exportInfo) q hq
  rw [keepFirstVisits_seen] at hseen
  rcases hseen with hseen | hseen
  · simp at hseen
  · obtain ⟨kept, hkept, hkeptKey⟩ := List.mem_map.mp hseen
    refine ⟨kept.2, ?_, ?_⟩
    · rw [compsegDataRows_generateCompsegTables]
      exact List.mem_map.mpr ⟨kept, hkept, rfl⟩
    · rw [compsegKeyed_candidates exportInfo kept (keepFirstVisits_subset _ _ kept hkept),
        hkeptKey, hk]

/-- Witness of C6: the intersection of the fracture of `Sample.sharedCells` with the cell
(1,2,3) of the sub-grid `LGR1`, in an export with sub-grid intersections. -/
theorem generateCompsegTables_covers_witness :
    (Sample.sharedCellsSegment, Sample.sharedCellsFracture) ∈
        allCompletions (Sample.exportOf Sample.sharedCells "INC" true).mainBoreBranch ∧
      Sample.sharedCellsFracture.completionType ∈
        perforationTypes ++ fishbonesTypes ++ fractureTypes ∧
      Sample.sharedCellsFractureSegment ∈ Sample.sharedCellsFracture.segments ∧
      (⟨"LGR1", (1, 2, 3)⟩ : RicMswSegmentCellIntersection) ∈
        Sample.sharedCellsFractureSegment.intersections ∧
      ((⟨"LGR1", (1, 2, 3)⟩ : RicMswSegmentCellIntersection).gridName = "" ∨
        (Sample.exportOf Sample.sharedCells "INC" true).hasSubGridIntersections = true) ∧
      ∃ row ∈ compsegDataRows (generateCompsegTables
          (Sample.exportOf Sample.sharedCells "INC" true)),
        rowCellIndex row =
          some (oneBased (⟨"LGR1", (1, 2, 3)⟩ : RicMswSegmentCellIntersection).gridLocalCellIJK) :=
  have hp : (Sample.sharedCellsSegment, Sample.sharedCellsFracture) ∈
      allCompletions (Sample.exportOf Sample.sharedCells "INC" true).mainBoreBranch :=
    List.mem_cons_self _ _
  have htype : Sample.sharedCellsFracture.completionType ∈
      perforationTypes ++ fishbonesTypes ++ fractureTypes := by decide
  have hsub : Sample.sharedCellsFractureSegment ∈ Sample.sharedCellsFracture.segments :=
    List.mem_cons_self _ _
  have hx : (⟨"LGR1", (1, 2, 3)⟩ : RicMswSegmentCellIntersection) ∈
      Sample.sharedCellsFractureSegment.intersections := by decide
  ⟨hp, htype, hsub, hx, Or.inr rfl,
    generateCompsegTables_covers _ _ _ _ hp htype hsub hx (Or.inr rfl)⟩

/-- C7 (counterexample): the fracture of `Sample.fractureOnMainBore` has a sub-segment without
intersections. No data row is written, yet the keyword, the header with the well record and the
table-completed marker are. -/
theorem generateCompsegTables_header_without_rows :
    compsegDataRows (generateCompsegTables
        (Sample.exportOf Sample.fractureOnMainBore "INC" false)) = [] ∧
      generateCompsegTables (Sample.exportOf Sample.fractureOnMainBore "INC" false) =
        [FormatterEvent.keyword "COMPSEGS", FormatterEvent.comment "Fractures",
          FormatterEvent.header ["Name"], FormatterEvent.rowCompleted [Cell.text "WELL"],
          FormatterEvent.header
            ["I", "J", "K", "Branch no", "Start Length", "End Length", "Dir Pen", "End Range",
              "Connection Depth"],
          FormatterEvent.tableCompleted] := by
  decide!

/-- C7 (as amended): `generateCompsegTables` writes nothing at all (no keyword, no header, no
table-completed marker) exactly when no completion of the tree has both a sub-segment and a
perforation, fishbone or fracture type. The header is written for the first such completion,
whether or not a data row follows. -/
theorem generateCompsegTables_eq_nil_iff (exportInfo : RicMswExportInfo) :
    generateCompsegTables exportInfo = [] ↔
      ∀ p ∈ allCompletions exportInfo.mainBoreBranch,
        p.2.segments = [] ∨
          p.2.completionType ∉ perforationTypes ++ fishbonesTypes ++ fractureTypes := by
  obtain ⟨after, ⟨_, _, hheader, hnil⟩, heq⟩ := generateCompsegTables_refines exportInfo
  have hiff : (allCompletions exportInfo.mainBoreBranch).any
      (fun p => exportedBy (perforationTypes ++ fishbonesTypes ++ fractureTypes) p.2) = false ↔
      ∀ p ∈ allCompletions exportInfo.mainBoreBranch,
        p.2.segments = [] ∨
          p.2.completionType ∉ perforationTypes ++ fishbonesTypes ++ fractureTypes := by
    rw [List.any_eq_false]
    apply forall₂_congr
    intro p _
    simp only [exportedBy, Bool.and_eq_true, Bool.not_eq_true', decide_eq_true_eq, not_and,
      List.isEmpty_eq_false, ne_eq]
    tauto
  rw [← hiff, heq]
  constructor
  · intro h
    have hflag : after.1.headerGenerated = false := by
      cases hh : after.1.headerGenerated with
      | false => rfl
      | true => rw [hh] at h; simp at h
    rw [hheader] at hflag
    simpa using hflag
  · intro h
    rw [hnil h, hheader, h]
    rfl

/-! ## WSEGVALV -/

/-- C11 (the code at a failing input): `Sample.invalidThenValidValve` carries an invalid
perforation ICD and then a valid perforation ICV. WELSEGS (maximum length 100) skips the invalid
valve, whose sub-segment keeps the number -1, and gives the valid valve the number 3. WSEGVALV,
run on the tree that WELSEGS leaves, does not look at the validity flag and writes a row for
both valves, the first with segment number -1; the claim says that only the second row is
written. -/
theorem generateWsegvalvTable_invalid_valve_row :
    (generateWelsegsTable (Sample.exportOf Sample.invalidThenValidValve "INC" false) 100).map
        (fun r => rowsOf (generateWsegvalvTable r.1)) =
      some
        [[Cell.text "WELL", Cell.int (-1), Cell.num (7 / 10), Cell.formatted (1 / 2000) 8 4],
          [Cell.text "WELL", Cell.int 3, Cell.num (7 / 10), Cell.formatted (1 / 2000) 8 4]] := by
  decide!

/-! ## WSEGAICD -/

/-- C12 (the code at a failing input): in `Sample.aicdOnLateral` the only AICD, valid and with
one sub-segment, sits on a lateral. WELSEGS (maximum length 100) writes its valve segment as
row 4, but `generateWsegAicdTable` walks the segments of the main bore only and writes nothing
at all; the claim says that one WSEGAICD row is written. -/
theorem generateWsegAicdTable_lateral_device_missing :
    (generateWelsegsTable (Sample.exportOf Sample.aicdOnLateral "INC" false) 100).map
        (fun r => ((welsegsDataRows r.2).map firstColumn, generateWsegAicdTable r.1)) =
      some ([some 2, some 3, some 4], []) := by
  decide!

theorem rowsOf_wsegAicdHeader : rowsOf wsegAicdHeader = [] := by
  decide!

theorem rowsOf_wsegAicd_completionLoop (exportInfo : RicMswExportInfo)
    (completions : List RicMswCompletion) (foundValve : Bool) :
    rowsOf (generateWsegAicdTable.completionLoop exportInfo completions foundValve).2 =
      wsegAicdRowsOf exportInfo completions := by
  induction completions generalizing foundValve with
  | nil => rfl
  | cons c rest ih =>
    have hcons : wsegAicdRowsOf exportInfo (c :: rest) =
        wsegAicdRowsOf exportInfo [c] ++ wsegAicdRowsOf exportInfo rest := by
      simp [wsegAicdRowsOf, List.flatMap_cons]
    rw [hcons, generateWsegAicdTable.completionLoop]
    by_cases htype : c.completionType = CompletionType.PERFORATION_AICD
    · by_cases hvalid : c.isValid = true
      · rw [if_pos htype, if_pos hvalid]
        have hheader : rowsOf (if foundValve = false then wsegAicdHeader else []) = [] := by
          split_ifs
          · exact rowsOf_wsegAicdHeader
          · rfl
        simp only [rowsOf_append, hheader, ih, List.nil_append]
        congr 1
        simp only [wsegAicdRowsOf, List.flatMap_cons, List.flatMap_nil, List.append_nil,
          htype, hvalid, and_self, if_true, generateWsegAicdTable.deviceEvents]
        cases c.segments <;> rfl
      · rw [if_pos htype, if_neg hvalid, ih]
        simp [wsegAicdRowsOf, hvalid]
    · rw [if_neg htype, ih]
      simp [wsegAicdRowsOf, htype]

theorem wsegAicdRowsOf_append (exportInfo : RicMswExportInfo)
    (a b : List RicMswCompletion) :
    wsegAicdRowsOf exportInfo (a ++ b) =
      wsegAicdRowsOf exportInfo a ++ wsegAicdRowsOf exportInfo b := by
  simp [wsegAicdRowsOf, List.flatMap_append]

theorem rowsOf_wsegAicd_segmentLoop (exportInfo : RicMswExportInfo)
    (segments : List RicMswSegment) (foundValve : Bool) :
    rowsOf (generateWsegAicdTable.segmentLoop exportInfo segments foundValve).2 =
      wsegAicdRowsOf exportInfo (segments.flatMap (fun segment => segment.completions)) := by
  induction segments generalizing foundValve with
  | nil => rfl
  | cons seg rest ih =>
    rw [generateWsegAicdTable.segmentLoop, List.flatMap_cons, wsegAicdRowsOf_append]
    simp only [rowsOf_append, rowsOf_wsegAicd_completionLoop, ih]

theorem rowsOf_generateWsegAicdTable (exportInfo : RicMswExportInfo) :
    rowsOf (generateWsegAicdTable exportInfo) =
      wsegAicdRowsOf exportInfo (mainBoreCompletions exportInfo) := by
  rw [generateWsegAicdTable, rowsOf_append, rowsOf_wsegAicd_segmentLoop, mainBoreCompletions]
  split_ifs <;> simp [rowsOf]

/-- C13: the data rows of `generateWsegAicdTable` are the rows of the valid AICDs with a
sub-segment on the main bore, in visiting order. An AICD whose validity flag is false
contributes no row and does not stop the walk: the rows are those of the completions before it
followed by those of the completions after it. -/
theorem generateWsegAicdTable_skips_invalid (exportInfo : RicMswExportInfo) :
    rowsOf (generateWsegAicdTable exportInfo) =
        wsegAicdRowsOf exportInfo (mainBoreCompletions exportInfo) ∧
      ∀ (pre post : List RicMswCompletion) (aicd : RicMswCompletion),
        mainBoreCompletions exportInfo = pre ++ aicd :: post → aicd.isValid = false →
        rowsOf (generateWsegAicdTable exportInfo) =
          wsegAicdRowsOf exportInfo pre ++ wsegAicdRowsOf exportInfo post := by
  refine ⟨rowsOf_generateWsegAicdTable exportInfo, ?_⟩
  intro pre post aicd hsplit hinvalid
  have hcons : aicd :: post = [aicd] ++ post := rfl
  rw [rowsOf_generateWsegAicdTable, hsplit, hcons, wsegAicdRowsOf_append,
    wsegAicdRowsOf_append]
  have hnone : wsegAicdRowsOf exportInfo [aicd] = [] := by
    simp [wsegAicdRowsOf, hinvalid]
  rw [hnone, List.nil_append]

/-- Witness of C13: `Sample.invalidThenValidAicd`, an invalid AICD followed by a valid one on
the main bore. -/
theorem generateWsegAicdTable_skips_invalid_witness :
    mainBoreCompletions (Sample.exportOf Sample.invalidThenValidAicd "INC" false) =
        [] ++ Sample.valve CompletionType.PERFORATION_AICD false [Sample.subSegment 4 5 []] ::
          [Sample.valve CompletionType.PERFORATION_AICD true [Sample.subSegment 6 7 []]] ∧
      (Sample.valve CompletionType.PERFORATION_AICD false
        [Sample.subSegment 4 5 []]).isValid = false ∧
      rowsOf (generateWsegAicdTable (Sample.exportOf Sample.invalidThenValidAicd "INC" false)) =
        wsegAicdRowsOf (Sample.exportOf Sample.invalidThenValidAicd "INC" false) [] ++
          wsegAicdRowsOf (Sample.exportOf Sample.invalidThenValidAicd "INC" false)
            [Sample.valve CompletionType.PERFORATION_AICD true [Sample.subSegment 6 7 []]] :=
  ⟨rfl, rfl,
    (generateWsegAicdTable_skips_invalid
      (Sample.exportOf Sample.invalidThenValidAicd "INC" false)).2 _ _ _ rfl rfl⟩

/-- The rows of `Sample.invalidThenValidAicd` evaluated: one row, that of the valid device. -/
theorem generateWsegAicdTable_sample_rows :
    (rowsOf (generateWsegAicdTable
        (Sample.exportOf Sample.invalidThenValidAicd "INC" false))).map
        (fun row => (row.length, row.get? 1, row.get? 10, row.get? 14)) =
      [(21, some (Cell.int (-1)), some (Cell.int 1), some (Cell.text "OPEN"))] := by
  decide!

/-- C18: every data row of `generateWsegAicdTable` is the row of an AICD of the main bore with a
first sub-segment; it has exactly 21 fields, fields 2 and 3 are the segment number of that
first sub-segment, field 11 is the constant 1 and field 15 is `OPEN` or `SHUT` according to the
open flag of the device. -/
theorem generateWsegAicdTable_row_fields (exportInfo : RicMswExportInfo) :
    ∀ row ∈ rowsOf (generateWsegAicdTable exportInfo),
      ∃ aicd ∈ mainBoreCompletions exportInfo, ∃ firstSubSegment others,
        aicd.segments = firstSubSegment :: others ∧
        aicd.completionType = CompletionType.PERFORATION_AICD ∧
        row.length = 21 ∧
        row.get? 1 = some (Cell.int firstSubSegment.segmentNumber) ∧
        row.get? 2 = some (Cell.int firstSubSegment.segmentNumber) ∧
        row.get? 10 = some (Cell.int 1) ∧
        row.get? 14 = some (Cell.text (if aicd.isOpen then "OPEN" else "SHUT")) := by
  intro row hrow
  rw [rowsOf_generateWsegAicdTable, wsegAicdRowsOf, List.mem_flatMap] at hrow
  obtain ⟨aicd, hmem, hrow⟩ := hrow
  split_ifs at hrow with hcond
  · cases hsegs : aicd.segments with
    | nil => rw [hsegs] at hrow; simp at hrow
    | cons firstSubSegment others =>
      rw [hsegs] at hrow
      simp only [List.mem_singleton] at hrow
      subst hrow
      exact ⟨aicd, hmem, firstSubSegment, others, hsegs, hcond.1, rfl, rfl, rfl, rfl, rfl⟩
  · simp at hrow

/-- Witness of C18: the row of the valid device of `Sample.invalidThenValidAicd`. -/
theorem generateWsegAicdTable_row_fields_witness :
    wsegAicdRow (Sample.exportOf Sample.invalidThenValidAicd "INC" false)
          (Sample.valve CompletionType.PERFORATION_AICD true [Sample.subSegment 6 7 []])
          (Sample.subSegment 6 7 []) ∈
        rowsOf (generateWsegAicdTable
          (Sample.exportOf Sample.invalidThenValidAicd "INC" false)) ∧
      ∃ aicd ∈ mainBoreCompletions (Sample.exportOf Sample.invalidThenValidAicd "INC" false),
        ∃ firstSubSegment others,
          aicd.segments = firstSubSegment :: others ∧
          aicd.completionType = CompletionType.PERFORATION_AICD ∧
          (wsegAicdRow (Sample.exportOf Sample.invalidThenValidAicd "INC" false)
            (Sample.valve CompletionType.PERFORATION_AICD true [Sample.subSegment 6 7 []])
            (Sample.subSegment 6 7 [])).length = 21 ∧
          (wsegAicdRow (Sample.exportOf Sample.invalidThenValidAicd "INC" false)
            (Sample.valve CompletionType.PERFORATION_AICD true [Sample.subSegment 6 7 []])
            (Sample.subSegment 6 7 [])).get? 1 =
            some (Cell.int firstSubSegment.segmentNumber) ∧
          (wsegAicdRow (Sample.exportOf Sample.invalidThenValidAicd "INC" false)
            (Sample.valve CompletionType.PERFORATION_AICD true [Sample.subSegment 6 7 []])
            (Sample.subSegment 6 7 [])).get? 2 =
            some (Cell.int firstSubSegment.segmentNumber) ∧
          (wsegAicdRow (Sample.exportOf Sample.invalidThenValidAicd "INC" false)
            (Sample.valve CompletionType.PERFORATION_AICD true [Sample.subSegment 6 7 []])
            (Sample.subSegment 6 7 [])).get? 10 = some (Cell.int 1) ∧
          (wsegAicdRow (Sample.exportOf Sample.invalidThenValidAicd "INC" false)
            (Sample.valve CompletionType.PERFORATION_AICD true [Sample.subSegment 6 7 []])
            (Sample.subSegment 6 7 [])).get? 14 =
            some (Cell.text (if aicd.isOpen then "OPEN" else "SHUT")) :=
  have hmem : wsegAicdRow (Sample.exportOf Sample.invalidThenValidAicd "INC" false)
      (Sample.valve CompletionType.PERFORATION_AICD true [Sample.subSegment 6 7 []])
      (Sample.subSegment 6 7 []) ∈
      rowsOf (generateWsegAicdTable
        (Sample.exportOf Sample.invalidThenValidAicd "INC" false)) := by
    decide!
  ⟨hmem, generateWsegAicdTable_row_fields _ _ hmem⟩

/-! ## COMPSEGS: order and content of the rows -/

theorem compsegRowsFrom_kept (exportInfo : RicMswExportInfo)
    (exportSubGridIntersections : Bool) (exportCompletionTypes : List CompletionType)
    (seen : List (Nat × Nat × Nat)) :
    CompsegRowsFrom exportInfo exportSubGridIntersections exportCompletionTypes
      ((keepFirstVisits seen
        (compsegCandidatesOf exportSubGridIntersections exportCompletionTypes
          (allCompletions exportInfo.mainBoreBranch))).2.map Prod.snd) := by
  intro row hrow
  obtain ⟨q, hq, rfl⟩ := List.mem_map.mp hrow
  have hcand := keepFirstVisits_subset _ _ q hq
  simp only [compsegCandidatesOf, List.mem_flatMap, List.mem_filter] at hcand
  obtain ⟨p, ⟨hp, hexp⟩, hqp⟩ := hcand
  simp only [compsegCandidatesOfCompletion, List.mem_flatMap, List.mem_map,
    List.mem_filter] at hqp
  obtain ⟨ss, hss, x, ⟨hx, hgrid⟩, rfl⟩ := hqp
  refine ⟨p, hp, ss, hss, x, hx, ?_, ?_, rfl⟩
  · simp only [exportedBy, Bool.and_eq_true, decide_eq_true_eq] at hexp
    exact hexp.2
  · cases exportSubGridIntersections <;> simpa using hgrid

theorem compsegRowsFrom_nil (exportInfo : RicMswExportInfo)
    (exportSubGridIntersections : Bool) (exportCompletionTypes : List CompletionType) :
    CompsegRowsFrom exportInfo exportSubGridIntersections exportCompletionTypes [] := by
  intro row hrow
  simp at hrow

theorem compsegRows_block (exportInfo : RicMswExportInfo)
    (exportCompletionTypes : List CompletionType) (seen : List (Nat × Nat × Nat)) :
    ∃ mainRows subRows,
      (keepFirstVisits seen (compsegCandidatesOfBlock exportInfo exportCompletionTypes)).2.map
          Prod.snd = mainRows ++ subRows ∧
        CompsegRowsFrom exportInfo false exportCompletionTypes mainRows ∧
        CompsegRowsFrom exportInfo true exportCompletionTypes subRows := by
  unfold compsegCandidatesOfBlock
  rw [keepFirstVisits_append, List.map_append]
  refine ⟨_, _, rfl, compsegRowsFrom_kept exportInfo false exportCompletionTypes seen, ?_⟩
  split_ifs
  · exact compsegRowsFrom_kept exportInfo true exportCompletionTypes _
  · simpa [keepFirstVisits] using compsegRowsFrom_nil exportInfo true exportCompletionTypes

/-- C14: the data rows of `generateCompsegTables` are six consecutive blocks: the main-grid
rows of the perforation types, their sub-grid rows, the main-grid rows of the fishbone types,
their sub-grid rows, the main-grid rows of the fracture type and its sub-grid rows. So every
row of a perforation-type completion precedes every row of a fishbone-type completion, which
precedes every fracture row, and within a category the main-grid rows come first. -/
theorem generateCompsegTables_block_order (exportInfo : RicMswExportInfo) :
    ∃ perforationMain perforationSub fishbonesMain fishbonesSub fractureMain fractureSub,
      compsegDataRows (generateCompsegTables exportInfo) =
          perforationMain ++ perforationSub ++ (fishbonesMain ++ fishbonesSub) ++
            (fractureMain ++ fractureSub) ∧
        CompsegRowsFrom exportInfo false perforationTypes perforationMain ∧
        CompsegRowsFrom exportInfo true perforationTypes perforationSub ∧
        CompsegRowsFrom exportInfo false fishbonesTypes fishbonesMain ∧
        CompsegRowsFrom exportInfo true fishbonesTypes fishbonesSub ∧
        CompsegRowsFrom exportInfo false fractureTypes fractureMain ∧
        CompsegRowsFrom exportInfo true fractureTypes fractureSub := by
  rw [compsegDataRows_generateCompsegTables, compsegCandidates, keepFirstVisits_append,
    keepFirstVisits_append]
  simp only [List.map_append]
  obtain ⟨a1, a2, ha, ha1, ha2⟩ := compsegRows_block exportInfo perforationTypes []
  obtain ⟨b1, b2, hb, hb1, hb2⟩ := compsegRows_block exportInfo fishbonesTypes
    (keepFirstVisits [] (compsegCandidatesOfBlock exportInfo perforationTypes)).1
  obtain ⟨c1, c2, hc, hc1, hc2⟩ := compsegRows_block exportInfo fractureTypes
    (keepFirstVisits
      (keepFirstVisits [] (compsegCandidatesOfBlock exportInfo perforationTypes)).1
      (compsegCandidatesOfBlock exportInfo fishbonesTypes)).1
  exact ⟨a1, a2, b1, b2, c1, c2, by rw [ha, hb, hc], ha1, ha2, hb1, hb2, hc1, hc2⟩

/-- The blocks of C14 on `Sample.sharedCells` with sub-grid intersections: two main-grid
perforation rows, one sub-grid perforation row, and no fracture row. -/
theorem generateCompsegTables_sharedCells_rows :
    compsegDataRows (generateCompsegTables (Sample.exportOf Sample.sharedCells "INC" true)) =
      [[Cell.int 2, Cell.int 3, Cell.int 4, Cell.int 1, Cell.num 0, Cell.num 10],
        [Cell.int 2, Cell.int 3, Cell.int 5, Cell.int 1, Cell.num 0, Cell.num 10],
        [Cell.text "LGR1", Cell.int 8, Cell.int 8, Cell.int 8, Cell.int 1, Cell.num 0,
          Cell.num 10]] := by
  decide!

theorem compsegDataRows_provenance (exportInfo : RicMswExportInfo) :
    ∀ row ∈ compsegDataRows (generateCompsegTables exportInfo),
      ∃ (sub : Bool) (types : List CompletionType),
        CompsegRowsFrom exportInfo sub types [row] := by
  intro row hrow
  obtain ⟨a1, a2, b1, b2, c1, c2, hrows, ha1, ha2, hb1, hb2, hc1, hc2⟩ :
      ∃ a1 a2 b1 b2 c1 c2,
        compsegDataRows (generateCompsegTables exportInfo) =
            a1 ++ a2 ++ (b1 ++ b2) ++ (c1 ++ c2) ∧
          CompsegRowsFrom exportInfo false perforationTypes a1 ∧
          CompsegRowsFrom exportInfo true perforationTypes a2 ∧
          CompsegRowsFrom exportInfo false fishbonesTypes b1 ∧
          CompsegRowsFrom exportInfo true fishbonesTypes b2 ∧
          CompsegRowsFrom exportInfo false fractureTypes c1 ∧
          CompsegRowsFrom exportInfo true fractureTypes c2 := by
    rw [compsegDataRows_generateCompsegTables, compsegCandidates, keepFirstVisits_append,
      keepFirstVisits_append]
    simp only [List.map_append]
    obtain ⟨a1, a2, ha, ha1, ha2⟩ := compsegRows_block exportInfo perforationTypes []
    obtain ⟨b1, b2, hb, hb1, hb2⟩ := compsegRows_block exportInfo fishbonesTypes
      (keepFirstVisits [] (compsegCandidatesOfBlock exportInfo perforationTypes)).1
    obtain ⟨c1, c2, hc, hc1, hc2⟩ := compsegRows_block exportInfo fractureTypes
      (keepFirstVisits
        (keepFirstVisits [] (compsegCandidatesOfBlock exportInfo perforationTypes)).1
        (compsegCandidatesOfBlock exportInfo fishbonesTypes)).1
    exact ⟨a1, a2, b1, b2, c1, c2, by rw [ha, hb, hc], ha1, ha2, hb1, hb2, hc1, hc2⟩
  have hone : ∀ (sub : Bool) (types : List CompletionType) (rows : List (List Cell)),
      CompsegRowsFrom exportInfo sub types rows → row ∈ rows →
      ∃ (sub : Bool) (types : List CompletionType),
        CompsegRowsFrom exportInfo sub types [row] := by
    intro sub types rows hfrom hmem
    refine ⟨sub, types, ?_⟩
    intro r hr
    rw [List.mem_singleton] at hr
    subst hr
    exact hfrom r hmem
  rw [hrows] at hrow
  simp only [List.mem_append] at hrow
  rcases hrow with ((h | h) | (h | h)) | (h | h)
  · exact hone _ _ _ ha1 h
  · exact hone _ _ _ ha2 h
  · exact hone _ _ _ hb1 h
  · exact hone _ _ _ hb2 h
  · exact hone _ _ _ hc1 h
  · exact hone _ _ _ hc2 h

/-- C15: every COMPSEGS data row is the row of an intersection `x` of a sub-segment of a
completion attached to a segment of the tree. It carries, after the grid name of a sub-grid
pass, the one-based cell index, the branch number of the completion, and as start and end
length the start and end MD of the parent segment when the completion type is
`PERFORATION_ICD`, `PERFORATION_ICV` or `PERFORATION_AICD`, and those of the intersected
sub-segment for every other type. -/
theorem generateCompsegTables_row_content (exportInfo : RicMswExportInfo) :
    ∀ row ∈ compsegDataRows (generateCompsegTables exportInfo),
      ∃ p ∈ allCompletions exportInfo.mainBoreBranch, ∃ subSegment ∈ p.2.segments,
        ∃ x ∈ subSegment.intersections, ∃ gridCells : List Cell,
          (gridCells = [] ∨ gridCells = [Cell.text x.gridName]) ∧
          row = gridCells ++
            [Cell.int (x.gridLocalCellIJK.1 + 1 : Nat),
              Cell.int (x.gridLocalCellIJK.2.1 + 1 : Nat),
              Cell.int (x.gridLocalCellIJK.2.2 + 1 : Nat),
              Cell.int p.2.branchNumber,
              Cell.num
                (if p.2.completionType = CompletionType.PERFORATION_ICD ∨
                    p.2.completionType = CompletionType.PERFORATION_ICV ∨
                    p.2.completionType = CompletionType.PERFORATION_AICD then p.1.startMD
                  else subSegment.startMD),
              Cell.num
                (if p.2.completionType = CompletionType.PERFORATION_ICD ∨
                    p.2.completionType = CompletionType.PERFORATION_ICV ∨
                    p.2.completionType = CompletionType.PERFORATION_AICD then p.1.endMD
                  else subSegment.endMD)] := by
  intro row hrow
  obtain ⟨sub, types, hfrom⟩ := compsegDataRows_provenance exportInfo row hrow
  obtain ⟨p, hp, ss, hss, x, hx, _, _, hrowEq⟩ := hfrom row (List.mem_singleton.mpr rfl)
  refine ⟨p, hp, ss, hss, x, hx, if sub then [Cell.text x.gridName] else [], ?_, ?_⟩
  · cases sub
    · left; rfl
    · right; rfl
  · rw [hrowEq, compsegRow]
    have hvalve : isPerforationValve p.2.completionType = true ↔
        (p.2.completionType = CompletionType.PERFORATION_ICD ∨
          p.2.completionType = CompletionType.PERFORATION_ICV ∨
          p.2.completionType = CompletionType.PERFORATION_AICD) := by
      simp only [isPerforationValve, Bool.or_eq_true, decide_eq_true_eq]
      tauto
    by_cases h : isPerforationValve p.2.completionType = true
    · simp only [h, if_true, if_pos (hvalve.mp h)]
    · have h' : ¬ (p.2.completionType = CompletionType.PERFORATION_ICD ∨
          p.2.completionType = CompletionType.PERFORATION_ICV ∨
          p.2.completionType = CompletionType.PERFORATION_AICD) := fun hc => h (hvalve.mpr hc)
      simp [h, if_neg h']

/-- Witness of C15: the row of the perforation ICD of `Sample.icdWithCell`, whose sub-segment
runs from 150 to 151 on the segment 100-200, carries the lengths 100 and 200. -/
theorem generateCompsegTables_row_content_witness :
    [Cell.int 5, Cell.int 6, Cell.int 7, Cell.int 1, Cell.num 100, Cell.num 200] ∈
        compsegDataRows (generateCompsegTables
          (Sample.exportOf Sample.icdWithCell "INC" false)) ∧
      ∃ p ∈ allCompletions (Sample.exportOf Sample.icdWithCell "INC" false).mainBoreBranch,
        ∃ subSegment ∈ p.2.segments, ∃ x ∈ subSegment.intersections,
          ∃ gridCells : List Cell,
            (gridCells = [] ∨ gridCells = [Cell.text x.gridName]) ∧
            [Cell.int 5, Cell.int 6, Cell.int 7, Cell.int 1, Cell.num 100, Cell.num 200] =
              gridCells ++
                [Cell.int (x.gridLocalCellIJK.1 + 1 : Nat),
                  Cell.int (x.gridLocalCellIJK.2.1 + 1 : Nat),
                  Cell.int (x.gridLocalCellIJK.2.2 + 1 : Nat),
                  Cell.int p.2.branchNumber,
                  Cell.num
                    (if p.2.completionType = CompletionType.PERFORATION_ICD ∨
                        p.2.completionType = CompletionType.PERFORATION_ICV ∨
                        p.2.completionType = CompletionType.PERFORATION_AICD then
                      p.1.startMD
                    else subSegment.startMD),
                  Cell.num
                    (if p.2.completionType = CompletionType.PERFORATION_ICD ∨
                        p.2.completionType = CompletionType.PERFORATION_ICV ∨
                        p.2.completionType = CompletionType.PERFORATION_AICD then
                      p.1.endMD
                    else subSegment.endMD)] :=
  have hmem : [Cell.int 5, Cell.int 6, Cell.int 7, Cell.int 1, Cell.num 100, Cell.num 200] ∈
      compsegDataRows (generateCompsegTables
        (Sample.exportOf Sample.icdWithCell "INC" false)) := by
    decide!
  ⟨hmem, generateCompsegTables_row_content _ _ hmem⟩

/-! ## WELSEGS: completions without sub-segments, chained rows, tie-in ICV branches -/

/-- C16 (the code at two failing inputs, maximum segment length 100): a valid per-segment valve
without sub-segments (`Sample.valveWithoutSegments`) and a valid tie-in ICV without segments
(`Sample.tieInWithoutSegments`). `writeValveWelsegsSegment` takes `segments.front()` without
testing for emptiness, so `generateWelsegsTable` has no defined result, while the claim says
that it completes. The other generators do test: on the first tree WSEGVALV writes its header
and no row, and COMPSEGS and WSEGAICD write nothing. -/
theorem generateWelsegsTable_valve_without_segments :
    (generateWelsegsTable
        (Sample.exportOf Sample.valveWithoutSegments "INC" false) 100).isSome = false ∧
      (generateWelsegsTable
        (Sample.exportOf Sample.tieInWithoutSegments "INC" false) 100).isSome = false ∧
      generateWsegvalvTable (Sample.exportOf Sample.valveWithoutSegments "INC" false) =
        [FormatterEvent.keyword "WSEGVALV",
          FormatterEvent.header ["Well Name", "Seg No", "Cv", "Ac"],
          FormatterEvent.tableCompleted] ∧
      generateCompsegTables (Sample.exportOf Sample.valveWithoutSegments "INC" false) = [] ∧
      generateWsegAicdTable (Sample.exportOf Sample.valveWithoutSegments "INC" false) = [] := by
  decide!

theorem chainedRows_append (segmentNumber outlet : Int) (a b : Nat) :
    chainedRows segmentNumber outlet (a + b) =
      chainedRows segmentNumber outlet a ++
        chainedRows (segmentNumber + a) (if a = 0 then outlet else segmentNumber + a - 1) b := by
  induction a generalizing segmentNumber outlet with
  | zero => simp [chainedRows]
  | succ a ih =>
    have e1 : segmentNumber + 1 + (a : Int) = segmentNumber + ((a + 1 : Nat) : Int) := by
      push_cast
      ring
    have e2 : (if a = 0 then segmentNumber else segmentNumber + ((a + 1 : Nat) : Int) - 1) =
        (if a + 1 = 0 then outlet else segmentNumber + ((a + 1 : Nat) : Int) - 1) := by
      rw [if_neg (Nat.succ_ne_zero a)]
      split_ifs with ha
      · subst ha
        simp
      · rfl
    rw [Nat.succ_add, chainedRows, chainedRows, ih, List.cons_append, e1, e2]

theorem chainedRows_eq_map (segmentNumber outlet : Int) (count : Nat) :
    chainedRows segmentNumber outlet count =
      (List.range count).map (fun (i : Nat) =>
        some (segmentNumber + (i : Int),
          if i = 0 then outlet else segmentNumber + (i : Int) - 1)) := by
  induction count generalizing segmentNumber outlet with
  | zero => rfl
  | succ count ih =>
    rw [chainedRows, ih, List.range_succ_eq_map, List.map_cons, List.map_map]
    simp only [Nat.cast_zero, add_zero, if_true, List.cons.injEq, true_and]
    apply List.map_congr_left
    intro i _
    simp only [Function.comp, Nat.succ_ne_zero, if_false, Nat.cast_succ, Option.some.injEq,
      Prod.mk.injEq]
    constructor
    · ring
    · split_ifs with h
      · subst h
        simp
      · ring

theorem writeCompletionWelsegsSegments_splitLoop_chained (exportInfo : RicMswExportInfo)
    (outletSegment : RicMswSegmentData) (completion : RicMswCompletion)
    (pairs : List (ℚ × ℚ)) (segmentNumber outletSegmentNumber : Int) :
    (writeCompletionWelsegsSegments.splitLoop exportInfo outletSegment completion pairs
        segmentNumber outletSegmentNumber).1 = segmentNumber + pairs.length ∧
      (writeCompletionWelsegsSegments.splitLoop exportInfo outletSegment completion pairs
        segmentNumber outletSegmentNumber).2.1 =
        (if pairs.length = 0 then outletSegmentNumber
          else segmentNumber + pairs.length - 1) ∧
      (rowsOf (writeCompletionWelsegsSegments.splitLoop exportInfo outletSegment completion
        pairs segmentNumber outletSegmentNumber).2.2).map numberAndOutletColumns =
        chainedRows segmentNumber outletSegmentNumber pairs.length := by
  induction pairs generalizing segmentNumber outletSegmentNumber with
  | nil => simp [writeCompletionWelsegsSegments.splitLoop, rowsOf, chainedRows]
  | cons p rest ih =>
    obtain ⟨a, b⟩ := p
    obtain ⟨h1, h2, h3⟩ := ih (segmentNumber + 1) segmentNumber
    simp only [writeCompletionWelsegsSegments.splitLoop, h1, h2, h3, rowsOf, List.map_cons,
      numberAndOutletColumns, List.length_cons, chainedRows, Nat.succ_ne_zero, if_false,
      and_true]
    refine ⟨?_, ?_⟩
    · push_cast
      ring
    · split_ifs with h
      · rw [h]
        push_cast
        ring
      · push_cast
        ring

theorem writeCompletionWelsegsSegments_segmentLoop_chained (exportInfo : RicMswExportInfo)
    (maxSegmentLength : ℚ) (outletSegment : RicMswSegmentData)
    (completion : RicMswCompletion) (segments : List RicMswSegmentData)
    (segmentNumber outletSegmentNumber : Int) :
    (writeCompletionWelsegsSegments.segmentLoop exportInfo maxSegmentLength outletSegment
        completion segments segmentNumber outletSegmentNumber).1 =
        segmentNumber +
          (segments.flatMap (fun s =>
            createSubSegmentMDPairs s.startMD s.endMD maxSegmentLength)).length ∧
      (writeCompletionWelsegsSegments.segmentLoop exportInfo maxSegmentLength outletSegment
        completion segments segmentNumber outletSegmentNumber).2.1 =
        (if (segments.flatMap (fun s =>
            createSubSegmentMDPairs s.startMD s.endMD maxSegmentLength)).length = 0 then
          outletSegmentNumber
        else segmentNumber +
          (segments.flatMap (fun s =>
            createSubSegmentMDPairs s.startMD s.endMD maxSegmentLength)).length - 1) ∧
      (rowsOf (writeCompletionWelsegsSegments.segmentLoop exportInfo maxSegmentLength
        outletSegment completion segments segmentNumber outletSegmentNumber).2.2).map
        numberAndOutletColumns =
        chainedRows segmentNumber outletSegmentNumber
          (segments.flatMap (fun s =>
            createSubSegmentMDPairs s.startMD s.endMD maxSegmentLength)).length := by
  induction segments generalizing segmentNumber outletSegmentNumber with
  | nil => simp [writeCompletionWelsegsSegments.segmentLoop, rowsOf, chainedRows]
  | cons seg rest ih =>
    obtain ⟨h1, h2, h3⟩ := writeCompletionWelsegsSegments_splitLoop_chained exportInfo
      outletSegment completion
      (createSubSegmentMDPairs seg.startMD seg.endMD maxSegmentLength) segmentNumber
      outletSegmentNumber
    simp only [writeCompletionWelsegsSegments.segmentLoop, List.flatMap_cons,
      List.length_append, rowsOf_append, List.map_append, ih, h1, h2, h3, chainedRows_append]
    generalize (createSubSegmentMDPairs seg.startMD seg.endMD maxSegmentLength).length = a
    generalize (rest.flatMap (fun s =>
      createSubSegmentMDPairs s.startMD s.endMD maxSegmentLength)).length = b
    refine ⟨?_, ?_, trivial⟩
    · push_cast
      ring
    · by_cases hb : b = 0
      · subst hb
        simp
      · have hab : a + b ≠ 0 := by omega
        simp only [hb, hab, if_false]
        push_cast
        ring

/-- C19: `writeCompletionWelsegsSegments` writes one row per split sub-interval of each
sub-segment of the completion, in order, and advances the counter by that many. The rows have
consecutive segment numbers starting at the counter; the outlet of the first row is the number
of the outlet segment passed in and the outlet of every later row, also across two
sub-segments, is the number of the row before it. -/
theorem writeCompletionWelsegsSegments_chained (exportInfo : RicMswExportInfo)
    (maxSegmentLength : ℚ) (outletSegment : RicMswSegmentData)
    (completion : RicMswCompletion) (segmentNumber : Int) :
    (writeCompletionWelsegsSegments exportInfo maxSegmentLength outletSegment completion
        segmentNumber).1 =
        segmentNumber +
          (completion.segments.flatMap (fun s =>
            createSubSegmentMDPairs s.startMD s.endMD maxSegmentLength)).length ∧
      (rowsOf (writeCompletionWelsegsSegments exportInfo maxSegmentLength outletSegment
        completion segmentNumber).2).map numberAndOutletColumns =
        (List.range
          (completion.segments.flatMap (fun s =>
            createSubSegmentMDPairs s.startMD s.endMD maxSegmentLength)).length).map
          (fun (i : Nat) =>
            some (segmentNumber + (i : Int),
              if i = 0 then outletSegment.segmentNumber
              else segmentNumber + (i : Int) - 1)) := by
  obtain ⟨h1, _, h3⟩ := writeCompletionWelsegsSegments_segmentLoop_chained exportInfo
    maxSegmentLength outletSegment completion completion.segments segmentNumber
    outletSegment.segmentNumber
  refine ⟨h1, ?_⟩
  rw [← chainedRows_eq_map, ← h3]
  simp only [writeCompletionWelsegsSegments, rowsOf_append,
    rowsOf_writeWelsegsCompletionCommentHeader, List.nil_append]
  split_ifs <;> simp [rowsOf]

/-- The chain of C19 on a fracture with the sub-segments 10-35 and 35-40, maximum segment
length 10, counter 7 and an outlet segment numbered 4: the first sub-segment is split into
three rows and the second into one. -/
theorem writeCompletionWelsegsSegments_sample_chain :
    (rowsOf (writeCompletionWelsegsSegments
        (Sample.exportOf Sample.fractureOnMainBore "INC" false) 10
        { Sample.subSegment 0 10 [] with segmentNumber := 4 }
        (Sample.fracture [Sample.subSegment 10 35 [], Sample.subSegment 35 40 []]) 7).2).map
        numberAndOutletColumns =
      [some (7, 4), some (8, 7), some (9, 8), some (10, 9)] := by
  decide!

/-- C20 (the code at a failing input, same defect as C1): the tie-in ICV branch
`Sample.longValveLateral`, entered with the counter at 3, maximum segment length 10 and an
outlet segment numbered 2. The valve rows come first and there is no plain row for the first
stored segment 5-30, but the valve segment is split into the rows 3, 4, 5 and the remaining
segment 30-35 is then numbered 4, the number of the first valve row plus one, not 6, the
number following the numbers consumed by the valve rows. -/
theorem writeWelsegsSegmentsRecursively_tieIn_next_number :
    (writeWelsegsSegmentsRecursively (Sample.exportOf Sample.tieInLongValve "INC" false) 10
        Sample.longValveLateral 3
        (some { Sample.subSegment 0 5 [] with segmentNumber := 2 })).map
        (fun r => (r.2.1, (rowsOf r.2.2).map numberAndOutletColumns)) =
      some (5, [some (3, 2), some (4, 2), some (5, 2), some (4, 3)]) := by
  decide!

/-! ## Segment splitting: the intervals one by one -/

/-- C27: for `0 ≤ startMD ≤ endMD` and `0 < maxSegmentLength`, with
`count = floor((endMD - startMD) / maxSegmentLength) + 1` and `L = (endMD - startMD) / count`,
`createSubSegmentMDPairs` returns `count` intervals and the one at index `i < count` is
`(startMD + i * L, startMD + (i + 1) * L)`: the running end is advanced by `L`. -/
theorem createSubSegmentMDPairs_equal_intervals (startMD endMD maxSegmentLength : ℚ)
    (h0 : 0 ≤ startMD) (hle : startMD ≤ endMD) (hpos : 0 < maxSegmentLength) :
    ((createSubSegmentMDPairs startMD endMD maxSegmentLength).length : Int) =
        ⌊(endMD - startMD) / maxSegmentLength⌋ + 1 ∧
      ∀ i : Nat, (i : Int) < ⌊(endMD - startMD) / maxSegmentLength⌋ + 1 →
        (createSubSegmentMDPairs startMD endMD maxSegmentLength)[i]? =
          some
            (startMD + (i : ℚ) *
                ((endMD - startMD) / ((⌊(endMD - startMD) / maxSegmentLength⌋ + 1 : Int) : ℚ)),
              startMD + ((i : ℚ) + 1) *
                ((endMD - startMD) /
                  ((⌊(endMD - startMD) / maxSegmentLength⌋ + 1 : Int) : ℚ))) := by
  have hc := subSegmentCount_pos hle hpos
  have hcount := subSegmentCount_eq hle hpos
  have hlen : ((createSubSegmentMDPairs startMD endMD maxSegmentLength).length : Int) =
      ⌊(endMD - startMD) / maxSegmentLength⌋ + 1 := by
    rw [createSubSegmentMDPairs_length, ← hcount]
    omega
  refine ⟨hlen, ?_⟩
  intro i hi
  have hi' : i < (subSegmentCount startMD endMD maxSegmentLength).toNat := by
    rw [hcount]; omega
  rw [createSubSegmentMDPairs_of_nonneg h0 hle hpos, List.getElem?_map,
    List.getElem?_range hi']
  simp only [Option.map_some', subSegmentLength, hcount]

/-- Witness of C27 at start 1000, end 1050 and maximum length 20. -/
theorem createSubSegmentMDPairs_equal_intervals_witness :
    (0 : ℚ) ≤ 1000 ∧ (1000 : ℚ) ≤ 1050 ∧ (0 : ℚ) < 20 ∧
      (((createSubSegmentMDPairs 1000 1050 20).length : Int) =
          ⌊((1050 : ℚ) - 1000) / 20⌋ + 1 ∧
        ∀ i : Nat, (i : Int) < ⌊((1050 : ℚ) - 1000) / 20⌋ + 1 →
          (createSubSegmentMDPairs 1000 1050 20)[i]? =
            some
              ((1000 : ℚ) + (i : ℚ) *
                  (((1050 : ℚ) - 1000) / ((⌊((1050 : ℚ) - 1000) / 20⌋ + 1 : Int) : ℚ)),
                (1000 : ℚ) + ((i : ℚ) + 1) *
                  (((1050 : ℚ) - 1000) / ((⌊((1050 : ℚ) - 1000) / 20⌋ + 1 : Int) : ℚ)))) :=
  ⟨by norm_num, by norm_num, by norm_num,
    createSubSegmentMDPairs_equal_intervals 1000 1050 20 (by norm_num) (by norm_num)
      (by norm_num)⟩

/-- The example of the specification: start 1000, end 1050 and maximum length 20 give three
intervals of length 50/3. -/
theorem createSubSegmentMDPairs_sample_thirds :
    createSubSegmentMDPairs 1000 1050 20 =
      [(1000, 3050 / 3), (3050 / 3, 3100 / 3), (3100 / 3, 1050)] := by
  decide!

/-! ## WELSEGS: the outlet of the rows of a split segment -/

/-- C25 (the code at a failing input, maximum segment length 10): the segment 0-25 of
`Sample.longSegment` is split into three rows numbered 2, 3, 4. The first row has outlet 1; in
the later rows the local `outletSegment` of `writeWelsegsSegment` points to the segment being
written, whose number has just been set to the number of the row, so the rows 3 and 4 name
themselves as outlet. The claim says every outlet is smaller than the number of its row. -/
theorem generateWelsegsTable_split_segment_outlets :
    (generateWelsegsTable (Sample.exportOf Sample.longSegment "INC" false) 10).map
        (fun r => (welsegsDataRows r.2).map numberAndOutletColumns) =
      some [some (2, 1), some (3, 3), some (4, 4)] := by
  decide!

/-! ## COMPSEGS: the keyword and headers of a call -/

theorem tableHeadsOf_append (a b : List FormatterEvent) :
    tableHeadsOf (a ++ b) = tableHeadsOf a ++ tableHeadsOf b := by
  simp [tableHeadsOf]

theorem tableHeadsOf_generateCompsegHeader (exportInfo : RicMswExportInfo)
    (completionType : CompletionType) (exportSubGridIntersections : Bool) :
    tableHeadsOf (generateCompsegHeader exportInfo completionType exportSubGridIntersections) =
      compsegTableHead exportSubGridIntersections := by
  unfold generateCompsegHeader compsegTableHead
  split_ifs <;> simp [tableHeadsOf, isTableHead, List.filter_cons]

theorem tableHeadsOf_rows (l : List ((Nat × Nat × Nat) × List Cell)) :
    tableHeadsOf (l.map (fun p => FormatterEvent.rowCompleted p.2)) = [] := by
  induction l with
  | nil => rfl
  | cons c rest ih =>
    simp only [tableHeadsOf] at ih ⊢
    simp [List.filter_cons, isTableHead, ih]

theorem compsegHeadOnce_nil (exportSubGridIntersections : Bool) (state : CompsegState) :
    CompsegHeadOnce exportSubGridIntersections state (state, []) := by
  constructor
  · intro h
    exact ⟨h, rfl⟩
  · intro h
    simp [h, tableHeadsOf]

theorem compsegHeadOnce_append {exportSubGridIntersections : Bool} {state : CompsegState}
    {r1 r2 : CompsegState × List FormatterEvent}
    (h1 : CompsegHeadOnce exportSubGridIntersections state r1)
    (h2 : CompsegHeadOnce exportSubGridIntersections r1.1 r2) :
    CompsegHeadOnce exportSubGridIntersections state (r2.1, r1.2 ++ r2.2) := by
  constructor
  · intro h
    obtain ⟨ha, hb⟩ := h1.1 h
    obtain ⟨hc, hd⟩ := h2.1 ha
    exact ⟨hc, by rw [tableHeadsOf_append, hb, hd]; rfl⟩
  · intro h
    rw [tableHeadsOf_append, h1.2 h]
    cases hflag : r1.1.headerGenerated with
    | true =>
      obtain ⟨hc, hd⟩ := h2.1 hflag
      simp [hc, hd]
    | false =>
      simp [h2.2 hflag]

theorem generateCompsegTable_completionLoop_headOnce (exportInfo : RicMswExportInfo)
    (exportSubGridIntersections : Bool) (exportCompletionTypes : List CompletionType)
    (segment : RicMswSegment) (completions : List RicMswCompletion) (state : CompsegState) :
    CompsegHeadOnce exportSubGridIntersections state
      (generateCompsegTable.completionLoop exportInfo exportSubGridIntersections
        exportCompletionTypes segment completions state) := by
  induction completions generalizing state with
  | nil => exact compsegHeadOnce_nil _ state
  | cons c rest ih =>
    rw [generateCompsegTable.completionLoop]
    by_cases hskip : c.segments.isEmpty = true ∨ c.completionType ∉ exportCompletionTypes
    · rw [if_pos hskip]
      exact ih state
    · rw [if_neg hskip]
      have hrows : tableHeadsOf (generateCompsegTable.subSegmentLoop
          exportSubGridIntersections segment c c.segments state.intersectedCells).2 = [] := by
        rw [generateCompsegTable_subSegmentLoop_eq]
        exact tableHeadsOf_rows _
      have h1 : CompsegHeadOnce exportSubGridIntersections state
          ({ headerGenerated := true,
             intersectedCells := (generateCompsegTable.subSegmentLoop
               exportSubGridIntersections segment c c.segments state.intersectedCells).1 },
            (if state.headerGenerated = false then
                generateCompsegHeader exportInfo c.completionType exportSubGridIntersections
              else []) ++
              (generateCompsegTable.subSegmentLoop exportSubGridIntersections segment c
                c.segments state.intersectedCells).2) := by
        constructor
        · intro h
          refine ⟨rfl, ?_⟩
          rw [tableHeadsOf_append, hrows, h]
          rfl
        · intro h
          rw [tableHeadsOf_append, hrows, h, if_pos rfl, tableHeadsOf_generateCompsegHeader]
          simp
      have h := compsegHeadOnce_append h1 (ih _)
      simpa only [List.append_assoc] using h

theorem generateCompsegTable_segmentLoop_headOnce (exportInfo : RicMswExportInfo)
    (exportSubGridIntersections : Bool) (exportCompletionTypes : List CompletionType)
    (segments : List RicMswSegment) (state : CompsegState) :
    CompsegHeadOnce exportSubGridIntersections state
      (generateCompsegTable.segmentLoop exportInfo exportSubGridIntersections
        exportCompletionTypes segments state) := by
  induction segments generalizing state with
  | nil => exact compsegHeadOnce_nil _ state
  | cons seg rest ih =>
    rw [generateCompsegTable.segmentLoop]
    exact compsegHeadOnce_append
      (generateCompsegTable_completionLoop_headOnce exportInfo exportSubGridIntersections
        exportCompletionTypes seg seg.completions state)
      (ih _)

mutual

theorem generateCompsegTable_headOnce (exportInfo : RicMswExportInfo)
    (exportSubGridIntersections : Bool) (exportCompletionTypes : List CompletionType) :
    ∀ (branch : RicMswBranch) (state : CompsegState),
      CompsegHeadOnce exportSubGridIntersections state
        (generateCompsegTable exportInfo exportSubGridIntersections exportCompletionTypes
          branch state)
  | RicMswBranch.mk _ segments branches, state => by
    rw [generateCompsegTable]
    exact compsegHeadOnce_append
      (generateCompsegTable_segmentLoop_headOnce exportInfo exportSubGridIntersections
        exportCompletionTypes segments state)
      (generateCompsegChildBranches_headOnce exportInfo exportSubGridIntersections
        exportCompletionTypes branches _)

theorem generateCompsegChildBranches_headOnce (exportInfo : RicMswExportInfo)
    (exportSubGridIntersections : Bool) (exportCompletionTypes : List CompletionType) :
    ∀ (branches : List RicMswBranch) (state : CompsegState),
      CompsegHeadOnce exportSubGridIntersections state
        (generateCompsegChildBranches exportInfo exportSubGridIntersections
          exportCompletionTypes branches state)
  | [], state => by
    rw [generateCompsegChildBranches]
    exact compsegHeadOnce_nil _ state
  | branch :: rest, state => by
    rw [generateCompsegChildBranches]
    exact compsegHeadOnce_append
      (generateCompsegTable_headOnce exportInfo exportSubGridIntersections
        exportCompletionTypes branch state)
      (generateCompsegChildBranches_headOnce exportInfo exportSubGridIntersections
        exportCompletionTypes rest _)

end

/-- One block writes the main-grid head or none: the sub-grid pass of the block finds the flag
set whenever a completion of the block takes part. -/
theorem generateCompsegTables_block_headOnce (exportInfo : RicMswExportInfo)
    (exportCompletionTypes : List CompletionType) (state : CompsegState) :
    CompsegHeadOnce false state
      (generateCompsegTables.block exportInfo exportCompletionTypes state) := by
  have h1 := generateCompsegTable_headOnce exportInfo false exportCompletionTypes
    exportInfo.mainBoreBranch state
  have r1 := generateCompsegTable_refines exportInfo false exportCompletionTypes
    exportInfo.mainBoreBranch state
  unfold generateCompsegTables.block
  by_cases hsub : exportInfo.hasSubGridIntersections = true
  · simp only [hsub, if_true]
    have h2 := generateCompsegTable_headOnce exportInfo true exportCompletionTypes
      exportInfo.mainBoreBranch
      (generateCompsegTable exportInfo false exportCompletionTypes exportInfo.mainBoreBranch
        state).1
    have r2 := generateCompsegTable_refines exportInfo true exportCompletionTypes
      exportInfo.mainBoreBranch
      (generateCompsegTable exportInfo false exportCompletionTypes exportInfo.mainBoreBranch
        state).1
    obtain ⟨_, _, hg1, hn1⟩ := r1
    obtain ⟨_, _, hg2, hn2⟩ := r2
    cases hm : (allCompletions exportInfo.mainBoreBranch).any
        (fun p => exportedBy exportCompletionTypes p.2) with
    | false =>
      rw [hn1 hm, hn2 hm]
      rw [hm] at hg1 hg2
      constructor
      · intro h
        simp only [hg2, hg1, h, Bool.or_false]
        exact ⟨trivial, rfl⟩
      · intro h
        simp [hg2, hg1, h, tableHeadsOf]
    | true =>
      rw [hm] at hg1 hg2
      have hflag1 : (generateCompsegTable exportInfo false exportCompletionTypes
          exportInfo.mainBoreBranch state).1.headerGenerated = true := by
        simp [hg1]
      obtain ⟨hflag2, hnone2⟩ := h2.1 hflag1
      constructor
      · intro h
        refine ⟨hflag2, ?_⟩
        rw [tableHeadsOf_append, (h1.1 h).2, hnone2]
        rfl
      · intro h
        rw [tableHeadsOf_append, h1.2 h, hnone2, hflag1, hflag2]
        simp
  · simpa [hsub] using h1

/-- C28: `generateCompsegTables` writes no keyword and no header at all, or exactly the keyword
`COMPSEGS` followed by the header `Name` and the column header of a main-grid pass (no `Grid`
column): never `COMPSEGL`, never a second keyword or header. The flag is set in the main-grid
pass of a block whenever a completion of the block takes part, so the sub-grid pass of the
block finds it set and appends its rows under that header. -/
theorem generateCompsegTables_single_compsegs_head (exportInfo : RicMswExportInfo) :
    tableHeadsOf (generateCompsegTables exportInfo) = [] ∨
      tableHeadsOf (generateCompsegTables exportInfo) =
        [FormatterEvent.keyword "COMPSEGS", FormatterEvent.header ["Name"],
          FormatterEvent.header
            ["I", "J", "K", "Branch no", "Start Length", "End Length", "Dir Pen", "End Range",
              "Connection Depth"]] := by
  have h1 := generateCompsegTables_block_headOnce exportInfo perforationTypes
    { headerGenerated := false, intersectedCells := [] }
  have h2 := generateCompsegTables_block_headOnce exportInfo fishbonesTypes
    (generateCompsegTables.block exportInfo perforationTypes
      { headerGenerated := false, intersectedCells := [] }).1
  have h3 := generateCompsegTables_block_headOnce exportInfo fractureTypes
    (generateCompsegTables.block exportInfo fishbonesTypes
      (generateCompsegTables.block exportInfo perforationTypes
        { headerGenerated := false, intersectedCells := [] }).1).1
  have h := (compsegHeadOnce_append (compsegHeadOnce_append h1 h2) h3).2 rfl
  have hlast : ∀ b : Bool,
      tableHeadsOf (if b then [FormatterEvent.tableCompleted] else []) = [] := by
    intro b; cases b <;> rfl
  unfold generateCompsegTables
  simp only [tableHeadsOf_append, hlast, List.append_nil]
  simp only [tableHeadsOf_append] at h
  rw [h]
  split_ifs
  · exact Or.inr rfl
  · exact Or.inl rfl

/-- The events of `Sample.sharedCells` with sub-grid intersections: the row of the sub-grid
`LGR1`, with its leading grid name, stands under the `COMPSEGS` header. -/
theorem generateCompsegTables_sharedCells_events :
    generateCompsegTables (Sample.exportOf Sample.sharedCells "INC" true) =
      [FormatterEvent.keyword "COMPSEGS", FormatterEvent.header ["Name"],
        FormatterEvent.rowCompleted [Cell.text "WELL"],
        FormatterEvent.header
          ["I", "J", "K", "Branch no", "Start Length", "End Length", "Dir Pen", "End Range",
            "Connection Depth"],
        FormatterEvent.rowCompleted
          [Cell.int 2, Cell.int 3, Cell.int 4, Cell.int 1, Cell.num 0, Cell.num 10],
        FormatterEvent.rowCompleted
          [Cell.int 2, Cell.int 3, Cell.int 5, Cell.int 1, Cell.num 0, Cell.num 10],
        FormatterEvent.rowCompleted
          [Cell.text "LGR1", Cell.int 8, Cell.int 8, Cell.int 8, Cell.int 1, Cell.num 0,
            Cell.num 10],
        FormatterEvent.tableCompleted] := by
  decide!

/-! ## WSEGVALV: the order of the rows -/

theorem rowsOf_writeWsegvalHeader (b : Bool) :
    rowsOf (if b = false then writeWsegvalHeader else []) = [] := by
  cases b <;> rfl

theorem rowsOf_wsegvalv_tieIn (wellNameForExport : String) (branch : RicMswBranchData)
    (segments : List RicMswSegment) (isHeaderWritten : Bool) :
    rowsOf (generateWsegvalvTableRecursively.tieIn wellNameForExport branch segments
        isHeaderWritten).2 =
      wsegvalvTieInRows wellNameForExport branch segments := by
  unfold generateWsegvalvTableRecursively.tieIn wsegvalvTieInRows
  cases branch.tieInICV with
  | none => rfl
  | some icv =>
    cases segments with
    | nil => rfl
    | cons first rest =>
      simp only [rowsOf_append, rowsOf_writeWsegvalHeader, List.nil_append]
      simp [rowsOf, wsegvalvRow]

theorem rowsOf_wsegvalv_valveEvents (wellNameForExport : String) (completion : RicMswCompletion)
    (h : isWsegValveTypes completion.completionType = true) :
    rowsOf (generateWsegvalvTableRecursively.valveEvents wellNameForExport completion) =
      wsegvalvCompletionRows wellNameForExport completion := by
  unfold generateWsegvalvTableRecursively.valveEvents wsegvalvCompletionRows
  rw [if_pos h]
  cases completion.segments with
  | nil => rfl
  | cons first rest =>
    simp only [rowsOf_append]
    split_ifs <;> simp [rowsOf, wsegvalvRow]

theorem rowsOf_wsegvalv_completionLoop (wellNameForExport : String)
    (completions : List RicMswCompletion) (isHeaderWritten : Bool) :
    rowsOf (generateWsegvalvTableRecursively.completionLoop wellNameForExport completions
        isHeaderWritten).2 =
      completions.flatMap (wsegvalvCompletionRows wellNameForExport) := by
  induction completions generalizing isHeaderWritten with
  | nil => rfl
  | cons c rest ih =>
    rw [generateWsegvalvTableRecursively.completionLoop, List.flatMap_cons]
    by_cases h : isWsegValveTypes c.completionType = true
    · rw [if_pos h]
      simp only [rowsOf_append, rowsOf_writeWsegvalHeader, List.nil_append, ih,
        rowsOf_wsegvalv_valveEvents wellNameForExport c h]
    · rw [if_neg h, ih]
      simp [wsegvalvCompletionRows, h]

theorem rowsOf_wsegvalv_segmentLoop (wellNameForExport : String)
    (segments : List RicMswSegment) (isHeaderWritten : Bool) :
    rowsOf (generateWsegvalvTableRecursively.segmentLoop wellNameForExport segments
        isHeaderWritten).2 =
      segments.flatMap (fun segment =>
        segment.completions.flatMap (wsegvalvCompletionRows wellNameForExport)) := by
  induction segments generalizing isHeaderWritten with
  | nil => rfl
  | cons s rest ih =>
    rw [generateWsegvalvTableRecursively.segmentLoop, List.flatMap_cons]
    simp only [rowsOf_append, rowsOf_wsegvalv_completionLoop, ih]

mutual

theorem rowsOf_generateWsegvalvTableRecursively (wellNameForExport : String) :
    ∀ (branch : RicMswBranch) (isHeaderWritten : Bool),
      rowsOf (generateWsegvalvTableRecursively wellNameForExport branch isHeaderWritten).2 =
        wsegvalvRowsOfBranch wellNameForExport branch
  | RicMswBranch.mk branch segments branches, isHeaderWritten => by
    rw [generateWsegvalvTableRecursively, wsegvalvRowsOfBranch]
    simp only [rowsOf_append, rowsOf_wsegvalv_tieIn, rowsOf_wsegvalv_segmentLoop,
      rowsOf_generateWsegvalvChildBranches wellNameForExport branches]

theorem rowsOf_generateWsegvalvChildBranches (wellNameForExport : String) :
    ∀ (branches : List RicMswBranch) (isHeaderWritten : Bool),
      rowsOf (generateWsegvalvChildBranches wellNameForExport branches isHeaderWritten).2 =
        wsegvalvRowsOfBranches wellNameForExport branches
  | [], isHeaderWritten => by
    rw [generateWsegvalvChildBranches, wsegvalvRowsOfBranches]
    rfl
  | branch :: rest, isHeaderWritten => by
    rw [generateWsegvalvChildBranches, wsegvalvRowsOfBranches]
    simp only [rowsOf_append, rowsOf_generateWsegvalvTableRecursively wellNameForExport branch,
      rowsOf_generateWsegvalvChildBranches wellNameForExport rest]

end

/-- C24: the rows of `generateWsegvalvTable` are, for every branch of the tree, the row of the
branch's own tie-in ICV (when the branch is one and has a segment), then the rows of the valves
attached to the segments of the branch in segment order and completion order, then the rows of
the child branches with all their descendants (`wsegvalvRowsOfBranch`); each row carries the
well name, the number of the first sub-segment, the flow coefficient and the area. -/
theorem generateWsegvalvTable_row_order (exportInfo : RicMswExportInfo) :
    rowsOf (generateWsegvalvTable exportInfo) =
      wsegvalvRowsOfBranch exportInfo.mainBoreBranch.data.wellPath.wellNameForExport
        exportInfo.mainBoreBranch := by
  unfold generateWsegvalvTable
  simp only [rowsOf_append, rowsOf_generateWsegvalvTableRecursively]
  split_ifs <;> simp [rowsOf]

/-- The rows of `Sample.valvesOnTree` after WELSEGS (maximum segment length 100): the valve of
the main bore (segment 3), the tie-in ICV of the lateral (segment 5), the valve on the lateral
(segment 7) and the valve on the lateral of the lateral (segment 9). -/
theorem generateWsegvalvTable_valvesOnTree_rows :
    (generateWelsegsTable (Sample.exportOf Sample.valvesOnTree "INC" false) 100).map
        (fun r => rowsOf (generateWsegvalvTable r.1)) =
      some
        [[Cell.text "WELL", Cell.int 3, Cell.num (7 / 10), Cell.formatted (1 / 2000) 8 4],
          [Cell.text "WELL", Cell.int 5, Cell.num (3 / 10), Cell.formatted (1 / 1000) 8 4],
          [Cell.text "WELL", Cell.int 7, Cell.num (7 / 10), Cell.formatted (1 / 2000) 8 4],
          [Cell.text "WELL", Cell.int 9, Cell.num (7 / 10), Cell.formatted (1 / 2000) 8 4]] := by
  decide!

/-! ## WELSEGS: what the walk reads of the export info -/

theorem writeWelsegsSegment_loop_settings {a b : RicMswExportInfo}
    (h : SameWelsegsSettings a b) (branch : RicMswBranchData)
    (previousSegment : Option RicMswSegmentData) (prevOutMD prevOutTVD : ℚ)
    (pairs : List (ℚ × ℚ)) (outletIsSegment : Bool) (segment : RicMswSegment)
    (segmentNumber : Int) :
    writeWelsegsSegment.loop a branch previousSegment prevOutMD prevOutTVD pairs
        outletIsSegment segment segmentNumber =
      writeWelsegsSegment.loop b branch previousSegment prevOutMD prevOutTVD pairs
        outletIsSegment segment segmentNumber := by
  obtain ⟨h1, h2, h3⟩ := h
  induction pairs generalizing outletIsSegment segment segmentNumber with
  | nil => rfl
  | cons p rest ih =>
    obtain ⟨s, e⟩ := p
    simp only [writeWelsegsSegment.loop, h1, h2, h3, ih]

theorem writeWelsegsSegment_settings {a b : RicMswExportInfo} (h : SameWelsegsSettings a b)
    (maxSegmentLength : ℚ) (branch : RicMswBranchData) (segment : RicMswSegment)
    (previousSegment : Option RicMswSegmentData) (segmentNumber : Int) :
    writeWelsegsSegment a maxSegmentLength branch segment previousSegment segmentNumber =
      writeWelsegsSegment b maxSegmentLength branch segment previousSegment segmentNumber := by
  simp only [writeWelsegsSegment, writeWelsegsSegment_loop_settings h]

theorem writeValveWelsegsSegment_loop_settings {a b : RicMswExportInfo}
    (h : SameWelsegsSettings a b) (valve : RicMswCompletion)
    (outletSegment : Option RicMswSegmentData) (pairs : List (ℚ × ℚ)) (segmentNumber : Int) :
    writeValveWelsegsSegment.loop a valve outletSegment pairs segmentNumber =
      writeValveWelsegsSegment.loop b valve outletSegment pairs segmentNumber := by
  obtain ⟨h1, h2, h3⟩ := h
  induction pairs generalizing segmentNumber with
  | nil => rfl
  | cons p rest ih =>
    obtain ⟨s, e⟩ := p
    simp only [writeValveWelsegsSegment.loop, h1, h2, h3, ih]

theorem writeValveWelsegsSegment_settings {a b : RicMswExportInfo}
    (h : SameWelsegsSettings a b) (maxSegmentLength : ℚ)
    (outletSegment : Option RicMswSegmentData) (valve : RicMswCompletion) (segmentNumber : Int) :
    writeValveWelsegsSegment a maxSegmentLength outletSegment valve segmentNumber =
      writeValveWelsegsSegment b maxSegmentLength outletSegment valve segmentNumber := by
  simp only [writeValveWelsegsSegment, writeValveWelsegsSegment_loop_settings h]

theorem writeCompletionWelsegsSegments_splitLoop_settings {a b : RicMswExportInfo}
    (h : SameWelsegsSettings a b) (outletSegment : RicMswSegmentData)
    (completion : RicMswCompletion) (pairs : List (ℚ × ℚ)) (segmentNumber outlet : Int) :
    writeCompletionWelsegsSegments.splitLoop a outletSegment completion pairs segmentNumber
        outlet =
      writeCompletionWelsegsSegments.splitLoop b outletSegment completion pairs segmentNumber
        outlet := by
  obtain ⟨h1, h2, h3⟩ := h
  induction pairs generalizing segmentNumber outlet with
  | nil => rfl
  | cons p rest ih =>
    obtain ⟨s, e⟩ := p
    simp only [writeCompletionWelsegsSegments.splitLoop, h1, ih]

theorem writeCompletionWelsegsSegments_segmentLoop_settings {a b : RicMswExportInfo}
    (h : SameWelsegsSettings a b) (maxSegmentLength : ℚ) (outletSegment : RicMswSegmentData)
    (completion : RicMswCompletion) (segments : List RicMswSegmentData)
    (segmentNumber outlet : Int) :
    writeCompletionWelsegsSegments.segmentLoop a maxSegmentLength outletSegment completion
        segments segmentNumber outlet =
      writeCompletionWelsegsSegments.segmentLoop b maxSegmentLength outletSegment completion
        segments segmentNumber outlet := by
  induction segments generalizing segmentNumber outlet with
  | nil => rfl
  | cons s rest ih =>
    simp only [writeCompletionWelsegsSegments.segmentLoop,
      writeCompletionWelsegsSegments_splitLoop_settings h, ih]

theorem writeCompletionWelsegsSegments_settings {a b : RicMswExportInfo}
    (h : SameWelsegsSettings a b) (maxSegmentLength : ℚ) (outletSegment : RicMswSegmentData)
    (completion : RicMswCompletion) (segmentNumber : Int) :
    writeCompletionWelsegsSegments a maxSegmentLength outletSegment completion segmentNumber =
      writeCompletionWelsegsSegments b maxSegmentLength outletSegment completion
        segmentNumber := by
  simp only [writeCompletionWelsegsSegments,
    writeCompletionWelsegsSegments_segmentLoop_settings h]

theorem writeWelsegsSegmentsRecursively_completionLoop_settings {a b : RicMswExportInfo}
    (h : SameWelsegsSettings a b) (maxSegmentLength : ℚ) (segment : RicMswSegmentData)
    (completions : List RicMswCompletion) (segmentNumber : Int)
    (outletValve : Option RicMswCompletion) :
    writeWelsegsSegmentsRecursively.completionLoop a maxSegmentLength segment completions
        segmentNumber outletValve =
      writeWelsegsSegmentsRecursively.completionLoop b maxSegmentLength segment completions
        segmentNumber outletValve := by
  induction completions generalizing segmentNumber outletValve with
  | nil => rfl
  | cons c rest ih =>
    simp only [writeWelsegsSegmentsRecursively.completionLoop,
      writeValveWelsegsSegment_settings h, writeCompletionWelsegsSegments_settings h, ih]

theorem writeWelsegsSegmentsRecursively_segmentLoop_settings {a b : RicMswExportInfo}
    (h : SameWelsegsSettings a b) (maxSegmentLength : ℚ) (branch : RicMswBranchData)
    (segments : List RicMswSegment) (state : WelsegsWalkState) :
    writeWelsegsSegmentsRecursively.segmentLoop a maxSegmentLength branch segments state =
      writeWelsegsSegmentsRecursively.segmentLoop b maxSegmentLength branch segments state := by
  induction segments generalizing state with
  | nil => rfl
  | cons s rest ih =>
    simp only [writeWelsegsSegmentsRecursively.segmentLoop, writeWelsegsSegment_settings h,
      writeWelsegsSegmentsRecursively_completionLoop_settings h, ih]

theorem writeWelsegsSegmentsRecursively_enter_settings {a b : RicMswExportInfo}
    (h : SameWelsegsSettings a b) (maxSegmentLength : ℚ) (branch : RicMswBranchData)
    (segments : List RicMswSegment) (segmentNumber : Int)
    (connectedToSegment : Option RicMswSegmentData) :
    writeWelsegsSegmentsRecursively.enter a maxSegmentLength branch segments segmentNumber
        connectedToSegment =
      writeWelsegsSegmentsRecursively.enter b maxSegmentLength branch segments segmentNumber
        connectedToSegment := by
  simp only [writeWelsegsSegmentsRecursively.enter, writeValveWelsegsSegment_settings h]

mutual

theorem writeWelsegsSegmentsRecursively_settings {a b : RicMswExportInfo}
    (h : SameWelsegsSettings a b) (maxSegmentLength : ℚ) :
    ∀ (branch : RicMswBranch) (segmentNumber : Int)
      (connectedToSegment : Option RicMswSegmentData),
      writeWelsegsSegmentsRecursively a maxSegmentLength branch segmentNumber
          connectedToSegment =
        writeWelsegsSegmentsRecursively b maxSegmentLength branch segmentNumber
          connectedToSegment
  | RicMswBranch.mk branch segments branches, segmentNumber, connectedToSegment => by
    rw [writeWelsegsSegmentsRecursively, writeWelsegsSegmentsRecursively]
    simp only [writeWelsegsSegmentsRecursively_enter_settings h,
      writeWelsegsSegmentsRecursively_segmentLoop_settings h,
      writeWelsegsChildBranches_settings h maxSegmentLength]

theorem writeWelsegsChildBranches_settings {a b : RicMswExportInfo}
    (h : SameWelsegsSettings a b) (maxSegmentLength : ℚ) :
    ∀ (parentSegments : List RicMswSegment) (outletSegment : Option RicMswSegmentData)
      (branches : List RicMswBranch) (segmentNumber : Int),
      writeWelsegsChildBranches a maxSegmentLength parentSegments outletSegment branches
          segmentNumber =
        writeWelsegsChildBranches b maxSegmentLength parentSegments outletSegment branches
          segmentNumber
  | parentSegments, outletSegment, [], segmentNumber => by
    rw [writeWelsegsChildBranches, writeWelsegsChildBranches]
  | parentSegments, outletSegment, branch :: rest, segmentNumber => by
    rw [writeWelsegsChildBranches, writeWelsegsChildBranches]
    simp only [writeWelsegsSegmentsRecursively_settings h maxSegmentLength branch,
      writeWelsegsChildBranches_settings h maxSegmentLength parentSegments outletSegment rest]

end

/-! ## WELSEGS: perforations -/

theorem writeWelsegsSegmentsRecursively_completionLoop_withoutPerforations
    (exportInfo : RicMswExportInfo) (maxSegmentLength : ℚ) (segment : RicMswSegmentData)
    (completions : List RicMswCompletion) (segmentNumber : Int)
    (outletValve : Option RicMswCompletion) :
    writeWelsegsSegmentsRecursively.completionLoop exportInfo maxSegmentLength segment
        (completions.filter (fun c => decide (c.dynamicType ≠ CompletionClass.perforation)))
        segmentNumber outletValve =
      (writeWelsegsSegmentsRecursively.completionLoop exportInfo maxSegmentLength segment
        completions segmentNumber outletValve).map
        (fun r =>
          (r.1.filter (fun c => decide (c.dynamicType ≠ CompletionClass.perforation)), r.2)) := by
  induction completions generalizing segmentNumber outletValve with
  | nil => rfl
  | cons c rest ih =>
    cases hc : c.dynamicType with
    | perforation =>
      rw [List.filter_cons_of_neg (by simp [hc]), ih]
      simp only [writeWelsegsSegmentsRecursively.completionLoop, hc]
      cases writeWelsegsSegmentsRecursively.completionLoop exportInfo maxSegmentLength segment
        rest segmentNumber outletValve with
      | none => rfl
      | some r => simp [List.filter_cons, hc]
    | valve =>
      rw [List.filter_cons_of_pos (by simp [hc])]
      simp only [writeWelsegsSegmentsRecursively.completionLoop, hc]
      cases hw : writeValveWelsegsSegment exportInfo maxSegmentLength (some segment) c
        segmentNumber with
      | none => rfl
      | some w =>
        simp only [ih]
        cases writeWelsegsSegmentsRecursively.completionLoop exportInfo maxSegmentLength
          segment rest w.2.1 (some w.1) with
        | none => rfl
        | some r =>
          have hv : w.1.dynamicType = CompletionClass.valve := by
            unfold writeValveWelsegsSegment at hw
            split_ifs at hw with hvalid
            · simp only [Option.some.injEq] at hw
              rw [← hw]; exact hc
            · cases hsegs : c.segments with
              | nil => simp [hsegs] at hw
              | cons s others =>
                simp only [hsegs] at hw
                generalize writeValveWelsegsSegment.loop exportInfo c (some segment) _ _ = l
                  at hw
                cases l with
                | none => simp at hw
                | some l =>
                  simp only [Option.some.injEq] at hw
                  rw [← hw]; exact hc
          simp [List.filter_cons, hv]
    | other =>
      rw [List.filter_cons_of_pos (by simp [hc])]
      simp only [writeWelsegsSegmentsRecursively.completionLoop, hc, ih]
      cases writeWelsegsSegmentsRecursively.completionLoop exportInfo maxSegmentLength
        segment rest _ outletValve with
      | none => rfl
      | some r => simp [List.filter_cons, hc]

theorem writeWelsegsSegment_loop_completions (exportInfo : RicMswExportInfo)
    (branch : RicMswBranchData) (previousSegment : Option RicMswSegmentData)
    (prevOutMD prevOutTVD : ℚ) (completions : List RicMswCompletion) (pairs : List (ℚ × ℚ))
    (outletIsSegment : Bool) (segment : RicMswSegment) (segmentNumber : Int) :
    writeWelsegsSegment.loop exportInfo branch previousSegment prevOutMD prevOutTVD pairs
        outletIsSegment { segment with completions := completions } segmentNumber =
      ({ (writeWelsegsSegment.loop exportInfo branch previousSegment prevOutMD prevOutTVD pairs
            outletIsSegment segment segmentNumber).1 with completions := completions },
        (writeWelsegsSegment.loop exportInfo branch previousSegment prevOutMD prevOutTVD pairs
          outletIsSegment segment segmentNumber).2) := by
  induction pairs generalizing outletIsSegment segment segmentNumber with
  | nil => rfl
  | cons p rest ih =>
    obtain ⟨s, e⟩ := p
    simp only [writeWelsegsSegment.loop]
    have h := ih true
      { segment with
        outputMD := (1 / 2) * (s + e)
        outputTVD := tvdFromMeasuredDepth branch.wellPath ((1 / 2) * (s + e))
        segmentNumber := segmentNumber } (segmentNumber + 1)
    rw [h]

theorem writeWelsegsSegment_completions (exportInfo : RicMswExportInfo)
    (maxSegmentLength : ℚ) (branch : RicMswBranchData) (segment : RicMswSegment)
    (previousSegment : Option RicMswSegmentData) (segmentNumber : Int)
    (completions : List RicMswCompletion) :
    writeWelsegsSegment exportInfo maxSegmentLength branch
        { segment with completions := completions } previousSegment segmentNumber =
      ({ (writeWelsegsSegment exportInfo maxSegmentLength branch segment previousSegment
            segmentNumber).1 with completions := completions },
        (writeWelsegsSegment exportInfo maxSegmentLength branch segment previousSegment
          segmentNumber).2) := by
  unfold writeWelsegsSegment
  exact writeWelsegsSegment_loop_completions _ _ _ _ _ _ _ _ _ _

theorem writeWelsegsSegment_completions_eq (exportInfo : RicMswExportInfo)
    (maxSegmentLength : ℚ) (branch : RicMswBranchData) (segment : RicMswSegment)
    (previousSegment : Option RicMswSegmentData) (segmentNumber : Int) :
    (writeWelsegsSegment exportInfo maxSegmentLength branch segment previousSegment
      segmentNumber).1.completions = segment.completions := by
  have h := writeWelsegsSegment_completions exportInfo maxSegmentLength branch segment
    previousSegment segmentNumber segment.completions
  have h' := congrArg (fun r => r.1.completions) h
  exact h'

theorem writeWelsegsSegmentsRecursively_segmentLoop_withoutPerforations
    (exportInfo : RicMswExportInfo) (maxSegmentLength : ℚ) (branch : RicMswBranchData)
    (segments : List RicMswSegment) (state : WelsegsWalkState) :
    writeWelsegsSegmentsRecursively.segmentLoop exportInfo maxSegmentLength branch
        (segments.map withoutPerforationsOfSegment) state =
      (writeWelsegsSegmentsRecursively.segmentLoop exportInfo maxSegmentLength branch segments
        state).map (fun r => (r.1.map withoutPerforationsOfSegment, r.2)) := by
  induction segments generalizing state with
  | nil => rfl
  | cons s rest ih =>
    rw [List.map_cons]
    simp only [writeWelsegsSegmentsRecursively.segmentLoop]
    have hw := writeWelsegsSegment_completions exportInfo maxSegmentLength branch
      { s with segmentNumber := state.segmentNumber } state.outletSegment state.segmentNumber
      (s.completions.filter (fun c => decide (c.dynamicType ≠ CompletionClass.perforation)))
    have hc := writeWelsegsSegment_completions_eq exportInfo maxSegmentLength branch
      { s with segmentNumber := state.segmentNumber } state.outletSegment state.segmentNumber
    simp only [withoutPerforationsOfSegment] at hw ⊢
    rw [hw]
    simp only [hc, writeWelsegsSegmentsRecursively_completionLoop_withoutPerforations]
    cases writeWelsegsSegmentsRecursively.completionLoop exportInfo maxSegmentLength _
      s.completions _ state.outletValve with
    | none => rfl
    | some c =>
      simp only [Option.map_some', ih]
      cases writeWelsegsSegmentsRecursively.segmentLoop exportInfo maxSegmentLength branch
        rest _ with
      | none => rfl
      | some r => rfl

theorem writeWelsegsSegmentsRecursively_enter_withoutPerforations
    (exportInfo : RicMswExportInfo) (maxSegmentLength : ℚ) (branch : RicMswBranchData)
    (segments : List RicMswSegment) (segmentNumber : Int)
    (connectedToSegment : Option RicMswSegmentData) :
    writeWelsegsSegmentsRecursively.enter exportInfo maxSegmentLength branch
        (segments.map withoutPerforationsOfSegment) segmentNumber connectedToSegment =
      (writeWelsegsSegmentsRecursively.enter exportInfo maxSegmentLength branch segments
        segmentNumber connectedToSegment).map
        (fun e =>
          (e.1.map withoutPerforationsOfSegment, e.2.1.map withoutPerforationsOfSegment,
            e.2.2)) := by
  unfold writeWelsegsSegmentsRecursively.enter
  cases branch.tieInICV with
  | none => rfl
  | some icv =>
    have hvalve : tieInValve branch icv (segments.map withoutPerforationsOfSegment) =
        tieInValve branch icv segments := by
      simp [tieInValve, withoutPerforationsOfSegment, Function.comp_def]
    simp only [hvalve]
    cases writeValveWelsegsSegment exportInfo maxSegmentLength connectedToSegment
      (tieInValve branch icv segments) segmentNumber with
    | none => rfl
    | some w =>
      cases segments with
      | nil => rfl
      | cons first rest =>
        cases hs : w.1.segments with
        | nil => simp [hs]
        | cons front others => simp [hs, withoutPerforationsOfSegment]

theorem findTieInSegment_withoutPerforations (branchStartMD : ℚ)
    (segments : List RicMswSegment) (tieIn : Option RicMswSegment) (closest : Option ℚ) :
    findTieInSegment branchStartMD (segments.map withoutPerforationsOfSegment)
        (tieIn.map withoutPerforationsOfSegment) closest =
      (findTieInSegment branchStartMD segments tieIn closest).map
        withoutPerforationsOfSegment := by
  induction segments generalizing tieIn closest with
  | nil => rfl
  | cons s rest ih =>
    rw [List.map_cons]
    simp only [findTieInSegment]
    have hmd : (withoutPerforationsOfSegment s).startMD = s.startMD ∧
        (withoutPerforationsOfSegment s).endMD = s.endMD := ⟨rfl, rfl⟩
    rw [hmd.1, hmd.2]
    split_ifs
    · exact ih (some s) _
    · exact ih tieIn closest

theorem outletSegmentForChildBranch_withoutPerforations (parentSegments : List RicMswSegment)
    (outletSegment : Option RicMswSegmentData) (childBranch : RicMswBranch) :
    outletSegmentForChildBranch (parentSegments.map withoutPerforationsOfSegment) outletSegment
        (withoutPerforations childBranch) =
      outletSegmentForChildBranch parentSegments outletSegment childBranch := by
  have hdata : (withoutPerforations childBranch).data = childBranch.data := by
    cases childBranch with
    | mk b s c => rw [withoutPerforations]; rfl
  unfold outletSegmentForChildBranch
  rw [hdata]
  have h := findTieInSegment_withoutPerforations childBranch.data.startMD parentSegments none
    none
  rw [Option.map_none'] at h
  rw [h]
  cases findTieInSegment childBranch.data.startMD parentSegments none none with
  | none => rfl
  | some s => rfl

mutual

theorem writeWelsegsSegmentsRecursively_withoutPerforations (exportInfo : RicMswExportInfo)
    (maxSegmentLength : ℚ) :
    ∀ (branch : RicMswBranch) (segmentNumber : Int)
      (connectedToSegment : Option RicMswSegmentData),
      writeWelsegsSegmentsRecursively exportInfo maxSegmentLength (withoutPerforations branch)
          segmentNumber connectedToSegment =
        (writeWelsegsSegmentsRecursively exportInfo maxSegmentLength branch segmentNumber
          connectedToSegment).map (fun r => (withoutPerforations r.1, r.2))
  | RicMswBranch.mk branch segments branches, segmentNumber, connectedToSegment => by
    rw [withoutPerforations, writeWelsegsSegmentsRecursively, writeWelsegsSegmentsRecursively,
      writeWelsegsSegmentsRecursively_enter_withoutPerforations]
    cases writeWelsegsSegmentsRecursively.enter exportInfo maxSegmentLength branch segments
      segmentNumber connectedToSegment with
    | none => rfl
    | some e =>
      simp only [Option.map_some',
        writeWelsegsSegmentsRecursively_segmentLoop_withoutPerforations]
      cases writeWelsegsSegmentsRecursively.segmentLoop exportInfo maxSegmentLength branch
        e.2.1 e.2.2.1 with
      | none => rfl
      | some l =>
        simp only [Option.map_some']
        rw [← List.map_append,
          writeWelsegsChildBranches_withoutPerforations exportInfo maxSegmentLength
            (e.1 ++ l.1) l.2.1.outletSegment branches l.2.1.segmentNumber]
        cases writeWelsegsChildBranches exportInfo maxSegmentLength (e.1 ++ l.1)
          l.2.1.outletSegment branches l.2.1.segmentNumber with
        | none => rfl
        | some c =>
          simp only [Option.map_some', withoutPerforations, List.map_append]

theorem writeWelsegsChildBranches_withoutPerforations (exportInfo : RicMswExportInfo)
    (maxSegmentLength : ℚ) :
    ∀ (parentSegments : List RicMswSegment) (outletSegment : Option RicMswSegmentData)
      (branches : List RicMswBranch) (segmentNumber : Int),
      writeWelsegsChildBranches exportInfo maxSegmentLength
          (parentSegments.map withoutPerforationsOfSegment) outletSegment
          (withoutPerforationsOfBranches branches) segmentNumber =
        (writeWelsegsChildBranches exportInfo maxSegmentLength parentSegments outletSegment
          branches segmentNumber).map (fun r => (withoutPerforationsOfBranches r.1, r.2))
  | parentSegments, outletSegment, [], segmentNumber => by
    rw [withoutPerforationsOfBranches, writeWelsegsChildBranches, writeWelsegsChildBranches]
    rfl
  | parentSegments, outletSegment, branch :: rest, segmentNumber => by
    rw [withoutPerforationsOfBranches, writeWelsegsChildBranches, writeWelsegsChildBranches,
      outletSegmentForChildBranch_withoutPerforations,
      writeWelsegsSegmentsRecursively_withoutPerforations exportInfo maxSegmentLength branch]
    cases writeWelsegsSegmentsRecursively exportInfo maxSegmentLength branch segmentNumber
      (outletSegmentForChildBranch parentSegments outletSegment branch) with
    | none => rfl
    | some c =>
      simp only [Option.map_some']
      rw [writeWelsegsChildBranches_withoutPerforations exportInfo maxSegmentLength
        parentSegments outletSegment rest c.2.1]
      cases writeWelsegsChildBranches exportInfo maxSegmentLength parentSegments outletSegment
        rest c.2.1 with
      | none => rfl
      | some r => simp only [Option.map_some', withoutPerforationsOfBranches]

end

/-- C22: the WELSEGS export of a tree with every `RicMswPerforation` completion removed
completes exactly when the export of the tree itself does, writes the same events (the same
data rows with the same numbers, outlets, lengths and depths) and leaves the tree of the
original export with its perforations removed: a perforation writes no row and takes no
segment number. -/
theorem generateWelsegsTable_withoutPerforations (exportInfo : RicMswExportInfo)
    (maxSegmentLength : ℚ) :
    generateWelsegsTable
        { exportInfo with mainBoreBranch := withoutPerforations exportInfo.mainBoreBranch }
        maxSegmentLength =
      (generateWelsegsTable exportInfo maxSegmentLength).map
        (fun r =>
          ({ r.1 with mainBoreBranch := withoutPerforations r.1.mainBoreBranch }, r.2)) := by
  have hset : SameWelsegsSettings
      { exportInfo with mainBoreBranch := withoutPerforations exportInfo.mainBoreBranch }
      exportInfo := ⟨rfl, rfl, rfl⟩
  have hdata : (withoutPerforations exportInfo.mainBoreBranch).data =
      exportInfo.mainBoreBranch.data := by
    cases exportInfo.mainBoreBranch with
    | mk b s c => rw [withoutPerforations]; rfl
  unfold generateWelsegsTable
  simp only [writeWelsegsSegmentsRecursively_settings hset, hdata,
    writeWelsegsSegmentsRecursively_withoutPerforations]
  cases writeWelsegsSegmentsRecursively exportInfo maxSegmentLength exportInfo.mainBoreBranch 2
    none with
  | none => rfl
  | some w => rfl

/-- The rows of `Sample.sharedCells`, whose segment carries a fracture and a perforation: the
row of the segment and the row of the fracture, with and without the perforation. -/
theorem generateWelsegsTable_sharedCells_rows :
    (generateWelsegsTable (Sample.exportOf Sample.sharedCells "INC" false) 100).map
        (fun r => (welsegsDataRows r.2).map numberAndOutletColumns) =
        some [some (2, 1), some (3, 2)] ∧
      (generateWelsegsTable
          (Sample.exportOf (withoutPerforations Sample.sharedCells) "INC" false) 100).map
        (fun r => (welsegsDataRows r.2).map numberAndOutletColumns) =
        some [some (2, 1), some (3, 2)] := by
  constructor <;> decide!

/-! ## WELSEGS: the cached output of a segment -/

theorem writeWelsegsSegment_loop_segment (exportInfo : RicMswExportInfo)
    (branch : RicMswBranchData) (previousSegment : Option RicMswSegmentData)
    (prevOutMD prevOutTVD : ℚ) (pairs : List (ℚ × ℚ)) (outletIsSegment : Bool)
    (segment : RicMswSegment) (segmentNumber : Int) :
    (writeWelsegsSegment.loop exportInfo branch previousSegment prevOutMD prevOutTVD pairs
        outletIsSegment segment segmentNumber).1 =
      match pairs.getLast? with
      | none => segment
      | some p =>
        { segment with
          outputMD := midPoint p
          outputTVD := tvdFromMeasuredDepth branch.wellPath (midPoint p)
          segmentNumber := segmentNumber + pairs.length - 1 } := by
  induction pairs generalizing outletIsSegment segment segmentNumber with
  | nil => rfl
  | cons p rest ih =>
    obtain ⟨s, e⟩ := p
    simp only [writeWelsegsSegment.loop]
    rw [ih]
    cases rest with
    | nil =>
      simp only [List.getLast?_singleton, List.length_singleton, midPoint]
      simp
    | cons q rest =>
      rw [List.getLast?_cons_cons]
      cases hl : (q :: rest).getLast? with
      | none => simp at hl
      | some l =>
        simp only [List.length_cons]
        congr 2
        push_cast
        ring

theorem writeWelsegsSegment_loop_counter (exportInfo : RicMswExportInfo)
    (branch : RicMswBranchData) (previousSegment : Option RicMswSegmentData)
    (prevOutMD prevOutTVD : ℚ) (pairs : List (ℚ × ℚ)) (outletIsSegment : Bool)
    (segment : RicMswSegment) (segmentNumber : Int) :
    (writeWelsegsSegment.loop exportInfo branch previousSegment prevOutMD prevOutTVD pairs
        outletIsSegment segment segmentNumber).2.1 = segmentNumber + pairs.length := by
  induction pairs generalizing outletIsSegment segment segmentNumber with
  | nil => simp [writeWelsegsSegment.loop]
  | cons p rest ih =>
    obtain ⟨s, e⟩ := p
    simp only [writeWelsegsSegment.loop, ih, List.length_cons]
    push_cast
    ring

theorem writeWelsegsSegment_cachedOutput (exportInfo : RicMswExportInfo)
    (maxSegmentLength : ℚ) (branch : RicMswBranchData) (segment : RicMswSegment)
    (previousSegment : Option RicMswSegmentData) (segmentNumber : Int) :
    cachedOutput (writeWelsegsSegment exportInfo maxSegmentLength branch segment
        previousSegment segmentNumber).1.toRicMswSegmentData =
      ((writeWelsegsSegment.outputAssignments maxSegmentLength branch
          segment.toRicMswSegmentData).getLast?).getD
        (cachedOutput segment.toRicMswSegmentData) := by
  unfold writeWelsegsSegment writeWelsegsSegment.outputAssignments
  rw [writeWelsegsSegment_loop_segment, List.getLast?_map]
  cases (createSubSegmentMDPairs segment.startMD segment.endMD maxSegmentLength).getLast? with
  | none => rfl
  | some p => rfl

theorem writeWelsegsSegmentsRecursively_segmentLoop_cachedOutput
    (exportInfo : RicMswExportInfo) (maxSegmentLength : ℚ) (branch : RicMswBranchData)
    (segments : List RicMswSegment) (state : WelsegsWalkState)
    (r : List RicMswSegment × WelsegsWalkState × List FormatterEvent)
    (h : writeWelsegsSegmentsRecursively.segmentLoop exportInfo maxSegmentLength branch segments
      state = some r) :
    r.1.map (fun s => cachedOutput s.toRicMswSegmentData) =
      segments.map (fun s =>
        ((writeWelsegsSegment.outputAssignments maxSegmentLength branch
            s.toRicMswSegmentData).getLast?).getD (cachedOutput s.toRicMswSegmentData)) := by
  induction segments generalizing state r with
  | nil =>
    simp only [writeWelsegsSegmentsRecursively.segmentLoop, Option.some.injEq] at h
    rw [← h]; rfl
  | cons s rest ih =>
    simp only [writeWelsegsSegmentsRecursively.segmentLoop] at h
    generalize writeWelsegsSegmentsRecursively.completionLoop exportInfo maxSegmentLength _ _ _
      _ = c at h
    cases c with
    | none => simp at h
    | some c =>
      simp only at h
      cases hl : writeWelsegsSegmentsRecursively.segmentLoop exportInfo maxSegmentLength
        branch rest
        { segmentNumber := c.2.1,
          outletSegment := some
            (writeWelsegsSegment exportInfo maxSegmentLength branch
              { s with segmentNumber := state.segmentNumber } state.outletSegment
              state.segmentNumber).1.toRicMswSegmentData,
          outletValve := c.2.2.1 } with
      | none => simp [hl] at h
      | some l =>
        simp only [hl, Option.some.injEq] at h
        rw [← h, List.map_cons, List.map_cons, ih _ _ hl]
        congr 1
        exact writeWelsegsSegment_cachedOutput exportInfo maxSegmentLength branch
          { s with segmentNumber := state.segmentNumber } state.outletSegment
          state.segmentNumber

theorem writeWelsegsSegmentsRecursively_enter_shape (exportInfo : RicMswExportInfo)
    (maxSegmentLength : ℚ) (branch : RicMswBranchData) (segments : List RicMswSegment)
    (segmentNumber : Int) (connectedToSegment : Option RicMswSegmentData)
    (e : List RicMswSegment × List RicMswSegment × WelsegsWalkState × List FormatterEvent)
    (h : writeWelsegsSegmentsRecursively.enter exportInfo maxSegmentLength branch segments
      segmentNumber connectedToSegment = some e) :
    (branch.tieInICV = none ∧ e.1 = [] ∧ e.2.1 = segments) ∨
      (∃ icv first, branch.tieInICV = some icv ∧ e.1 = [first] ∧ e.2.1 = segments.drop 1) := by
  unfold writeWelsegsSegmentsRecursively.enter at h
  cases hicv : branch.tieInICV with
  | none =>
    simp only [hicv, Option.some.injEq] at h
    left
    rw [← h]
    exact ⟨rfl, rfl, rfl⟩
  | some icv =>
    simp only [hicv] at h
    right
    cases hw : writeValveWelsegsSegment exportInfo maxSegmentLength connectedToSegment
      (tieInValve branch icv segments) segmentNumber with
    | none => simp [hw] at h
    | some w =>
      simp only [hw] at h
      cases segments with
      | nil => simp at h
      | cons first rest =>
        cases hs : w.1.segments with
        | nil => simp [hs] at h
        | cons front others =>
          simp only [hs, Option.some.injEq] at h
          rw [← h]
          exact ⟨icv, _, rfl, rfl, rfl⟩

mutual

theorem writeWelsegsSegmentsRecursively_cachedOutput (exportInfo : RicMswExportInfo)
    (maxSegmentLength : ℚ) :
    ∀ (branch : RicMswBranch) (segmentNumber : Int)
      (connectedToSegment : Option RicMswSegmentData)
      (r : RicMswBranch × Int × List FormatterEvent),
      writeWelsegsSegmentsRecursively exportInfo maxSegmentLength branch segmentNumber
          connectedToSegment = some r →
        (plainSegments r.1).map (fun p => cachedOutput p.2.toRicMswSegmentData) =
          (plainSegments branch).map (fun p =>
            ((writeWelsegsSegment.outputAssignments maxSegmentLength p.1
                p.2.toRicMswSegmentData).getLast?).getD
              (cachedOutput p.2.toRicMswSegmentData))
  | RicMswBranch.mk branch segments branches, segmentNumber, connectedToSegment, r, h => by
    rw [writeWelsegsSegmentsRecursively] at h
    cases he : writeWelsegsSegmentsRecursively.enter exportInfo maxSegmentLength branch
      segments segmentNumber connectedToSegment with
    | none => simp [he] at h
    | some e =>
      simp only [he] at h
      cases hl : writeWelsegsSegmentsRecursively.segmentLoop exportInfo maxSegmentLength
        branch e.2.1 e.2.2.1 with
      | none => simp [hl] at h
      | some l =>
        simp only [hl] at h
        cases hc : writeWelsegsChildBranches exportInfo maxSegmentLength (e.1 ++ l.1)
          l.2.1.outletSegment branches l.2.1.segmentNumber with
        | none => simp [hc] at h
        | some c =>
          simp only [hc, Option.some.injEq] at h
          rw [← h]
          have hloop := writeWelsegsSegmentsRecursively_segmentLoop_cachedOutput exportInfo
            maxSegmentLength branch e.2.1 e.2.2.1 l hl
          have hchildren := writeWelsegsChildBranches_cachedOutput exportInfo maxSegmentLength
            (e.1 ++ l.1) l.2.1.outletSegment branches l.2.1.segmentNumber c hc
          rcases writeWelsegsSegmentsRecursively_enter_shape exportInfo maxSegmentLength branch
            segments segmentNumber connectedToSegment e he with
            ⟨hicv, he1, he2⟩ | ⟨icv, first, hicv, he1, he2⟩
          · rw [he2] at hloop
            simp only [plainSegments, hicv, he1, List.nil_append, List.map_append,
              List.map_map, Function.comp_def, hchildren]
            rw [hloop]
          · rw [he2] at hloop
            simp only [plainSegments, hicv, he1, List.singleton_append, List.drop_succ_cons,
              List.drop_zero, List.map_append, List.map_map, Function.comp_def, hchildren]
            rw [hloop]

theorem writeWelsegsChildBranches_cachedOutput (exportInfo : RicMswExportInfo)
    (maxSegmentLength : ℚ) :
    ∀ (parentSegments : List RicMswSegment) (outletSegment : Option RicMswSegmentData)
      (branches : List RicMswBranch) (segmentNumber : Int)
      (r : List RicMswBranch × Int × List FormatterEvent),
      writeWelsegsChildBranches exportInfo maxSegmentLength parentSegments outletSegment
          branches segmentNumber = some r →
        (plainSegmentsOfBranches r.1).map (fun p => cachedOutput p.2.toRicMswSegmentData) =
          (plainSegmentsOfBranches branches).map (fun p =>
            ((writeWelsegsSegment.outputAssignments maxSegmentLength p.1
                p.2.toRicMswSegmentData).getLast?).getD
              (cachedOutput p.2.toRicMswSegmentData))
  | parentSegments, outletSegment, [], segmentNumber, r, h => by
    rw [writeWelsegsChildBranches, Option.some.injEq] at h
    rw [← h]
    rfl
  | parentSegments, outletSegment, branch :: rest, segmentNumber, r, h => by
    rw [writeWelsegsChildBranches] at h
    cases hb : writeWelsegsSegmentsRecursively exportInfo maxSegmentLength branch segmentNumber
      (outletSegmentForChildBranch parentSegments outletSegment branch) with
    | none => simp [hb] at h
    | some b =>
      simp only [hb] at h
      cases hr : writeWelsegsChildBranches exportInfo maxSegmentLength parentSegments
        outletSegment rest b.2.1 with
      | none => simp [hr] at h
      | some c =>
        simp only [hr, Option.some.injEq] at h
        rw [← h]
        simp only [plainSegmentsOfBranches, List.map_append,
          writeWelsegsSegmentsRecursively_cachedOutput exportInfo maxSegmentLength branch
            segmentNumber _ b hb,
          writeWelsegsChildBranches_cachedOutput exportInfo maxSegmentLength parentSegments
            outletSegment rest b.2.1 c hr]

end

theorem writeWelsegsSegment_loop_append (exportInfo : RicMswExportInfo)
    (branch : RicMswBranchData) (previousSegment : Option RicMswSegmentData)
    (prevOutMD prevOutTVD : ℚ) (xs ys : List (ℚ × ℚ)) (outletIsSegment : Bool)
    (segment : RicMswSegment) (segmentNumber : Int) :
    writeWelsegsSegment.loop exportInfo branch previousSegment prevOutMD prevOutTVD (xs ++ ys)
        outletIsSegment segment segmentNumber =
      ((writeWelsegsSegment.loop exportInfo branch previousSegment prevOutMD prevOutTVD ys
          (outletIsSegment || !xs.isEmpty)
          (writeWelsegsSegment.loop exportInfo branch previousSegment prevOutMD prevOutTVD xs
            outletIsSegment segment segmentNumber).1
          (writeWelsegsSegment.loop exportInfo branch previousSegment prevOutMD prevOutTVD xs
            outletIsSegment segment segmentNumber).2.1).1,
        (writeWelsegsSegment.loop exportInfo branch previousSegment prevOutMD prevOutTVD ys
          (outletIsSegment || !xs.isEmpty)
          (writeWelsegsSegment.loop exportInfo branch previousSegment prevOutMD prevOutTVD xs
            outletIsSegment segment segmentNumber).1
          (writeWelsegsSegment.loop exportInfo branch previousSegment prevOutMD prevOutTVD xs
            outletIsSegment segment segmentNumber).2.1).2.1,
        (writeWelsegsSegment.loop exportInfo branch previousSegment prevOutMD prevOutTVD xs
            outletIsSegment segment segmentNumber).2.2 ++
          (writeWelsegsSegment.loop exportInfo branch previousSegment prevOutMD prevOutTVD ys
            (outletIsSegment || !xs.isEmpty)
            (writeWelsegsSegment.loop exportInfo branch previousSegment prevOutMD prevOutTVD xs
              outletIsSegment segment segmentNumber).1
            (writeWelsegsSegment.loop exportInfo branch previousSegment prevOutMD prevOutTVD xs
              outletIsSegment segment segmentNumber).2.1).2.2) := by
  induction xs generalizing outletIsSegment segment segmentNumber with
  | nil => simp [writeWelsegsSegment.loop]
  | cons p rest ih =>
    obtain ⟨s, e⟩ := p
    rw [List.cons_append]
    simp only [writeWelsegsSegment.loop, ih, Bool.true_or, List.isEmpty_cons, Bool.not_false,
      Bool.or_true, List.cons_append]

theorem writeWelsegsSegment_loop_rows_length (exportInfo : RicMswExportInfo)
    (branch : RicMswBranchData) (previousSegment : Option RicMswSegmentData)
    (prevOutMD prevOutTVD : ℚ) (pairs : List (ℚ × ℚ)) (outletIsSegment : Bool)
    (segment : RicMswSegment) (segmentNumber : Int) :
    (rowsOf (writeWelsegsSegment.loop exportInfo branch previousSegment prevOutMD prevOutTVD
      pairs outletIsSegment segment segmentNumber).2.2).length = pairs.length := by
  induction pairs generalizing outletIsSegment segment segmentNumber with
  | nil => rfl
  | cons p rest ih =>
    obtain ⟨s, e⟩ := p
    simp only [writeWelsegsSegment.loop, rowsOf, List.length_cons, ih]

theorem getLast?_take_succ {α : Type} (l : List α) (k : Nat) (p : α) (h : l[k]? = some p) :
    (l.take (k + 1)).getLast? = some p := by
  induction l generalizing k with
  | nil => simp at h
  | cons x xs ih =>
    cases k with
    | zero =>
      simp only [List.getElem?_cons_zero, Option.some.injEq] at h
      simp [h]
    | succ k =>
      simp only [List.getElem?_cons_succ] at h
      rw [List.take_succ_cons, List.getLast?_cons, ih k h]
      rfl

/-- C23 (the claim fails): the segment 0-25 of `Sample.longSegment` is written as three rows
with maximum segment length 10. The three passes of the loop of `writeWelsegsSegment` assign
the output MD 25/6, 25/2 and 125/6 in turn: after the first pass the segment holds 25/6, and
after the export it holds 125/6. -/
theorem writeWelsegsSegment_split_reassigns_output :
    writeWelsegsSegment.outputAssignments 10 (Sample.branchData 1 0 none)
        (Sample.subSegment 0 25 []) =
        [(25 / 6, 25 / 6), (25 / 2, 25 / 2), (125 / 6, 125 / 6)] ∧
      cachedOutput
          (writeWelsegsSegment.loop (Sample.exportOf Sample.longSegment "INC" false)
            (Sample.branchData 1 0 none) none 0 0 ((createSubSegmentMDPairs 0 25 10).take 1)
            false (Sample.segment 0 25 []) 2).1.toRicMswSegmentData = (25 / 6, 25 / 6) ∧
      (generateWelsegsTable (Sample.exportOf Sample.longSegment "INC" false) 10).map
          (fun r =>
            (plainSegments r.1.mainBoreBranch).map
              (fun p => cachedOutput p.2.toRicMswSegmentData)) =
        some [(125 / 6, 125 / 6)] := by
  refine ⟨by decide!, by decide!, by decide!⟩

/-- C23 (as amended): the cached output MD and TVD of a segment written by
`writeWelsegsSegment` are assigned once for every row written for the segment, the midpoint MD
of the row's interval and the TVD there (`writeWelsegsSegment.outputAssignments`): there are
as many assignments as rows, and after the passes for the first `k + 1` intervals the segment
holds the assignment of index `k`. After the last row nothing changes them: in the tree left
by `generateWelsegsTable` every such segment holds its last assignment (its old values when no
row was written for it). A segment that is not split is written as one row, so its output is
computed exactly once. -/
theorem generateWelsegsTable_output_cache (exportInfo : RicMswExportInfo)
    (maxSegmentLength : ℚ) :
    (∀ (branch : RicMswBranchData) (previousSegment : Option RicMswSegmentData)
        (segment : RicMswSegment) (segmentNumber : Int),
        (writeWelsegsSegment.outputAssignments maxSegmentLength branch
            segment.toRicMswSegmentData).length =
          (rowsOf (writeWelsegsSegment exportInfo maxSegmentLength branch segment
            previousSegment segmentNumber).2.2).length) ∧
      (∀ (branch : RicMswBranchData) (previousSegment : Option RicMswSegmentData)
        (prevOutMD prevOutTVD : ℚ) (segment : RicMswSegment) (segmentNumber : Int),
        (List.range (writeWelsegsSegment.outputAssignments maxSegmentLength branch
            segment.toRicMswSegmentData).length).map
          (fun (k : Nat) =>
            cachedOutput
              (writeWelsegsSegment.loop exportInfo branch previousSegment prevOutMD prevOutTVD
                ((createSubSegmentMDPairs segment.startMD segment.endMD maxSegmentLength).take
                  (k + 1))
                false segment segmentNumber).1.toRicMswSegmentData) =
          writeWelsegsSegment.outputAssignments maxSegmentLength branch
            segment.toRicMswSegmentData) ∧
      (generateWelsegsTable exportInfo maxSegmentLength).map
          (fun r =>
            (plainSegments r.1.mainBoreBranch).map
              (fun p => cachedOutput p.2.toRicMswSegmentData)) =
        (generateWelsegsTable exportInfo maxSegmentLength).map
          (fun _ =>
            (plainSegments exportInfo.mainBoreBranch).map
              (fun p =>
                ((writeWelsegsSegment.outputAssignments maxSegmentLength p.1
                    p.2.toRicMswSegmentData).getLast?).getD
                  (cachedOutput p.2.toRicMswSegmentData))) := by
  refine ⟨?_, ?_, ?_⟩
  · intro branch previousSegment segment segmentNumber
    unfold writeWelsegsSegment writeWelsegsSegment.outputAssignments
    rw [writeWelsegsSegment_loop_rows_length, List.length_map]
  · intro branch previousSegment prevOutMD prevOutTVD segment segmentNumber
    apply List.ext_getElem?
    intro k
    rw [List.getElem?_map]
    by_cases hk : k < (writeWelsegsSegment.outputAssignments maxSegmentLength branch
        segment.toRicMswSegmentData).length
    · rw [List.getElem?_range hk, List.getElem?_eq_getElem hk, Option.map_some']
      have hk' : k < (createSubSegmentMDPairs segment.startMD segment.endMD
          maxSegmentLength).length := by
        simpa [writeWelsegsSegment.outputAssignments] using hk
      have hp := getLast?_take_succ _ k _ (List.getElem?_eq_getElem hk')
      rw [writeWelsegsSegment_loop_segment, hp]
      simp [writeWelsegsSegment.outputAssignments, cachedOutput]
    · have hk' := Nat.le_of_not_lt hk
      rw [List.getElem?_eq_none hk', List.getElem?_eq_none (by simpa using hk')]
      rfl
  · unfold generateWelsegsTable
    cases hw : writeWelsegsSegmentsRecursively exportInfo maxSegmentLength
      exportInfo.mainBoreBranch 2 none with
    | none => rfl
    | some w =>
      simp only [Option.map_some']
      rw [writeWelsegsSegmentsRecursively_cachedOutput exportInfo maxSegmentLength
        exportInfo.mainBoreBranch 2 none w hw]

/-! ## WELSEGS: consecutive numbers -/

theorem numberedFrom_of_no_rows (first : Int) (events : List FormatterEvent)
    (h : rowsOf events = []) : NumberedFrom first events first := by
  simp [NumberedFrom, h]

theorem numberedFrom_append {first middle next : Int} {a b : List FormatterEvent}
    (ha : NumberedFrom first a middle) (hb : NumberedFrom middle b next) :
    NumberedFrom first (a ++ b) next := by
  obtain ⟨ha1, ha2⟩ := ha
  obtain ⟨hb1, hb2⟩ := hb
  constructor
  · rw [rowsOf_append, List.length_append, hb1, ha1]
    push_cast
    ring
  · rw [rowsOf_append, List.map_append, List.length_append, List.range_add, List.map_append,
      ha2, hb2, List.map_map]
    congr 1
    apply List.map_congr_left
    intro i _
    simp only [Function.comp, ha1, Option.some.injEq]
    push_cast
    ring

theorem numberedFrom_cons_row {first next : Int} {rest : List FormatterEvent}
    (cells : List Cell) (h : NumberedFrom (first + 1) rest next) :
    NumberedFrom first
      (FormatterEvent.rowCompleted (Cell.int first :: cells) :: rest) next := by
  have h1 : NumberedFrom first [FormatterEvent.rowCompleted (Cell.int first :: cells)]
      (first + 1) := by
    constructor
    · simp [rowsOf]
    · simp [rowsOf, firstColumn, List.range_succ]
  exact numberedFrom_append h1 h

theorem numberedFrom_cons_comment {first next : Int} {rest : List FormatterEvent}
    (s : String) (h : NumberedFrom first rest next) :
    NumberedFrom first (FormatterEvent.optionalComment s :: rest) next := by
  have h1 : NumberedFrom first [FormatterEvent.optionalComment s] first :=
    numberedFrom_of_no_rows _ _ rfl
  exact numberedFrom_append h1 h

theorem writeWelsegsSegment_loop_numbered (exportInfo : RicMswExportInfo)
    (branch : RicMswBranchData) (previousSegment : Option RicMswSegmentData)
    (prevOutMD prevOutTVD : ℚ) (pairs : List (ℚ × ℚ)) (outletIsSegment : Bool)
    (segment : RicMswSegment) (segmentNumber : Int) :
    NumberedFrom segmentNumber
      (writeWelsegsSegment.loop exportInfo branch previousSegment prevOutMD prevOutTVD pairs
        outletIsSegment segment segmentNumber).2.2
      (writeWelsegsSegment.loop exportInfo branch previousSegment prevOutMD prevOutTVD pairs
        outletIsSegment segment segmentNumber).2.1 := by
  induction pairs generalizing outletIsSegment segment segmentNumber with
  | nil => exact numberedFrom_of_no_rows _ _ rfl
  | cons p rest ih =>
    obtain ⟨s, e⟩ := p
    simp only [writeWelsegsSegment.loop]
    exact numberedFrom_cons_row _ (ih _ _ _)

theorem writeValveWelsegsSegment_loop_numbered (exportInfo : RicMswExportInfo)
    (valve : RicMswCompletion) (outlet : RicMswSegmentData) (pairs : List (ℚ × ℚ))
    (segmentNumber : Int) :
    ∃ r, writeValveWelsegsSegment.loop exportInfo valve (some outlet) pairs segmentNumber =
        some r ∧ NumberedFrom segmentNumber r.2 r.1 ∧ (rowsOf r.2).length = pairs.length := by
  induction pairs generalizing segmentNumber with
  | nil => exact ⟨_, rfl, numberedFrom_of_no_rows _ _ rfl, rfl⟩
  | cons p rest ih =>
    obtain ⟨s, e⟩ := p
    obtain ⟨r, hr, hn, hl⟩ := ih (segmentNumber + 1)
    simp only [writeValveWelsegsSegment.loop, hr]
    exact ⟨_, rfl, numberedFrom_cons_row _ hn, by simp [rowsOf, hl]⟩

theorem writeCompletionWelsegsSegments_splitLoop_numbered (exportInfo : RicMswExportInfo)
    (outletSegment : RicMswSegmentData) (completion : RicMswCompletion)
    (pairs : List (ℚ × ℚ)) (segmentNumber outlet : Int) :
    NumberedFrom segmentNumber
        (writeCompletionWelsegsSegments.splitLoop exportInfo outletSegment completion pairs
          segmentNumber outlet).2.2
        (writeCompletionWelsegsSegments.splitLoop exportInfo outletSegment completion pairs
          segmentNumber outlet).1 ∧
      (rowsOf (writeCompletionWelsegsSegments.splitLoop exportInfo outletSegment completion
        pairs segmentNumber outlet).2.2).length = pairs.length := by
  induction pairs generalizing segmentNumber outlet with
  | nil => exact ⟨numberedFrom_of_no_rows _ _ rfl, rfl⟩
  | cons p rest ih =>
    obtain ⟨s, e⟩ := p
    simp only [writeCompletionWelsegsSegments.splitLoop]
    exact ⟨numberedFrom_cons_row _ (ih _ _).1, by simp [rowsOf, (ih _ _).2]⟩

theorem writeCompletionWelsegsSegments_segmentLoop_numbered (exportInfo : RicMswExportInfo)
    (maxSegmentLength : ℚ) (outletSegment : RicMswSegmentData)
    (completion : RicMswCompletion) (segments : List RicMswSegmentData)
    (segmentNumber outlet : Int) :
    NumberedFrom segmentNumber
        (writeCompletionWelsegsSegments.segmentLoop exportInfo maxSegmentLength outletSegment
          completion segments segmentNumber outlet).2.2
        (writeCompletionWelsegsSegments.segmentLoop exportInfo maxSegmentLength outletSegment
          completion segments segmentNumber outlet).1 ∧
      (rowsOf (writeCompletionWelsegsSegments.segmentLoop exportInfo maxSegmentLength
        outletSegment completion segments segmentNumber outlet).2.2).length =
        (segments.flatMap
          (fun s => createSubSegmentMDPairs s.startMD s.endMD maxSegmentLength)).length := by
  induction segments generalizing segmentNumber outlet with
  | nil => exact ⟨numberedFrom_of_no_rows _ _ rfl, rfl⟩
  | cons s rest ih =>
    simp only [writeCompletionWelsegsSegments.segmentLoop]
    have h1 := writeCompletionWelsegsSegments_splitLoop_numbered exportInfo outletSegment
      completion (createSubSegmentMDPairs s.startMD s.endMD maxSegmentLength) segmentNumber
      outlet
    have h2 := ih
      (writeCompletionWelsegsSegments.splitLoop exportInfo outletSegment completion
        (createSubSegmentMDPairs s.startMD s.endMD maxSegmentLength) segmentNumber outlet).1
      (writeCompletionWelsegsSegments.splitLoop exportInfo outletSegment completion
        (createSubSegmentMDPairs s.startMD s.endMD maxSegmentLength) segmentNumber outlet).2.1
    refine ⟨numberedFrom_append h1.1 h2.1, ?_⟩
    rw [rowsOf_append, List.length_append, h1.2, h2.2, List.flatMap_cons, List.length_append]

theorem writeCompletionWelsegsSegments_numbered (exportInfo : RicMswExportInfo)
    (maxSegmentLength : ℚ) (outletSegment : RicMswSegmentData)
    (completion : RicMswCompletion) (segmentNumber : Int) :
    NumberedFrom segmentNumber
        (writeCompletionWelsegsSegments exportInfo maxSegmentLength outletSegment completion
          segmentNumber).2
        (writeCompletionWelsegsSegments exportInfo maxSegmentLength outletSegment completion
          segmentNumber).1 ∧
      (rowsOf (writeCompletionWelsegsSegments exportInfo maxSegmentLength outletSegment
        completion segmentNumber).2).length =
        (completion.segments.flatMap
          (fun s => createSubSegmentMDPairs s.startMD s.endMD maxSegmentLength)).length := by
  have h := writeCompletionWelsegsSegments_segmentLoop_numbered exportInfo maxSegmentLength
    outletSegment completion completion.segments segmentNumber outletSegment.segmentNumber
  have hhead : rowsOf (writeWelsegsCompletionCommentHeader completion.completionType ++
      (if completion.completionType = CompletionType.FISHBONES then
        [FormatterEvent.optionalComment
          ("Sub index " ++ toString outletSegment.subIndex ++ " - " ++ completion.label)]
      else if completion.completionType = CompletionType.FRACTURE then
        [FormatterEvent.optionalComment
          (completion.label ++ " connected to segment " ++
            toString outletSegment.segmentNumber)]
      else [])) = [] := by
    rw [rowsOf_append, rowsOf_writeWelsegsCompletionCommentHeader]
    split_ifs <;> rfl
  unfold writeCompletionWelsegsSegments
  constructor
  · exact numberedFrom_append (numberedFrom_of_no_rows _ _ hhead) h.1
  · simp only [rowsOf_append] at hhead ⊢
    simp only [List.append_eq_nil] at hhead
    rw [hhead.1, hhead.2]
    exact h.2

theorem writeValveWelsegsSegment_invalid (exportInfo : RicMswExportInfo)
    (maxSegmentLength : ℚ) (outletSegment : Option RicMswSegmentData)
    (valve : RicMswCompletion) (segmentNumber : Int) (hvalid : valve.isValid = false) :
    writeValveWelsegsSegment exportInfo maxSegmentLength outletSegment valve segmentNumber =
      some (valve, segmentNumber, []) := by
  simp [writeValveWelsegsSegment, hvalid]

theorem writeValveWelsegsSegment_valid (exportInfo : RicMswExportInfo)
    (maxSegmentLength : ℚ) (outlet : RicMswSegmentData) (valve : RicMswCompletion)
    (segmentNumber : Int) (subSegment : RicMswSegmentData) (others : List RicMswSegmentData)
    (hvalid : valve.isValid = true) (hsegs : valve.segments = subSegment :: others) :
    ∃ r written,
      written =
          { valve with
            segments :=
              { subSegment with
                segmentNumber := segmentNumber
                outputMD := (1 / 2) * (subSegment.startMD + subSegment.endMD)
                outputTVD := tvdFromMeasuredDepth valve.wellPath
                  ((1 / 2) * (subSegment.startMD + subSegment.endMD)) } :: others } ∧
        writeValveWelsegsSegment.loop exportInfo valve (some outlet)
          (createSubSegmentMDPairs subSegment.startMD subSegment.endMD maxSegmentLength)
          segmentNumber = some r ∧
        writeValveWelsegsSegment exportInfo maxSegmentLength (some outlet) valve
            segmentNumber =
          some (written, r.1, FormatterEvent.optionalComment valve.label :: r.2) ∧
        NumberedFrom segmentNumber r.2 r.1 ∧
        (rowsOf r.2).length =
          (createSubSegmentMDPairs subSegment.startMD subSegment.endMD
            maxSegmentLength).length := by
  obtain ⟨r, hr, hn, hl⟩ := writeValveWelsegsSegment_loop_numbered exportInfo valve outlet
    (createSubSegmentMDPairs subSegment.startMD subSegment.endMD maxSegmentLength)
    segmentNumber
  refine ⟨r, _, rfl, hr, ?_, hn, hl⟩
  simp [writeValveWelsegsSegment, hvalid, hsegs, hr]

theorem writeWelsegsSegmentsRecursively_completionLoop_numbered (exportInfo : RicMswExportInfo)
    (maxSegmentLength : ℚ) (segment : RicMswSegmentData)
    (completions : List RicMswCompletion) (segmentNumber : Int)
    (outletValve : Option RicMswCompletion)
    (hvalves : ∀ c ∈ completions, c.dynamicType = CompletionClass.valve → c.isValid = true →
      c.segments.isEmpty = false) :
    ∃ r,
      writeWelsegsSegmentsRecursively.completionLoop exportInfo maxSegmentLength segment
          completions segmentNumber outletValve = some r ∧
        NumberedFrom segmentNumber r.2.2.2 r.2.1 ∧
        (rowsOf r.2.2.2).length =
          (completions.map (welsegsCompletionRowCount maxSegmentLength)).sum := by
  induction completions generalizing segmentNumber outletValve with
  | nil => exact ⟨_, rfl, numberedFrom_of_no_rows _ _ rfl, rfl⟩
  | cons c rest ih =>
    have hrest : ∀ c ∈ rest, c.dynamicType = CompletionClass.valve → c.isValid = true →
        c.segments.isEmpty = false := fun c hc => hvalves c (List.mem_cons_of_mem _ hc)
    cases hc : c.dynamicType with
    | perforation =>
      obtain ⟨r, hr, hn, hl⟩ := ih segmentNumber outletValve hrest
      simp only [writeWelsegsSegmentsRecursively.completionLoop, hc, hr]
      refine ⟨_, rfl, hn, ?_⟩
      simp [welsegsCompletionRowCount, hc, hl]
    | valve =>
      cases hvalid : c.isValid with
      | false =>
        obtain ⟨r, hr, hn, hl⟩ := ih segmentNumber (some c) hrest
        simp only [writeWelsegsSegmentsRecursively.completionLoop, hc,
          writeValveWelsegsSegment_invalid exportInfo maxSegmentLength (some segment) c
            segmentNumber hvalid, hr]
        refine ⟨_, rfl, by simpa using hn, ?_⟩
        simp [welsegsCompletionRowCount, hc, hvalid, hl]
      | true =>
        have hne := hvalves c (List.mem_cons_self _ _) hc hvalid
        cases hsegs : c.segments with
        | nil => simp [hsegs] at hne
        | cons subSegment others =>
          obtain ⟨w, written, _, _, hw, hwn, hwl⟩ := writeValveWelsegsSegment_valid exportInfo
            maxSegmentLength segment c segmentNumber subSegment others hvalid hsegs
          obtain ⟨r, hr, hn, hl⟩ := ih w.1 (some written) hrest
          simp only [writeWelsegsSegmentsRecursively.completionLoop, hc, hw, hr]
          refine ⟨_, rfl, ?_, ?_⟩
          · exact numberedFrom_append (numberedFrom_cons_comment _ hwn) hn
          · simp [welsegsCompletionRowCount, hc, hvalid, hsegs, rowsOf_append, rowsOf, hwl, hl]
    | other =>
      simp only [writeWelsegsSegmentsRecursively.completionLoop, hc]
      generalize hwd : writeCompletionWelsegsSegments exportInfo maxSegmentLength _ c
        segmentNumber = w
      have hw : NumberedFrom segmentNumber w.2 w.1 ∧
          (rowsOf w.2).length =
            (c.segments.flatMap
              (fun s => createSubSegmentMDPairs s.startMD s.endMD maxSegmentLength)).length := by
        rw [← hwd]
        exact writeCompletionWelsegsSegments_numbered _ _ _ _ _
      obtain ⟨r, hr, hn, hl⟩ := ih w.1 outletValve hrest
      simp only [hr]
      refine ⟨_, rfl, numberedFrom_append hw.1 hn, ?_⟩
      simp [welsegsCompletionRowCount, hc, rowsOf_append, hw.2, hl]

theorem createSubSegmentMDPairs_length_floor {startMD endMD maxSegmentLength : ℚ}
    (hle : startMD ≤ endMD) (hpos : 0 < maxSegmentLength) :
    ((createSubSegmentMDPairs startMD endMD maxSegmentLength).length : Int) =
      ⌊(endMD - startMD) / maxSegmentLength⌋ + 1 := by
  have hc := subSegmentCount_pos hle hpos
  rw [createSubSegmentMDPairs_length, ← subSegmentCount_eq hle hpos]
  omega

theorem writeWelsegsSegment_numbered (exportInfo : RicMswExportInfo) (maxSegmentLength : ℚ)
    (branch : RicMswBranchData) (segment : RicMswSegment)
    (previousSegment : Option RicMswSegmentData) (segmentNumber : Int)
    (hle : segment.startMD ≤ segment.endMD) (hpos : 0 < maxSegmentLength) :
    NumberedFrom segmentNumber
        (writeWelsegsSegment exportInfo maxSegmentLength branch segment previousSegment
          segmentNumber).2.2
        (writeWelsegsSegment exportInfo maxSegmentLength branch segment previousSegment
          segmentNumber).2.1 ∧
      (writeWelsegsSegment exportInfo maxSegmentLength branch segment previousSegment
          segmentNumber).2.1 =
        segmentNumber + (⌊(segment.endMD - segment.startMD) / maxSegmentLength⌋ + 1) ∧
      (writeWelsegsSegment exportInfo maxSegmentLength branch segment previousSegment
          segmentNumber).1.segmentNumber =
        segmentNumber + (⌊(segment.endMD - segment.startMD) / maxSegmentLength⌋ + 1) - 1 := by
  have hlen := createSubSegmentMDPairs_length_floor hle hpos
  unfold writeWelsegsSegment
  refine ⟨writeWelsegsSegment_loop_numbered _ _ _ _ _ _ _ _ _, ?_, ?_⟩
  · rw [writeWelsegsSegment_loop_counter, hlen]
  · rw [writeWelsegsSegment_loop_segment]
    cases hl : (createSubSegmentMDPairs segment.startMD segment.endMD
        maxSegmentLength).getLast? with
    | none =>
      rw [List.getLast?_eq_none_iff] at hl
      rw [hl] at hlen
      have := Int.floor_nonneg.mpr
        (div_nonneg (sub_nonneg.mpr hle) hpos.le : 0 ≤ (segment.endMD - segment.startMD) /
          maxSegmentLength)
      simp at hlen
      omega
    | some p =>
      simp only
      rw [hlen]

theorem writeWelsegsSegment_first_outlet (exportInfo : RicMswExportInfo)
    (maxSegmentLength : ℚ) (branch : RicMswBranchData) (segment : RicMswSegment)
    (segmentNumber : Int) (hle : segment.startMD ≤ segment.endMD)
    (hpos : 0 < maxSegmentLength) :
    ∃ row rest,
      rowsOf (writeWelsegsSegment exportInfo maxSegmentLength branch segment none
        segmentNumber).2.2 = row :: rest ∧ row[3]? = some (Cell.int 1) := by
  have hlen := createSubSegmentMDPairs_length_floor hle hpos
  have hfloor := Int.floor_nonneg.mpr
    (div_nonneg (sub_nonneg.mpr hle) hpos.le : 0 ≤ (segment.endMD - segment.startMD) /
      maxSegmentLength)
  unfold writeWelsegsSegment
  cases hp : createSubSegmentMDPairs segment.startMD segment.endMD maxSegmentLength with
  | nil =>
    rw [hp] at hlen
    simp at hlen
    omega
  | cons p ps =>
    obtain ⟨s, e⟩ := p
    simp only [writeWelsegsSegment.loop, rowsOf]
    exact ⟨_, _, rfl, rfl⟩

theorem writeWelsegsSegmentsRecursively_segmentLoop_numbered (exportInfo : RicMswExportInfo)
    (maxSegmentLength : ℚ) (branch : RicMswBranchData) (segments : List RicMswSegment)
    (state : WelsegsWalkState) (hpos : 0 < maxSegmentLength)
    (hvalves : ∀ s ∈ segments, ∀ c ∈ s.completions,
      c.dynamicType = CompletionClass.valve → c.isValid = true → c.segments.isEmpty = false)
    (hle : ∀ s ∈ segments, s.startMD ≤ s.endMD) :
    ∃ r,
      writeWelsegsSegmentsRecursively.segmentLoop exportInfo maxSegmentLength branch segments
          state = some r ∧
        NumberedFrom state.segmentNumber r.2.2 r.2.1.segmentNumber ∧
        r.2.1.segmentNumber =
          (expectedStoredNumbersOfSegments maxSegmentLength segments state.segmentNumber).2 ∧
        r.1.map (fun s => s.segmentNumber) =
          (expectedStoredNumbersOfSegments maxSegmentLength segments
            state.segmentNumber).1 := by
  induction segments generalizing state with
  | nil => exact ⟨_, rfl, numberedFrom_of_no_rows _ _ rfl, rfl, rfl⟩
  | cons s rest ih =>
    have hs : s.startMD ≤ s.endMD := hle s (List.mem_cons_self _ _)
    have hw := writeWelsegsSegment_numbered exportInfo maxSegmentLength branch
      { s with segmentNumber := state.segmentNumber } state.outletSegment state.segmentNumber
      hs hpos
    have hwc := writeWelsegsSegment_completions_eq exportInfo maxSegmentLength branch
      { s with segmentNumber := state.segmentNumber } state.outletSegment state.segmentNumber
    simp only [writeWelsegsSegmentsRecursively.segmentLoop]
    generalize writeWelsegsSegment exportInfo maxSegmentLength branch
      { s with segmentNumber := state.segmentNumber } state.outletSegment
      state.segmentNumber = w at hw hwc
    obtain ⟨hw1, hw2, hw3⟩ := hw
    simp only at hwc
    obtain ⟨c, hc, hcn, hcl⟩ := writeWelsegsSegmentsRecursively_completionLoop_numbered
      exportInfo maxSegmentLength w.1.toRicMswSegmentData w.1.completions w.2.1
      state.outletValve
      (by rw [hwc]; exact hvalves s (List.mem_cons_self _ _))
    rw [hc]
    simp only
    obtain ⟨r, hr, hrn, hrc, hrs⟩ := ih
      { segmentNumber := c.2.1,
        outletSegment := some w.1.toRicMswSegmentData,
        outletValve := c.2.2.1 }
      (fun s hs => hvalves s (List.mem_cons_of_mem _ hs))
      (fun s hs => hle s (List.mem_cons_of_mem _ hs))
    rw [hr]
    have hcount : c.2.1 = state.segmentNumber +
        (⌊(s.endMD - s.startMD) / maxSegmentLength⌋ + 1) +
        (((s.completions.map (welsegsCompletionRowCount maxSegmentLength)).sum : Nat) :
          Int) := by
      rw [hcn.1, hcl, hw2, hwc]
    refine ⟨_, rfl, ?_, ?_, ?_⟩
    · have hcomment : NumberedFrom state.segmentNumber
          (if s.subIndex ≠ UNDEFINED_SIZE_T then
            [FormatterEvent.optionalComment (s.label ++ ", sub " ++ toString s.subIndex)]
          else []) state.segmentNumber := by
        apply numberedFrom_of_no_rows
        split_ifs <;> rfl
      simpa [List.append_assoc] using
        numberedFrom_append hcomment (numberedFrom_append hw1 (numberedFrom_append hcn hrn))
    · simp only [expectedStoredNumbersOfSegments]
      rw [← hcount]
      exact hrc
    · simp only [expectedStoredNumbersOfSegments, List.map_cons]
      rw [← hcount]
      simp only at hrs
      rw [hrs, hw3]

mutual

theorem writeWelsegsSegmentsRecursively_numbered (exportInfo : RicMswExportInfo)
    (maxSegmentLength : ℚ) (hpos : 0 < maxSegmentLength) :
    ∀ (branch : RicMswBranch) (segmentNumber : Int)
      (connectedToSegment : Option RicMswSegmentData),
      hasTieInICV branch = false →
      (∀ p ∈ allCompletions branch, p.2.dynamicType = CompletionClass.valve →
        p.2.isValid = true → p.2.segments.isEmpty = false) →
      (∀ p ∈ plainSegments branch, p.2.startMD ≤ p.2.endMD) →
      ∃ r,
        writeWelsegsSegmentsRecursively exportInfo maxSegmentLength branch segmentNumber
            connectedToSegment = some r ∧
          NumberedFrom segmentNumber r.2.2 r.2.1 ∧
          r.2.1 = (expectedStoredNumbers maxSegmentLength branch segmentNumber).2 ∧
          (plainSegments r.1).map (fun p => p.2.segmentNumber) =
            (expectedStoredNumbers maxSegmentLength branch segmentNumber).1
  | RicMswBranch.mk branch segments branches, segmentNumber, connectedToSegment, hno, hvalves,
      hle => by
    simp only [hasTieInICV, Bool.or_eq_false_iff] at hno
    obtain ⟨hsome, hnoChildren⟩ := hno
    have hplain : branch.tieInICV = none := by
      cases hicv : branch.tieInICV with
      | none => rfl
      | some icv => rw [hicv] at hsome; simp at hsome
    simp only [allCompletions, List.mem_append, List.mem_flatMap, List.mem_map] at hvalves
    simp only [plainSegments, hplain, List.mem_append, List.mem_map] at hle
    obtain ⟨l, hl, hln, hlc, hls⟩ := writeWelsegsSegmentsRecursively_segmentLoop_numbered
      exportInfo maxSegmentLength branch segments
      { segmentNumber := segmentNumber, outletSegment := connectedToSegment,
        outletValve := none } hpos
      (fun s hs c hc => hvalves (s, c) (Or.inl ⟨s, hs, c, hc, rfl⟩))
      (fun s hs => hle (branch, s) (Or.inl ⟨s, hs, rfl⟩))
    obtain ⟨c, hc, hcn, hcc, hcs⟩ := writeWelsegsChildBranches_numbered exportInfo
      maxSegmentLength hpos l.1 l.2.1.outletSegment branches l.2.1.segmentNumber hnoChildren
      (fun p hp => hvalves p (Or.inr hp)) (fun p hp => hle p (Or.inr hp))
    rw [writeWelsegsSegmentsRecursively_plain _ _ _ _ _ _ _ hplain, hl]
    simp only [hc]
    refine ⟨_, rfl, ?_, ?_, ?_⟩
    · exact numberedFrom_cons_comment _ (numberedFrom_append hln hcn)
    · simp only [expectedStoredNumbers]
      rw [← hlc]
      exact hcc
    · simp only [expectedStoredNumbers, plainSegments, hplain, List.map_append, List.map_map,
        Function.comp_def]
      rw [← hlc, hcs]
      simp only at hls
      rw [hls]

theorem writeWelsegsChildBranches_numbered (exportInfo : RicMswExportInfo)
    (maxSegmentLength : ℚ) (hpos : 0 < maxSegmentLength) :
    ∀ (parentSegments : List RicMswSegment) (outletSegment : Option RicMswSegmentData)
      (branches : List RicMswBranch) (segmentNumber : Int),
      hasTieInICVInBranches branches = false →
      (∀ p ∈ allCompletionsOfBranches branches, p.2.dynamicType = CompletionClass.valve →
        p.2.isValid = true → p.2.segments.isEmpty = false) →
      (∀ p ∈ plainSegmentsOfBranches branches, p.2.startMD ≤ p.2.endMD) →
      ∃ r,
        writeWelsegsChildBranches exportInfo maxSegmentLength parentSegments outletSegment
            branches segmentNumber = some r ∧
          NumberedFrom segmentNumber r.2.2 r.2.1 ∧
          r.2.1 = (expectedStoredNumbersOfBranches maxSegmentLength branches segmentNumber).2 ∧
          (plainSegmentsOfBranches r.1).map (fun p => p.2.segmentNumber) =
            (expectedStoredNumbersOfBranches maxSegmentLength branches segmentNumber).1
  | parentSegments, outletSegment, [], segmentNumber, _, _, _ => by
    rw [writeWelsegsChildBranches]
    exact ⟨_, rfl, numberedFrom_of_no_rows _ _ rfl, rfl, rfl⟩
  | parentSegments, outletSegment, branch :: rest, segmentNumber, hno, hvalves, hle => by
    simp only [hasTieInICVInBranches, Bool.or_eq_false_iff] at hno
    simp only [allCompletionsOfBranches, List.mem_append] at hvalves
    simp only [plainSegmentsOfBranches, List.mem_append] at hle
    obtain ⟨b, hb, hbn, hbc, hbs⟩ := writeWelsegsSegmentsRecursively_numbered exportInfo
      maxSegmentLength hpos branch segmentNumber
      (outletSegmentForChildBranch parentSegments outletSegment branch) hno.1
      (fun p hp => hvalves p (Or.inl hp)) (fun p hp => hle p (Or.inl hp))
    obtain ⟨r, hr, hrn, hrc, hrs⟩ := writeWelsegsChildBranches_numbered exportInfo
      maxSegmentLength hpos parentSegments outletSegment rest b.2.1 hno.2
      (fun p hp => hvalves p (Or.inr hp)) (fun p hp => hle p (Or.inr hp))
    rw [writeWelsegsChildBranches, hb]
    simp only [hr]
    refine ⟨_, rfl, numberedFrom_append hbn hrn, ?_, ?_⟩
    · simp only [expectedStoredNumbersOfBranches]
      rw [← hbc]
      exact hrc
    · simp only [expectedStoredNumbersOfBranches, plainSegmentsOfBranches, List.map_append]
      rw [← hbc, hbs, hrs]

end

theorem welsegsDataRows_generateWelsegsTable (exportInfo : RicMswExportInfo)
    (maxSegmentLength : ℚ) (r : RicMswExportInfo × List FormatterEvent)
    (w : RicMswBranch × Int × List FormatterEvent)
    (hw : writeWelsegsSegmentsRecursively exportInfo maxSegmentLength
      exportInfo.mainBoreBranch 2 none = some w)
    (h : generateWelsegsTable exportInfo maxSegmentLength = some r) :
    r.1.mainBoreBranch = w.1 ∧ welsegsDataRows r.2 = rowsOf w.2.2 := by
  unfold generateWelsegsTable at h
  simp only [hw, Option.some.injEq] at h
  rw [← h]
  refine ⟨rfl, ?_⟩
  simp [welsegsDataRows, rowsOf_append, rowsOf]

theorem writeWelsegsSegmentsRecursively_segmentLoop_first_outlet
    (exportInfo : RicMswExportInfo) (maxSegmentLength : ℚ) (branch : RicMswBranchData)
    (s : RicMswSegment) (rest : List RicMswSegment) (state : WelsegsWalkState)
    (r : List RicMswSegment × WelsegsWalkState × List FormatterEvent)
    (hpos : 0 < maxSegmentLength) (hle : s.startMD ≤ s.endMD)
    (hout : state.outletSegment = none)
    (h : writeWelsegsSegmentsRecursively.segmentLoop exportInfo maxSegmentLength branch
      (s :: rest) state = some r) :
    ∃ row others, rowsOf r.2.2 = row :: others ∧ row[3]? = some (Cell.int 1) := by
  simp only [writeWelsegsSegmentsRecursively.segmentLoop, hout] at h
  obtain ⟨row, others, hrow, hcell⟩ := writeWelsegsSegment_first_outlet exportInfo
    maxSegmentLength branch { s with segmentNumber := state.segmentNumber }
    state.segmentNumber hle hpos
  generalize writeWelsegsSegment exportInfo maxSegmentLength branch
    { s with segmentNumber := state.segmentNumber } none state.segmentNumber = w at h hrow
  generalize writeWelsegsSegmentsRecursively.completionLoop exportInfo maxSegmentLength _ _ _
    _ = c at h
  cases c with
  | none => simp at h
  | some c =>
    simp only at h
    generalize writeWelsegsSegmentsRecursively.segmentLoop exportInfo maxSegmentLength branch
      rest _ = l at h
    cases l with
    | none => simp at h
    | some l =>
      simp only [Option.some.injEq] at h
      rw [← h]
      have hcomment : rowsOf
          (if s.subIndex ≠ UNDEFINED_SIZE_T then
            [FormatterEvent.optionalComment (s.label ++ ", sub " ++ toString s.subIndex)]
          else []) = [] := by
        split_ifs <;> rfl
      refine ⟨row, others ++ rowsOf c.2.2.2 ++ rowsOf l.2.2, ?_, hcell⟩
      simp only [rowsOf_append, hcomment, hrow, List.nil_append, List.cons_append,
        List.append_assoc]

/-- C26, in exact arithmetic: for a tree without tie-in ICV branches in which every valid
valve has a sub-segment, with `0 < maxSegmentLength` and `startMD ≤ endMD` on every segment,
`generateWelsegsTable` completes and the numbers of its data rows in the order written are
2, 3, ..., one per row; the segments hold the numbers of `expectedStoredNumbers` (each segment takes
`floor((endMD - startMD) / maxSegmentLength) + 1` numbers and holds the last of them, the rows
of its completions take the numbers after these) and the counter ends where that numbering
ends; when the main bore has a segment the first data row has outlet 1. The last part states
the numbers of one segment where it is written: from the counter value `segmentNumber` its
rows are numbered `segmentNumber`, ..., `segmentNumber + floor(...)` and the segment is left
with the last of these. -/
theorem generateWelsegsTable_numbering (exportInfo : RicMswExportInfo)
    (maxSegmentLength : ℚ) (hpos : 0 < maxSegmentLength)
    (hplain : hasTieInICV exportInfo.mainBoreBranch = false)
    (hvalves : ∀ p ∈ allCompletions exportInfo.mainBoreBranch,
      p.2.dynamicType = CompletionClass.valve → p.2.isValid = true →
        p.2.segments.isEmpty = false)
    (hle : ∀ p ∈ plainSegments exportInfo.mainBoreBranch, p.2.startMD ≤ p.2.endMD) :
    ∃ r,
      generateWelsegsTable exportInfo maxSegmentLength = some r ∧
        (welsegsDataRows r.2).map firstColumn =
          (List.range (welsegsDataRows r.2).length).map
            (fun (i : Nat) => some (2 + (i : Int))) ∧
        (plainSegments r.1.mainBoreBranch).map (fun p => p.2.segmentNumber) =
          (expectedStoredNumbers maxSegmentLength exportInfo.mainBoreBranch 2).1 ∧
        (2 : Int) + ((welsegsDataRows r.2).length : Int) =
          (expectedStoredNumbers maxSegmentLength exportInfo.mainBoreBranch 2).2 ∧
        (exportInfo.mainBoreBranch.segments.isEmpty = false →
          ∃ row others, welsegsDataRows r.2 = row :: others ∧ row[3]? = some (Cell.int 1)) ∧
        ∀ (branch : RicMswBranchData) (segment : RicMswSegment)
          (previousSegment : Option RicMswSegmentData) (segmentNumber : Int),
          segment.startMD ≤ segment.endMD →
            ((rowsOf (writeWelsegsSegment exportInfo maxSegmentLength branch segment
                previousSegment segmentNumber).2.2).length : Int) =
                ⌊(segment.endMD - segment.startMD) / maxSegmentLength⌋ + 1 ∧
              (rowsOf (writeWelsegsSegment exportInfo maxSegmentLength branch segment
                  previousSegment segmentNumber).2.2).map firstColumn =
                (List.range (rowsOf (writeWelsegsSegment exportInfo maxSegmentLength branch
                    segment previousSegment segmentNumber).2.2).length).map
                  (fun (i : Nat) => some (segmentNumber + (i : Int))) ∧
              (writeWelsegsSegment exportInfo maxSegmentLength branch segment previousSegment
                  segmentNumber).1.segmentNumber =
                segmentNumber + ⌊(segment.endMD - segment.startMD) / maxSegmentLength⌋ := by
  obtain ⟨w, hw, hwn, hwc, hws⟩ := writeWelsegsSegmentsRecursively_numbered exportInfo
    maxSegmentLength hpos exportInfo.mainBoreBranch 2 none hplain hvalves hle
  have hsome : ∃ r, generateWelsegsTable exportInfo maxSegmentLength = some r := by
    unfold generateWelsegsTable
    simp only [hw]
    exact ⟨_, rfl⟩
  obtain ⟨r, hr⟩ := hsome
  obtain ⟨htree, hrows⟩ := welsegsDataRows_generateWelsegsTable exportInfo maxSegmentLength r w
    hw hr
  refine ⟨r, hr, ?_, ?_, ?_, ?_, ?_⟩
  · rw [hrows]
    exact hwn.2
  · rw [htree]
    exact hws
  · rw [hrows, ← hwc, hwn.1]
  · intro hne
    rw [hrows]
    cases hb : exportInfo.mainBoreBranch with
    | mk branch segments branches =>
      rw [hb] at hw hne hle hplain
      cases segments with
      | nil => simp [RicMswBranch.segments] at hne
      | cons s rest =>
        simp only [hasTieInICV, Bool.or_eq_false_iff] at hplain
        have hnone : branch.tieInICV = none := by
          cases hicv : branch.tieInICV with
          | none => rfl
          | some icv => rw [hicv] at hplain; simp at hplain
        rw [writeWelsegsSegmentsRecursively_plain _ _ _ _ _ _ _ hnone] at hw
        cases hl : writeWelsegsSegmentsRecursively.segmentLoop exportInfo maxSegmentLength
          branch (s :: rest)
          { segmentNumber := 2, outletSegment := none, outletValve := none } with
        | none => simp [hl] at hw
        | some l =>
          simp only [hl] at hw
          cases hc : writeWelsegsChildBranches exportInfo maxSegmentLength l.1
            l.2.1.outletSegment branches l.2.1.segmentNumber with
          | none => simp [hc] at hw
          | some c =>
            simp only [hc, Option.some.injEq] at hw
            have hs : s.startMD ≤ s.endMD := by
              apply hle (branch, s)
              simp [plainSegments, hnone]
            obtain ⟨row, others, hrow, hcell⟩ :=
              writeWelsegsSegmentsRecursively_segmentLoop_first_outlet exportInfo
                maxSegmentLength branch s rest _ l hpos hs rfl hl
            rw [← hw]
            refine ⟨row, others ++ rowsOf c.2.2, ?_, hcell⟩
            simp only [rowsOf, rowsOf_append, hrow, List.cons_append]
  · intro branch segment previousSegment segmentNumber hs
    obtain ⟨h1, h2, h3⟩ := writeWelsegsSegment_numbered exportInfo maxSegmentLength branch
      segment previousSegment segmentNumber hs hpos
    refine ⟨?_, h1.2, ?_⟩
    · have := h1.1
      rw [h2] at this
      omega
    · rw [h3]
      ring

/-- Witness of C26: `Sample.plainTree` with maximum segment length 10. -/
theorem generateWelsegsTable_numbering_witness :
    (0 : ℚ) < 10 ∧
      hasTieInICV Sample.plainTree = false ∧
      (∀ p ∈ allCompletions Sample.plainTree,
        p.2.dynamicType = CompletionClass.valve → p.2.isValid = true →
          p.2.segments.isEmpty = false) ∧
      (∀ p ∈ plainSegments Sample.plainTree,
        p.2.startMD ≤ p.2.endMD) ∧
    ∃ r,
      generateWelsegsTable (Sample.exportOf Sample.plainTree "INC" false) 10 = some r ∧
        (welsegsDataRows r.2).map firstColumn =
          (List.range (welsegsDataRows r.2).length).map
            (fun (i : Nat) => some (2 + (i : Int))) ∧
        (plainSegments r.1.mainBoreBranch).map (fun p => p.2.segmentNumber) =
          (expectedStoredNumbers 10 Sample.plainTree 2).1 ∧
        (2 : Int) + ((welsegsDataRows r.2).length : Int) =
          (expectedStoredNumbers 10 Sample.plainTree 2).2 ∧
        (Sample.plainTree.segments.isEmpty = false →
          ∃ row others, welsegsDataRows r.2 = row :: others ∧ row[3]? = some (Cell.int 1)) ∧
        ∀ (branch : RicMswBranchData) (segment : RicMswSegment)
          (previousSegment : Option RicMswSegmentData) (segmentNumber : Int),
          segment.startMD ≤ segment.endMD →
            ((rowsOf (writeWelsegsSegment (Sample.exportOf Sample.plainTree "INC" false) 10
                branch segment previousSegment segmentNumber).2.2).length : Int) =
                ⌊(segment.endMD - segment.startMD) / 10⌋ + 1 ∧
              (rowsOf (writeWelsegsSegment (Sample.exportOf Sample.plainTree "INC" false) 10
                  branch segment previousSegment segmentNumber).2.2).map firstColumn =
                (List.range (rowsOf (writeWelsegsSegment
                    (Sample.exportOf Sample.plainTree "INC" false) 10 branch segment
                    previousSegment segmentNumber).2.2).length).map
                  (fun (i : Nat) => some (segmentNumber + (i : Int))) ∧
              (writeWelsegsSegment (Sample.exportOf Sample.plainTree "INC" false) 10 branch
                  segment previousSegment
                  segmentNumber).1.segmentNumber =
                segmentNumber + ⌊(segment.endMD - segment.startMD) / 10⌋ :=
  ⟨by norm_num, by decide!, by decide!, by decide!,
    generateWelsegsTable_numbering _ 10 (by norm_num) (by decide!) (by decide!) (by decide!)⟩

/-- The numbering of `Sample.plainTree` with maximum segment length 10: the segment 0-25 is
written as the rows 2, 3, 4 and holds 4, its valve is row 5 and its fracture row 6, and the
segment 5-15 of the lateral is written as the rows 7 and 8 and holds 8. -/
theorem generateWelsegsTable_plainTree_numbers :
    (generateWelsegsTable (Sample.exportOf Sample.plainTree "INC" false) 10).map
        (fun r =>
          ((welsegsDataRows r.2).map firstColumn,
            (plainSegments r.1.mainBoreBranch).map (fun p => p.2.segmentNumber))) =
      some ([some 2, some 3, some 4, some 5, some 6, some 7, some 8], [4, 8]) := by
  decide!

/-! ## WELSEGS: a second export of the same tree -/

theorem writeWelsegsSegment_loop_events (exportInfo : RicMswExportInfo)
    (branch : RicMswBranchData) (previousSegment : Option RicMswSegmentData)
    (prevOutMD prevOutTVD : ℚ) (pairs : List (ℚ × ℚ)) (outletIsSegment : Bool)
    (segment other : RicMswSegment) (segmentNumber : Int) :
    (writeWelsegsSegment.loop exportInfo branch previousSegment prevOutMD prevOutTVD pairs
        outletIsSegment segment segmentNumber).2 =
      (writeWelsegsSegment.loop exportInfo branch previousSegment prevOutMD prevOutTVD pairs
        outletIsSegment other segmentNumber).2 := by
  induction pairs generalizing outletIsSegment segment other segmentNumber with
  | nil => rfl
  | cons p rest ih =>
    obtain ⟨s, e⟩ := p
    simp only [writeWelsegsSegment.loop]
    rw [ih true _
      { other with
        outputMD := (1 / 2) * (s + e)
        outputTVD := tvdFromMeasuredDepth branch.wellPath ((1 / 2) * (s + e))
        segmentNumber := segmentNumber }]

theorem writeWelsegsSegment_fst (exportInfo : RicMswExportInfo) (maxSegmentLength : ℚ)
    (branch : RicMswBranchData) (segment : RicMswSegment)
    (previousSegment : Option RicMswSegmentData) (segmentNumber : Int) :
    (writeWelsegsSegment exportInfo maxSegmentLength branch segment previousSegment
        segmentNumber).1 =
      match (createSubSegmentMDPairs segment.startMD segment.endMD
          maxSegmentLength).getLast? with
      | none => segment
      | some p =>
        { segment with
          outputMD := midPoint p
          outputTVD := tvdFromMeasuredDepth branch.wellPath (midPoint p)
          segmentNumber :=
            segmentNumber +
              (createSubSegmentMDPairs segment.startMD segment.endMD maxSegmentLength).length -
              1 } := by
  unfold writeWelsegsSegment
  exact writeWelsegsSegment_loop_segment _ _ _ _ _ _ _ _ _

theorem writeWelsegsSegment_overwritten (exportInfo : RicMswExportInfo)
    (maxSegmentLength : ℚ) (branch : RicMswBranchData) (segment : RicMswSegment)
    (previousSegment : Option RicMswSegmentData) (segmentNumber number : Int)
    (outputMD outputTVD : ℚ) (p : ℚ × ℚ)
    (hp : (createSubSegmentMDPairs segment.startMD segment.endMD maxSegmentLength).getLast? =
      some p) :
    writeWelsegsSegment exportInfo maxSegmentLength branch
        { segment with
          outputMD := outputMD, outputTVD := outputTVD, segmentNumber := number }
        previousSegment segmentNumber =
      writeWelsegsSegment exportInfo maxSegmentLength branch segment previousSegment
        segmentNumber := by
  apply Prod.ext
  · rw [writeWelsegsSegment_fst, writeWelsegsSegment_fst]
    simp only [hp]
  · unfold writeWelsegsSegment
    exact writeWelsegsSegment_loop_events _ _ _ _ _ _ _ _ _ _

/-- Writing a segment again, from the same counter and after the same previous segment, leaves
it as the first writing left it and writes the same rows. -/
theorem writeWelsegsSegment_again (exportInfo : RicMswExportInfo) (maxSegmentLength : ℚ)
    (branch : RicMswBranchData) (segment : RicMswSegment)
    (previousSegment : Option RicMswSegmentData) (segmentNumber : Int) :
    writeWelsegsSegment exportInfo maxSegmentLength branch
        { (writeWelsegsSegment exportInfo maxSegmentLength branch
            { segment with segmentNumber := segmentNumber } previousSegment
            segmentNumber).1 with segmentNumber := segmentNumber }
        previousSegment segmentNumber =
      writeWelsegsSegment exportInfo maxSegmentLength branch
        { segment with segmentNumber := segmentNumber } previousSegment segmentNumber := by
  rw [writeWelsegsSegment_fst]
  cases hl : (createSubSegmentMDPairs segment.startMD segment.endMD
      maxSegmentLength).getLast? with
  | none => rfl
  | some p =>
    exact writeWelsegsSegment_overwritten exportInfo maxSegmentLength branch
      { segment with segmentNumber := segmentNumber } previousSegment segmentNumber
      segmentNumber (midPoint p) (tvdFromMeasuredDepth branch.wellPath (midPoint p)) p hl

theorem writeValveWelsegsSegment_loop_valve (exportInfo : RicMswExportInfo)
    (valve other : RicMswCompletion) (outletSegment : Option RicMswSegmentData)
    (pairs : List (ℚ × ℚ)) (segmentNumber : Int) (hpath : other.wellPath = valve.wellPath)
    (hbranch : other.branchNumber = valve.branchNumber) :
    writeValveWelsegsSegment.loop exportInfo other outletSegment pairs segmentNumber =
      writeValveWelsegsSegment.loop exportInfo valve outletSegment pairs segmentNumber := by
  induction pairs generalizing segmentNumber with
  | nil => rfl
  | cons p rest ih =>
    obtain ⟨s, e⟩ := p
    simp only [writeValveWelsegsSegment.loop, hpath, hbranch, ih]

/-- Writing a valve again, from the same counter and with the same outlet, leaves it as the
first writing left it and writes the same events. -/
theorem writeValveWelsegsSegment_again (exportInfo : RicMswExportInfo)
    (maxSegmentLength : ℚ) (outletSegment : Option RicMswSegmentData)
    (valve : RicMswCompletion) (segmentNumber : Int)
    (w : RicMswCompletion × Int × List FormatterEvent)
    (h : writeValveWelsegsSegment exportInfo maxSegmentLength outletSegment valve
      segmentNumber = some w) :
    writeValveWelsegsSegment exportInfo maxSegmentLength outletSegment w.1 segmentNumber =
      some w := by
  unfold writeValveWelsegsSegment at h
  by_cases hvalid : valve.isValid = false
  · rw [if_pos hvalid, Option.some.injEq] at h
    rw [← h]
    simp [writeValveWelsegsSegment, hvalid]
  · rw [if_neg hvalid] at h
    cases hsegs : valve.segments with
    | nil => simp [hsegs] at h
    | cons subSegment others =>
      simp only [hsegs] at h
      cases hl : writeValveWelsegsSegment.loop exportInfo valve outletSegment
        (createSubSegmentMDPairs subSegment.startMD subSegment.endMD maxSegmentLength)
        segmentNumber with
      | none => simp [hl] at h
      | some l =>
        simp only [hl, Option.some.injEq] at h
        rw [← h]
        have hvalid' : valve.isValid = true := by
          cases hv : valve.isValid with
          | true => rfl
          | false => exact absurd hv hvalid
        obtain ⟨written, hwritten⟩ : ∃ written : RicMswCompletion, written =
            { valve with
              segments :=
                { subSegment with
                  segmentNumber := segmentNumber
                  outputMD := (1 / 2) * (subSegment.startMD + subSegment.endMD)
                  outputTVD := tvdFromMeasuredDepth valve.wellPath
                    ((1 / 2) * (subSegment.startMD + subSegment.endMD)) } :: others } :=
          ⟨_, rfl⟩
        rw [← hwritten]
        have h1 : written.isValid = true := by rw [hwritten]; exact hvalid'
        have h2 : written.segments =
            { subSegment with
              segmentNumber := segmentNumber
              outputMD := (1 / 2) * (subSegment.startMD + subSegment.endMD)
              outputTVD := tvdFromMeasuredDepth valve.wellPath
                ((1 / 2) * (subSegment.startMD + subSegment.endMD)) } :: others := by
          rw [hwritten]
        have h3 : written.wellPath = valve.wellPath := by rw [hwritten]
        have h4 : written.branchNumber = valve.branchNumber := by rw [hwritten]
        have h5 : written.label = valve.label := by rw [hwritten]
        have hloop := writeValveWelsegsSegment_loop_valve exportInfo valve written
          outletSegment
          (createSubSegmentMDPairs subSegment.startMD subSegment.endMD maxSegmentLength)
          segmentNumber h3 h4
        unfold writeValveWelsegsSegment
        rw [if_neg (by simp [h1])]
        simp only [h2, hloop, hl, h3, h5, Option.some.injEq, Prod.mk.injEq, and_true]
        rw [hwritten]

theorem writeValveWelsegsSegment_dynamicType (exportInfo : RicMswExportInfo)
    (maxSegmentLength : ℚ) (outletSegment : Option RicMswSegmentData)
    (valve : RicMswCompletion) (segmentNumber : Int)
    (w : RicMswCompletion × Int × List FormatterEvent)
    (h : writeValveWelsegsSegment exportInfo maxSegmentLength outletSegment valve
      segmentNumber = some w) :
    w.1.dynamicType = valve.dynamicType := by
  unfold writeValveWelsegsSegment at h
  split_ifs at h with hvalid
  · simp only [Option.some.injEq] at h
    rw [← h]
  · cases hsegs : valve.segments with
    | nil => simp [hsegs] at h
    | cons s others =>
      simp only [hsegs] at h
      generalize writeValveWelsegsSegment.loop exportInfo valve outletSegment _ _ = l at h
      cases l with
      | none => simp at h
      | some l =>
        simp only [Option.some.injEq] at h
        rw [← h]

theorem completionLoop_cons_perforation (exportInfo : RicMswExportInfo)
    (maxSegmentLength : ℚ) (segment : RicMswSegmentData) (c : RicMswCompletion)
    (rest : List RicMswCompletion) (segmentNumber : Int)
    (outletValve : Option RicMswCompletion)
    (hc : c.dynamicType = CompletionClass.perforation) :
    writeWelsegsSegmentsRecursively.completionLoop exportInfo maxSegmentLength segment
        (c :: rest) segmentNumber outletValve =
      (writeWelsegsSegmentsRecursively.completionLoop exportInfo maxSegmentLength segment rest
        segmentNumber outletValve).map (fun r => (c :: r.1, r.2.1, r.2.2.1, r.2.2.2)) := by
  simp only [writeWelsegsSegmentsRecursively.completionLoop, hc]
  cases writeWelsegsSegmentsRecursively.completionLoop exportInfo maxSegmentLength segment rest
    segmentNumber outletValve <;> rfl

theorem completionLoop_cons_valve (exportInfo : RicMswExportInfo)
    (maxSegmentLength : ℚ) (segment : RicMswSegmentData) (c : RicMswCompletion)
    (rest : List RicMswCompletion) (segmentNumber : Int)
    (outletValve : Option RicMswCompletion)
    (hc : c.dynamicType = CompletionClass.valve) :
    writeWelsegsSegmentsRecursively.completionLoop exportInfo maxSegmentLength segment
        (c :: rest) segmentNumber outletValve =
      (writeValveWelsegsSegment exportInfo maxSegmentLength (some segment) c
        segmentNumber).bind (fun w =>
        (writeWelsegsSegmentsRecursively.completionLoop exportInfo maxSegmentLength segment
          rest w.2.1 (some w.1)).map
          (fun r => (w.1 :: r.1, r.2.1, r.2.2.1, w.2.2 ++ r.2.2.2))) := by
  simp only [writeWelsegsSegmentsRecursively.completionLoop, hc]
  cases writeValveWelsegsSegment exportInfo maxSegmentLength (some segment) c
    segmentNumber with
  | none => rfl
  | some w =>
    simp only [Option.some_bind]
    cases writeWelsegsSegmentsRecursively.completionLoop exportInfo maxSegmentLength segment
      rest w.2.1 (some w.1) <;> rfl

theorem completionLoop_cons_other (exportInfo : RicMswExportInfo)
    (maxSegmentLength : ℚ) (segment : RicMswSegmentData) (c : RicMswCompletion)
    (rest : List RicMswCompletion) (segmentNumber : Int)
    (outletValve : Option RicMswCompletion)
    (hc : c.dynamicType = CompletionClass.other) :
    writeWelsegsSegmentsRecursively.completionLoop exportInfo maxSegmentLength segment
        (c :: rest) segmentNumber outletValve =
      (writeWelsegsSegmentsRecursively.completionLoop exportInfo maxSegmentLength segment rest
        (writeCompletionWelsegsSegments exportInfo maxSegmentLength
          ((outletValveFront outletValve).getD segment) c segmentNumber).1 outletValve).map
        (fun r =>
          (c :: r.1, r.2.1, r.2.2.1,
            (writeCompletionWelsegsSegments exportInfo maxSegmentLength
              ((outletValveFront outletValve).getD segment) c segmentNumber).2 ++
              r.2.2.2)) := by
  have hout : (match outletValve with
      | some valve =>
        match valve.segments with
        | front :: _ => front
        | [] => segment
      | none => segment) = (outletValveFront outletValve).getD segment := by
    cases outletValve with
    | none => rfl
    | some valve =>
      simp only [outletValveFront]
      cases valve.segments <;> rfl
  simp only [writeWelsegsSegmentsRecursively.completionLoop, hc]
  rw [hout]
  cases writeWelsegsSegmentsRecursively.completionLoop exportInfo maxSegmentLength segment rest
    _ outletValve <;> rfl

/-- Running the completion loop again on the completions it returned, from the same counter
and `outletValve`, returns the same result. -/
theorem completionLoop_again (exportInfo : RicMswExportInfo) (maxSegmentLength : ℚ)
    (segment : RicMswSegmentData) (completions : List RicMswCompletion) (segmentNumber : Int)
    (outletValve : Option RicMswCompletion)
    (r : List RicMswCompletion × Int × Option RicMswCompletion × List FormatterEvent)
    (h : writeWelsegsSegmentsRecursively.completionLoop exportInfo maxSegmentLength segment
      completions segmentNumber outletValve = some r) :
    writeWelsegsSegmentsRecursively.completionLoop exportInfo maxSegmentLength segment r.1
      segmentNumber outletValve = some r := by
  induction completions generalizing segmentNumber outletValve r with
  | nil =>
    simp only [writeWelsegsSegmentsRecursively.completionLoop, Option.some.injEq] at h
    rw [← h]
    rfl
  | cons c rest ih =>
    cases hc : c.dynamicType with
    | perforation =>
      rw [completionLoop_cons_perforation _ _ _ _ _ _ _ hc] at h
      cases hr : writeWelsegsSegmentsRecursively.completionLoop exportInfo maxSegmentLength
        segment rest segmentNumber outletValve with
      | none => simp [hr] at h
      | some r' =>
        simp only [hr, Option.map_some', Option.some.injEq] at h
        rw [← h, completionLoop_cons_perforation _ _ _ _ _ _ _ hc, ih _ _ _ hr]
        rfl
    | valve =>
      rw [completionLoop_cons_valve _ _ _ _ _ _ _ hc] at h
      cases hw : writeValveWelsegsSegment exportInfo maxSegmentLength (some segment) c
        segmentNumber with
      | none => simp [hw] at h
      | some w =>
        simp only [hw, Option.some_bind] at h
        cases hr : writeWelsegsSegmentsRecursively.completionLoop exportInfo maxSegmentLength
          segment rest w.2.1 (some w.1) with
        | none => simp [hr] at h
        | some r' =>
          simp only [hr, Option.map_some', Option.some.injEq] at h
          have hw1 : w.1.dynamicType = CompletionClass.valve := by
            rw [writeValveWelsegsSegment_dynamicType _ _ _ _ _ _ hw, hc]
          rw [← h, completionLoop_cons_valve _ _ _ _ _ _ _ hw1,
            writeValveWelsegsSegment_again _ _ _ _ _ _ hw]
          simp only [Option.some_bind, ih _ _ _ hr, Option.map_some']
    | other =>
      rw [completionLoop_cons_other _ _ _ _ _ _ _ hc] at h
      cases hr : writeWelsegsSegmentsRecursively.completionLoop exportInfo maxSegmentLength
        segment rest
        (writeCompletionWelsegsSegments exportInfo maxSegmentLength
          ((outletValveFront outletValve).getD segment) c segmentNumber).1 outletValve with
      | none => simp [hr] at h
      | some r' =>
        simp only [hr, Option.map_some', Option.some.injEq] at h
        rw [← h, completionLoop_cons_other _ _ _ _ _ _ _ hc, ih _ _ _ hr]
        rfl

/-- The completion loop reads `outletValve` through `outletValveFront` only: with two values
that have the same front it returns the same completions, counter and events, and values of
`outletValve` that again have the same front. -/
theorem completionLoop_outletValve (exportInfo : RicMswExportInfo) (maxSegmentLength : ℚ)
    (segment : RicMswSegmentData) (completions : List RicMswCompletion) (segmentNumber : Int)
    (a b : Option RicMswCompletion) (hab : outletValveFront a = outletValveFront b) :
    (writeWelsegsSegmentsRecursively.completionLoop exportInfo maxSegmentLength segment
        completions segmentNumber a).map
        (fun r => (r.1, r.2.1, outletValveFront r.2.2.1, r.2.2.2)) =
      (writeWelsegsSegmentsRecursively.completionLoop exportInfo maxSegmentLength segment
        completions segmentNumber b).map
        (fun r => (r.1, r.2.1, outletValveFront r.2.2.1, r.2.2.2)) := by
  induction completions generalizing segmentNumber a b with
  | nil => simp [writeWelsegsSegmentsRecursively.completionLoop, hab]
  | cons c rest ih =>
    cases hc : c.dynamicType with
    | perforation =>
      rw [completionLoop_cons_perforation _ _ _ _ _ _ _ hc,
        completionLoop_cons_perforation _ _ _ _ _ _ _ hc]
      have h := ih segmentNumber a b hab
      cases ha : writeWelsegsSegmentsRecursively.completionLoop exportInfo maxSegmentLength
        segment rest segmentNumber a with
      | none =>
        rw [ha] at h
        cases hb : writeWelsegsSegmentsRecursively.completionLoop exportInfo maxSegmentLength
          segment rest segmentNumber b with
        | none => rfl
        | some rb => rw [hb] at h; simp at h
      | some ra =>
        rw [ha] at h
        cases hb : writeWelsegsSegmentsRecursively.completionLoop exportInfo maxSegmentLength
          segment rest segmentNumber b with
        | none => rw [hb] at h; simp at h
        | some rb =>
          rw [hb] at h
          simp only [Option.map_some', Option.some.injEq, Prod.mk.injEq] at h ⊢
          simp [h.1, h.2.1, h.2.2.1, h.2.2.2]
    | valve =>
      rw [completionLoop_cons_valve _ _ _ _ _ _ _ hc,
        completionLoop_cons_valve _ _ _ _ _ _ _ hc]
    | other =>
      rw [completionLoop_cons_other _ _ _ _ _ _ _ hc,
        completionLoop_cons_other _ _ _ _ _ _ _ hc, hab]
      have h := ih
        (writeCompletionWelsegsSegments exportInfo maxSegmentLength
          ((outletValveFront b).getD segment) c segmentNumber).1 a b hab
      cases ha : writeWelsegsSegmentsRecursively.completionLoop exportInfo maxSegmentLength
        segment rest
        (writeCompletionWelsegsSegments exportInfo maxSegmentLength
          ((outletValveFront b).getD segment) c segmentNumber).1 a with
      | none =>
        rw [ha] at h
        cases hb : writeWelsegsSegmentsRecursively.completionLoop exportInfo maxSegmentLength
          segment rest
          (writeCompletionWelsegsSegments exportInfo maxSegmentLength
            ((outletValveFront b).getD segment) c segmentNumber).1 b with
        | none => rfl
        | some rb => rw [hb] at h; simp at h
      | some ra =>
        rw [ha] at h
        cases hb : writeWelsegsSegmentsRecursively.completionLoop exportInfo maxSegmentLength
          segment rest
          (writeCompletionWelsegsSegments exportInfo maxSegmentLength
            ((outletValveFront b).getD segment) c segmentNumber).1 b with
        | none => rw [hb] at h; simp at h
        | some rb =>
          rw [hb] at h
          simp only [Option.map_some', Option.some.injEq, Prod.mk.injEq] at h ⊢
          simp [h.1, h.2.1, h.2.2.1, h.2.2.2]

theorem segmentLoop_cons (exportInfo : RicMswExportInfo) (maxSegmentLength : ℚ)
    (branch : RicMswBranchData) (s : RicMswSegment) (rest : List RicMswSegment)
    (state : WelsegsWalkState) :
    writeWelsegsSegmentsRecursively.segmentLoop exportInfo maxSegmentLength branch (s :: rest)
        state =
      (writeWelsegsSegmentsRecursively.completionLoop exportInfo maxSegmentLength
        (writeWelsegsSegment exportInfo maxSegmentLength branch
          { s with segmentNumber := state.segmentNumber } state.outletSegment
          state.segmentNumber).1.toRicMswSegmentData
        (writeWelsegsSegment exportInfo maxSegmentLength branch
          { s with segmentNumber := state.segmentNumber } state.outletSegment
          state.segmentNumber).1.completions
        (writeWelsegsSegment exportInfo maxSegmentLength branch
          { s with segmentNumber := state.segmentNumber } state.outletSegment
          state.segmentNumber).2.1 state.outletValve).bind (fun c =>
        (writeWelsegsSegmentsRecursively.segmentLoop exportInfo maxSegmentLength branch rest
          { segmentNumber := c.2.1
            outletSegment := some
              (writeWelsegsSegment exportInfo maxSegmentLength branch
                { s with segmentNumber := state.segmentNumber } state.outletSegment
                state.segmentNumber).1.toRicMswSegmentData
            outletValve := c.2.2.1 }).map (fun r =>
          ({ (writeWelsegsSegment exportInfo maxSegmentLength branch
                { s with segmentNumber := state.segmentNumber } state.outletSegment
                state.segmentNumber).1 with completions := c.1 } :: r.1,
            r.2.1,
            (if s.subIndex ≠ UNDEFINED_SIZE_T then
                [FormatterEvent.optionalComment (s.label ++ ", sub " ++ toString s.subIndex)]
              else []) ++
              (writeWelsegsSegment exportInfo maxSegmentLength branch
                { s with segmentNumber := state.segmentNumber } state.outletSegment
                state.segmentNumber).2.2 ++ c.2.2.2 ++ r.2.2))) := by
  simp only [writeWelsegsSegmentsRecursively.segmentLoop]
  cases writeWelsegsSegmentsRecursively.completionLoop exportInfo maxSegmentLength _ _ _
    state.outletValve with
  | none => rfl
  | some c =>
    simp only [Option.some_bind]
    cases writeWelsegsSegmentsRecursively.segmentLoop exportInfo maxSegmentLength branch rest
      _ <;> rfl

theorem writeWelsegsSegment_label (exportInfo : RicMswExportInfo) (maxSegmentLength : ℚ)
    (branch : RicMswBranchData) (segment : RicMswSegment)
    (previousSegment : Option RicMswSegmentData) (segmentNumber : Int) :
    (writeWelsegsSegment exportInfo maxSegmentLength branch segment previousSegment
        segmentNumber).1.label = segment.label ∧
      (writeWelsegsSegment exportInfo maxSegmentLength branch segment previousSegment
        segmentNumber).1.subIndex = segment.subIndex := by
  rw [writeWelsegsSegment_fst]
  cases (createSubSegmentMDPairs segment.startMD segment.endMD maxSegmentLength).getLast? with
  | none => exact ⟨rfl, rfl⟩
  | some p => exact ⟨rfl, rfl⟩

/-- Running the segment loop again on the segments it returned, from the same state, returns
the same result. -/
theorem segmentLoop_again (exportInfo : RicMswExportInfo) (maxSegmentLength : ℚ)
    (branch : RicMswBranchData) (segments : List RicMswSegment) (state : WelsegsWalkState)
    (l : List RicMswSegment × WelsegsWalkState × List FormatterEvent)
    (h : writeWelsegsSegmentsRecursively.segmentLoop exportInfo maxSegmentLength branch segments
      state = some l) :
    writeWelsegsSegmentsRecursively.segmentLoop exportInfo maxSegmentLength branch l.1 state =
      some l := by
  induction segments generalizing state l with
  | nil =>
    simp only [writeWelsegsSegmentsRecursively.segmentLoop, Option.some.injEq] at h
    rw [← h]
    rfl
  | cons s rest ih =>
    rw [segmentLoop_cons] at h
    have hagain := writeWelsegsSegment_again exportInfo maxSegmentLength branch s
      state.outletSegment state.segmentNumber
    have hlabel := writeWelsegsSegment_label exportInfo maxSegmentLength branch
      { s with segmentNumber := state.segmentNumber } state.outletSegment state.segmentNumber
    generalize writeWelsegsSegment exportInfo maxSegmentLength branch
      { s with segmentNumber := state.segmentNumber } state.outletSegment
      state.segmentNumber = w at h hagain hlabel
    cases hc : writeWelsegsSegmentsRecursively.completionLoop exportInfo maxSegmentLength
      w.1.toRicMswSegmentData w.1.completions w.2.1 state.outletValve with
    | none => simp [hc] at h
    | some c =>
      simp only [hc, Option.some_bind] at h
      cases hr : writeWelsegsSegmentsRecursively.segmentLoop exportInfo maxSegmentLength
        branch rest
        { segmentNumber := c.2.1, outletSegment := some w.1.toRicMswSegmentData,
          outletValve := c.2.2.1 } with
      | none => simp [hr] at h
      | some r =>
        simp only [hr, Option.map_some', Option.some.injEq] at h
        rw [← h]
        simp only
        rw [segmentLoop_cons]
        have hw2 : writeWelsegsSegment exportInfo maxSegmentLength branch
            { ({ w.1 with completions := c.1 } : RicMswSegment) with
              segmentNumber := state.segmentNumber }
            state.outletSegment state.segmentNumber =
            ({ w.1 with completions := c.1 }, w.2) := by
          have h1 := writeWelsegsSegment_completions exportInfo maxSegmentLength branch
            { w.1 with segmentNumber := state.segmentNumber } state.outletSegment
            state.segmentNumber c.1
          rw [hagain] at h1
          exact h1
        rw [hw2]
        simp only
        rw [completionLoop_again _ _ _ _ _ _ _ hc]
        simp only [Option.some_bind]
        rw [ih _ _ hr]
        simp only [Option.map_some', hlabel.1, hlabel.2]

theorem option_map_eq_map {α β : Type} (f : α → β) (x y : Option α)
    (h : x.map f = y.map f) :
    (x = none ∧ y = none) ∨ ∃ a b, x = some a ∧ y = some b ∧ f a = f b := by
  cases x with
  | none =>
    cases y with
    | none => exact Or.inl ⟨rfl, rfl⟩
    | some b => simp at h
  | some a =>
    cases y with
    | none => simp at h
    | some b =>
      simp only [Option.map_some', Option.some.injEq] at h
      exact Or.inr ⟨a, b, rfl, rfl, h⟩

/-- The segment loop reads `outletValve` through `outletValveFront` only. -/
theorem segmentLoop_outletValve (exportInfo : RicMswExportInfo) (maxSegmentLength : ℚ)
    (branch : RicMswBranchData) (segments : List RicMswSegment) (segmentNumber : Int)
    (outletSegment : Option RicMswSegmentData) (a b : Option RicMswCompletion)
    (hab : outletValveFront a = outletValveFront b) :
    (writeWelsegsSegmentsRecursively.segmentLoop exportInfo maxSegmentLength branch segments
        { segmentNumber := segmentNumber, outletSegment := outletSegment,
          outletValve := a }).map
        (fun r =>
          (r.1, r.2.1.segmentNumber, r.2.1.outletSegment, outletValveFront r.2.1.outletValve,
            r.2.2)) =
      (writeWelsegsSegmentsRecursively.segmentLoop exportInfo maxSegmentLength branch segments
        { segmentNumber := segmentNumber, outletSegment := outletSegment,
          outletValve := b }).map
        (fun r =>
          (r.1, r.2.1.segmentNumber, r.2.1.outletSegment, outletValveFront r.2.1.outletValve,
            r.2.2)) := by
  induction segments generalizing segmentNumber outletSegment a b with
  | nil => simp [writeWelsegsSegmentsRecursively.segmentLoop, hab]
  | cons s rest ih =>
    rw [segmentLoop_cons, segmentLoop_cons]
    simp only
    generalize writeWelsegsSegment exportInfo maxSegmentLength branch
      { s with segmentNumber := segmentNumber } outletSegment segmentNumber = w
    rcases option_map_eq_map _ _ _
      (completionLoop_outletValve exportInfo maxSegmentLength w.1.toRicMswSegmentData
        w.1.completions w.2.1 a b hab) with ⟨ha, hb⟩ | ⟨ca, cb, ha, hb, hc⟩
    · rw [ha, hb]
    · rw [ha, hb]
      simp only [Option.some_bind, Prod.mk.injEq] at hc ⊢
      obtain ⟨hc1, hc2, hc3, hc4⟩ := hc
      rw [hc1, hc2, hc4]
      rcases option_map_eq_map _ _ _
        (ih cb.2.1 (some w.1.toRicMswSegmentData) ca.2.2.1 cb.2.2.1 hc3) with
        ⟨hra, hrb⟩ | ⟨ra, rb, hra, hrb, hr⟩
      · rw [hra, hrb]
      · rw [hra, hrb]
        simp only [Option.map_some', Option.some.injEq, Prod.mk.injEq] at hr ⊢
        obtain ⟨hr1, hr2, hr3, hr4, hr5⟩ := hr
        simp [hr1, hr2, hr3, hr4, hr5]

/-- Entering a branch again, with its first segments as the first export left them, gives the
same skipped segments, the same counter, outlet segment and events, and an `outletValve` with
the same front. -/
theorem enter_again (exportInfo : RicMswExportInfo) (maxSegmentLength : ℚ)
    (branch : RicMswBranchData) (segments : List RicMswSegment) (segmentNumber : Int)
    (connectedToSegment : Option RicMswSegmentData)
    (e : List RicMswSegment × List RicMswSegment × WelsegsWalkState × List FormatterEvent)
    (later : List RicMswSegment)
    (h : writeWelsegsSegmentsRecursively.enter exportInfo maxSegmentLength branch segments
      segmentNumber connectedToSegment = some e) :
    ∃ e2,
      writeWelsegsSegmentsRecursively.enter exportInfo maxSegmentLength branch (e.1 ++ later)
          segmentNumber connectedToSegment = some e2 ∧
        e2.1 = e.1 ∧ e2.2.1 = later ∧
        e2.2.2.1.segmentNumber = e.2.2.1.segmentNumber ∧
        e2.2.2.1.outletSegment = e.2.2.1.outletSegment ∧
        outletValveFront e2.2.2.1.outletValve = outletValveFront e.2.2.1.outletValve ∧
        e2.2.2.2 = e.2.2.2 := by
  unfold writeWelsegsSegmentsRecursively.enter at h ⊢
  cases hicv : branch.tieInICV with
  | none =>
    simp only [hicv, Option.some.injEq] at h
    rw [← h]
    exact ⟨_, rfl, rfl, rfl, rfl, rfl, rfl, rfl⟩
  | some icv =>
    simp only [hicv] at h ⊢
    cases segments with
    | nil =>
      cases hw : writeValveWelsegsSegment exportInfo maxSegmentLength connectedToSegment
        (tieInValve branch icv []) segmentNumber with
      | none => simp [hw] at h
      | some w => simp [hw] at h
    | cons first rest =>
      by_cases hvalid : icv.isValid = false
      · have hw1 := writeValveWelsegsSegment_invalid exportInfo maxSegmentLength
          connectedToSegment (tieInValve branch icv (first :: rest)) segmentNumber hvalid
        rw [hw1] at h
        simp only [tieInValve, List.map_cons, Option.some.injEq] at h
        rw [← h]
        have hw2 := writeValveWelsegsSegment_invalid exportInfo maxSegmentLength
          connectedToSegment
          (tieInValve branch icv ([{ first with toRicMswSegmentData :=
            first.toRicMswSegmentData }] ++ later)) segmentNumber hvalid
        rw [hw2]
        simp only [tieInValve, List.singleton_append, List.map_cons]
        exact ⟨_, rfl, rfl, rfl, rfl, rfl, rfl, rfl⟩
      · have hvalid' : icv.isValid = true := by
          cases hv : icv.isValid with
          | true => rfl
          | false => exact absurd hv hvalid
        have hunfold : ∀ tail : List RicMswSegment, ∀ head : RicMswSegment,
            writeValveWelsegsSegment exportInfo maxSegmentLength connectedToSegment
              (tieInValve branch icv (head :: tail)) segmentNumber =
            (writeValveWelsegsSegment.loop exportInfo (tieInValve branch icv (head :: tail))
              connectedToSegment
              (createSubSegmentMDPairs head.startMD head.endMD maxSegmentLength)
              segmentNumber).map (fun r =>
              ({ tieInValve branch icv (head :: tail) with
                  segments :=
                    { head.toRicMswSegmentData with
                      segmentNumber := segmentNumber
                      outputMD := (1 / 2) * (head.startMD + head.endMD)
                      outputTVD := tvdFromMeasuredDepth branch.wellPath
                        ((1 / 2) * (head.startMD + head.endMD)) } ::
                      tail.map RicMswSegment.toRicMswSegmentData },
                r.1, FormatterEvent.optionalComment branch.label :: r.2)) := by
          intro tail head
          unfold writeValveWelsegsSegment
          simp only [tieInValve, hvalid', List.map_cons]
          cases writeValveWelsegsSegment.loop exportInfo _ connectedToSegment _
            segmentNumber <;> rfl
        rw [hunfold] at h
        have hloop := writeValveWelsegsSegment_loop_valve exportInfo
          (tieInValve branch icv (first :: rest))
          (tieInValve branch icv
            ({ first with toRicMswSegmentData :=
                { first.toRicMswSegmentData with
                  segmentNumber := segmentNumber
                  outputMD := (1 / 2) * (first.startMD + first.endMD)
                  outputTVD := tvdFromMeasuredDepth branch.wellPath
                    ((1 / 2) * (first.startMD + first.endMD)) } } :: later))
          connectedToSegment
          (createSubSegmentMDPairs first.startMD first.endMD maxSegmentLength)
          segmentNumber rfl rfl
        cases hl : writeValveWelsegsSegment.loop exportInfo
          (tieInValve branch icv (first :: rest)) connectedToSegment
          (createSubSegmentMDPairs first.startMD first.endMD maxSegmentLength)
          segmentNumber with
        | none => simp [hl] at h
        | some l =>
          rw [hl] at h hloop
          simp only [Option.map_some', Option.some.injEq] at h
          rw [← h]
          simp only [List.singleton_append]
          rw [hunfold]
          simp only [hloop, Option.map_some']
          exact ⟨_, rfl, rfl, rfl, rfl, rfl, rfl, rfl⟩

theorem writeWelsegsSegmentsRecursively_data (exportInfo : RicMswExportInfo)
    (maxSegmentLength : ℚ) (branch : RicMswBranch) (segmentNumber : Int)
    (connectedToSegment : Option RicMswSegmentData)
    (w : RicMswBranch × Int × List FormatterEvent)
    (h : writeWelsegsSegmentsRecursively exportInfo maxSegmentLength branch segmentNumber
      connectedToSegment = some w) :
    w.1.data = branch.data := by
  cases branch with
  | mk b segments branches =>
    rw [writeWelsegsSegmentsRecursively] at h
    cases he : writeWelsegsSegmentsRecursively.enter exportInfo maxSegmentLength b segments
      segmentNumber connectedToSegment with
    | none => simp [he] at h
    | some e =>
      simp only [he] at h
      cases hl : writeWelsegsSegmentsRecursively.segmentLoop exportInfo maxSegmentLength b
        e.2.1 e.2.2.1 with
      | none => simp [hl] at h
      | some l =>
        simp only [hl] at h
        cases hc : writeWelsegsChildBranches exportInfo maxSegmentLength (e.1 ++ l.1)
          l.2.1.outletSegment branches l.2.1.segmentNumber with
        | none => simp [hc] at h
        | some c =>
          simp only [hc, Option.some.injEq] at h
          rw [← h]
          rfl

mutual

theorem writeWelsegsSegmentsRecursively_again (exportInfo : RicMswExportInfo)
    (maxSegmentLength : ℚ) :
    ∀ (branch : RicMswBranch) (segmentNumber : Int)
      (connectedToSegment : Option RicMswSegmentData)
      (w : RicMswBranch × Int × List FormatterEvent),
      writeWelsegsSegmentsRecursively exportInfo maxSegmentLength branch segmentNumber
          connectedToSegment = some w →
        writeWelsegsSegmentsRecursively exportInfo maxSegmentLength w.1 segmentNumber
          connectedToSegment = some w
  | RicMswBranch.mk b segments branches, segmentNumber, connectedToSegment, w, h => by
    rw [writeWelsegsSegmentsRecursively] at h
    cases he : writeWelsegsSegmentsRecursively.enter exportInfo maxSegmentLength b segments
      segmentNumber connectedToSegment with
    | none => simp [he] at h
    | some e =>
      simp only [he] at h
      cases hl : writeWelsegsSegmentsRecursively.segmentLoop exportInfo maxSegmentLength b
        e.2.1 e.2.2.1 with
      | none => simp [hl] at h
      | some l =>
        simp only [hl] at h
        cases hc : writeWelsegsChildBranches exportInfo maxSegmentLength (e.1 ++ l.1)
          l.2.1.outletSegment branches l.2.1.segmentNumber with
        | none => simp [hc] at h
        | some c =>
          simp only [hc, Option.some.injEq] at h
          rw [← h]
          obtain ⟨e2, he2, h1, h2, h3, h4, h5, h6⟩ := enter_again exportInfo maxSegmentLength
            b segments segmentNumber connectedToSegment e l.1 he
          have hcongr := segmentLoop_outletValve exportInfo maxSegmentLength b l.1
            e.2.2.1.segmentNumber e.2.2.1.outletSegment e2.2.2.1.outletValve
            e.2.2.1.outletValve h5
          have hstate2 : e2.2.2.1 =
              { segmentNumber := e.2.2.1.segmentNumber
                outletSegment := e.2.2.1.outletSegment
                outletValve := e2.2.2.1.outletValve } := by
            rw [← h3, ← h4]
          have hagain := segmentLoop_again exportInfo maxSegmentLength b e.2.1 e.2.2.1 l hl
          rw [show ({ segmentNumber := e.2.2.1.segmentNumber
                      outletSegment := e.2.2.1.outletSegment
                      outletValve := e.2.2.1.outletValve } : WelsegsWalkState) = e.2.2.1
            from rfl, hagain, ← hstate2] at hcongr
          rcases option_map_eq_map _ _ _ hcongr with ⟨_, hnone⟩ | ⟨l2, l', hl2, hl', hproj⟩
          · simp at hnone
          · simp only [Option.some.injEq] at hl'
            rw [← hl'] at hproj
            simp only [Prod.mk.injEq] at hproj
            obtain ⟨hp1, hp2, hp3, _, hp5⟩ := hproj
            have hchildren := writeWelsegsChildBranches_again exportInfo maxSegmentLength
              (e.1 ++ l.1) l.2.1.outletSegment branches l.2.1.segmentNumber c hc
            rw [writeWelsegsSegmentsRecursively, he2]
            simp only [h2, hl2, h1, hp1, hp2, hp3, hp5, h6, hchildren]

theorem writeWelsegsChildBranches_again (exportInfo : RicMswExportInfo)
    (maxSegmentLength : ℚ) :
    ∀ (parentSegments : List RicMswSegment) (outletSegment : Option RicMswSegmentData)
      (branches : List RicMswBranch) (segmentNumber : Int)
      (r : List RicMswBranch × Int × List FormatterEvent),
      writeWelsegsChildBranches exportInfo maxSegmentLength parentSegments outletSegment
          branches segmentNumber = some r →
        writeWelsegsChildBranches exportInfo maxSegmentLength parentSegments outletSegment r.1
          segmentNumber = some r
  | parentSegments, outletSegment, [], segmentNumber, r, h => by
    rw [writeWelsegsChildBranches, Option.some.injEq] at h
    rw [← h, writeWelsegsChildBranches]
  | parentSegments, outletSegment, branch :: rest, segmentNumber, r, h => by
    rw [writeWelsegsChildBranches] at h
    cases hb : writeWelsegsSegmentsRecursively exportInfo maxSegmentLength branch segmentNumber
      (outletSegmentForChildBranch parentSegments outletSegment branch) with
    | none => simp [hb] at h
    | some b =>
      simp only [hb] at h
      cases hr : writeWelsegsChildBranches exportInfo maxSegmentLength parentSegments
        outletSegment rest b.2.1 with
      | none => simp [hr] at h
      | some c =>
        simp only [hr, Option.some.injEq] at h
        rw [← h]
        have hdata := writeWelsegsSegmentsRecursively_data exportInfo maxSegmentLength branch
          segmentNumber _ b hb
        have houtlet : outletSegmentForChildBranch parentSegments outletSegment b.1 =
            outletSegmentForChildBranch parentSegments outletSegment branch := by
          unfold outletSegmentForChildBranch
          rw [hdata]
        rw [writeWelsegsChildBranches, houtlet,
          writeWelsegsSegmentsRecursively_again exportInfo maxSegmentLength branch
            segmentNumber _ b hb]
        simp only [writeWelsegsChildBranches_again exportInfo maxSegmentLength parentSegments
          outletSegment rest b.2.1 c hr]

end

/-- When `generateWelsegsTable` completes on an export info, running it again on the
export info it returned (the tree with the segment numbers and output MD/TVD stored by the
first run) completes too, writes the same events, so the same data rows in the same order, and
leaves the tree as the first run left it. -/
theorem generateWelsegsTable_again (exportInfo : RicMswExportInfo) (maxSegmentLength : ℚ)
    (h : (generateWelsegsTable exportInfo maxSegmentLength).isSome = true) :
    ∃ r,
      generateWelsegsTable exportInfo maxSegmentLength = some r ∧
        generateWelsegsTable r.1 maxSegmentLength = some r := by
  cases hr : generateWelsegsTable exportInfo maxSegmentLength with
  | none => simp [hr] at h
  | some r =>
    refine ⟨r, rfl, ?_⟩
    unfold generateWelsegsTable at hr
    cases hw : writeWelsegsSegmentsRecursively exportInfo maxSegmentLength
      exportInfo.mainBoreBranch 2 none with
    | none => simp [hw] at hr
    | some w =>
      simp only [hw, Option.some.injEq] at hr
      have hset : SameWelsegsSettings { exportInfo with mainBoreBranch := w.1 } exportInfo :=
        ⟨rfl, rfl, rfl⟩
      have hdata := writeWelsegsSegmentsRecursively_data exportInfo maxSegmentLength
        exportInfo.mainBoreBranch 2 none w hw
      have hagain := writeWelsegsSegmentsRecursively_again exportInfo maxSegmentLength
        exportInfo.mainBoreBranch 2 none w hw
      rw [← hr]
      unfold generateWelsegsTable
      simp only [writeWelsegsSegmentsRecursively_settings hset, hagain, hdata]

/-- The two runs on `Sample.valvesOnTree`, a tree with a tie-in ICV lateral, valves and a
fracture, with maximum segment length 100. -/
theorem generateWelsegsTable_again_witness :
    (generateWelsegsTable (Sample.exportOf Sample.valvesOnTree "INC" false) 100).isSome =
        true ∧
      ∃ r,
        generateWelsegsTable (Sample.exportOf Sample.valvesOnTree "INC" false) 100 = some r ∧
          generateWelsegsTable r.1 100 = some r :=
  ⟨by decide!, generateWelsegsTable_again _ 100 (by decide!)⟩

/-- The two runs on `Sample.tieInLongValve` with maximum segment length 10, where the valve
segment of the tie-in ICV lateral is split: both write the rows 2, 3, 4, 5, 4. -/
theorem generateWelsegsTable_tieInLongValve_twice :
    ((generateWelsegsTable (Sample.exportOf Sample.tieInLongValve "INC" false) 10).bind
        (fun r => generateWelsegsTable r.1 10)).map
        (fun r => (welsegsDataRows r.2).map firstColumn) =
      some [some 2, some 3, some 4, some 5, some 4] := by
  decide!

/-! ## WELSEGS: the valve used as outlet reference -/

theorem lastValve_append (outletValve : Option RicMswCompletion)
    (a b : List RicMswCompletion) :
    lastValve outletValve (a ++ b) = lastValve (lastValve outletValve a) b := by
  simp [lastValve, List.foldl_append]

theorem completionLoop_append (exportInfo : RicMswExportInfo) (maxSegmentLength : ℚ)
    (segment : RicMswSegmentData) (xs ys : List RicMswCompletion) (segmentNumber : Int)
    (outletValve : Option RicMswCompletion) :
    writeWelsegsSegmentsRecursively.completionLoop exportInfo maxSegmentLength segment
        (xs ++ ys) segmentNumber outletValve =
      (writeWelsegsSegmentsRecursively.completionLoop exportInfo maxSegmentLength segment xs
        segmentNumber outletValve).bind (fun a =>
        (writeWelsegsSegmentsRecursively.completionLoop exportInfo maxSegmentLength segment ys
          a.2.1 a.2.2.1).map
          (fun b => (a.1 ++ b.1, b.2.1, b.2.2.1, a.2.2.2 ++ b.2.2.2))) := by
  induction xs generalizing segmentNumber outletValve with
  | nil =>
    simp only [List.nil_append, writeWelsegsSegmentsRecursively.completionLoop,
      Option.some_bind]
    cases writeWelsegsSegmentsRecursively.completionLoop exportInfo maxSegmentLength segment ys
      segmentNumber outletValve <;> simp
  | cons c rest ih =>
    rw [List.cons_append]
    cases hc : c.dynamicType with
    | perforation =>
      rw [completionLoop_cons_perforation _ _ _ _ _ _ _ hc,
        completionLoop_cons_perforation _ _ _ _ _ _ _ hc, ih]
      cases writeWelsegsSegmentsRecursively.completionLoop exportInfo maxSegmentLength segment
        rest segmentNumber outletValve with
      | none => rfl
      | some a =>
        simp only [Option.some_bind, Option.map_some']
        cases writeWelsegsSegmentsRecursively.completionLoop exportInfo maxSegmentLength
          segment ys a.2.1 a.2.2.1 <;> simp
    | valve =>
      rw [completionLoop_cons_valve _ _ _ _ _ _ _ hc,
        completionLoop_cons_valve _ _ _ _ _ _ _ hc]
      cases writeValveWelsegsSegment exportInfo maxSegmentLength (some segment) c
        segmentNumber with
      | none => rfl
      | some w =>
        simp only [Option.some_bind, ih]
        cases writeWelsegsSegmentsRecursively.completionLoop exportInfo maxSegmentLength
          segment rest w.2.1 (some w.1) with
        | none => rfl
        | some a =>
          simp only [Option.some_bind, Option.map_some']
          cases writeWelsegsSegmentsRecursively.completionLoop exportInfo maxSegmentLength
            segment ys a.2.1 a.2.2.1 <;> simp
    | other =>
      rw [completionLoop_cons_other _ _ _ _ _ _ _ hc,
        completionLoop_cons_other _ _ _ _ _ _ _ hc, ih]
      cases writeWelsegsSegmentsRecursively.completionLoop exportInfo maxSegmentLength segment
        rest _ outletValve with
      | none => rfl
      | some a =>
        simp only [Option.some_bind, Option.map_some']
        cases writeWelsegsSegmentsRecursively.completionLoop exportInfo maxSegmentLength
          segment ys a.2.1 a.2.2.1 <;> simp

theorem completionLoop_lastValve (exportInfo : RicMswExportInfo) (maxSegmentLength : ℚ)
    (segment : RicMswSegmentData) (completions : List RicMswCompletion) (segmentNumber : Int)
    (outletValve : Option RicMswCompletion)
    (r : List RicMswCompletion × Int × Option RicMswCompletion × List FormatterEvent)
    (h : writeWelsegsSegmentsRecursively.completionLoop exportInfo maxSegmentLength segment
      completions segmentNumber outletValve = some r) :
    r.2.2.1 = lastValve outletValve r.1 ∧ r.1.length = completions.length := by
  induction completions generalizing segmentNumber outletValve r with
  | nil =>
    simp only [writeWelsegsSegmentsRecursively.completionLoop, Option.some.injEq] at h
    rw [← h]
    exact ⟨rfl, rfl⟩
  | cons c rest ih =>
    cases hc : c.dynamicType with
    | perforation =>
      rw [completionLoop_cons_perforation _ _ _ _ _ _ _ hc] at h
      cases hr : writeWelsegsSegmentsRecursively.completionLoop exportInfo maxSegmentLength
        segment rest segmentNumber outletValve with
      | none => simp [hr] at h
      | some r' =>
        simp only [hr, Option.map_some', Option.some.injEq] at h
        obtain ⟨h1, h2⟩ := ih _ _ _ hr
        rw [← h]
        simp [lastValve, hc, h2]
        exact h1
    | valve =>
      rw [completionLoop_cons_valve _ _ _ _ _ _ _ hc] at h
      cases hw : writeValveWelsegsSegment exportInfo maxSegmentLength (some segment) c
        segmentNumber with
      | none => simp [hw] at h
      | some w =>
        simp only [hw, Option.some_bind] at h
        cases hr : writeWelsegsSegmentsRecursively.completionLoop exportInfo maxSegmentLength
          segment rest w.2.1 (some w.1) with
        | none => simp [hr] at h
        | some r' =>
          simp only [hr, Option.map_some', Option.some.injEq] at h
          obtain ⟨h1, h2⟩ := ih _ _ _ hr
          have hw1 : w.1.dynamicType = CompletionClass.valve := by
            rw [writeValveWelsegsSegment_dynamicType _ _ _ _ _ _ hw, hc]
          rw [← h]
          simp [lastValve, hw1, h2]
          exact h1
    | other =>
      rw [completionLoop_cons_other _ _ _ _ _ _ _ hc] at h
      cases hr : writeWelsegsSegmentsRecursively.completionLoop exportInfo maxSegmentLength
        segment rest
        (writeCompletionWelsegsSegments exportInfo maxSegmentLength
          ((outletValveFront outletValve).getD segment) c segmentNumber).1 outletValve with
      | none => simp [hr] at h
      | some r' =>
        simp only [hr, Option.map_some', Option.some.injEq] at h
        obtain ⟨h1, h2⟩ := ih _ _ _ hr
        rw [← h]
        simp [lastValve, hc, h2]
        exact h1

theorem segmentLoop_lastValve (exportInfo : RicMswExportInfo) (maxSegmentLength : ℚ)
    (branch : RicMswBranchData) (segments : List RicMswSegment) (state : WelsegsWalkState)
    (l : List RicMswSegment × WelsegsWalkState × List FormatterEvent)
    (h : writeWelsegsSegmentsRecursively.segmentLoop exportInfo maxSegmentLength branch segments
      state = some l) :
    l.2.1.outletValve =
        lastValve state.outletValve (l.1.flatMap (fun s => s.completions)) ∧
      l.1.length = segments.length := by
  induction segments generalizing state l with
  | nil =>
    simp only [writeWelsegsSegmentsRecursively.segmentLoop, Option.some.injEq] at h
    rw [← h]
    exact ⟨rfl, rfl⟩
  | cons s rest ih =>
    rw [segmentLoop_cons] at h
    generalize writeWelsegsSegment exportInfo maxSegmentLength branch
      { s with segmentNumber := state.segmentNumber } state.outletSegment
      state.segmentNumber = w at h
    cases hc : writeWelsegsSegmentsRecursively.completionLoop exportInfo maxSegmentLength
      w.1.toRicMswSegmentData w.1.completions w.2.1 state.outletValve with
    | none => simp [hc] at h
    | some c =>
      simp only [hc, Option.some_bind] at h
      cases hr : writeWelsegsSegmentsRecursively.segmentLoop exportInfo maxSegmentLength
        branch rest
        { segmentNumber := c.2.1, outletSegment := some w.1.toRicMswSegmentData,
          outletValve := c.2.2.1 } with
      | none => simp [hr] at h
      | some r =>
        simp only [hr, Option.map_some', Option.some.injEq] at h
        obtain ⟨h1, h2⟩ := ih _ _ hr
        obtain ⟨h3, _⟩ := completionLoop_lastValve _ _ _ _ _ _ _ hc
        rw [← h]
        simp only [List.flatMap_cons, lastValve_append, List.length_cons, h2]
        simp only at h1
        rw [h1, h3]
        exact ⟨rfl, trivial⟩

theorem rowsOf_writeCompletionWelsegsSegments (exportInfo : RicMswExportInfo)
    (maxSegmentLength : ℚ) (outletSegment : RicMswSegmentData)
    (completion : RicMswCompletion) (segmentNumber : Int) :
    rowsOf (writeCompletionWelsegsSegments exportInfo maxSegmentLength outletSegment completion
        segmentNumber).2 =
      rowsOf (writeCompletionWelsegsSegments.segmentLoop exportInfo maxSegmentLength
        outletSegment completion completion.segments segmentNumber
        outletSegment.segmentNumber).2.2 := by
  unfold writeCompletionWelsegsSegments
  simp only [rowsOf_append, rowsOf_writeWelsegsCompletionCommentHeader, List.nil_append]
  split_ifs <;> rfl

theorem writeCompletionWelsegsSegments_outlet_rows (exportInfo : RicMswExportInfo)
    (maxSegmentLength : ℚ) (outletSegment : RicMswSegmentData)
    (completion : RicMswCompletion) (segmentNumber : Int) :
    (rowsOf (writeCompletionWelsegsSegments exportInfo maxSegmentLength outletSegment
        completion segmentNumber).2).map numberAndOutletColumns =
      chainedRows segmentNumber outletSegment.segmentNumber
        (completion.segments.flatMap
          (fun s => createSubSegmentMDPairs s.startMD s.endMD maxSegmentLength)).length := by
  rw [rowsOf_writeCompletionWelsegsSegments]
  exact (writeCompletionWelsegsSegments_segmentLoop_chained exportInfo maxSegmentLength
    outletSegment completion completion.segments segmentNumber
    outletSegment.segmentNumber).2.2

theorem segmentLoop_other_completion (exportInfo : RicMswExportInfo) (maxSegmentLength : ℚ)
    (branch : RicMswBranchData) (before : List RicMswSegment) (S : RicMswSegment)
    (after : List RicMswSegment) (state : WelsegsWalkState)
    (r : List RicMswSegment × WelsegsWalkState × List FormatterEvent)
    (pre : List RicMswCompletion) (c : RicMswCompletion) (post : List RicMswCompletion)
    (h : writeWelsegsSegmentsRecursively.segmentLoop exportInfo maxSegmentLength branch
      (before ++ S :: after) state = some r)
    (hS : S.completions = pre ++ c :: post) (hc : c.dynamicType = CompletionClass.other) :
    ∃ (before' : List RicMswSegment) (S' : RicMswSegment) (after' : List RicMswSegment)
      (pre' post' : List RicMswCompletion) (segmentNumber : Int)
      (eventsBefore eventsAfter : List FormatterEvent),
      r.1 = before' ++ S' :: after' ∧ before'.length = before.length ∧
        S'.completions = pre' ++ c :: post' ∧ pre'.length = pre.length ∧
        r.2.2 =
          eventsBefore ++
            (writeCompletionWelsegsSegments exportInfo maxSegmentLength
              ((outletValveFront
                (lastValve state.outletValve
                  (before'.flatMap (fun s => s.completions) ++ pre'))).getD
                S'.toRicMswSegmentData) c segmentNumber).2 ++
            eventsAfter := by
  rw [writeWelsegsSegmentsRecursively_segmentLoop_append] at h
  cases hp : writeWelsegsSegmentsRecursively.segmentLoop exportInfo maxSegmentLength branch
    before state with
  | none => simp [hp] at h
  | some p =>
    simp only [hp] at h
    cases hq : writeWelsegsSegmentsRecursively.segmentLoop exportInfo maxSegmentLength branch
      (S :: after) p.2.1 with
    | none => simp [hq] at h
    | some q =>
      simp only [hq, Option.some.injEq] at h
      obtain ⟨hp1, hp2⟩ := segmentLoop_lastValve _ _ _ _ _ _ hp
      rw [segmentLoop_cons] at hq
      have hwc := writeWelsegsSegment_completions_eq exportInfo maxSegmentLength branch
        { S with segmentNumber := p.2.1.segmentNumber } p.2.1.outletSegment
        p.2.1.segmentNumber
      generalize writeWelsegsSegment exportInfo maxSegmentLength branch
        { S with segmentNumber := p.2.1.segmentNumber } p.2.1.outletSegment
        p.2.1.segmentNumber = w at hq hwc
      simp only at hwc
      rw [hwc, hS, completionLoop_append] at hq
      cases ha : writeWelsegsSegmentsRecursively.completionLoop exportInfo maxSegmentLength
        w.1.toRicMswSegmentData pre w.2.1 p.2.1.outletValve with
      | none => simp [ha] at hq
      | some a =>
        simp only [ha, Option.some_bind] at hq
        obtain ⟨ha1, ha2⟩ := completionLoop_lastValve _ _ _ _ _ _ _ ha
        rw [completionLoop_cons_other _ _ _ _ _ _ _ hc] at hq
        cases hd : writeWelsegsSegmentsRecursively.completionLoop exportInfo maxSegmentLength
          w.1.toRicMswSegmentData post
          (writeCompletionWelsegsSegments exportInfo maxSegmentLength
            ((outletValveFront a.2.2.1).getD w.1.toRicMswSegmentData) c a.2.1).1
          a.2.2.1 with
        | none => simp [hd] at hq
        | some d =>
          simp only [hd, Option.map_some', Option.some_bind] at hq
          cases ht : writeWelsegsSegmentsRecursively.segmentLoop exportInfo maxSegmentLength
            branch after
            { segmentNumber := d.2.1, outletSegment := some w.1.toRicMswSegmentData,
              outletValve := d.2.2.1 } with
          | none => simp [ht] at hq
          | some t =>
            simp only [ht, Option.map_some', Option.some.injEq] at hq
            refine ⟨p.1, { w.1 with completions := a.1 ++ c :: d.1 }, t.1, a.1, d.1, a.2.1,
              p.2.2 ++
                ((if S.subIndex ≠ UNDEFINED_SIZE_T then
                    [FormatterEvent.optionalComment
                      (S.label ++ ", sub " ++ toString S.subIndex)]
                  else []) ++ w.2.2 ++ a.2.2.2),
              d.2.2.2 ++ t.2.2, ?_, hp2, rfl, ha2, ?_⟩
            · rw [← h, ← hq]
            · rw [← h, ← hq, lastValve_append, ← hp1, ← ha1]
              simp only [List.append_assoc]

theorem enter_outletValve (exportInfo : RicMswExportInfo) (maxSegmentLength : ℚ)
    (branch : RicMswBranchData) (segments : List RicMswSegment) (segmentNumber : Int)
    (connectedToSegment : Option RicMswSegmentData)
    (e : List RicMswSegment × List RicMswSegment × WelsegsWalkState × List FormatterEvent)
    (h : writeWelsegsSegmentsRecursively.enter exportInfo maxSegmentLength branch segments
      segmentNumber connectedToSegment = some e) :
    (branch.tieInICV = none → e.2.2.1.outletValve = none) ∧
      (branch.tieInICV.isSome = true →
        outletValveFront e.2.2.1.outletValve =
          e.1.head?.map RicMswSegment.toRicMswSegmentData) := by
  unfold writeWelsegsSegmentsRecursively.enter at h
  cases hicv : branch.tieInICV with
  | none =>
    simp only [hicv, Option.some.injEq] at h
    rw [← h]
    exact ⟨fun _ => rfl, fun hsome => by simp at hsome⟩
  | some icv =>
    simp only [hicv] at h
    refine ⟨fun hnone => by simp at hnone, fun _ => ?_⟩
    cases hw : writeValveWelsegsSegment exportInfo maxSegmentLength connectedToSegment
      (tieInValve branch icv segments) segmentNumber with
    | none => simp [hw] at h
    | some w =>
      simp only [hw] at h
      cases segments with
      | nil => simp at h
      | cons first rest =>
        cases hs : w.1.segments with
        | nil => simp [hs] at h
        | cons front others =>
          simp only [hs, Option.some.injEq] at h
          rw [← h]
          simp [outletValveFront, hs]

/-- C21 (the claim fails): with maximum segment length 100, the fracture on the second segment
of `Sample.valveOnEarlierSegment` is written as row 5 with outlet 3, the row of the valve on the
first segment, and the fracture on the second segment of the tie-in ICV lateral of
`Sample.tieInThenFracture` is written as row 5 with outlet 3, the row of the tie-in valve. In
both trees the segment that carries the fracture is row 4 and carries no valve. -/
theorem welsegs_valve_of_earlier_segment_is_outlet :
    (generateWelsegsTable (Sample.exportOf Sample.valveOnEarlierSegment "INC" false) 100).map
        (fun r => (welsegsDataRows r.2).map numberAndOutletColumns) =
        some [some (2, 1), some (3, 2), some (4, 2), some (5, 3)] ∧
      (generateWelsegsTable (Sample.exportOf Sample.tieInThenFracture "INC" false) 100).map
        (fun r => (welsegsDataRows r.2).map numberAndOutletColumns) =
        some [some (2, 1), some (3, 2), some (4, 3), some (5, 3)] := by
  constructor <;> decide!

/-- C21 (as amended): in the walk of one branch, let `c` be a completion that is neither a
perforation nor a valve, attached to a segment `S` that the walk writes (`before`, `S`, `after`
are the segments after the skipped valve segment of a tie-in ICV branch). The rows of `c` are
written with this outlet segment: the first sub-segment of the valve that the walk of the
branch met last before `c` (`lastValve`), that is the last valve among the completions of the
segments before `S` and the completions before `c` on `S`, or, when there is none, the tie-in
ICV of the branch, whose first sub-segment is the first segment of the branch; and `S` itself
when no valve was met or the valve has no sub-segment. The first row of `c` names the number of
that outlet segment and every later row the row before it. -/
theorem writeWelsegsSegmentsRecursively_outlet_reference (exportInfo : RicMswExportInfo)
    (maxSegmentLength : ℚ) (branch : RicMswBranchData) (segments : List RicMswSegment)
    (branches : List RicMswBranch) (segmentNumber : Int)
    (connectedToSegment : Option RicMswSegmentData) (before : List RicMswSegment)
    (S : RicMswSegment) (after : List RicMswSegment) (pre : List RicMswCompletion)
    (c : RicMswCompletion) (post : List RicMswCompletion)
    (hrun : (writeWelsegsSegmentsRecursively exportInfo maxSegmentLength
      (RicMswBranch.mk branch segments branches) segmentNumber connectedToSegment).isSome =
      true)
    (hsegments : (match branch.tieInICV with
      | none => segments
      | some _ => segments.drop 1) = before ++ S :: after)
    (hS : S.completions = pre ++ c :: post) (hc : c.dynamicType = CompletionClass.other) :
    ∃ (w : RicMswBranch × Int × List FormatterEvent)
      (e : List RicMswSegment × List RicMswSegment × WelsegsWalkState × List FormatterEvent)
      (before' : List RicMswSegment) (S' : RicMswSegment) (after' : List RicMswSegment)
      (pre' post' : List RicMswCompletion) (number : Int)
      (eventsBefore eventsAfter : List FormatterEvent),
      writeWelsegsSegmentsRecursively exportInfo maxSegmentLength
          (RicMswBranch.mk branch segments branches) segmentNumber connectedToSegment =
          some w ∧
        writeWelsegsSegmentsRecursively.enter exportInfo maxSegmentLength branch segments
          segmentNumber connectedToSegment = some e ∧
        (branch.tieInICV = none → e.2.2.1.outletValve = none) ∧
        (branch.tieInICV.isSome = true →
          outletValveFront e.2.2.1.outletValve =
            w.1.segments.head?.map RicMswSegment.toRicMswSegmentData) ∧
        w.1.segments = e.1 ++ (before' ++ S' :: after') ∧
        before'.length = before.length ∧
        S'.completions = pre' ++ c :: post' ∧ pre'.length = pre.length ∧
        w.2.2 =
          eventsBefore ++
            (writeCompletionWelsegsSegments exportInfo maxSegmentLength
              ((outletValveFront
                (lastValve e.2.2.1.outletValve
                  (before'.flatMap (fun s => s.completions) ++ pre'))).getD
                S'.toRicMswSegmentData) c number).2 ++
            eventsAfter ∧
        (rowsOf
            (writeCompletionWelsegsSegments exportInfo maxSegmentLength
              ((outletValveFront
                (lastValve e.2.2.1.outletValve
                  (before'.flatMap (fun s => s.completions) ++ pre'))).getD
                S'.toRicMswSegmentData) c number).2).map numberAndOutletColumns =
          chainedRows number
            ((outletValveFront
              (lastValve e.2.2.1.outletValve
                (before'.flatMap (fun s => s.completions) ++ pre'))).getD
              S'.toRicMswSegmentData).segmentNumber
            (c.segments.flatMap
              (fun s => createSubSegmentMDPairs s.startMD s.endMD maxSegmentLength)).length := by
  rw [writeWelsegsSegmentsRecursively] at hrun ⊢
  cases he : writeWelsegsSegmentsRecursively.enter exportInfo maxSegmentLength branch segments
    segmentNumber connectedToSegment with
  | none => simp [he] at hrun
  | some e =>
    simp only [he] at hrun ⊢
    cases hl : writeWelsegsSegmentsRecursively.segmentLoop exportInfo maxSegmentLength branch
      e.2.1 e.2.2.1 with
    | none => simp [hl] at hrun
    | some l =>
      simp only [hl] at hrun ⊢
      cases hch : writeWelsegsChildBranches exportInfo maxSegmentLength (e.1 ++ l.1)
        l.2.1.outletSegment branches l.2.1.segmentNumber with
      | none => simp [hch] at hrun
      | some ch =>
        simp only [hch]
        have hloopSegments : e.2.1 = before ++ S :: after := by
          rcases writeWelsegsSegmentsRecursively_enter_shape exportInfo maxSegmentLength branch
            segments segmentNumber connectedToSegment e he with
            ⟨hicv, _, he2⟩ | ⟨icv, first, hicv, _, he2⟩
          · rw [he2, ← hsegments, hicv]
          · rw [he2, ← hsegments, hicv]
        rw [hloopSegments] at hl
        obtain ⟨before', S', after', pre', post', number, eventsBefore, eventsAfter, h1, h2, h3,
          h4, h5⟩ := segmentLoop_other_completion exportInfo maxSegmentLength branch before S
          after e.2.2.1 l pre c post hl hS hc
        obtain ⟨hplain, htie⟩ := enter_outletValve exportInfo maxSegmentLength branch segments
          segmentNumber connectedToSegment e he
        refine ⟨_, e, before', S', after', pre', post', number,
          e.2.2.2 ++
            FormatterEvent.optionalComment ("Segments on branch " ++ branch.label) ::
              eventsBefore,
          eventsAfter ++ ch.2.2, rfl, rfl, hplain, ?_, ?_, h2, h3, h4, ?_,
          writeCompletionWelsegsSegments_outlet_rows _ _ _ _ _⟩
        · intro hsome
          rw [htie hsome]
          simp only [RicMswBranch.segments]
          rcases writeWelsegsSegmentsRecursively_enter_shape exportInfo maxSegmentLength branch
            segments segmentNumber connectedToSegment e he with
            ⟨hicv, _, _⟩ | ⟨icv, first, _, he1, _⟩
          · rw [hicv] at hsome
            simp at hsome
          · rw [he1]
            rfl
        · simp only [RicMswBranch.segments, h1]
        · simp only [h5, List.append_assoc, List.cons_append]

/-- Witness of C21: the tie-in ICV lateral of `Sample.tieInThenFracture`, entered with the
counter at 3, with the fracture on its second segment. -/
theorem writeWelsegsSegmentsRecursively_outlet_reference_witness :
    (writeWelsegsSegmentsRecursively (Sample.exportOf Sample.tieInThenFracture "INC" false) 100
        (RicMswBranch.mk (Sample.branchData 2 5 (some { isValid := true }))
          [Sample.segment 5 6 [], Sample.lateralFractureSegment] [])
        3 (some (Sample.subSegment 0 5 []))).isSome = true ∧
      (match (Sample.branchData 2 5 (some { isValid := true })).tieInICV with
        | none => [Sample.segment 5 6 [], Sample.lateralFractureSegment]
        | some _ => [Sample.segment 5 6 [], Sample.lateralFractureSegment].drop 1) =
        [] ++ Sample.lateralFractureSegment :: [] ∧
      Sample.lateralFractureSegment.completions = [] ++ Sample.lateralFracture :: [] ∧
      Sample.lateralFracture.dynamicType = CompletionClass.other ∧
    ∃ (w : RicMswBranch × Int × List FormatterEvent)
      (e : List RicMswSegment × List RicMswSegment × WelsegsWalkState × List FormatterEvent)
      (before' : List RicMswSegment) (S' : RicMswSegment) (after' : List RicMswSegment)
      (pre' post' : List RicMswCompletion) (number : Int)
      (eventsBefore eventsAfter : List FormatterEvent),
      writeWelsegsSegmentsRecursively (Sample.exportOf Sample.tieInThenFracture "INC" false) 100
          (RicMswBranch.mk (Sample.branchData 2 5 (some { isValid := true }))
            [Sample.segment 5 6 [], Sample.lateralFractureSegment] [])
          3 (some (Sample.subSegment 0 5 [])) =
          some w ∧
        writeWelsegsSegmentsRecursively.enter
          (Sample.exportOf Sample.tieInThenFracture "INC" false) 100
          (Sample.branchData 2 5 (some { isValid := true }))
          [Sample.segment 5 6 [], Sample.lateralFractureSegment]
          3 (some (Sample.subSegment 0 5 [])) = some e ∧
        ((Sample.branchData 2 5 (some { isValid := true })).tieInICV = none →
          e.2.2.1.outletValve = none) ∧
        ((Sample.branchData 2 5 (some { isValid := true })).tieInICV.isSome = true →
          outletValveFront e.2.2.1.outletValve =
            w.1.segments.head?.map RicMswSegment.toRicMswSegmentData) ∧
        w.1.segments = e.1 ++ (before' ++ S' :: after') ∧
        before'.length = ([] : List RicMswSegment).length ∧
        S'.completions = pre' ++ Sample.lateralFracture :: post' ∧
        pre'.length = ([] : List RicMswCompletion).length ∧
        w.2.2 =
          eventsBefore ++
            (writeCompletionWelsegsSegments
              (Sample.exportOf Sample.tieInThenFracture "INC" false) 100
              ((outletValveFront
                (lastValve e.2.2.1.outletValve
                  (before'.flatMap (fun s => s.completions) ++ pre'))).getD
                S'.toRicMswSegmentData) Sample.lateralFracture number).2 ++
            eventsAfter ∧
        (rowsOf
            (writeCompletionWelsegsSegments
              (Sample.exportOf Sample.tieInThenFracture "INC" false) 100
              ((outletValveFront
                (lastValve e.2.2.1.outletValve
                  (before'.flatMap (fun s => s.completions) ++ pre'))).getD
                S'.toRicMswSegmentData) Sample.lateralFracture number).2).map
            numberAndOutletColumns =
          chainedRows number
            ((outletValveFront
              (lastValve e.2.2.1.outletValve
                (before'.flatMap (fun s => s.completions) ++ pre'))).getD
              S'.toRicMswSegmentData).segmentNumber
            (Sample.lateralFracture.segments.flatMap
              (fun s => createSubSegmentMDPairs s.startMD s.endMD 100)).length :=
  ⟨by decide!, rfl, rfl, rfl,
    writeWelsegsSegmentsRecursively_outlet_reference _ 100 _ _ [] 3 _ [] _ [] [] _ []
      (by decide!) rfl rfl rfl⟩

/-! ## The tables agree on the numbers of the valves -/

theorem welsegsValveBlock_prepend {exportInfo : RicMswExportInfo} {maxSegmentLength : ℚ}
    {events : List FormatterEvent} {valve : RicMswCompletion}
    {outlet : Option RicMswSegmentData} {front : RicMswSegmentData}
    {block : List FormatterEvent} (pre : List FormatterEvent)
    (h : WelsegsValveBlock exportInfo maxSegmentLength events valve outlet front block) :
    WelsegsValveBlock exportInfo maxSegmentLength (pre ++ events) valve outlet front block := by
  obtain ⟨hloop, before, after, hev⟩ := h
  refine ⟨hloop, pre ++ before, after, ?_⟩
  rw [hev]
  simp

theorem welsegsValveBlock_extend {exportInfo : RicMswExportInfo} {maxSegmentLength : ℚ}
    {events : List FormatterEvent} {valve : RicMswCompletion}
    {outlet : Option RicMswSegmentData} {front : RicMswSegmentData}
    {block : List FormatterEvent} (post : List FormatterEvent)
    (h : WelsegsValveBlock exportInfo maxSegmentLength events valve outlet front block) :
    WelsegsValveBlock exportInfo maxSegmentLength (events ++ post) valve outlet front block := by
  obtain ⟨hloop, before, after, hev⟩ := h
  refine ⟨hloop, before, after ++ post, ?_⟩
  rw [hev]
  simp

/-- The first row written by the loop of `writeValveWelsegsSegment` carries the counter value
at entry in its first column. -/
theorem writeValveWelsegsSegment_loop_first_row (exportInfo : RicMswExportInfo)
    (valve : RicMswCompletion) (outlet : Option RicMswSegmentData) (pairs : List (ℚ × ℚ))
    (segmentNumber : Int) (block : List FormatterEvent)
    (h : (writeValveWelsegsSegment.loop exportInfo valve outlet pairs segmentNumber).map
      Prod.snd = some block) :
    ∀ row, (rowsOf block).head? = some row → firstColumn row = some segmentNumber := by
  intro row hrow
  cases pairs with
  | nil =>
    simp only [writeValveWelsegsSegment.loop, Option.map_some', Option.some.injEq] at h
    rw [← h] at hrow
    simp [rowsOf] at hrow
  | cons p rest =>
    obtain ⟨s, e⟩ := p
    cases outlet with
    | none => simp [writeValveWelsegsSegment.loop] at h
    | some o =>
      simp only [writeValveWelsegsSegment.loop] at h
      cases hr : writeValveWelsegsSegment.loop exportInfo valve (some o) rest
        (segmentNumber + 1) with
      | none => simp [hr] at h
      | some r =>
        simp only [hr, Option.map_some', Option.some.injEq] at h
        rw [← h] at hrow
        simp only [rowsOf, List.head?_cons, Option.some.injEq] at hrow
        rw [← hrow]
        rfl

/-- A valid valve as `writeValveWelsegsSegment` leaves it: its first sub-segment holds the
counter value at entry, and the events written are the comment with the label of the valve
followed by the events of the loop over the split intervals of that sub-segment. -/
theorem writeValveWelsegsSegment_written (exportInfo : RicMswExportInfo)
    (maxSegmentLength : ℚ) (outlet : Option RicMswSegmentData) (valve : RicMswCompletion)
    (segmentNumber : Int) (w : RicMswCompletion × Int × List FormatterEvent)
    (h : writeValveWelsegsSegment exportInfo maxSegmentLength outlet valve segmentNumber =
      some w)
    (hvalid : w.1.isValid = true) :
    ∃ front others block,
      w.1.segments = front :: others ∧ front.segmentNumber = segmentNumber ∧
        w.1.label = valve.label ∧ w.1.wellPath = valve.wellPath ∧
        w.1.branchNumber = valve.branchNumber ∧
        (writeValveWelsegsSegment.loop exportInfo w.1 outlet
          (createSubSegmentMDPairs front.startMD front.endMD maxSegmentLength)
          segmentNumber).map Prod.snd = some block ∧
        w.2.2 = FormatterEvent.optionalComment w.1.label :: block := by
  unfold writeValveWelsegsSegment at h
  by_cases hv : valve.isValid = false
  · rw [if_pos hv, Option.some.injEq] at h
    rw [← h] at hvalid
    rw [hv] at hvalid
    exact absurd hvalid (by decide)
  · rw [if_neg hv] at h
    cases hs : valve.segments with
    | nil => simp [hs] at h
    | cons subSegment others =>
      simp only [hs] at h
      cases hr : writeValveWelsegsSegment.loop exportInfo valve outlet
        (createSubSegmentMDPairs subSegment.startMD subSegment.endMD maxSegmentLength)
        segmentNumber with
      | none => simp [hr] at h
      | some r =>
        simp only [hr, Option.some.injEq] at h
        obtain ⟨w1, n1, ev1⟩ := w
        simp only [Prod.mk.injEq] at h
        obtain ⟨h1, _, h3⟩ := h
        have hpath : w1.wellPath = valve.wellPath := by rw [← h1]
        have hbranch : w1.branchNumber = valve.branchNumber := by rw [← h1]
        have hlabel : w1.label = valve.label := by rw [← h1]
        refine ⟨_, others, r.2, by rw [← h1], rfl, hlabel, hpath, hbranch, ?_, ?_⟩
        · rw [writeValveWelsegsSegment_loop_valve exportInfo valve w1 outlet _ segmentNumber
            hpath hbranch]
          simp only [hr, Option.map_some']
        · show ev1 = FormatterEvent.optionalComment w1.label :: r.2
          rw [← h3, hlabel]

/-- Every valid valve among the completions that the completion loop returns has its block in
the events of the loop, written from the number that its first sub-segment now holds. -/
theorem completionLoop_valve_block (exportInfo : RicMswExportInfo) (maxSegmentLength : ℚ)
    (segment : RicMswSegmentData) :
    ∀ (completions : List RicMswCompletion) (segmentNumber : Int)
      (outletValve : Option RicMswCompletion)
      (r : List RicMswCompletion × Int × Option RicMswCompletion × List FormatterEvent),
      writeWelsegsSegmentsRecursively.completionLoop exportInfo maxSegmentLength segment
          completions segmentNumber outletValve = some r →
        ∀ valve ∈ r.1, valve.dynamicType = CompletionClass.valve → valve.isValid = true →
          ∃ front others block,
            valve.segments = front :: others ∧
              WelsegsValveBlock exportInfo maxSegmentLength r.2.2.2 valve (some segment) front
                block := by
  intro completions
  induction completions with
  | nil =>
    intro segmentNumber outletValve r h valve hmem
    simp only [writeWelsegsSegmentsRecursively.completionLoop, Option.some.injEq] at h
    rw [← h] at hmem
    simp at hmem
  | cons c rest ih =>
    intro segmentNumber outletValve r h valve hmem htype hvalid
    cases hc : c.dynamicType with
    | perforation =>
      rw [completionLoop_cons_perforation _ _ _ _ _ _ _ hc] at h
      cases hr : writeWelsegsSegmentsRecursively.completionLoop exportInfo maxSegmentLength
        segment rest segmentNumber outletValve with
      | none => simp [hr] at h
      | some r1 =>
        simp only [hr, Option.map_some', Option.some.injEq] at h
        rw [← h] at hmem ⊢
        simp only [List.mem_cons] at hmem
        rcases hmem with heq | hmem
        · rw [heq, hc] at htype
          exact absurd htype (by decide)
        · exact ih _ _ r1 hr valve hmem htype hvalid
    | valve =>
      rw [completionLoop_cons_valve _ _ _ _ _ _ _ hc] at h
      cases hw : writeValveWelsegsSegment exportInfo maxSegmentLength (some segment) c
        segmentNumber with
      | none => simp [hw] at h
      | some w =>
        simp only [hw, Option.some_bind] at h
        cases hr : writeWelsegsSegmentsRecursively.completionLoop exportInfo maxSegmentLength
          segment rest w.2.1 (some w.1) with
        | none => simp [hr] at h
        | some r1 =>
          simp only [hr, Option.map_some', Option.some.injEq] at h
          rw [← h] at hmem ⊢
          simp only [List.mem_cons] at hmem
          rcases hmem with heq | hmem
          · rw [heq] at hvalid ⊢
            obtain ⟨front, others, block, hsegs, hnum, _, _, _, hloop, hev⟩ :=
              writeValveWelsegsSegment_written exportInfo maxSegmentLength (some segment) c
                segmentNumber w hw hvalid
            refine ⟨front, others, block, hsegs, ?_, [], r1.2.2.2, ?_⟩
            · rw [hnum]
              exact hloop
            · show w.2.2 ++ r1.2.2.2 = _
              rw [hev]
              simp
          · obtain ⟨front, others, block, hsegs, hblock⟩ :=
              ih _ _ r1 hr valve hmem htype hvalid
            exact ⟨front, others, block, hsegs, welsegsValveBlock_prepend w.2.2 hblock⟩
    | other =>
      rw [completionLoop_cons_other _ _ _ _ _ _ _ hc] at h
      cases hr : writeWelsegsSegmentsRecursively.completionLoop exportInfo maxSegmentLength
        segment rest
        (writeCompletionWelsegsSegments exportInfo maxSegmentLength
          ((outletValveFront outletValve).getD segment) c segmentNumber).1 outletValve with
      | none => simp [hr] at h
      | some r1 =>
        simp only [hr, Option.map_some', Option.some.injEq] at h
        rw [← h] at hmem ⊢
        simp only [List.mem_cons] at hmem
        rcases hmem with heq | hmem
        · rw [heq, hc] at htype
          exact absurd htype (by decide)
        · obtain ⟨front, others, block, hsegs, hblock⟩ :=
            ih _ _ r1 hr valve hmem htype hvalid
          exact ⟨front, others, block, hsegs, welsegsValveBlock_prepend _ hblock⟩

/-- Every valid valve attached to a segment that the segment loop returns has its block in the
events of the loop, with that segment as outlet. -/
theorem segmentLoop_valve_block (exportInfo : RicMswExportInfo) (maxSegmentLength : ℚ)
    (branch : RicMswBranchData) :
    ∀ (segments : List RicMswSegment) (state : WelsegsWalkState)
      (l : List RicMswSegment × WelsegsWalkState × List FormatterEvent),
      writeWelsegsSegmentsRecursively.segmentLoop exportInfo maxSegmentLength branch segments
          state = some l →
        ∀ segment ∈ l.1, ∀ valve ∈ segment.completions,
          valve.dynamicType = CompletionClass.valve → valve.isValid = true →
          ∃ front others block,
            valve.segments = front :: others ∧
              WelsegsValveBlock exportInfo maxSegmentLength l.2.2 valve
                (some segment.toRicMswSegmentData) front block := by
  intro segments
  induction segments with
  | nil =>
    intro state l h segment hmem
    simp only [writeWelsegsSegmentsRecursively.segmentLoop, Option.some.injEq] at h
    rw [← h] at hmem
    simp at hmem
  | cons s rest ih =>
    intro state l h segment hmem valve hv htype hvalid
    rw [segmentLoop_cons] at h
    generalize writeWelsegsSegment exportInfo maxSegmentLength branch
      { s with segmentNumber := state.segmentNumber } state.outletSegment
      state.segmentNumber = written at h
    cases hc : writeWelsegsSegmentsRecursively.completionLoop exportInfo maxSegmentLength
      written.1.toRicMswSegmentData written.1.completions written.2.1 state.outletValve with
    | none => simp [hc] at h
    | some c =>
      simp only [hc, Option.some_bind] at h
      cases hr : writeWelsegsSegmentsRecursively.segmentLoop exportInfo maxSegmentLength
        branch rest
        { segmentNumber := c.2.1
          outletSegment := some written.1.toRicMswSegmentData
          outletValve := c.2.2.1 } with
      | none => simp [hr] at h
      | some r =>
        simp only [hr, Option.map_some', Option.some.injEq] at h
        rw [← h] at hmem ⊢
        simp only [List.mem_cons] at hmem
        rcases hmem with heq | hmem
        · rw [heq] at hv ⊢
          obtain ⟨front, others, block, hsegs, hblock⟩ :=
            completionLoop_valve_block exportInfo maxSegmentLength
              written.1.toRicMswSegmentData written.1.completions written.2.1
              state.outletValve c hc valve hv htype hvalid
          exact ⟨front, others, block, hsegs,
            welsegsValveBlock_extend _ (welsegsValveBlock_prepend _ hblock)⟩
        · obtain ⟨front, others, block, hsegs, hblock⟩ :=
            ih _ r hr segment hmem valve hv htype hvalid
          exact ⟨front, others, block, hsegs, welsegsValveBlock_prepend _ hblock⟩

theorem writeValveWelsegsSegment_isValid (exportInfo : RicMswExportInfo)
    (maxSegmentLength : ℚ) (outlet : Option RicMswSegmentData) (valve : RicMswCompletion)
    (segmentNumber : Int) (w : RicMswCompletion × Int × List FormatterEvent)
    (h : writeValveWelsegsSegment exportInfo maxSegmentLength outlet valve segmentNumber =
      some w) :
    w.1.isValid = valve.isValid := by
  unfold writeValveWelsegsSegment at h
  by_cases hv : valve.isValid = false
  · rw [if_pos hv, Option.some.injEq] at h
    rw [← h]
  · rw [if_neg hv] at h
    cases hs : valve.segments with
    | nil => simp [hs] at h
    | cons subSegment others =>
      simp only [hs] at h
      cases hr : writeValveWelsegsSegment.loop exportInfo valve outlet
        (createSubSegmentMDPairs subSegment.startMD subSegment.endMD maxSegmentLength)
        segmentNumber with
      | none => simp [hr] at h
      | some r =>
        simp only [hr, Option.some.injEq] at h
        rw [← h]

/-- The head of the walk of a valid tie-in ICV branch: the first segment of the branch is
returned with the counter value at entry as its number, and the events are the block of the
valve, whatever segments follow the first one in the branch afterwards. -/
theorem enter_tieIn_block (exportInfo : RicMswExportInfo) (maxSegmentLength : ℚ)
    (branch : RicMswBranchData) (segments : List RicMswSegment) (segmentNumber : Int)
    (connectedToSegment : Option RicMswSegmentData)
    (e : List RicMswSegment × List RicMswSegment × WelsegsWalkState × List FormatterEvent)
    (he : writeWelsegsSegmentsRecursively.enter exportInfo maxSegmentLength branch segments
      segmentNumber connectedToSegment = some e)
    (icv : RicMswTieInICVData) (hicv : branch.tieInICV = some icv)
    (hvalid : icv.isValid = true) :
    ∃ first block,
      e.1 = [first] ∧
        ∀ tail, WelsegsValveBlock exportInfo maxSegmentLength e.2.2.2
          (tieInValve branch icv (first :: tail)) connectedToSegment
          first.toRicMswSegmentData block := by
  unfold writeWelsegsSegmentsRecursively.enter at he
  simp only [hicv] at he
  cases hw : writeValveWelsegsSegment exportInfo maxSegmentLength connectedToSegment
    (tieInValve branch icv segments) segmentNumber with
  | none => simp [hw] at he
  | some w =>
    simp only [hw] at he
    cases segments with
    | nil => simp at he
    | cons first0 rest =>
      cases hs : w.1.segments with
      | nil => simp [hs] at he
      | cons front others =>
        simp only [hs, Option.some.injEq] at he
        have hwvalid : w.1.isValid = true := by
          rw [writeValveWelsegsSegment_isValid _ _ _ _ _ w hw]
          exact hvalid
        obtain ⟨front1, others1, block, hsegs, hnum, hlabel, hpath, hbranch, hloop, hev⟩ :=
          writeValveWelsegsSegment_written exportInfo maxSegmentLength connectedToSegment
            (tieInValve branch icv (first0 :: rest)) segmentNumber w hw hwvalid
        rw [hs, List.cons.injEq] at hsegs
        obtain ⟨hfront, _⟩ := hsegs
        rw [← hfront] at hnum hloop
        rw [← he]
        refine ⟨_, block, rfl, fun tail => ⟨?_, [], [], ?_⟩⟩
        · show (writeValveWelsegsSegment.loop exportInfo
              (tieInValve branch icv ({ first0 with toRicMswSegmentData := front } :: tail))
              connectedToSegment
              (createSubSegmentMDPairs front.startMD front.endMD maxSegmentLength)
              front.segmentNumber).map Prod.snd = some block
          rw [hnum, writeValveWelsegsSegment_loop_valve exportInfo w.1
            (tieInValve branch icv ({ first0 with toRicMswSegmentData := front } :: tail))
            connectedToSegment _ segmentNumber (by rw [hpath]; rfl) (by rw [hbranch]; rfl)]
          exact hloop
        · show w.2.2 = [] ++ FormatterEvent.optionalComment branch.label :: block ++ []
          rw [hev, hlabel]
          simp [tieInValve]

/-- The segments of the returned branch that the walk wrote with `writeWelsegsSegment` are the
segments returned by the segment loop. -/
theorem plainSegments_written (exportInfo : RicMswExportInfo) (maxSegmentLength : ℚ)
    (branch : RicMswBranchData) (segments : List RicMswSegment) (segmentNumber : Int)
    (connectedToSegment : Option RicMswSegmentData)
    (e : List RicMswSegment × List RicMswSegment × WelsegsWalkState × List FormatterEvent)
    (he : writeWelsegsSegmentsRecursively.enter exportInfo maxSegmentLength branch segments
      segmentNumber connectedToSegment = some e)
    (looped : List RicMswSegment) (branches : List RicMswBranch) :
    plainSegments (RicMswBranch.mk branch (e.1 ++ looped) branches) =
      looped.map (fun segment => (branch, segment)) ++ plainSegmentsOfBranches branches := by
  rcases writeWelsegsSegmentsRecursively_enter_shape exportInfo maxSegmentLength branch
    segments segmentNumber connectedToSegment e he with
    ⟨hicv, he1, _⟩ | ⟨icv, first, hicv, he1, _⟩
  · simp only [plainSegments, hicv, he1, List.nil_append]
  · simp only [plainSegments, hicv, he1, List.singleton_append, List.drop_succ_cons,
      List.drop_zero]

mutual

/-- Every valid valve attached to a segment that the walk of a branch wrote has its block in
the events of the walk. -/
theorem writeWelsegsSegmentsRecursively_valve_block (exportInfo : RicMswExportInfo)
    (maxSegmentLength : ℚ) :
    ∀ (branch : RicMswBranch) (segmentNumber : Int)
      (connectedToSegment : Option RicMswSegmentData)
      (r : RicMswBranch × Int × List FormatterEvent),
      writeWelsegsSegmentsRecursively exportInfo maxSegmentLength branch segmentNumber
          connectedToSegment = some r →
        ∀ p ∈ plainSegments r.1, ∀ valve ∈ p.2.completions,
          valve.dynamicType = CompletionClass.valve → valve.isValid = true →
          ∃ front others block,
            valve.segments = front :: others ∧
              WelsegsValveBlock exportInfo maxSegmentLength r.2.2 valve
                (some p.2.toRicMswSegmentData) front block
  | RicMswBranch.mk branch segments branches, segmentNumber, connectedToSegment, r, h => by
    rw [writeWelsegsSegmentsRecursively] at h
    cases he : writeWelsegsSegmentsRecursively.enter exportInfo maxSegmentLength branch
      segments segmentNumber connectedToSegment with
    | none => simp [he] at h
    | some e =>
      simp only [he] at h
      cases hl : writeWelsegsSegmentsRecursively.segmentLoop exportInfo maxSegmentLength
        branch e.2.1 e.2.2.1 with
      | none => simp [hl] at h
      | some l =>
        simp only [hl] at h
        cases hc : writeWelsegsChildBranches exportInfo maxSegmentLength (e.1 ++ l.1)
          l.2.1.outletSegment branches l.2.1.segmentNumber with
        | none => simp [hc] at h
        | some c =>
          simp only [hc, Option.some.injEq] at h
          rw [← h]
          intro p hp valve hv htype hvalid
          have hev : e.2.2.2 ++
              FormatterEvent.optionalComment ("Segments on branch " ++ branch.label) ::
                (l.2.2 ++ c.2.2) =
              (e.2.2.2 ++
                [FormatterEvent.optionalComment ("Segments on branch " ++ branch.label)]) ++
                l.2.2 ++ c.2.2 := by
            simp
          show ∃ front others block, valve.segments = front :: others ∧
            WelsegsValveBlock exportInfo maxSegmentLength
              (e.2.2.2 ++
                FormatterEvent.optionalComment ("Segments on branch " ++ branch.label) ::
                  (l.2.2 ++ c.2.2)) valve (some p.2.toRicMswSegmentData) front block
          rw [hev]
          have hp1 : p ∈ plainSegments (RicMswBranch.mk branch (e.1 ++ l.1) c.1) := hp
          rw [plainSegments_written exportInfo maxSegmentLength branch segments segmentNumber
            connectedToSegment e he, List.mem_append] at hp1
          rcases hp1 with hown | hchild
          · rw [List.mem_map] at hown
            obtain ⟨segment, hsegment, hpeq⟩ := hown
            rw [← hpeq] at hv ⊢
            obtain ⟨front, others, block, hsegs, hblock⟩ :=
              segmentLoop_valve_block exportInfo maxSegmentLength branch e.2.1 e.2.2.1 l hl
                segment hsegment valve hv htype hvalid
            exact ⟨front, others, block, hsegs,
              welsegsValveBlock_extend _ (welsegsValveBlock_prepend _ hblock)⟩
          · obtain ⟨front, others, block, hsegs, hblock⟩ :=
              writeWelsegsChildBranches_valve_block exportInfo maxSegmentLength (e.1 ++ l.1)
                l.2.1.outletSegment branches l.2.1.segmentNumber c hc p hchild valve hv htype
                hvalid
            exact ⟨front, others, block, hsegs, welsegsValveBlock_prepend _ hblock⟩

theorem writeWelsegsChildBranches_valve_block (exportInfo : RicMswExportInfo)
    (maxSegmentLength : ℚ) :
    ∀ (parentSegments : List RicMswSegment) (outletSegment : Option RicMswSegmentData)
      (branches : List RicMswBranch) (segmentNumber : Int)
      (r : List RicMswBranch × Int × List FormatterEvent),
      writeWelsegsChildBranches exportInfo maxSegmentLength parentSegments outletSegment
          branches segmentNumber = some r →
        ∀ p ∈ plainSegmentsOfBranches r.1, ∀ valve ∈ p.2.completions,
          valve.dynamicType = CompletionClass.valve → valve.isValid = true →
          ∃ front others block,
            valve.segments = front :: others ∧
              WelsegsValveBlock exportInfo maxSegmentLength r.2.2 valve
                (some p.2.toRicMswSegmentData) front block
  | parentSegments, outletSegment, [], segmentNumber, r, h => by
    rw [writeWelsegsChildBranches, Option.some.injEq] at h
    rw [← h]
    intro p hp
    simp [plainSegmentsOfBranches] at hp
  | parentSegments, outletSegment, branch :: rest, segmentNumber, r, h => by
    rw [writeWelsegsChildBranches] at h
    cases hc : writeWelsegsSegmentsRecursively exportInfo maxSegmentLength branch
      segmentNumber (outletSegmentForChildBranch parentSegments outletSegment branch) with
    | none => simp [hc] at h
    | some c =>
      simp only [hc] at h
      cases hr : writeWelsegsChildBranches exportInfo maxSegmentLength parentSegments
        outletSegment rest c.2.1 with
      | none => simp [hr] at h
      | some r1 =>
        simp only [hr, Option.some.injEq] at h
        rw [← h]
        intro p hp valve hv htype hvalid
        have hp1 : p ∈ plainSegments c.1 ++ plainSegmentsOfBranches r1.1 := by
          simpa [plainSegmentsOfBranches] using hp
        rw [List.mem_append] at hp1
        rcases hp1 with hfirst | hrest
        · obtain ⟨front, others, block, hsegs, hblock⟩ :=
            writeWelsegsSegmentsRecursively_valve_block exportInfo maxSegmentLength branch
              segmentNumber (outletSegmentForChildBranch parentSegments outletSegment branch)
              c hc p hfirst valve hv htype hvalid
          exact ⟨front, others, block, hsegs, welsegsValveBlock_extend _ hblock⟩
        · obtain ⟨front, others, block, hsegs, hblock⟩ :=
            writeWelsegsChildBranches_valve_block exportInfo maxSegmentLength parentSegments
              outletSegment rest c.2.1 r1 hr p hrest valve hv htype hvalid
          exact ⟨front, others, block, hsegs, welsegsValveBlock_prepend _ hblock⟩

end

mutual

/-- Every valid tie-in ICV branch of the tree that the walk returns has the block of its valve
in the events of the walk, written from the number that its first segment now holds. -/
theorem writeWelsegsSegmentsRecursively_tieIn_block (exportInfo : RicMswExportInfo)
    (maxSegmentLength : ℚ) :
    ∀ (branch : RicMswBranch) (segmentNumber : Int)
      (connectedToSegment : Option RicMswSegmentData)
      (r : RicMswBranch × Int × List FormatterEvent),
      writeWelsegsSegmentsRecursively exportInfo maxSegmentLength branch segmentNumber
          connectedToSegment = some r →
        ∀ written ∈ branchesOf r.1, ∀ icv, written.data.tieInICV = some icv →
          icv.isValid = true →
          ∃ first rest outlet block,
            written.segments = first :: rest ∧
              WelsegsValveBlock exportInfo maxSegmentLength r.2.2
                (tieInValve written.data icv written.segments) outlet
                first.toRicMswSegmentData block
  | RicMswBranch.mk branch segments branches, segmentNumber, connectedToSegment, r, h => by
    rw [writeWelsegsSegmentsRecursively] at h
    cases he : writeWelsegsSegmentsRecursively.enter exportInfo maxSegmentLength branch
      segments segmentNumber connectedToSegment with
    | none => simp [he] at h
    | some e =>
      simp only [he] at h
      cases hl : writeWelsegsSegmentsRecursively.segmentLoop exportInfo maxSegmentLength
        branch e.2.1 e.2.2.1 with
      | none => simp [hl] at h
      | some l =>
        simp only [hl] at h
        cases hc : writeWelsegsChildBranches exportInfo maxSegmentLength (e.1 ++ l.1)
          l.2.1.outletSegment branches l.2.1.segmentNumber with
        | none => simp [hc] at h
        | some c =>
          simp only [hc, Option.some.injEq] at h
          rw [← h]
          intro written hmem icv hicv hvalid
          have hev : e.2.2.2 ++
              FormatterEvent.optionalComment ("Segments on branch " ++ branch.label) ::
                (l.2.2 ++ c.2.2) =
              (e.2.2.2 ++
                FormatterEvent.optionalComment ("Segments on branch " ++ branch.label) ::
                  l.2.2) ++ c.2.2 := by
            simp
          show ∃ first rest outlet block, written.segments = first :: rest ∧
            WelsegsValveBlock exportInfo maxSegmentLength
              (e.2.2.2 ++
                FormatterEvent.optionalComment ("Segments on branch " ++ branch.label) ::
                  (l.2.2 ++ c.2.2))
              (tieInValve written.data icv written.segments) outlet
              first.toRicMswSegmentData block
          have hmem1 : written ∈ RicMswBranch.mk branch (e.1 ++ l.1) c.1 ::
              branchesOfBranches c.1 := by
            simpa [branchesOf] using hmem
          rw [List.mem_cons] at hmem1
          rcases hmem1 with hown | hchild
          · rw [hown] at hicv ⊢
            have hicv1 : branch.tieInICV = some icv := hicv
            obtain ⟨first, block, he1, hblock⟩ :=
              enter_tieIn_block exportInfo maxSegmentLength branch segments segmentNumber
                connectedToSegment e he icv hicv1 hvalid
            refine ⟨first, l.1, connectedToSegment, block, ?_, ?_⟩
            · show e.1 ++ l.1 = first :: l.1
              rw [he1]
              rfl
            · show WelsegsValveBlock exportInfo maxSegmentLength _
                (tieInValve branch icv (e.1 ++ l.1)) connectedToSegment
                first.toRicMswSegmentData block
              rw [he1]
              exact welsegsValveBlock_extend _ (hblock l.1)
          · rw [hev]
            obtain ⟨first, rest, outlet, block, hsegs, hblock⟩ :=
              writeWelsegsChildBranches_tieIn_block exportInfo maxSegmentLength (e.1 ++ l.1)
                l.2.1.outletSegment branches l.2.1.segmentNumber c hc written hchild icv hicv
                hvalid
            exact ⟨first, rest, outlet, block, hsegs, welsegsValveBlock_prepend _ hblock⟩

theorem writeWelsegsChildBranches_tieIn_block (exportInfo : RicMswExportInfo)
    (maxSegmentLength : ℚ) :
    ∀ (parentSegments : List RicMswSegment) (outletSegment : Option RicMswSegmentData)
      (branches : List RicMswBranch) (segmentNumber : Int)
      (r : List RicMswBranch × Int × List FormatterEvent),
      writeWelsegsChildBranches exportInfo maxSegmentLength parentSegments outletSegment
          branches segmentNumber = some r →
        ∀ written ∈ branchesOfBranches r.1, ∀ icv, written.data.tieInICV = some icv →
          icv.isValid = true →
          ∃ first rest outlet block,
            written.segments = first :: rest ∧
              WelsegsValveBlock exportInfo maxSegmentLength r.2.2
                (tieInValve written.data icv written.segments) outlet
                first.toRicMswSegmentData block
  | parentSegments, outletSegment, [], segmentNumber, r, h => by
    rw [writeWelsegsChildBranches, Option.some.injEq] at h
    rw [← h]
    intro written hmem
    simp [branchesOfBranches] at hmem
  | parentSegments, outletSegment, branch :: rest, segmentNumber, r, h => by
    rw [writeWelsegsChildBranches] at h
    cases hc : writeWelsegsSegmentsRecursively exportInfo maxSegmentLength branch
      segmentNumber (outletSegmentForChildBranch parentSegments outletSegment branch) with
    | none => simp [hc] at h
    | some c =>
      simp only [hc] at h
      cases hr : writeWelsegsChildBranches exportInfo maxSegmentLength parentSegments
        outletSegment rest c.2.1 with
      | none => simp [hr] at h
      | some r1 =>
        simp only [hr, Option.some.injEq] at h
        rw [← h]
        intro written hmem icv hicv hvalid
        have hmem1 : written ∈ branchesOf c.1 ++ branchesOfBranches r1.1 := by
          simpa [branchesOfBranches] using hmem
        rw [List.mem_append] at hmem1
        rcases hmem1 with hfirst | hrest
        · obtain ⟨first, others, outlet, block, hsegs, hblock⟩ :=
            writeWelsegsSegmentsRecursively_tieIn_block exportInfo maxSegmentLength branch
              segmentNumber (outletSegmentForChildBranch parentSegments outletSegment branch)
              c hc written hfirst icv hicv hvalid
          exact ⟨first, others, outlet, block, hsegs, welsegsValveBlock_extend _ hblock⟩
        · obtain ⟨first, others, outlet, block, hsegs, hblock⟩ :=
            writeWelsegsChildBranches_tieIn_block exportInfo maxSegmentLength parentSegments
              outletSegment rest c.2.1 r1 hr written hrest icv hicv hvalid
          exact ⟨first, others, outlet, block, hsegs, welsegsValveBlock_prepend _ hblock⟩

end

theorem rowsOf_generateWsegvalvTable_eq (exportInfo : RicMswExportInfo) :
    rowsOf (generateWsegvalvTable exportInfo) =
      wsegvalvRowsOfBranch exportInfo.mainBoreBranch.data.wellPath.wellNameForExport
        exportInfo.mainBoreBranch := by
  unfold generateWsegvalvTable
  simp only [rowsOf_append, rowsOf_generateWsegvalvTableRecursively]
  split_ifs <;> simp [rowsOf]

mutual

/-- The WSEGVALV row of a completion attached to a segment that the WELSEGS walk writes is
among the WSEGVALV rows of the tree. -/
theorem wsegvalvRowsOfBranch_mem_plain (wellNameForExport : String) :
    ∀ (branch : RicMswBranch), ∀ p ∈ plainSegments branch, ∀ completion ∈ p.2.completions,
      ∀ row ∈ wsegvalvCompletionRows wellNameForExport completion,
        row ∈ wsegvalvRowsOfBranch wellNameForExport branch
  | RicMswBranch.mk branch segments branches, p, hp, completion, hc, row, hrow => by
    rw [plainSegments, List.mem_append] at hp
    rw [wsegvalvRowsOfBranch, List.mem_append, List.mem_append]
    rcases hp with hown | hchild
    · left
      right
      rw [List.mem_map] at hown
      obtain ⟨segment, hsegment, hpeq⟩ := hown
      rw [← hpeq] at hc
      have hin : segment ∈ segments := by
        cases hicv : branch.tieInICV with
        | none =>
          rw [hicv] at hsegment
          exact hsegment
        | some icv =>
          rw [hicv] at hsegment
          exact List.mem_of_mem_drop hsegment
      rw [List.mem_flatMap]
      refine ⟨segment, hin, ?_⟩
      rw [List.mem_flatMap]
      exact ⟨completion, hc, hrow⟩
    · right
      exact wsegvalvRowsOfBranches_mem_plain wellNameForExport branches p hchild completion
        hc row hrow

theorem wsegvalvRowsOfBranches_mem_plain (wellNameForExport : String) :
    ∀ (branches : List RicMswBranch), ∀ p ∈ plainSegmentsOfBranches branches,
      ∀ completion ∈ p.2.completions,
      ∀ row ∈ wsegvalvCompletionRows wellNameForExport completion,
        row ∈ wsegvalvRowsOfBranches wellNameForExport branches
  | [], p, hp, completion, hc, row, hrow => by
    simp [plainSegmentsOfBranches] at hp
  | branch :: rest, p, hp, completion, hc, row, hrow => by
    rw [plainSegmentsOfBranches, List.mem_append] at hp
    rw [wsegvalvRowsOfBranches, List.mem_append]
    rcases hp with hfirst | hrest
    · left
      exact wsegvalvRowsOfBranch_mem_plain wellNameForExport branch p hfirst completion hc
        row hrow
    · right
      exact wsegvalvRowsOfBranches_mem_plain wellNameForExport rest p hrest completion hc
        row hrow

end

mutual

/-- The WSEGVALV row of a tie-in ICV branch of the tree is among the WSEGVALV rows of the
tree. -/
theorem wsegvalvRowsOfBranch_mem_tieIn (wellNameForExport : String) :
    ∀ (branch : RicMswBranch), ∀ inner ∈ branchesOf branch,
      ∀ row ∈ wsegvalvTieInRows wellNameForExport inner.data inner.segments,
        row ∈ wsegvalvRowsOfBranch wellNameForExport branch
  | RicMswBranch.mk branch segments branches, inner, hinner, row, hrow => by
    rw [branchesOf, List.mem_cons] at hinner
    rw [wsegvalvRowsOfBranch, List.mem_append, List.mem_append]
    rcases hinner with hown | hchild
    · left
      left
      rw [hown] at hrow
      exact hrow
    · right
      exact wsegvalvRowsOfBranches_mem_tieIn wellNameForExport branches inner hchild row hrow

theorem wsegvalvRowsOfBranches_mem_tieIn (wellNameForExport : String) :
    ∀ (branches : List RicMswBranch), ∀ inner ∈ branchesOfBranches branches,
      ∀ row ∈ wsegvalvTieInRows wellNameForExport inner.data inner.segments,
        row ∈ wsegvalvRowsOfBranches wellNameForExport branches
  | [], inner, hinner, row, hrow => by
    simp [branchesOfBranches] at hinner
  | branch :: rest, inner, hinner, row, hrow => by
    rw [branchesOfBranches, List.mem_append] at hinner
    rw [wsegvalvRowsOfBranches, List.mem_append]
    rcases hinner with hfirst | hrest
    · left
      exact wsegvalvRowsOfBranch_mem_tieIn wellNameForExport branch inner hfirst row hrow
    · right
      exact wsegvalvRowsOfBranches_mem_tieIn wellNameForExport rest inner hrest row hrow

end

/-- C29: when `generateWelsegsTable` completes, every valid valve that the walk wrote has in
the tree it returns a first sub-segment `front` whose number is the number of the first WELSEGS
row of the valve: the events of the table hold the block of the valve (its label, then the rows
that `writeValveWelsegsSegment` writes from the counter value `front.segmentNumber`), the first
row of the block carries that number, and the rows that `generateWsegvalvTable` and
`generateWsegAicdTable` then write for the valve carry it too. This holds for the valves
attached to the segments that the walk writes (every segment but the first one of a tie-in ICV
branch) and for the tie-in ICV branches themselves, whose first sub-segment is the first
segment of the branch. The WSEGAICD row is in the table when the segment is on the main
bore. -/
theorem generateWelsegsTable_valve_numbers_agree (exportInfo : RicMswExportInfo)
    (maxSegmentLength : ℚ)
    (hrun : (generateWelsegsTable exportInfo maxSegmentLength).isSome = true) :
    ∃ r,
      generateWelsegsTable exportInfo maxSegmentLength = some r ∧
        (∀ p ∈ plainSegments r.1.mainBoreBranch, ∀ valve ∈ p.2.completions,
          valve.dynamicType = CompletionClass.valve → valve.isValid = true →
          ∃ front others block,
            valve.segments = front :: others ∧
              WelsegsValveBlock exportInfo maxSegmentLength r.2 valve
                (some p.2.toRicMswSegmentData) front block ∧
              (∀ row, (rowsOf block).head? = some row →
                firstColumn row = some front.segmentNumber) ∧
              (isWsegValveTypes valve.completionType = true →
                rowsOf (generateWsegvalvTableRecursively.valveEvents
                    r.1.mainBoreBranch.data.wellPath.wellNameForExport valve) =
                  [[Cell.text r.1.mainBoreBranch.data.wellPath.wellNameForExport,
                    Cell.int front.segmentNumber, Cell.num valve.flowCoefficient,
                    Cell.formatted valve.area 8 4]] ∧
                [Cell.text r.1.mainBoreBranch.data.wellPath.wellNameForExport,
                    Cell.int front.segmentNumber, Cell.num valve.flowCoefficient,
                    Cell.formatted valve.area 8 4] ∈ rowsOf (generateWsegvalvTable r.1)) ∧
              (valve.completionType = CompletionType.PERFORATION_AICD →
                rowsOf (generateWsegAicdTable.deviceEvents r.1 valve) =
                  [wsegAicdRow r.1 valve front] ∧
                (wsegAicdRow r.1 valve front).take 3 =
                  [Cell.text r.1.mainBoreBranch.data.wellPath.wellNameForExport,
                    Cell.int front.segmentNumber, Cell.int front.segmentNumber] ∧
                (p.2 ∈ r.1.mainBoreBranch.segments →
                  wsegAicdRow r.1 valve front ∈ rowsOf (generateWsegAicdTable r.1)))) ∧
        (∀ branch ∈ branchesOf r.1.mainBoreBranch, ∀ icv,
          branch.data.tieInICV = some icv → icv.isValid = true →
          ∃ first rest outlet block,
            branch.segments = first :: rest ∧
              WelsegsValveBlock exportInfo maxSegmentLength r.2
                (tieInValve branch.data icv branch.segments) outlet
                first.toRicMswSegmentData block ∧
              (∀ row, (rowsOf block).head? = some row →
                firstColumn row = some first.segmentNumber) ∧
              (∀ isHeaderWritten,
                rowsOf (generateWsegvalvTableRecursively.tieIn
                    r.1.mainBoreBranch.data.wellPath.wellNameForExport branch.data
                    branch.segments isHeaderWritten).2 =
                  [[Cell.text r.1.mainBoreBranch.data.wellPath.wellNameForExport,
                    Cell.int first.segmentNumber, Cell.num icv.flowCoefficient,
                    Cell.formatted icv.area 8 4]]) ∧
              [Cell.text r.1.mainBoreBranch.data.wellPath.wellNameForExport,
                  Cell.int first.segmentNumber, Cell.num icv.flowCoefficient,
                  Cell.formatted icv.area 8 4] ∈ rowsOf (generateWsegvalvTable r.1)) := by
  cases hr : generateWelsegsTable exportInfo maxSegmentLength with
  | none => simp [hr] at hrun
  | some r =>
    refine ⟨r, rfl, ?_, ?_⟩
    · intro p hp valve hv htype hvalid
      unfold generateWelsegsTable at hr
      cases hw : writeWelsegsSegmentsRecursively exportInfo maxSegmentLength
        exportInfo.mainBoreBranch 2 none with
      | none => simp [hw] at hr
      | some w =>
        simp only [hw, Option.some.injEq] at hr
        rw [← hr] at hp ⊢
        obtain ⟨front, others, block, hsegs, hblock⟩ :=
          writeWelsegsSegmentsRecursively_valve_block exportInfo maxSegmentLength
            exportInfo.mainBoreBranch 2 none w hw p hp valve hv htype hvalid
        refine ⟨front, others, block, hsegs,
          welsegsValveBlock_extend _ (welsegsValveBlock_prepend _ hblock),
          writeValveWelsegsSegment_loop_first_row exportInfo valve _ _ _ block hblock.1,
          ?_, ?_⟩
        · intro hwseg
          have hrows : wsegvalvCompletionRows w.1.data.wellPath.wellNameForExport valve =
              [[Cell.text w.1.data.wellPath.wellNameForExport,
                Cell.int front.segmentNumber, Cell.num valve.flowCoefficient,
                Cell.formatted valve.area 8 4]] := by
            simp [wsegvalvCompletionRows, hwseg, hsegs]
          refine ⟨?_, ?_⟩
          · show rowsOf (generateWsegvalvTableRecursively.valveEvents
              w.1.data.wellPath.wellNameForExport valve) = _
            rw [rowsOf_wsegvalv_valveEvents _ _ hwseg]
            exact hrows
          · rw [rowsOf_generateWsegvalvTable_eq]
            refine wsegvalvRowsOfBranch_mem_plain _ w.1 p hp valve hv _ ?_
            show _ ∈ wsegvalvCompletionRows w.1.data.wellPath.wellNameForExport valve
            rw [hrows]
            exact List.mem_singleton.mpr rfl
        · intro haicd
          refine ⟨?_, rfl, ?_⟩
          · simp [generateWsegAicdTable.deviceEvents, hsegs, rowsOf]
          · intro hmain
            rw [rowsOf_generateWsegAicdTable, wsegAicdRowsOf, List.mem_flatMap]
            refine ⟨valve, ?_, ?_⟩
            · rw [mainBoreCompletions, List.mem_flatMap]
              exact ⟨p.2, hmain, hv⟩
            · simp [haicd, hvalid, hsegs]
    · intro branch hb icv hicv hvalid
      unfold generateWelsegsTable at hr
      cases hw : writeWelsegsSegmentsRecursively exportInfo maxSegmentLength
        exportInfo.mainBoreBranch 2 none with
      | none => simp [hw] at hr
      | some w =>
        simp only [hw, Option.some.injEq] at hr
        rw [← hr] at hb ⊢
        obtain ⟨first, rest, outlet, block, hsegs, hblock⟩ :=
          writeWelsegsSegmentsRecursively_tieIn_block exportInfo maxSegmentLength
            exportInfo.mainBoreBranch 2 none w hw branch hb icv hicv hvalid
        have hrows : wsegvalvTieInRows w.1.data.wellPath.wellNameForExport branch.data
            branch.segments =
            [[Cell.text w.1.data.wellPath.wellNameForExport,
              Cell.int first.segmentNumber, Cell.num icv.flowCoefficient,
              Cell.formatted icv.area 8 4]] := by
          simp [wsegvalvTieInRows, hicv, hsegs]
        refine ⟨first, rest, outlet, block, hsegs,
          welsegsValveBlock_extend _ (welsegsValveBlock_prepend _ hblock),
          writeValveWelsegsSegment_loop_first_row exportInfo _ _ _ _ block hblock.1,
          ?_, ?_⟩
        · intro isHeaderWritten
          show rowsOf (generateWsegvalvTableRecursively.tieIn
            w.1.data.wellPath.wellNameForExport branch.data branch.segments
            isHeaderWritten).2 = _
          rw [rowsOf_wsegvalv_tieIn]
          exact hrows
        · rw [rowsOf_generateWsegvalvTable_eq]
          refine wsegvalvRowsOfBranch_mem_tieIn _ w.1 branch hb _ ?_
          show _ ∈ wsegvalvTieInRows w.1.data.wellPath.wellNameForExport branch.data
            branch.segments
          rw [hrows]
          exact List.mem_singleton.mpr rfl

/-- Witness of C29: `Sample.valvesOnTree`, a tree with a valve on the main bore, a tie-in ICV
lateral with a valve on its second segment and a valve on the lateral of the lateral, with
maximum segment length 100. -/
theorem generateWelsegsTable_valve_numbers_agree_witness :
    (generateWelsegsTable (Sample.exportOf Sample.valvesOnTree "INC" false) 100).isSome =
        true ∧
      ∃ r,
        generateWelsegsTable
            (Sample.exportOf Sample.valvesOnTree "INC" false) 100 = some r ∧
          (∀ p ∈ plainSegments r.1.mainBoreBranch, ∀ valve ∈ p.2.completions,
            valve.dynamicType = CompletionClass.valve → valve.isValid = true →
            ∃ front others block,
              valve.segments = front :: others ∧
                WelsegsValveBlock (Sample.exportOf Sample.valvesOnTree "INC" false)
                  100 r.2 valve
                  (some p.2.toRicMswSegmentData) front block ∧
                (∀ row, (rowsOf block).head? = some row →
                  firstColumn row = some front.segmentNumber) ∧
                (isWsegValveTypes valve.completionType = true →
                  rowsOf (generateWsegvalvTableRecursively.valveEvents
                      r.1.mainBoreBranch.data.wellPath.wellNameForExport valve) =
                    [[Cell.text r.1.mainBoreBranch.data.wellPath.wellNameForExport,
                      Cell.int front.segmentNumber, Cell.num valve.flowCoefficient,
                      Cell.formatted valve.area 8 4]] ∧
                  [Cell.text r.1.mainBoreBranch.data.wellPath.wellNameForExport,
                      Cell.int front.segmentNumber, Cell.num valve.flowCoefficient,
                      Cell.formatted valve.area 8 4] ∈ rowsOf (generateWsegvalvTable r.1)) ∧
                (valve.completionType = CompletionType.PERFORATION_AICD →
                  rowsOf (generateWsegAicdTable.deviceEvents r.1 valve) =
                    [wsegAicdRow r.1 valve front] ∧
                  (wsegAicdRow r.1 valve front).take 3 =
                    [Cell.text r.1.mainBoreBranch.data.wellPath.wellNameForExport,
                      Cell.int front.segmentNumber, Cell.int front.segmentNumber] ∧
                  (p.2 ∈ r.1.mainBoreBranch.segments →
                    wsegAicdRow r.1 valve front ∈ rowsOf (generateWsegAicdTable r.1)))) ∧
          (∀ branch ∈ branchesOf r.1.mainBoreBranch, ∀ icv,
            branch.data.tieInICV = some icv → icv.isValid = true →
            ∃ first rest outlet block,
              branch.segments = first :: rest ∧
                WelsegsValveBlock (Sample.exportOf Sample.valvesOnTree "INC" false)
                  100 r.2
                  (tieInValve branch.data icv branch.segments) outlet
                  first.toRicMswSegmentData block ∧
                (∀ row, (rowsOf block).head? = some row →
                  firstColumn row = some first.segmentNumber) ∧
                (∀ isHeaderWritten,
                  rowsOf (generateWsegvalvTableRecursively.tieIn
                      r.1.mainBoreBranch.data.wellPath.wellNameForExport branch.data
                      branch.segments isHeaderWritten).2 =
                    [[Cell.text r.1.mainBoreBranch.data.wellPath.wellNameForExport,
                      Cell.int first.segmentNumber, Cell.num icv.flowCoefficient,
                      Cell.formatted icv.area 8 4]]) ∧
                [Cell.text r.1.mainBoreBranch.data.wellPath.wellNameForExport,
                    Cell.int first.segmentNumber, Cell.num icv.flowCoefficient,
                    Cell.formatted icv.area 8 4] ∈ rowsOf (generateWsegvalvTable r.1)) :=
  ⟨by decide!, generateWelsegsTable_valve_numbers_agree _ 100 (by decide!)⟩

/-- The numbers on `Sample.invalidThenValidAicd` with maximum segment length 100: the WELSEGS
rows are the segment (2) and the valid AICD (3), and the WSEGAICD row of the AICD carries 3 in
its two segment columns. -/
theorem generateWsegAicdTable_invalidThenValidAicd_numbers :
    (generateWelsegsTable (Sample.exportOf Sample.invalidThenValidAicd "INC" false) 100).map
        (fun r =>
          ((welsegsDataRows r.2).map firstColumn,
            (rowsOf (generateWsegAicdTable r.1)).map (fun row => row.take 3))) =
      some
        ([some 2, some 3], [[Cell.text "WELL", Cell.int 3, Cell.int 3]]) := by
  decide!

/-- C29 fails as stated on `Sample.valveOnTieInSegment` with maximum segment length 100: the
WELSEGS rows are the main bore segment (2), the tie-in ICV (3) and the segment 6-12 (4); the
valid valve attached to the first segment of the tie-in ICV branch, which the WELSEGS walk
skips, has no WELSEGS row, and its WSEGVALV row carries the number the sub-segment had before
(-1). -/
theorem generateWsegvalvTable_valveOnTieInSegment_numbers :
    (generateWelsegsTable (Sample.exportOf Sample.valveOnTieInSegment "INC" false) 100).map
        (fun r =>
          ((welsegsDataRows r.2).map firstColumn,
            (rowsOf (generateWsegvalvTable r.1)).map (fun row => row.take 2))) =
      some
        ([some 2, some 3, some 4],
          [[Cell.text "WELL", Cell.int 3], [Cell.text "WELL", Cell.int (-1)]]) := by
  decide!

/-! ## `createSubSegmentMDPairs` in binary64 arithmetic -/

theorem binary64_nearest_zero : Binary64.nearest 0 = some 0 := by
  decide!

theorem binary64_nearest_one : Binary64.nearest 1 = some 1 := by
  decide!

theorem trunc_intCast (n : Int) : trunc (n : ℚ) = n := by
  unfold trunc
  split_ifs <;> simp

theorem createSubSegmentMDPairs_binary64_loop_length (subSegmentLength : Option ℚ)
    (endMD : ℚ) (count : Nat) (subStartMD subEndMD : Option ℚ) :
    (createSubSegmentMDPairs.binary64.loop subSegmentLength endMD count subStartMD
      subEndMD).length = count := by
  induction count generalizing subStartMD subEndMD with
  | zero => rfl
  | succ n ih => simp [createSubSegmentMDPairs.binary64.loop, ih]

theorem binary64_twoPow_eq (e : Int) : Binary64.twoPow e = (2 : ℚ) ^ e := by
  unfold Binary64.twoPow
  split_ifs with h
  · obtain ⟨n, rfl⟩ := Int.eq_ofNat_of_zero_le h
    simp
  · have hneg : 0 ≤ -e := by omega
    obtain ⟨n, hn⟩ := Int.eq_ofNat_of_zero_le hneg
    have he : e = -(n : Int) := by omega
    subst he
    simp

theorem binary64_twoPow_pos (e : Int) : 0 < Binary64.twoPow e := by
  rw [binary64_twoPow_eq]
  positivity

theorem binary64_exponentBetween_le (q : ℚ) (fuel : Nat) (low high : Int)
    (h : Binary64.twoPow low ≤ q) :
    Binary64.twoPow (Binary64.exponentBetween q fuel low high) ≤ q := by
  induction fuel generalizing low high with
  | zero => exact h
  | succ n ih =>
    rw [Binary64.exponentBetween]
    split_ifs with h1 h2
    · exact h
    · exact ih _ _ h2
    · exact ih _ _ h

theorem binary64_roundHalfEven_ge_floor (m : ℚ) : ⌊m⌋ ≤ Binary64.roundHalfEven m := by
  unfold Binary64.roundHalfEven
  split_ifs <;> omega

/-- Rounding to binary64 keeps a number that is not negative from becoming negative. -/
theorem binary64_nearest_nonneg (x v : ℚ) (hx : 0 ≤ x) (h : Binary64.nearest x = some v) :
    0 ≤ v := by
  unfold Binary64.nearest at h
  simp only [if_neg (not_lt.mpr hx)] at h
  split_ifs at h with h1 h2
  simp only [Option.some.injEq] at h
  rw [← h]
  have hu := binary64_twoPow_pos (Binary64.exponent x - 52)
  have hm : 0 ≤ |x| / Binary64.twoPow (Binary64.exponent x - 52) :=
    div_nonneg (abs_nonneg x) hu.le
  have hfloor : (0 : Int) ≤ ⌊|x| / Binary64.twoPow (Binary64.exponent x - 52)⌋ :=
    Int.floor_nonneg.mpr hm
  have hr := binary64_roundHalfEven_ge_floor
    (|x| / Binary64.twoPow (Binary64.exponent x - 52))
  have hcast : (0 : ℚ) ≤
      (Binary64.roundHalfEven (|x| / Binary64.twoPow (Binary64.exponent x - 52)) : ℚ) := by
    exact_mod_cast le_trans hfloor hr
  exact mul_nonneg hcast hu.le

/-- Rounding to binary64 keeps a number that is at least 1 at least 1. -/
theorem binary64_nearest_ge_one (x v : ℚ) (hx : 1 ≤ x) (h : Binary64.nearest x = some v) :
    1 ≤ v := by
  have hx0 : 0 ≤ x := le_trans zero_le_one hx
  have habs : |x| = x := abs_of_nonneg hx0
  unfold Binary64.nearest at h
  simp only [if_neg (not_lt.mpr hx0)] at h
  split_ifs at h with h1 h2
  simp only [Option.some.injEq] at h
  rw [← h, habs, binary64_twoPow_eq]
  have hu : (0 : ℚ) < (2 : ℚ) ^ (Binary64.exponent x - 52) := by positivity
  have hr := binary64_roundHalfEven_ge_floor (x / (2 : ℚ) ^ (Binary64.exponent x - 52))
  by_cases hk : Binary64.exponent x - 52 ≤ 0
  · obtain ⟨n, hn⟩ := Int.eq_ofNat_of_zero_le (show 0 ≤ -(Binary64.exponent x - 52) by omega)
    have hk' : Binary64.exponent x - 52 = -(n : Int) := by omega
    rw [hk'] at hr ⊢
    have hdiv : x / (2 : ℚ) ^ (-(n : Int)) = x * (2 : ℚ) ^ n := by
      rw [zpow_neg, zpow_natCast, div_inv_eq_mul]
    rw [hdiv] at hr ⊢
    have hpow : ((2 ^ n : Nat) : ℚ) ≤ x * (2 : ℚ) ^ n := by
      push_cast
      have hp : (0 : ℚ) < (2 : ℚ) ^ n := by positivity
      nlinarith
    have hfloor : ((2 ^ n : Nat) : Int) ≤ ⌊x * (2 : ℚ) ^ n⌋ := by
      apply Int.le_floor.mpr
      exact_mod_cast hpow
    have hround : ((2 ^ n : Nat) : ℚ) ≤ (Binary64.roundHalfEven (x * (2 : ℚ) ^ n) : ℚ) := by
      exact_mod_cast le_trans hfloor hr
    have hinv : (2 : ℚ) ^ (-(n : Int)) * (2 : ℚ) ^ n = 1 := by
      rw [zpow_neg, zpow_natCast]
      have hp : (2 : ℚ) ^ n ≠ 0 := by positivity
      exact inv_mul_cancel₀ hp
    have hpos : (0 : ℚ) < (2 : ℚ) ^ (-(n : Int)) := by positivity
    calc (1 : ℚ) = ((2 ^ n : Nat) : ℚ) * (2 : ℚ) ^ (-(n : Int)) := by
            push_cast
            rw [mul_comm]
            exact hinv.symm
      _ ≤ (Binary64.roundHalfEven (x * (2 : ℚ) ^ n) : ℚ) * (2 : ℚ) ^ (-(n : Int)) :=
            mul_le_mul_of_nonneg_right hround hpos.le
  · have hk' : 0 < Binary64.exponent x - 52 := by omega
    have hlow : Binary64.twoPow (-1022) ≤ |x| := by
      rw [habs]
      have : Binary64.twoPow (-1022) ≤ 1 := by decide!
      exact le_trans this hx
    have hexp : (2 : ℚ) ^ (Binary64.exponent x) ≤ x := by
      have := binary64_exponentBetween_le |x| 12 (-1022) 1024 hlow
      rw [binary64_twoPow_eq, habs] at this
      have hE : Binary64.exponent x = Binary64.exponentBetween x 12 (-1022) 1024 := by
        rw [Binary64.exponent, habs]
      rw [hE]
      exact this
    have hge : (2 : ℚ) ^ (52 : Int) ≤ x / (2 : ℚ) ^ (Binary64.exponent x - 52) := by
      rw [le_div_iff₀ hu, ← zpow_add₀ (by norm_num : (2 : ℚ) ≠ 0)]
      have : (52 : Int) + (Binary64.exponent x - 52) = Binary64.exponent x := by ring
      rw [this]
      exact hexp
    have hone : (1 : ℚ) ≤ x / (2 : ℚ) ^ (Binary64.exponent x - 52) :=
      le_trans (by norm_num) hge
    have hfloor : (1 : Int) ≤ ⌊x / (2 : ℚ) ^ (Binary64.exponent x - 52)⌋ := by
      apply Int.le_floor.mpr
      exact_mod_cast hone
    have hround : (1 : ℚ) ≤
        (Binary64.roundHalfEven (x / (2 : ℚ) ^ (Binary64.exponent x - 52)) : ℚ) := by
      exact_mod_cast le_trans hfloor hr
    have hbig : (1 : ℚ) ≤ (2 : ℚ) ^ (Binary64.exponent x - 52) :=
      one_le_zpow₀ (by norm_num) hk'.le
    calc (1 : ℚ) = 1 * 1 := by norm_num
      _ ≤ (Binary64.roundHalfEven (x / (2 : ℚ) ^ (Binary64.exponent x - 52)) : ℚ) *
            (2 : ℚ) ^ (Binary64.exponent x - 52) :=
          mul_le_mul hround hbig (by norm_num) (le_trans zero_le_one hround)

/-- The count as compiled is at least one whenever the conversion to `int` is defined, for
`startMD ≤ endMD` and `0 < maxSegmentLength`: the division by the count is not a division by
zero. -/
theorem subSegmentCount_binary64_pos (startMD endMD maxSegmentLength : ℚ)
    (hle : startMD ≤ endMD) (hpos : 0 < maxSegmentLength) (count : Int)
    (h : subSegmentCount.binary64 startMD endMD maxSegmentLength = some count) :
    1 ≤ count := by
  unfold subSegmentCount.binary64 at h
  cases hd : Binary64.sub endMD startMD with
  | none => simp [hd, Binary64.div, Binary64.add, Binary64.toInt] at h
  | some d =>
    have hd0 : 0 ≤ d := binary64_nearest_nonneg _ _ (sub_nonneg.mpr hle) hd
    rw [hd] at h
    cases hq : Binary64.div (some d) maxSegmentLength with
    | none => simp [hq, Binary64.add, Binary64.toInt] at h
    | some q =>
      have hq' : Binary64.nearest (d / maxSegmentLength) = some q := by
        rw [Binary64.div, if_neg hpos.ne'] at hq
        exact hq
      have hq0 : 0 ≤ q := binary64_nearest_nonneg _ _ (div_nonneg hd0 hpos.le) hq'
      rw [hq, Option.map_some', trunc_of_nonneg hq0] at h
      cases hv : Binary64.add (some ((⌊q⌋ : Int) : ℚ)) (some 1) with
      | none => simp [hv, Binary64.toInt] at h
      | some v =>
        have hfloor : (0 : Int) ≤ ⌊q⌋ := Int.floor_nonneg.mpr hq0
        have hone : (1 : ℚ) ≤ ((⌊q⌋ : Int) : ℚ) + 1 := by
          have : (0 : ℚ) ≤ ((⌊q⌋ : Int) : ℚ) := by exact_mod_cast hfloor
          linarith
        have hv1 : 1 ≤ v := binary64_nearest_ge_one _ _ hone hv
        rw [hv] at h
        unfold Binary64.toInt at h
        dsimp only at h
        split_ifs at h
        simp only [Option.some.injEq] at h
        rw [← h, trunc_of_nonneg (le_trans zero_le_one hv1)]
        apply Int.le_floor.mpr
        exact_mod_cast hv1

/-- The count as compiled is the count in exact arithmetic when the difference, the quotient
and the addition of 1 are exact and the count is an `int`. -/
theorem subSegmentCount_binary64_of_exact (startMD endMD maxSegmentLength : ℚ)
    (hle : startMD ≤ endMD) (hpos : 0 < maxSegmentLength)
    (hsub : Binary64.sub endMD startMD = some (endMD - startMD))
    (hdiv : Binary64.div (some (endMD - startMD)) maxSegmentLength =
      some ((endMD - startMD) / maxSegmentLength))
    (hadd : Binary64.add (some ((⌊(endMD - startMD) / maxSegmentLength⌋ : Int) : ℚ)) (some 1) =
      some (((⌊(endMD - startMD) / maxSegmentLength⌋ : Int) : ℚ) + 1))
    (hint : ⌊(endMD - startMD) / maxSegmentLength⌋ + 1 ≤ 2147483647) :
    subSegmentCount.binary64 startMD endMD maxSegmentLength =
      some (⌊(endMD - startMD) / maxSegmentLength⌋ + 1) := by
  have hq : 0 ≤ (endMD - startMD) / maxSegmentLength :=
    div_nonneg (sub_nonneg.mpr hle) hpos.le
  have hfloor : 0 ≤ ⌊(endMD - startMD) / maxSegmentLength⌋ := Int.floor_nonneg.mpr hq
  have hcast : (((⌊(endMD - startMD) / maxSegmentLength⌋ : Int) : ℚ) + 1) =
      ((⌊(endMD - startMD) / maxSegmentLength⌋ + 1 : Int) : ℚ) := by
    push_cast
    rfl
  unfold subSegmentCount.binary64
  rw [hsub, hdiv, Option.map_some', trunc_of_nonneg hq, hadd, hcast]
  unfold Binary64.toInt
  simp only [trunc_intCast]
  rw [if_pos ⟨by omega, hint⟩]

/-- C3, in the arithmetic of the compiled code, for binary64 numbers `startMD ≤ endMD` and
`0 < maxSegmentLength`. Whenever the conversion to `int` is defined, the count, by which the
length is divided, is at least one and it is the number of intervals returned. An empty
interval (`endMD = startMD`) gives the single pair `(startMD, startMD)`. When the difference
`endMD - startMD`, its quotient by `maxSegmentLength` and the addition of 1 are exact and the
count fits an `int`, the count is `floor((endMD - startMD) / maxSegmentLength) + 1`. -/
theorem createSubSegmentMDPairs_binary64_count (startMD endMD maxSegmentLength : ℚ)
    (hle : startMD ≤ endMD) (hpos : 0 < maxSegmentLength)
    (hstart : Binary64.nearest startMD = some startMD) :
    (∀ count, subSegmentCount.binary64 startMD endMD maxSegmentLength = some count →
        1 ≤ count ∧
          (createSubSegmentMDPairs.binary64 startMD endMD maxSegmentLength).map
              (fun pairs => (pairs.length : Int)) =
            some count) ∧
      (endMD = startMD →
        createSubSegmentMDPairs.binary64 startMD endMD maxSegmentLength =
          some [(some startMD, some startMD)]) ∧
      (Binary64.sub endMD startMD = some (endMD - startMD) →
        Binary64.div (some (endMD - startMD)) maxSegmentLength =
          some ((endMD - startMD) / maxSegmentLength) →
        Binary64.add (some ((⌊(endMD - startMD) / maxSegmentLength⌋ : Int) : ℚ)) (some 1) =
          some (((⌊(endMD - startMD) / maxSegmentLength⌋ : Int) : ℚ) + 1) →
        ⌊(endMD - startMD) / maxSegmentLength⌋ + 1 ≤ 2147483647 →
        subSegmentCount.binary64 startMD endMD maxSegmentLength =
            some (⌊(endMD - startMD) / maxSegmentLength⌋ + 1) ∧
          (createSubSegmentMDPairs.binary64 startMD endMD maxSegmentLength).map
              (fun pairs => (pairs.length : Int)) =
            some (⌊(endMD - startMD) / maxSegmentLength⌋ + 1)) := by
  have hcounted : ∀ count,
      subSegmentCount.binary64 startMD endMD maxSegmentLength = some count →
        1 ≤ count ∧
          (createSubSegmentMDPairs.binary64 startMD endMD maxSegmentLength).map
              (fun pairs => (pairs.length : Int)) =
            some count := by
    intro count hcount
    have hone := subSegmentCount_binary64_pos startMD endMD maxSegmentLength hle hpos count
      hcount
    refine ⟨hone, ?_⟩
    unfold createSubSegmentMDPairs.binary64
    rw [hcount]
    simp only [Option.map_some', createSubSegmentMDPairs_binary64_loop_length,
      Option.some.injEq]
    omega
  refine ⟨hcounted, ?_, ?_⟩
  · intro h
    subst h
    have hzero : Binary64.sub endMD endMD = some 0 := by
      rw [Binary64.sub, sub_self]
      exact binary64_nearest_zero
    have hquot : Binary64.div (some 0) maxSegmentLength = some 0 := by
      rw [Binary64.div, if_neg hpos.ne', zero_div]
      exact binary64_nearest_zero
    have hone : Binary64.add (some (((trunc 0 : Int) : ℚ))) (some 1) = some 1 := by
      have ht : trunc 0 = 0 := by simp [trunc]
      rw [ht, Binary64.add, Int.cast_zero, zero_add]
      exact binary64_nearest_one
    have hcount : subSegmentCount.binary64 endMD endMD maxSegmentLength = some 1 := by
      unfold subSegmentCount.binary64
      rw [hzero, hquot, Option.map_some', hone]
      have ht : trunc 1 = 1 := by simp [trunc]
      simp [Binary64.toInt, ht]
    have hlength : Binary64.div (some 0) ((1 : Int) : ℚ) = some 0 := by
      rw [Binary64.div, if_neg (by norm_num), zero_div]
      exact binary64_nearest_zero
    have hend : Binary64.add (some endMD) (some 0) = some endMD := by
      rw [Binary64.add, add_zero]
      exact hstart
    unfold createSubSegmentMDPairs.binary64
    rw [hcount, Option.map_some', hzero, hlength, hend]
    rfl
  · intro hsub hdiv hadd hint
    have hcount := subSegmentCount_binary64_of_exact startMD endMD maxSegmentLength hle hpos
      hsub hdiv hadd hint
    exact ⟨hcount, (hcounted _ hcount).2⟩

/-- Witness of C3 at start 1000, end 1050 and maximum length 20, where the difference 50 and
the quotient 5/2 are binary64 numbers. -/
theorem createSubSegmentMDPairs_binary64_count_witness :
    (1000 : ℚ) ≤ 1050 ∧ (0 : ℚ) < 20 ∧ Binary64.nearest 1000 = some 1000 ∧
      ((∀ count, subSegmentCount.binary64 1000 1050 20 = some count →
          1 ≤ count ∧
            (createSubSegmentMDPairs.binary64 1000 1050 20).map
                (fun pairs => (pairs.length : Int)) =
              some count) ∧
        ((1050 : ℚ) = 1000 →
          createSubSegmentMDPairs.binary64 1000 1050 20 = some [(some 1000, some 1000)]) ∧
        (Binary64.sub 1050 1000 = some (1050 - 1000) →
          Binary64.div (some (1050 - 1000)) 20 = some ((1050 - 1000) / 20) →
          Binary64.add (some ((⌊((1050 : ℚ) - 1000) / 20⌋ : Int) : ℚ)) (some 1) =
            some (((⌊((1050 : ℚ) - 1000) / 20⌋ : Int) : ℚ) + 1) →
          ⌊((1050 : ℚ) - 1000) / 20⌋ + 1 ≤ 2147483647 →
          subSegmentCount.binary64 1000 1050 20 = some (⌊((1050 : ℚ) - 1000) / 20⌋ + 1) ∧
            (createSubSegmentMDPairs.binary64 1000 1050 20).map
                (fun pairs => (pairs.length : Int)) =
              some (⌊((1050 : ℚ) - 1000) / 20⌋ + 1))) :=
  ⟨by norm_num, by norm_num, by decide!,
    createSubSegmentMDPairs_binary64_count 1000 1050 20 (by norm_num) (by norm_num)
      (by decide!)⟩

/-- At start 1000, end 1050 and maximum length 20 the difference, the quotient and the addition
of 1 are exact and the count fits an `int`; the compiled function returns three intervals. -/
theorem createSubSegmentMDPairs_binary64_sample_exact :
    Binary64.sub 1050 1000 = some (1050 - 1000) ∧
      Binary64.div (some (1050 - 1000)) 20 = some ((1050 - 1000) / 20) ∧
      Binary64.add (some ((⌊((1050 : ℚ) - 1000) / 20⌋ : Int) : ℚ)) (some 1) =
        some (((⌊((1050 : ℚ) - 1000) / 20⌋ : Int) : ℚ) + 1) ∧
      ⌊((1050 : ℚ) - 1000) / 20⌋ + 1 ≤ 2147483647 ∧
      (createSubSegmentMDPairs.binary64 1000 1050 20).map List.length = some 3 := by
  refine ⟨by decide!, by decide!, by decide!, by decide!, by decide!⟩

/-- C3 fails in the arithmetic of the compiled code. With start 0, end `3 - 2^-51`
(2.9999999999999996) and maximum length `1 - 2^-53` (0.9999999999999999), three binary64
numbers, the quotient `3 - 2^-53 + ...` rounds up to 3 and four intervals are returned, where
`floor((end - start) / maxLength) + 1` is 3. With start 0, end 3000000000 and maximum length 1
the count 3000000001 is no `int` and the conversion has no defined result. -/
theorem createSubSegmentMDPairs_binary64_rounded_count :
    Binary64.nearest (6755399441055743 / 2251799813685248) =
        some (6755399441055743 / 2251799813685248) ∧
      Binary64.nearest (9007199254740991 / 9007199254740992) =
        some (9007199254740991 / 9007199254740992) ∧
      (createSubSegmentMDPairs.binary64 0 (6755399441055743 / 2251799813685248)
        (9007199254740991 / 9007199254740992)).map List.length = some 4 ∧
      ⌊((6755399441055743 / 2251799813685248 : ℚ) - 0) /
        (9007199254740991 / 9007199254740992)⌋ + 1 = 3 ∧
      createSubSegmentMDPairs.binary64 0 3000000000 1 = none ∧
      ⌊((3000000000 : ℚ) - 0) / 1⌋ + 1 = 3000000001 := by
  refine ⟨by decide!, by decide!, by decide!, by decide!, by decide!, by decide!⟩

/-! ## The tie-in search in binary64 arithmetic -/

theorem findTieInSegment_binary64_cons_skip (branchStartMD : ℚ) (seg : RicMswSegment)
    (rest : List RicMswSegment) (tieInSegmentOnParentBranch : Option RicMswSegment)
    (closest : Option ℚ)
    (h : findTieInSegment.binary64.candidateDistance branchStartMD seg = none) :
    findTieInSegment.binary64 branchStartMD (seg :: rest) tieInSegmentOnParentBranch closest =
      findTieInSegment.binary64 branchStartMD rest tieInSegmentOnParentBranch closest := by
  rw [findTieInSegment.binary64, h]
  simp [findTieInSegment.binary64.closer]

theorem findTieInSegment_binary64_cons_first (branchStartMD : ℚ) (seg : RicMswSegment)
    (rest : List RicMswSegment) (tieInSegmentOnParentBranch : Option RicMswSegment) (d : ℚ)
    (h : findTieInSegment.binary64.candidateDistance branchStartMD seg = some d) :
    findTieInSegment.binary64 branchStartMD (seg :: rest) tieInSegmentOnParentBranch none =
      findTieInSegment.binary64 branchStartMD rest (some seg) (some d) := by
  rw [findTieInSegment.binary64, h]
  simp [findTieInSegment.binary64.closer]

theorem findTieInSegment_binary64_cons_some (branchStartMD : ℚ) (seg : RicMswSegment)
    (rest : List RicMswSegment) (tieInSegmentOnParentBranch : Option RicMswSegment)
    (d closest : ℚ)
    (h : findTieInSegment.binary64.candidateDistance branchStartMD seg = some d) :
    findTieInSegment.binary64 branchStartMD (seg :: rest) tieInSegmentOnParentBranch
        (some closest) =
      if d < closest then findTieInSegment.binary64 branchStartMD rest (some seg) (some d)
      else
        findTieInSegment.binary64 branchStartMD rest tieInSegmentOnParentBranch
          (some closest) := by
  rw [findTieInSegment.binary64, h]
  simp [findTieInSegment.binary64.closer]

/-- The search as compiled, from a segment `s0` already kept with its finite distance `d0`:
the segment returned has the least finite computed distance among `s0` and the segments
visited, and it is `s0` unless a later segment is strictly closer. -/
theorem findTieInSegment_binary64_spec (branchStartMD : ℚ) (segs : List RicMswSegment)
    (s0 : RicMswSegment) (d0 : ℚ) :
    ∃ s d, findTieInSegment.binary64 branchStartMD segs (some s0) (some d0) = some s ∧
      ((s = s0 ∧ d = d0 ∧ ∀ t ∈ segs, ∀ dt,
          findTieInSegment.binary64.candidateDistance branchStartMD t = some dt → d0 ≤ dt) ∨
        ∃ pre post, segs = pre ++ s :: post ∧
          findTieInSegment.binary64.candidateDistance branchStartMD s = some d ∧ d < d0 ∧
          (∀ t ∈ pre, ∀ dt,
            findTieInSegment.binary64.candidateDistance branchStartMD t = some dt → d < dt) ∧
          ∀ t ∈ post, ∀ dt,
            findTieInSegment.binary64.candidateDistance branchStartMD t = some dt → d ≤ dt) := by
  induction segs generalizing s0 d0 with
  | nil => exact ⟨s0, d0, rfl, Or.inl ⟨rfl, rfl, by simp⟩⟩
  | cons seg rest ih =>
    cases hseg : findTieInSegment.binary64.candidateDistance branchStartMD seg with
    | none =>
      obtain ⟨s, d, hs, hcase⟩ := ih s0 d0
      refine ⟨s, d, ?_, ?_⟩
      · rw [findTieInSegment_binary64_cons_skip _ _ _ _ _ hseg]
        exact hs
      · rcases hcase with ⟨rfl, rfl, hall⟩ | ⟨pre, post, rfl, hd, hlt, hpre, hpost⟩
        · left
          refine ⟨rfl, rfl, ?_⟩
          intro t ht dt hdt
          rcases List.mem_cons.mp ht with rfl | ht
          · rw [hseg] at hdt
            exact absurd hdt (by simp)
          · exact hall t ht dt hdt
        · right
          refine ⟨seg :: pre, post, rfl, hd, hlt, ?_, hpost⟩
          intro t ht dt hdt
          rcases List.mem_cons.mp ht with rfl | ht
          · rw [hseg] at hdt
            exact absurd hdt (by simp)
          · exact hpre t ht dt hdt
    | some dseg =>
      by_cases hlt : dseg < d0
      · obtain ⟨s, d, hs, hcase⟩ := ih seg dseg
        refine ⟨s, d, ?_, Or.inr ?_⟩
        · rw [findTieInSegment_binary64_cons_some _ _ _ _ _ _ hseg, if_pos hlt]
          exact hs
        · rcases hcase with ⟨rfl, rfl, hall⟩ | ⟨pre, post, rfl, hd, hlt', hpre, hpost⟩
          · exact ⟨[], rest, rfl, hseg, hlt, by simp, hall⟩
          · refine ⟨seg :: pre, post, rfl, hd, lt_trans hlt' hlt, ?_, hpost⟩
            intro t ht dt hdt
            rcases List.mem_cons.mp ht with rfl | ht
            · rw [hseg, Option.some.injEq] at hdt
              rw [← hdt]
              exact hlt'
            · exact hpre t ht dt hdt
      · obtain ⟨s, d, hs, hcase⟩ := ih s0 d0
        refine ⟨s, d, ?_, ?_⟩
        · rw [findTieInSegment_binary64_cons_some _ _ _ _ _ _ hseg, if_neg hlt]
          exact hs
        · rcases hcase with ⟨rfl, rfl, hall⟩ | ⟨pre, post, rfl, hd, hlt', hpre, hpost⟩
          · left
            refine ⟨rfl, rfl, ?_⟩
            intro t ht dt hdt
            rcases List.mem_cons.mp ht with rfl | ht
            · rw [hseg, Option.some.injEq] at hdt
              rw [← hdt]
              exact not_lt.mp hlt
            · exact hall t ht dt hdt
          · right
            refine ⟨seg :: pre, post, rfl, hd, hlt', ?_, hpost⟩
            intro t ht dt hdt
            rcases List.mem_cons.mp ht with rfl | ht
            · rw [hseg, Option.some.injEq] at hdt
              rw [← hdt]
              exact lt_of_lt_of_le hlt' (not_lt.mp hlt)
            · exact hpre t ht dt hdt

/-- The search as compiled, from the start: when some segment has a finite computed distance,
the segment returned has the least finite computed distance and every segment before it is
strictly farther or has no finite distance. -/
theorem findTieInSegment_binary64_first (branchStartMD : ℚ) (segs : List RicMswSegment)
    (h : segs.any (fun t =>
      (findTieInSegment.binary64.candidateDistance branchStartMD t).isSome) = true) :
    ∃ pre s post d, segs = pre ++ s :: post ∧
      findTieInSegment.binary64 branchStartMD segs none none = some s ∧
      findTieInSegment.binary64.candidateDistance branchStartMD s = some d ∧
      (∀ t ∈ segs, ∀ dt,
        findTieInSegment.binary64.candidateDistance branchStartMD t = some dt → d ≤ dt) ∧
      ∀ t ∈ pre, ∀ dt,
        findTieInSegment.binary64.candidateDistance branchStartMD t = some dt → d < dt := by
  induction segs with
  | nil => simp at h
  | cons seg rest ih =>
    cases hseg : findTieInSegment.binary64.candidateDistance branchStartMD seg with
    | none =>
      have hrest : rest.any (fun t =>
          (findTieInSegment.binary64.candidateDistance branchStartMD t).isSome) = true := by
        simpa [hseg] using h
      obtain ⟨pre, s, post, d, hsegs, hfind, hd, hall, hpre⟩ := ih hrest
      refine ⟨seg :: pre, s, post, d, by rw [hsegs]; rfl, ?_, hd, ?_, ?_⟩
      · rw [findTieInSegment_binary64_cons_skip _ _ _ _ _ hseg]
        exact hfind
      · intro t ht dt hdt
        rcases List.mem_cons.mp ht with rfl | ht
        · rw [hseg] at hdt
          exact absurd hdt (by simp)
        · exact hall t ht dt hdt
      · intro t ht dt hdt
        rcases List.mem_cons.mp ht with rfl | ht
        · rw [hseg] at hdt
          exact absurd hdt (by simp)
        · exact hpre t ht dt hdt
    | some dseg =>
      obtain ⟨s, d, hs, hcase⟩ := findTieInSegment_binary64_spec branchStartMD rest seg dseg
      have hfind : findTieInSegment.binary64 branchStartMD (seg :: rest) none none =
          some s := by
        rw [findTieInSegment_binary64_cons_first _ _ _ _ _ hseg]
        exact hs
      rcases hcase with ⟨rfl, rfl, hall⟩ | ⟨pre, post, rfl, hd, hlt, hpre, hpost⟩
      · refine ⟨[], s, rest, d, rfl, hfind, hseg, ?_, by simp⟩
        intro t ht dt hdt
        rcases List.mem_cons.mp ht with rfl | ht
        · rw [hseg, Option.some.injEq] at hdt
          exact hdt.le
        · exact hall t ht dt hdt
      · refine ⟨seg :: pre, s, post, d, rfl, hfind, hd, ?_, ?_⟩
        · intro t ht dt hdt
          rcases List.mem_cons.mp ht with rfl | ht
          · rw [hseg, Option.some.injEq] at hdt
            rw [← hdt]
            exact hlt.le
          · rcases List.mem_append.mp ht with ht | ht
            · exact (hpre t ht dt hdt).le
            · rcases List.mem_cons.mp ht with rfl | ht
              · rw [hd, Option.some.injEq] at hdt
                exact hdt.le
              · exact hpost t ht dt hdt
        · intro t ht dt hdt
          rcases List.mem_cons.mp ht with rfl | ht
          · rw [hseg, Option.some.injEq] at hdt
            rw [← hdt]
            exact hlt
          · exact hpre t ht dt hdt

/-- C10, in the arithmetic of the compiled code: when some parent segment has a finite
computed distance to the start MD of the child (the rounded value of
`|0.5 * (startMD + endMD) - branchStartMD|`), the outlet segment handed to the recursion into
the child branch is a parent segment `s` whose computed distance is at most that of every
parent segment with a finite one, and every parent segment before `s` has a strictly larger
computed distance or none that is finite. -/
theorem outletSegmentForChildBranch_binary64_closest_first
    (parentSegments : List RicMswSegment) (outletSegment : Option RicMswSegmentData)
    (childBranch : RicMswBranch)
    (hfinite : parentSegments.any (fun t =>
      (findTieInSegment.binary64.candidateDistance childBranch.data.startMD t).isSome) =
        true) :
    ∃ pre s post d, parentSegments = pre ++ s :: post ∧
      outletSegmentForChildBranch.binary64 parentSegments outletSegment childBranch =
        some s.toRicMswSegmentData ∧
      findTieInSegment.binary64.candidateDistance childBranch.data.startMD s = some d ∧
      (∀ t ∈ parentSegments, ∀ dt,
        findTieInSegment.binary64.candidateDistance childBranch.data.startMD t = some dt →
          d ≤ dt) ∧
      ∀ t ∈ pre, ∀ dt,
        findTieInSegment.binary64.candidateDistance childBranch.data.startMD t = some dt →
          d < dt := by
  obtain ⟨pre, s, post, d, hsegs, hfind, hd, hall, hpre⟩ :=
    findTieInSegment_binary64_first childBranch.data.startMD parentSegments hfinite
  refine ⟨pre, s, post, d, hsegs, ?_, hd, hall, hpre⟩
  simp [outletSegmentForChildBranch.binary64, hfind]

/-- Witness of C10: a parent with the segments 0-10, 10-20, 20-30 and a child starting at 10,
at equal computed distance 5 from the midpoints of the first two segments. -/
theorem outletSegmentForChildBranch_binary64_closest_first_witness :
    [Sample.segment 0 10 [], Sample.segment 10 20 [], Sample.segment 20 30 []].any (fun t =>
        (findTieInSegment.binary64.candidateDistance
          (RicMswBranch.mk (Sample.branchData 2 10 none) [] []).data.startMD t).isSome) =
        true ∧
      ∃ pre s post d,
        [Sample.segment 0 10 [], Sample.segment 10 20 [], Sample.segment 20 30 []] =
          pre ++ s :: post ∧
        outletSegmentForChildBranch.binary64
            [Sample.segment 0 10 [], Sample.segment 10 20 [], Sample.segment 20 30 []] none
            (RicMswBranch.mk (Sample.branchData 2 10 none) [] []) =
          some s.toRicMswSegmentData ∧
        findTieInSegment.binary64.candidateDistance
            (RicMswBranch.mk (Sample.branchData 2 10 none) [] []).data.startMD s = some d ∧
        (∀ t ∈ [Sample.segment 0 10 [], Sample.segment 10 20 [], Sample.segment 20 30 []],
          ∀ dt,
          findTieInSegment.binary64.candidateDistance
              (RicMswBranch.mk (Sample.branchData 2 10 none) [] []).data.startMD t =
            some dt → d ≤ dt) ∧
        ∀ t ∈ pre, ∀ dt,
          findTieInSegment.binary64.candidateDistance
              (RicMswBranch.mk (Sample.branchData 2 10 none) [] []).data.startMD t =
            some dt → d < dt :=
  ⟨by decide!, outletSegmentForChildBranch_binary64_closest_first _ none _ (by decide!)⟩

/-- The search as compiled on the parent of the witness of C10: the first of the two segments
at computed distance 5 is kept. -/
theorem outletSegmentForChildBranch_binary64_sample_first :
    (outletSegmentForChildBranch.binary64
        [Sample.segment 0 10 [], Sample.segment 10 20 [], Sample.segment 20 30 []] none
        (RicMswBranch.mk (Sample.branchData 2 10 none) [] [])).map
        (fun s => (s.startMD, s.endMD)) =
      some (0, 10) := by
  decide!

/-- C10 fails in the arithmetic of the compiled code. On the parent segments 74.38-75.8 and
75.8-92.82 with a child starting at 79.7 (all four depths binary64 numbers) the two computed
distances are the same number 4.609999999999999, so the search keeps the first segment; the
midpoint of the second segment is the closer one (its distance is smaller by `2^-46`), and it
is the segment that the search in exact arithmetic returns. -/
theorem outletSegmentForChildBranch_binary64_equal_rounded :
    (∀ x ∈ [(654253398991831 / 8796093022208 : ℚ), 5333950808666931 / 70368744177664,
        1632906708642693 / 17592186044416, 5608388910959821 / 70368744177664],
        Binary64.nearest x = some x) ∧
      Sample.roundedTieParent.map
          (findTieInSegment.binary64.candidateDistance Sample.roundedTieChild.data.startMD) =
        [some (324399910659031 / 70368744177664), some (324399910659031 / 70368744177664)] ∧
      (outletSegmentForChildBranch.binary64 Sample.roundedTieParent none
          Sample.roundedTieChild).map (fun s => (s.startMD, s.endMD)) =
        some (654253398991831 / 8796093022208, 5333950808666931 / 70368744177664) ∧
      Sample.roundedTieParent.map (midPointDistance Sample.roundedTieChild.data.startMD) =
        [648799821318063 / 140737488355328, 648799821318061 / 140737488355328] ∧
      (outletSegmentForChildBranch Sample.roundedTieParent none
          Sample.roundedTieChild).map (fun s => (s.startMD, s.endMD)) =
        some (5333950808666931 / 70368744177664, 1632906708642693 / 17592186044416) := by
  refine ⟨by decide!, by decide!, by decide!, by decide!, by decide!⟩

/-- C26 fails in the arithmetic of the compiled code. For the segment 0-0.5 of
`Sample.halfSegment` and the maximum length 0.1 (`Sample.tenth`, the binary64 number nearest to
1/10, which is above 1/10) the quotient rounds up to 5 and `createSubSegmentMDPairs` returns
six intervals, where `floor((endMD - startMD) / maxLength) + 1` is 5; the loop of
`writeWelsegsSegment` over these six intervals writes the rows 2, 3, 4, 5, 6, 7 and leaves the
segment with the number 7. -/
theorem createSubSegmentMDPairs_binary64_tenth :
    Binary64.nearest (1 / 10) = some Sample.tenth ∧
      (createSubSegmentMDPairs.binary64 0 (1 / 2) Sample.tenth).map List.length = some 6 ∧
      ⌊((1 / 2 : ℚ) - 0) / Sample.tenth⌋ + 1 = 5 ∧
      (createSubSegmentMDPairs.binary64 0 (1 / 2) Sample.tenth).map (fun pairs =>
          ((rowsOf (writeWelsegsSegment.loop (Sample.exportOf Sample.halfSegment "INC" false)
              Sample.halfSegment.data none 0 0
              (pairs.filterMap (fun p => p.1.bind (fun a => p.2.map (fun b => (a, b)))))
              false (Sample.segment 0 (1 / 2) []) 2).2.2).map firstColumn,
            (writeWelsegsSegment.loop (Sample.exportOf Sample.halfSegment "INC" false)
              Sample.halfSegment.data none 0 0
              (pairs.filterMap (fun p => p.1.bind (fun a => p.2.map (fun b => (a, b)))))
              false (Sample.segment 0 (1 / 2) []) 2).1.segmentNumber)) =
        some ([some 2, some 3, some 4, some 5, some 6, some 7], 7) := by
  refine ⟨by decide!, by decide!, by decide!, by decide!⟩

/-! ## WELSEGS: trees on which the walk completes -/

theorem writeValveWelsegsSegment_isSome (exportInfo : RicMswExportInfo)
    (maxSegmentLength : ℚ) (outlet : RicMswSegmentData) (valve : RicMswCompletion)
    (segmentNumber : Int) (h : valve.isValid = true → valve.segments.isEmpty = false) :
    ∃ w, writeValveWelsegsSegment exportInfo maxSegmentLength (some outlet) valve
      segmentNumber = some w := by
  by_cases hvalid : valve.isValid = true
  · cases hs : valve.segments with
    | nil =>
      have := h hvalid
      rw [hs] at this
      simp at this
    | cons subSegment others =>
      obtain ⟨r, written, _, _, hw, _, _⟩ := writeValveWelsegsSegment_valid exportInfo
        maxSegmentLength outlet valve segmentNumber subSegment others hvalid hs
      exact ⟨_, hw⟩
  · have hinvalid : valve.isValid = false := by simpa using hvalid
    exact ⟨_, writeValveWelsegsSegment_invalid exportInfo maxSegmentLength (some outlet) valve
      segmentNumber hinvalid⟩

theorem completionLoop_isSome (exportInfo : RicMswExportInfo) (maxSegmentLength : ℚ)
    (segment : RicMswSegmentData) :
    ∀ (completions : List RicMswCompletion) (segmentNumber : Int)
      (outletValve : Option RicMswCompletion),
      (∀ c ∈ completions, c.dynamicType = CompletionClass.valve → c.isValid = true →
        c.segments.isEmpty = false) →
      ∃ r, writeWelsegsSegmentsRecursively.completionLoop exportInfo maxSegmentLength segment
        completions segmentNumber outletValve = some r := by
  intro completions
  induction completions with
  | nil =>
    intro segmentNumber outletValve _
    exact ⟨_, rfl⟩
  | cons c rest ih =>
    intro segmentNumber outletValve h
    have hrest : ∀ c ∈ rest, c.dynamicType = CompletionClass.valve → c.isValid = true →
        c.segments.isEmpty = false := fun x hx => h x (List.mem_cons_of_mem c hx)
    cases hc : c.dynamicType with
    | perforation =>
      obtain ⟨r, hr⟩ := ih segmentNumber outletValve hrest
      rw [completionLoop_cons_perforation _ _ _ _ _ _ _ hc, hr]
      exact ⟨_, rfl⟩
    | valve =>
      obtain ⟨w, hw⟩ := writeValveWelsegsSegment_isSome exportInfo maxSegmentLength segment c
        segmentNumber (h c (List.mem_cons_self c rest) hc)
      obtain ⟨r, hr⟩ := ih w.2.1 (some w.1) hrest
      rw [completionLoop_cons_valve _ _ _ _ _ _ _ hc, hw, Option.some_bind, hr]
      exact ⟨_, rfl⟩
    | other =>
      obtain ⟨r, hr⟩ := ih
        (writeCompletionWelsegsSegments exportInfo maxSegmentLength
          ((outletValveFront outletValve).getD segment) c segmentNumber).1 outletValve hrest
      rw [completionLoop_cons_other _ _ _ _ _ _ _ hc, hr]
      exact ⟨_, rfl⟩

theorem segmentLoop_isSome (exportInfo : RicMswExportInfo) (maxSegmentLength : ℚ)
    (branch : RicMswBranchData) :
    ∀ (segments : List RicMswSegment) (state : WelsegsWalkState),
      (∀ s ∈ segments, ∀ c ∈ s.completions, c.dynamicType = CompletionClass.valve →
        c.isValid = true → c.segments.isEmpty = false) →
      ∃ l, writeWelsegsSegmentsRecursively.segmentLoop exportInfo maxSegmentLength branch
          segments state = some l ∧
        (segments = [] → l.2.1 = state) ∧ (segments ≠ [] → l.1 ≠ []) := by
  intro segments
  induction segments with
  | nil =>
    intro state _
    exact ⟨_, rfl, fun _ => rfl, fun h => absurd rfl h⟩
  | cons s rest ih =>
    intro state h
    have hcompletions : ∀ c ∈ (writeWelsegsSegment exportInfo maxSegmentLength branch
        { s with segmentNumber := state.segmentNumber } state.outletSegment
        state.segmentNumber).1.completions,
        c.dynamicType = CompletionClass.valve → c.isValid = true →
          c.segments.isEmpty = false := by
      rw [writeWelsegsSegment_completions_eq]
      exact h s (List.mem_cons_self s rest)
    obtain ⟨c, hc⟩ := completionLoop_isSome exportInfo maxSegmentLength
      (writeWelsegsSegment exportInfo maxSegmentLength branch
        { s with segmentNumber := state.segmentNumber } state.outletSegment
        state.segmentNumber).1.toRicMswSegmentData _
      (writeWelsegsSegment exportInfo maxSegmentLength branch
        { s with segmentNumber := state.segmentNumber } state.outletSegment
        state.segmentNumber).2.1 state.outletValve hcompletions
    obtain ⟨r, hr, _, _⟩ := ih
      { segmentNumber := c.2.1
        outletSegment := some
          (writeWelsegsSegment exportInfo maxSegmentLength branch
            { s with segmentNumber := state.segmentNumber } state.outletSegment
            state.segmentNumber).1.toRicMswSegmentData
        outletValve := c.2.2.1 }
      (fun x hx => h x (List.mem_cons_of_mem s hx))
    rw [segmentLoop_cons, hc, Option.some_bind, hr]
    exact ⟨_, rfl, fun hnil => absurd hnil (by simp), fun _ => by simp⟩

theorem outletSegmentForChildBranch_isSome (parentSegments : List RicMswSegment)
    (outletSegment : Option RicMswSegmentData) (childBranch : RicMswBranch)
    (h : parentSegments ≠ [] ∨ outletSegment.isSome = true) :
    ∃ outlet, outletSegmentForChildBranch parentSegments outletSegment childBranch =
      some outlet := by
  cases parentSegments with
  | nil =>
    rcases h with h | h
    · exact absurd rfl h
    · cases outletSegment with
      | none => simp at h
      | some outlet => exact ⟨outlet, rfl⟩
  | cons seg rest =>
    obtain ⟨s, hs, _⟩ := findTieInSegment_spec childBranch.data.startMD rest seg
    refine ⟨s.toRicMswSegmentData, ?_⟩
    rw [outletSegmentForChildBranch, findTieInSegment_cons_none, hs]

/-- The head of the walk completes on a plain branch, and on a tie-in ICV branch that has a
segment and is handed an outlet segment. -/
theorem enter_isSome (exportInfo : RicMswExportInfo) (maxSegmentLength : ℚ)
    (branch : RicMswBranchData) (segments : List RicMswSegment) (segmentNumber : Int)
    (connectedToSegment : Option RicMswSegmentData)
    (h : branch.tieInICV = none ∨
      (connectedToSegment.isSome = true ∧ segments.isEmpty = false)) :
    ∃ e, writeWelsegsSegmentsRecursively.enter exportInfo maxSegmentLength branch segments
      segmentNumber connectedToSegment = some e := by
  unfold writeWelsegsSegmentsRecursively.enter
  cases hicv : branch.tieInICV with
  | none => exact ⟨_, rfl⟩
  | some icv =>
    rcases h with h | ⟨hc, hs⟩
    · rw [hicv] at h
      simp at h
    · cases connectedToSegment with
      | none => simp at hc
      | some outlet =>
        cases segments with
        | nil => simp at hs
        | cons first rest =>
          obtain ⟨w, hw⟩ := writeValveWelsegsSegment_isSome exportInfo maxSegmentLength outlet
            (tieInValve branch icv (first :: rest)) segmentNumber (fun _ => rfl)
          have hsegs : ∃ front others, w.1.segments = front :: others := by
            by_cases hvalid : (tieInValve branch icv (first :: rest)).isValid = true
            · obtain ⟨r, written, hwritten, _, hw', _, _⟩ := writeValveWelsegsSegment_valid
                exportInfo maxSegmentLength outlet (tieInValve branch icv (first :: rest))
                segmentNumber first.toRicMswSegmentData
                (rest.map RicMswSegment.toRicMswSegmentData) hvalid rfl
              rw [hw, Option.some.injEq] at hw'
              rw [hw', hwritten]
              exact ⟨_, _, rfl⟩
            · have hinvalid : (tieInValve branch icv (first :: rest)).isValid = false := by
                simpa using hvalid
              have hw' := writeValveWelsegsSegment_invalid exportInfo maxSegmentLength
                (some outlet) (tieInValve branch icv (first :: rest)) segmentNumber hinvalid
              rw [hw, Option.some.injEq] at hw'
              rw [hw']
              exact ⟨_, _, rfl⟩
          obtain ⟨front, others, hfront⟩ := hsegs
          simp only [hw, hfront]
          exact ⟨_, rfl⟩

mutual

/-- The walk of a branch completes when every valid valve below it has a sub-segment, every
tie-in ICV branch below it has a segment, and the branch is handed an outlet segment or is a
plain branch with a segment. -/
theorem writeWelsegsSegmentsRecursively_isSome (exportInfo : RicMswExportInfo)
    (maxSegmentLength : ℚ) :
    ∀ (branch : RicMswBranch) (segmentNumber : Int)
      (connectedToSegment : Option RicMswSegmentData),
      validValvesHaveSegments branch = true → tieInBranchesHaveSegments branch = true →
      (connectedToSegment.isSome = true ∨
        (branch.data.tieInICV = none ∧ branch.segments.isEmpty = false)) →
      ∃ r, writeWelsegsSegmentsRecursively exportInfo maxSegmentLength branch segmentNumber
        connectedToSegment = some r
  | RicMswBranch.mk branch segments branches, segmentNumber, connectedToSegment, hv, ht,
      hinv => by
    simp only [validValvesHaveSegments, Bool.and_eq_true, List.all_eq_true,
      decide_eq_true_eq] at hv
    obtain ⟨⟨hvt, hvs⟩, hvb⟩ := hv
    simp only [tieInBranchesHaveSegments, Bool.and_eq_true, Bool.or_eq_true,
      Bool.not_eq_true'] at ht
    obtain ⟨hts, htb⟩ := ht
    have hinv1 : connectedToSegment.isSome = true ∨
        (branch.tieInICV = none ∧ segments.isEmpty = false) := hinv
    cases hicv : branch.tieInICV with
    | none =>
      have he : writeWelsegsSegmentsRecursively.enter exportInfo maxSegmentLength branch
          segments segmentNumber connectedToSegment =
          some ([], segments,
            { segmentNumber := segmentNumber, outletSegment := connectedToSegment,
              outletValve := none }, []) := by
        unfold writeWelsegsSegmentsRecursively.enter
        simp only [hicv]
      obtain ⟨l, hl, hnil, hne⟩ := segmentLoop_isSome exportInfo maxSegmentLength branch
        segments
        { segmentNumber := segmentNumber, outletSegment := connectedToSegment,
          outletValve := none } hvs
      have hout : ([] ++ l.1) ≠ [] ∨ l.2.1.outletSegment.isSome = true := by
        cases segments with
        | nil =>
          right
          rw [hnil rfl]
          rcases hinv1 with hc | ⟨_, hs⟩
          · exact hc
          · simp at hs
        | cons s rest =>
          left
          simpa using hne (by simp)
      obtain ⟨c, hc⟩ := writeWelsegsChildBranches_isSome exportInfo maxSegmentLength
        ([] ++ l.1) l.2.1.outletSegment branches l.2.1.segmentNumber hvb htb hout
      rw [writeWelsegsSegmentsRecursively]
      simp only [he, hl, hc]
      exact ⟨_, rfl⟩
    | some icv =>
      have hsegs : segments.isEmpty = false := by
        rcases hts with h | h
        · rw [hicv] at h
          simp at h
        · exact h
      have hconnected : connectedToSegment.isSome = true := by
        rcases hinv1 with hc | ⟨h, _⟩
        · exact hc
        · rw [hicv] at h
          simp at h
      obtain ⟨e, he⟩ := enter_isSome exportInfo maxSegmentLength branch segments
        segmentNumber connectedToSegment (Or.inr ⟨hconnected, hsegs⟩)
      rcases writeWelsegsSegmentsRecursively_enter_shape exportInfo maxSegmentLength branch
        segments segmentNumber connectedToSegment e he with
        ⟨hnone, _, _⟩ | ⟨_, first, _, he1, he2⟩
      · rw [hicv] at hnone
        simp at hnone
      · have hloop : ∀ s ∈ e.2.1, ∀ c ∈ s.completions,
            c.dynamicType = CompletionClass.valve → c.isValid = true →
              c.segments.isEmpty = false := by
          intro s hs
          rw [he2] at hs
          exact hvs s (List.mem_of_mem_drop hs)
        obtain ⟨l, hl, _, _⟩ := segmentLoop_isSome exportInfo maxSegmentLength branch e.2.1
          e.2.2.1 hloop
        have hout : (e.1 ++ l.1) ≠ [] ∨ l.2.1.outletSegment.isSome = true := by
          left
          rw [he1]
          simp
        obtain ⟨c, hc⟩ := writeWelsegsChildBranches_isSome exportInfo maxSegmentLength
          (e.1 ++ l.1) l.2.1.outletSegment branches l.2.1.segmentNumber hvb htb hout
        rw [writeWelsegsSegmentsRecursively]
        simp only [he, hl, hc]
        exact ⟨_, rfl⟩

theorem writeWelsegsChildBranches_isSome (exportInfo : RicMswExportInfo)
    (maxSegmentLength : ℚ) :
    ∀ (parentSegments : List RicMswSegment) (outletSegment : Option RicMswSegmentData)
      (branches : List RicMswBranch) (segmentNumber : Int),
      validValvesHaveSegmentsInBranches branches = true →
      tieInBranchesHaveSegmentsInBranches branches = true →
      (parentSegments ≠ [] ∨ outletSegment.isSome = true) →
      ∃ r, writeWelsegsChildBranches exportInfo maxSegmentLength parentSegments outletSegment
        branches segmentNumber = some r
  | parentSegments, outletSegment, [], segmentNumber, _, _, _ => by
    rw [writeWelsegsChildBranches]
    exact ⟨_, rfl⟩
  | parentSegments, outletSegment, branch :: rest, segmentNumber, hv, ht, hout => by
    simp only [validValvesHaveSegmentsInBranches, Bool.and_eq_true] at hv
    simp only [tieInBranchesHaveSegmentsInBranches, Bool.and_eq_true] at ht
    obtain ⟨outlet, houtlet⟩ := outletSegmentForChildBranch_isSome parentSegments
      outletSegment branch hout
    obtain ⟨c, hc⟩ := writeWelsegsSegmentsRecursively_isSome exportInfo maxSegmentLength
      branch segmentNumber (outletSegmentForChildBranch parentSegments outletSegment branch)
      hv.1 ht.1 (Or.inl (by rw [houtlet]; rfl))
    obtain ⟨r, hr⟩ := writeWelsegsChildBranches_isSome exportInfo maxSegmentLength
      parentSegments outletSegment rest c.2.1 hv.2 ht.2 hout
    rw [writeWelsegsChildBranches]
    simp only [hc, hr]
    exact ⟨_, rfl⟩

end

/-- C30: when the main bore is a plain branch with at least one segment, every valid valve of
the tree has a sub-segment and every tie-in ICV branch, valid or not, has a segment, then
`generateWelsegsTable` completes, and running it again on the export info it returned (the
tree with the segment numbers and output MD/TVD stored by the first run) completes too, writes
the same events, so the same data rows in the same order, and leaves the tree as the first run
left it. -/
theorem generateWelsegsTable_repeatable (exportInfo : RicMswExportInfo)
    (maxSegmentLength : ℚ)
    (hmain : exportInfo.mainBoreBranch.data.tieInICV = none)
    (hsegment : exportInfo.mainBoreBranch.segments.isEmpty = false)
    (hvalves : validValvesHaveSegments exportInfo.mainBoreBranch = true)
    (htieIn : tieInBranchesHaveSegments exportInfo.mainBoreBranch = true) :
    ∃ r,
      generateWelsegsTable exportInfo maxSegmentLength = some r ∧
        generateWelsegsTable r.1 maxSegmentLength = some r ∧
        (generateWelsegsTable r.1 maxSegmentLength).map
            (fun again => welsegsDataRows again.2) =
          some (welsegsDataRows r.2) := by
  obtain ⟨w, hw⟩ := writeWelsegsSegmentsRecursively_isSome exportInfo maxSegmentLength
    exportInfo.mainBoreBranch 2 none hvalves htieIn (Or.inr ⟨hmain, hsegment⟩)
  have hsome : (generateWelsegsTable exportInfo maxSegmentLength).isSome = true := by
    unfold generateWelsegsTable
    simp only [hw]
    rfl
  obtain ⟨r, hr, hagain⟩ := generateWelsegsTable_again exportInfo maxSegmentLength hsome
  exact ⟨r, hr, hagain, by rw [hagain]; rfl⟩

/-- Witness of C30: `Sample.valvesOnTree`, a tree with a tie-in ICV lateral, valves and a
fracture, with maximum segment length 100. -/
theorem generateWelsegsTable_repeatable_witness :
    (Sample.exportOf Sample.valvesOnTree "INC" false).mainBoreBranch.data.tieInICV = none ∧
      (Sample.exportOf Sample.valvesOnTree "INC" false).mainBoreBranch.segments.isEmpty =
        false ∧
      validValvesHaveSegments (Sample.exportOf Sample.valvesOnTree "INC" false).mainBoreBranch =
        true ∧
      tieInBranchesHaveSegments
          (Sample.exportOf Sample.valvesOnTree "INC" false).mainBoreBranch = true ∧
      ∃ r,
        generateWelsegsTable (Sample.exportOf Sample.valvesOnTree "INC" false) 100 = some r ∧
          generateWelsegsTable r.1 100 = some r ∧
          (generateWelsegsTable r.1 100).map (fun again => welsegsDataRows again.2) =
            some (welsegsDataRows r.2) :=
  ⟨rfl, rfl, by decide!, by decide!,
    generateWelsegsTable_repeatable _ 100 rfl rfl (by decide!) (by decide!)⟩

/-- C30 fails as stated: two trees whose main bore is a plain branch and whose valid valves
all have a sub-segment, on which `generateWelsegsTable` has no result. In
`Sample.invalidTieInWithoutSegments` the lateral is an invalid tie-in ICV branch without
segments, and the head of the walk takes `front()` of its empty segment vector (line 113). In
`Sample.tieInUnderEmptyMainBore` the main bore has no segment, so the valid tie-in ICV lateral
is handed no outlet segment and its row reads the number of a null outlet (line 798). -/
theorem generateWelsegsTable_preconditions_without_result :
    Sample.invalidTieInWithoutSegments.data.tieInICV = none ∧
      validValvesHaveSegments Sample.invalidTieInWithoutSegments = true ∧
      (generateWelsegsTable (Sample.exportOf Sample.invalidTieInWithoutSegments "INC" false)
        100).isSome = false ∧
      Sample.tieInUnderEmptyMainBore.data.tieInICV = none ∧
      validValvesHaveSegments Sample.tieInUnderEmptyMainBore = true ∧
      (generateWelsegsTable (Sample.exportOf Sample.tieInUnderEmptyMainBore "INC" false)
        100).isSome = false := by
  refine ⟨rfl, by decide!, by decide!, rfl, by decide!, by decide!⟩

end RicMswTableFormatterTools

namespace RifReaderEclipseSummary

/-! ## Restart files -/

theorem getRestartFiles_loop_twoCycle (fuel : Nat) (state : GetRestartFilesState)
    (h : state.currFile.fileName = "A" ∨ state.currFile.fileName = "B") :
    getRestartFiles.loop Sample.twoCycle fuel state = none := by
  induction fuel generalizing state with
  | zero =>
    rcases h with h | h <;> simp [getRestartFiles.loop, h]
  | succ fuel ih =>
    rcases h with h | h
    · have hbody : (getRestartFiles.body Sample.twoCycle state).2 = true ∧
          (getRestartFiles.body Sample.twoCycle state).1.currFile.fileName = "B" := by
        simp only [getRestartFiles.body, Sample.twoCycle, Sample.restartFile, h]
        split_ifs <;> simp_all
      rw [getRestartFiles.loop]
      simp only [h, hbody.1, if_true]
      exact ih _ (Or.inr hbody.2)
    · have hbody : (getRestartFiles.body Sample.twoCycle state).2 = true ∧
          (getRestartFiles.body Sample.twoCycle state).1.currFile.fileName = "A" := by
        simp only [getRestartFiles.body, Sample.twoCycle, Sample.restartFile, h]
        split_ifs <;> simp_all
      rw [getRestartFiles.loop]
      simp only [h, hbody.1, if_true]
      exact ih _ (Or.inl hbody.2)

/-- C17 (the code at a failing input): with the files of `Sample.twoCycle`, where `A` refers
to `B` and `B` refers back to `A`, the loop of `getRestartFiles` started at `A` is still
running after any number of iterations: the re-opened file only adds a warning and the loop
goes on, so the function does not return. The direct self-reference of `Sample.selfReference`
is detected in the first iteration (the function returns with `hasWarnings` set), and the
chain of `Sample.plainChain` ends after three iterations. -/
theorem getRestartFiles_twoCycle_never_returns :
    (∀ fuel : Nat, getRestartFiles Sample.twoCycle fuel "A" = none) ∧
      getRestartFiles Sample.selfReference 1 "A" =
        some ([], true, ["RifReaderEclipseSummary: Restart file reference loop detected"]) ∧
      getRestartFiles Sample.plainChain 3 "C" =
        some ([Sample.restartFile "B", Sample.restartFile "A"], false, []) := by
  refine ⟨?_, by decide!, by decide!⟩
  intro fuel
  rw [getRestartFiles, getRestartFiles_loop_twoCycle fuel _ (Or.inl rfl)]

end RifReaderEclipseSummary
